import Mathlib

/-!
# Reputation standing engine of `ReputationMgr.cpp` and item entity of `Item.cpp`

A shallow embedding of `src/server/game/Reputation/ReputationMgr.cpp` and of
`src/server/game/Entities/Item/Item.cpp`, with the item set aggregator
(`AddItemsSetItem`, `RemoveItemsSetItem`) of the latter.

* `int32` values are `Int`; where the source can leave the 32-bit range the
  result is reduced with `wrap32`.
* a `ReputationRank` (`REP_HATED = 0 .. REP_EXALTED = 7`) is a `Nat`, its
  enumeration value (the source compares ranks as integers and
  casts table data to the enumeration without a range check).
* `float` values are `F32`: not-a-number, an infinity, or a finite value
  carried as the exact rational it denotes.
* an `Item*` is the address of the instance, a `Nat`; a method of `Item`
  takes the instance and returns it, or `none` after `delete this`.
* a database transaction is the list of the statements appended to it.
* a loop of the source is a fold of its body over the elements it walks.
-/

namespace Playerbot

/-! ## Ranks and rank boundaries (lines 28-53) -/

/-- The enumeration `ReputationRank`, by enumeration value. -/
def REP_HATED : Nat := 0
def REP_HOSTILE : Nat := 1
def REP_UNFRIENDLY : Nat := 2
def REP_NEUTRAL : Nat := 3
def REP_FRIENDLY : Nat := 4
def REP_HONORED : Nat := 5
def REP_REVERED : Nat := 6
def REP_EXALTED : Nat := 7

def MIN_REPUTATION_RANK : Nat := 0
def MAX_REPUTATION_RANK : Nat := 8

/-- Source line 28: `PointsInRank[MAX_REPUTATION_RANK]`. -/
def ReputationMgr.PointsInRank : List Int := [36000, 3000, 3000, 3000, 6000, 12000, 21000, 1000]

/-- Source line 29. -/
def ReputationMgr.Reputation_Cap : Int := 42999

/-- Source line 30. -/
def ReputationMgr.Reputation_Bottom : Int := -42000

/-- The `for` loop of `ReputationToRank` (lines 35-40). The first argument
is `i + 1` for the loop variable `i`, so `0` means the loop has run past
`MIN_REPUTATION_RANK`; the second is `limit` on entry to the iteration. -/
def ReputationMgr.ReputationToRank.loop (standing : Int) : Nat → Int → Nat
  | 0, _ => MIN_REPUTATION_RANK
  | i + 1, limit =>
    let limit1 := limit - ReputationMgr.PointsInRank.getD i 0
    if standing ≥ limit1 then i else ReputationMgr.ReputationToRank.loop standing i limit1

/-- Source lines 32-42: `ReputationMgr::ReputationToRank`. -/
def ReputationMgr.ReputationToRank (standing : Int) : Nat :=
  ReputationMgr.ReputationToRank.loop standing MAX_REPUTATION_RANK (ReputationMgr.Reputation_Cap + 1)

/-- The `for` loop of `ReputationRankToStanding` (lines 47-50), run for
`i = MIN_REPUTATION_RANK, ..., rank`: the first argument counts the
iterations left and the second is the loop variable. -/
def ReputationMgr.ReputationRankToStanding.loop : Nat → Nat → Int → Int
  | 0, _, standing => standing
  | n + 1, i, standing =>
    ReputationMgr.ReputationRankToStanding.loop n (i + 1) (standing + ReputationMgr.PointsInRank.getD i 0)

/-- Source lines 44-53: `ReputationMgr::ReputationRankToStanding`. -/
def ReputationMgr.ReputationRankToStanding (rank : Nat) : Int :=
  let standing :=
    ReputationMgr.ReputationRankToStanding.loop (rank + 1 - MIN_REPUTATION_RANK) MIN_REPUTATION_RANK
      ReputationMgr.Reputation_Bottom
  max (standing - 1) ReputationMgr.Reputation_Bottom

/-- The lower boundary of each rank's band as the specification lists them,
indexed by rank. -/
def rankLowerBoundary : List Int := [-42000, -6000, -3000, 0, 3000, 9000, 21000, 42000]

/-- The representative standings of the ranks as the specification lists
them, indexed by rank. -/
def rankRepresentative : List Int := [-6001, -3001, -1, 2999, 8999, 20999, 41999, 42999]

/-! ## Machine integers and floats -/

/-- Reduction of an integer to the `int32` range (two's complement). -/
def wrap32 (x : Int) : Int := (x + 2147483648) % 4294967296 - 2147483648

/-- Conversion of an integer to `uint32`. -/
def toU32 (x : Int) : Nat := (x % 4294967296).toNat

/-- C++ `float`: not-a-number, an infinity with its sign, or a finite value
carried as the exact rational it denotes. -/
inductive F32 where
  | nan : F32
  | inf (negative : Bool) : F32
  | finite (value : ℚ) : F32

namespace F32

/-- Truncation of a rational toward zero. -/
def truncQ (q : ℚ) : Int := if 0 ≤ q then ⌊q⌋ else ⌈q⌉

/-- The value `modff(x, &ipart)` returns: the fractional part of `x`, with
the sign of `x`; zero for an infinity. -/
def modff : F32 → F32
  | nan => nan
  | inf _ => finite 0
  | finite q => finite (q - truncQ q)

/-- C `fabs`. -/
def fabs : F32 → F32
  | nan => nan
  | inf _ => inf false
  | finite q => finite |q|

/-- C `ceil`. -/
def ceil : F32 → F32
  | nan => nan
  | inf n => inf n
  | finite q => finite ⌈q⌉

/-- The comparison `a < b` on floats; false when either side is not a number. -/
def lt : F32 → F32 → Bool
  | finite a, finite b => decide (a < b)
  | finite _, inf n => !n
  | inf n, finite _ => n
  | inf a, inf b => a && !b
  | _, _ => false

/-- The test `isnan(x)`. -/
def isNaN : F32 → Bool
  | nan => true
  | _ => false

/-- The comparison `a != 0.0f`; true for not-a-number. -/
def neZero : F32 → Bool
  | finite q => decide (q ≠ 0)
  | _ => true

/-- The conversion `static_cast<int32>(x)`: truncation toward zero when the
truncated value is an `int32`. Otherwise the conversion is undefined in
C++; the value it then yields is the parameter `indefinite`, reduced to
`int32`. -/
def toInt32 (indefinite : Int) : F32 → Int
  | finite q =>
    if -2147483648 ≤ truncQ q ∧ truncQ q ≤ 2147483647 then truncQ q else wrap32 indefinite
  | _ => wrap32 indefinite

end F32

/-! ## Static data and collaborators -/

/-- Modelled from the spec: the enumeration `FactionFlags` is declared in a
header that is not among the sources. The specification names the flags
(visible, at-war, hidden, always-invisible, peace-forced, inactive, special);
each is one bit of the flag bitset. -/
def FACTION_FLAG_VISIBLE : Nat := 0x01

def FACTION_FLAG_AT_WAR : Nat := 0x02

def FACTION_FLAG_HIDDEN : Nat := 0x04

def FACTION_FLAG_INVISIBLE_FORCED : Nat := 0x08

def FACTION_FLAG_PEACE_FORCED : Nat := 0x10

def FACTION_FLAG_INACTIVE : Nat := 0x20

def FACTION_FLAG_RIVAL : Nat := 0x40

def FACTION_FLAG_SPECIAL : Nat := 0x80

/-- A row of the faction catalog, with the fields the ledger reads. The
arrays have four elements in the source; element `i` is read with default
`0`. `CanBeSetAtWar` is the result of the helper of that name, whose body is
not among the sources. A `FactionEntry const*` of the source is a pointer
into the catalog `sFactionStore`, in which the row found under an id has that
`ID`; two such pointers are equal exactly when the `ID`s are. -/
structure FactionEntry where
  ID : Nat
  reputationListID : Int
  BaseRepRaceMask : List Nat
  BaseRepClassMask : List Nat
  BaseRepValue : List Int
  ReputationFlags : List Nat
  team : Nat
  spilloverRateIn : F32
  spilloverRateOut : F32
  spilloverMaxRankIn : Nat
  CanBeSetAtWar : Bool

/-- One index `i` of a `RepSpilloverTemplate`: `faction[i]`,
`faction_rate[i]` and `faction_rank[i]`. -/
structure SpilloverSlot where
  faction : Nat
  faction_rate : F32
  faction_rank : Nat

/-- A row of the spillover table: its `MAX_SPILLOVER_FACTIONS` slots in index
order. -/
structure RepSpilloverTemplate where
  slots : List SpilloverSlot

/-- The read-only collaborators of the ledger: the static catalogs, the
world configuration, the owning player and the script hooks.

* `LookupEntry` is `sFactionStore.LookupEntry`, `GetNumRows` its row count;
* `GetRepSpilloverTemplate` is `sObjectMgr->GetRepSpilloverTemplate`;
* `GetFactionTeamList` is the catalog function of that name;
* `RATE_REPUTATION_GAIN` is `sWorld->getRate(RATE_REPUTATION_GAIN)`;
* `fmul` is the multiplication of two `float`s;
* `indefinite` is what an out-of-range `float` to `int32` conversion yields;
* `raceMask`, `classMask`, `PlayerLoading` are the player's accessors;
* `OnPlayerReputationChange factionID standing incremental` is the script
  hook of that name: whether the change is allowed, and the value it leaves
  in `standing`, which it receives by reference. -/
structure World where
  LookupEntry : Nat → Option FactionEntry
  GetNumRows : Nat
  GetRepSpilloverTemplate : Nat → Option RepSpilloverTemplate
  GetFactionTeamList : Nat → Option (List Nat)
  RATE_REPUTATION_GAIN : F32
  fmul : F32 → F32 → F32
  indefinite : Int
  raceMask : Nat
  classMask : Nat
  PlayerLoading : Bool
  OnPlayerReputationChange : Nat → Int → Bool → Bool × Int

/-! ## The ledger state -/

/-- The record `FactionState` kept for one faction. -/
structure FactionState where
  ID : Nat
  ReputationListID : Nat
  Standing : Int
  Flags : Nat
  needSend : Bool
  needSave : Bool
  roundedUp : Bool
deriving DecidableEq

/-- The map `FactionStateList` from reputation-list id to `FactionState`,
as its entries in iteration order. -/
abbrev FactionStateList := List (Nat × FactionState)

/-- The element `_factions.find(key)` points to, if any. -/
def FactionStateList.find (l : FactionStateList) (key : Nat) : Option FactionState :=
  match l with
  | [] => none
  | (k, v) :: rest => if k = key then some v else FactionStateList.find rest key

/-- Assignment through the iterator `_factions.find(key)`: the element under
`key` is replaced by its image under `g`. -/
def FactionStateList.modify (l : FactionStateList) (key : Nat)
    (g : FactionState → FactionState) : FactionStateList :=
  match l with
  | [] => []
  | (k, v) :: rest =>
    if k = key then (k, g v) :: rest else (k, v) :: FactionStateList.modify rest key g

/-- An outbound notification of the ledger. -/
inductive Packet where
  | SMSG_SET_FACTION_VISIBLE (ReputationListID : Nat) : Packet
  | SMSG_SET_FACTION_STANDING (increased : Bool) (count : Nat)
      (standings : List (Nat × Nat)) : Packet
deriving DecidableEq

/-- The mutable members of `ReputationMgr`, and the packets it has handed to
the session so far (oldest first). The counters are members whose declared
width is in a header that is not among the sources; they are carried as
integers. -/
structure ReputationMgr where
  _factions : FactionStateList
  _visibleFactionCount : Int
  _honoredFactionCount : Int
  _reveredFactionCount : Int
  _exaltedFactionCount : Int
  _sendFactionIncreased : Bool
  sent : List Packet
deriving DecidableEq

namespace ReputationMgr

/-- The race and class test of lines 100-104 (and 154-158) for index `i`. -/
def baseRepMatch (w : World) (factionEntry : FactionEntry) (i : Nat) : Bool :=
  (((factionEntry.BaseRepRaceMask.getD i 0) &&& w.raceMask) != 0 ||
      ((factionEntry.BaseRepRaceMask.getD i 0) == 0 &&
        (factionEntry.BaseRepClassMask.getD i 0) != 0)) &&
    (((factionEntry.BaseRepClassMask.getD i 0) &&& w.classMask) != 0 ||
      (factionEntry.BaseRepClassMask.getD i 0) == 0)

/-- Source lines 91-111: `GetBaseReputation` for a non-null entry. -/
def GetBaseReputation (w : World) (factionEntry : FactionEntry) : Int :=
  match (List.range 4).find? (baseRepMatch w factionEntry) with
  | some i => factionEntry.BaseRepValue.getD i 0
  | none => 0

/-- Source lines 145-163: `GetDefaultStateFlags` for a non-null entry. -/
def GetDefaultStateFlags (w : World) (factionEntry : FactionEntry) : Nat :=
  match (List.range 4).find? (baseRepMatch w factionEntry) with
  | some i => factionEntry.ReputationFlags.getD i 0
  | none => 0

/-- Modelled from the spec: `GetState(FactionEntry const*)` is defined in the
class header, which is not among the sources. The specification keys the
faction map by reputation-list id and gives an entry to every faction with a
non-negative reputation-list id: the state of such a faction is the map
element under that id, and other factions have none. -/
def GetState (m : ReputationMgr) (factionEntry : FactionEntry) : Option FactionState :=
  if 0 ≤ factionEntry.reputationListID then
    m._factions.find (toU32 factionEntry.reputationListID)
  else none

/-- Source lines 113-123: `GetReputation(FactionEntry const*)`; `none` is the
null pointer. -/
def GetReputation (w : World) (m : ReputationMgr) (factionEntry : Option FactionEntry) : Int :=
  match factionEntry with
  | none => 0
  | some fe =>
    match GetState m fe with
    | some state => wrap32 (GetBaseReputation w fe + state.Standing)
    | none => 0

/-- Source lines 125-129: `GetRank`. -/
def GetRank (w : World) (m : ReputationMgr) (factionEntry : Option FactionEntry) :
    Nat :=
  ReputationToRank (GetReputation w m factionEntry)

/-- Modelled from the spec: `Player::GetReputationRank(faction_id)` is a
method of the player, which is not among the sources; the specification
calls it the target's current rank. It is the rank the ledger gives the
catalog row of that id. -/
def GetReputationRank (w : World) (m : ReputationMgr) (faction_id : Nat) : Nat :=
  GetRank w m (w.LookupEntry faction_id)

/-- Source lines 252-261: `SendVisible`. -/
def SendVisible (w : World) (m : ReputationMgr) (faction : FactionState) : ReputationMgr :=
  if w.PlayerLoading then m
  else { m with sent := m.sent ++ [Packet.SMSG_SET_FACTION_VISIBLE faction.ReputationListID] }

/-- Source lines 487-505: `SetVisible(FactionState*)`, for the map element
under `key`. -/
def SetVisible (w : World) (m : ReputationMgr) (key : Nat) : ReputationMgr :=
  match m._factions.find key with
  | none => m
  | some faction =>
    if (faction.Flags &&& (FACTION_FLAG_INVISIBLE_FORCED ||| FACTION_FLAG_HIDDEN)) ≠ 0 ∧
        (faction.Flags &&& FACTION_FLAG_SPECIAL) = 0 then m
    else if (faction.Flags &&& FACTION_FLAG_VISIBLE) ≠ 0 then m
    else
      let faction1 : FactionState :=
        { faction with
          Flags := faction.Flags ||| FACTION_FLAG_VISIBLE, needSend := true, needSave := true }
      let m1 : ReputationMgr :=
        { m with
          _factions := m._factions.modify key (fun _ => faction1)
          _visibleFactionCount := m._visibleFactionCount + 1 }
      SendVisible w m1 faction1

/-- The flags after the statement `Flags &= ~bit`. -/
def clearFlag (flags bit : Nat) : Nat := flags ^^^ (flags &&& bit)

/-- Source lines 520-537: `SetAtWar(FactionState*, bool)`. -/
def SetAtWar (faction : FactionState) (atWar : Bool) : FactionState :=
  if atWar ∧ (faction.Flags &&& FACTION_FLAG_PEACE_FORCED) ≠ 0 then faction
  else if decide ((faction.Flags &&& FACTION_FLAG_AT_WAR) ≠ 0) = atWar then faction
  else
    { faction with
      Flags :=
        if atWar then faction.Flags ||| FACTION_FLAG_AT_WAR
        else clearFlag faction.Flags FACTION_FLAG_AT_WAR
      needSend := true
      needSave := true }

/-- Source lines 654-669: `UpdateRankCounters`. -/
def UpdateRankCounters (m : ReputationMgr) (old_rank new_rank : Nat) :
    ReputationMgr :=
  let e1 := if old_rank ≥ REP_EXALTED then m._exaltedFactionCount - 1 else m._exaltedFactionCount
  let r1 := if old_rank ≥ REP_REVERED then m._reveredFactionCount - 1 else m._reveredFactionCount
  let h1 := if old_rank ≥ REP_HONORED then m._honoredFactionCount - 1 else m._honoredFactionCount
  { m with
    _exaltedFactionCount := if new_rank ≥ REP_EXALTED then e1 + 1 else e1
    _reveredFactionCount := if new_rank ≥ REP_REVERED then r1 + 1 else r1
    _honoredFactionCount := if new_rank ≥ REP_HONORED then h1 + 1 else h1 }

/-- Source lines 385-391: `stand` after the scaling of an incremental award by
the gain rate, from which faction 1161 is exempt. -/
def scaledStand (w : World) (factionEntry : FactionEntry) (stand : F32) (incremental : Bool) :
    F32 :=
  if incremental then
    if factionEntry.ID = 1161 then w.fmul stand (F32.finite 1)
    else w.fmul stand w.RATE_REPUTATION_GAIN
  else stand

/-- Source line 395: the condition `fabs(modff(stand, &stand2)) < 1.f` under
which the rounding block runs. -/
def roundingMade (stand : F32) : Bool :=
  (F32.fabs (F32.modff stand)).lt (F32.finite 1)

/-- Source lines 393-407: the value of `standing` after the rounding block,
for the faction's toggle `roundedUp` on entry. -/
def roundedStanding (w : World) (roundedUp : Bool) (stand : F32) : Int :=
  if roundingMade stand then
    if roundedUp then (F32.ceil stand).toInt32 w.indefinite else stand.toInt32 w.indefinite
  else 0

/-- Source lines 414-417: the clamp to the global bounds. -/
def clampStanding (standing : Int) : Int :=
  if standing > Reputation_Cap then Reputation_Cap
  else if standing < Reputation_Bottom then Reputation_Bottom
  else standing

/-- Source lines 393-417: the clamped candidate total standing, for the
faction state `itr` on entry and the scaled award `stand`. -/
def candidateStanding (w : World) (itr : FactionState) (BaseRep : Int) (stand : F32)
    (incremental : Bool) : Int :=
  let standing := roundedStanding w itr.roundedUp stand
  let standing :=
    if incremental then wrap32 (standing + wrap32 (itr.Standing + BaseRep)) else standing
  clampStanding standing

/-- The condition `repMaxCap && rank > *repMaxCap` of lines 360 and 421. -/
def capExceeded (repMaxCap : Option Nat) (rank : Nat) : Bool :=
  match repMaxCap with
  | some cap => decide (rank > cap)
  | none => false

/-- Source lines 420-425: `standing` and `new_rank` after the rank cap, for
the clamped candidate `standing`. -/
def applyRankCap (repMaxCap : Option Nat) (standing : Int) : Int × Nat :=
  match repMaxCap with
  | some cap =>
    if ReputationToRank standing > cap then (ReputationRankToStanding cap, cap)
    else (standing, ReputationToRank standing)
  | none => (standing, ReputationToRank standing)

/-- Source lines 378-462: `SetOneFactionReputation` for a non-null entry. The
rank-change hook and the player's quest and achievement updates (lines
446-456) are notifications to collaborators and leave the ledger as it is. -/
def SetOneFactionReputation (w : World) (m : ReputationMgr) (factionEntry : FactionEntry)
    (stand : F32) (incremental : Bool) (repMaxCap : Option Nat) :
    ReputationMgr × Bool :=
  let key := toU32 factionEntry.reputationListID
  match m._factions.find key with
  | none => (m, false)
  | some itr =>
    let BaseRep := GetBaseReputation w factionEntry
    let stand := scaledStand w factionEntry stand incremental
    let m1 : ReputationMgr :=
      if roundingMade stand then
        { m with _factions := m._factions.modify key (fun f => { f with roundedUp := !f.roundedUp }) }
      else m
    let standing := candidateStanding w itr BaseRep stand incremental
    let old_rank := ReputationToRank (wrap32 (itr.Standing + BaseRep))
    let capped := applyRankCap repMaxCap standing
    let standing := capped.1
    let new_rank := capped.2
    let hook := w.OnPlayerReputationChange factionEntry.ID standing incremental
    if hook.1 then
      let m2 : ReputationMgr :=
        { m1 with
          _factions := m1._factions.modify key (fun f =>
            { f with Standing := wrap32 (hook.2 - BaseRep), needSend := true, needSave := true }) }
      let m3 := SetVisible w m2 key
      let m4 : ReputationMgr :=
        if new_rank ≤ REP_HOSTILE then
          { m3 with _factions := m3._factions.modify key (fun f => SetAtWar f true) }
        else m3
      let m5 : ReputationMgr :=
        if old_rank = REP_HOSTILE ∧ new_rank ≥ REP_UNFRIENDLY ∧ factionEntry.CanBeSetAtWar then
          { m4 with _factions := m4._factions.modify key (fun f => SetAtWar f false) }
        else m4
      let m6 : ReputationMgr :=
        if new_rank > old_rank then { m5 with _sendFactionIncreased := true } else m5
      (UpdateRankCounters m6 old_rank new_rank, true)
    else (m1, false)

/-- Source lines 178-209: `SendState` for the faction state `faction` (read
through the pointer on entry). -/
def SendState (m : ReputationMgr) (faction : FactionState) : ReputationMgr :=
  let others :=
    m._factions.filter (fun p =>
      p.2.needSend && p.2.ReputationListID != faction.ReputationListID)
  let standings :=
    (faction.ReputationListID, toU32 faction.Standing) ::
      others.map (fun p => (p.2.ReputationListID, toU32 p.2.Standing))
  { m with
    _factions :=
      m._factions.map (fun p => if p.2.needSend then (p.1, { p.2 with needSend := false }) else p)
    _sendFactionIncreased := false
    sent :=
      m.sent ++ [Packet.SMSG_SET_FACTION_STANDING m._sendFactionIncreased standings.length standings] }

/-- Source lines 306-317: the loop over the slots of a spillover template.
The result is `none` when `SetOneFactionReputation` is handed the null
pointer (a slot naming a faction the catalog does not have), which it
dereferences. -/
def spilloverTemplateLoop (w : World) (standing : F32) (incremental : Bool) :
    List SpilloverSlot → ReputationMgr → Option ReputationMgr
  | [], m => some m
  | slot :: rest, m =>
    if slot.faction ≠ 0 ∧ GetReputationRank w m slot.faction ≤ slot.faction_rank then
      let spilloverRep := w.fmul standing slot.faction_rate
      match w.LookupEntry slot.faction with
      | none => none
      | some target =>
        spilloverTemplateLoop w standing incremental rest
          (SetOneFactionReputation w m target spilloverRep incremental none).1
    else spilloverTemplateLoop w standing incremental rest m

/-- Source lines 345-355: the loop over a team list, threading the ledger and
the local `res`. -/
def spilloverTeamLoop (w : World) (factionEntry : FactionEntry) (spillOverRepOut : F32)
    (incremental : Bool) : List Nat → ReputationMgr × Bool → ReputationMgr × Bool
  | [], s => s
  | id :: rest, s =>
    match w.LookupEntry id with
    | none => spilloverTeamLoop w factionEntry spillOverRepOut incremental rest s
    | some factionEntryCalc =>
      if factionEntryCalc.ID = factionEntry.ID ∨
          GetRank w s.1 (some factionEntryCalc) > factionEntryCalc.spilloverMaxRankIn then
        spilloverTeamLoop w factionEntry spillOverRepOut incremental rest s
      else
        let spilloverRep := w.fmul spillOverRepOut factionEntryCalc.spilloverRateIn
        if spilloverRep.neZero ∨ incremental = false then
          spilloverTeamLoop w factionEntry spillOverRepOut incremental rest
            (SetOneFactionReputation w s.1 factionEntryCalc spilloverRep incremental none)
        else spilloverTeamLoop w factionEntry spillOverRepOut incremental rest s

/-- Source lines 342-356: the spillover to a team list that may be null. -/
def spilloverTeam (w : World) (m : ReputationMgr) (factionEntry : FactionEntry)
    (spillOverRepOut : F32) (incremental : Bool) (flist : Option (List Nat)) :
    ReputationMgr × Bool :=
  match flist with
  | none => (m, false)
  | some ids => spilloverTeamLoop w factionEntry spillOverRepOut incremental ids (m, false)

/-- Source lines 303-357: the spillover block of `SetReputation`; the result
carries the local `res`. -/
def spillover (w : World) (m : ReputationMgr) (factionEntry : FactionEntry) (standing : F32)
    (incremental : Bool) : Option (ReputationMgr × Bool) :=
  match w.GetRepSpilloverTemplate factionEntry.ID with
  | some repTemplate =>
    (spilloverTemplateLoop w standing incremental repTemplate.slots m).map (fun m1 => (m1, false))
  | none =>
    let flist := w.GetFactionTeamList factionEntry.ID
    if flist.isNone ∧ factionEntry.team ≠ 0 ∧ factionEntry.spilloverRateOut.neZero then
      let spillOverRepOut := w.fmul standing factionEntry.spilloverRateOut
      match w.LookupEntry factionEntry.team with
      | none => some (m, false)
      | some parent =>
        let special :=
          match m._factions.find (toU32 parent.reputationListID) with
          | some parentState => decide ((parentState.Flags &&& FACTION_FLAG_SPECIAL) ≠ 0)
          | none => false
        if special then
          some ((SetOneFactionReputation w m parent spillOverRepOut incremental none).1, false)
        else
          some (spilloverTeam w m factionEntry spillOverRepOut incremental
            (w.GetFactionTeamList factionEntry.team))
    else some (spilloverTeam w m factionEntry standing incremental flist)

/-- Source lines 297-376: `SetReputation` for a non-null entry. The result is
`none` when the spillover block dereferences a null pointer. -/
def SetReputation (w : World) (m : ReputationMgr) (factionEntry : FactionEntry) (standing : F32)
    (incremental noSpillOver : Bool) (repMaxCap : Option Nat) :
    Option (ReputationMgr × Bool) :=
  let spilled : Option (ReputationMgr × Bool) :=
    if noSpillOver = false then spillover w m factionEntry standing incremental
    else some (m, false)
  match spilled with
  | none => none
  | some (m1, res) =>
    let spillOverOnly := capExceeded repMaxCap (GetRank w m1 (some factionEntry))
    let key := toU32 factionEntry.reputationListID
    match m1._factions.find key with
    | none => some (m1, res)
    | some _ =>
      let r : ReputationMgr × Bool :=
        if spillOverOnly = false then
          SetOneFactionReputation w m1 factionEntry standing incremental repMaxCap
        else (m1, res)
      match r.1._factions.find key with
      | none => some r
      | some faction => some (SendState r.1 faction, r.2)

/-- The total standing of the faction as lines 411 and 419 compute it: the
base standing plus the stored `Standing` of the map element of the faction's
reputation-list id; `0` for a faction the map does not have. -/
def totalStanding (w : World) (m : ReputationMgr) (factionEntry : FactionEntry) : Int :=
  match m._factions.find (toU32 factionEntry.reputationListID) with
  | some state => wrap32 (state.Standing + GetBaseReputation w factionEntry)
  | none => 0

/-- The effect of `SetVisible(FactionState*)` (lines 487-505) on the faction
state it is given. -/
def visibleState (faction : FactionState) : FactionState :=
  if (faction.Flags &&& (FACTION_FLAG_INVISIBLE_FORCED ||| FACTION_FLAG_HIDDEN)) ≠ 0 ∧
      (faction.Flags &&& FACTION_FLAG_SPECIAL) = 0 then faction
  else if (faction.Flags &&& FACTION_FLAG_VISIBLE) ≠ 0 then faction
  else
    { faction with
      Flags := faction.Flags ||| FACTION_FLAG_VISIBLE, needSend := true, needSave := true }

/-- The fields of a faction state other than the rounding toggle. -/
def coreFields (faction : FactionState) : Nat × Nat × Int × Nat × Bool × Bool :=
  (faction.ID, faction.ReputationListID, faction.Standing, faction.Flags, faction.needSend,
    faction.needSave)

/-- The effect of the rounding block (lines 395-407) on the faction state:
the toggle flips when the block runs. -/
def toggledState (rounding : Bool) (faction : FactionState) : FactionState :=
  if rounding then { faction with roundedUp := !faction.roundedUp } else faction

/-- The effect of an allowed `SetOneFactionReputation` (lines 395-439) on the
faction state of the target, for the ranks and the new stored standing the
call has computed. -/
def awardedState (factionEntry : FactionEntry) (old_rank new_rank : Nat) (rounding : Bool)
    (newStanding : Int) (faction : FactionState) : FactionState :=
  let f2 : FactionState :=
    { toggledState rounding faction with
      Standing := newStanding, needSend := true, needSave := true }
  let f3 := visibleState f2
  let f4 := if new_rank ≤ REP_HOSTILE then SetAtWar f3 true else f3
  if old_rank = REP_HOSTILE ∧ new_rank ≥ REP_UNFRIENDLY ∧ factionEntry.CanBeSetAtWar then
    SetAtWar f4 false
  else f4

/-! ## A concrete ledger -/

/-- A catalog faction with reputation-list id `3` and base standing `500`
for the example player. -/
def exampleFaction : FactionEntry :=
  { ID := 21, reputationListID := 3, BaseRepRaceMask := [1, 0, 0, 0],
    BaseRepClassMask := [0, 0, 0, 0], BaseRepValue := [500, 0, 0, 0],
    ReputationFlags := [0, 0, 0, 0], team := 0, spilloverRateIn := F32.finite 1,
    spilloverRateOut := F32.finite 0, spilloverMaxRankIn := 7, CanBeSetAtWar := true }

/-- A multiplication that is exact on finite values and keeps its left
argument otherwise. -/
def exampleMul : F32 → F32 → F32
  | F32.finite a, F32.finite b => F32.finite (a * b)
  | a, _ => a

/-- A world with the one faction `exampleFaction`, gain rate `1`, no
spillover configured and a hook that allows every change as it is. -/
def exampleWorld : World :=
  { LookupEntry := fun id => if id = 21 then some exampleFaction else none
    GetNumRows := 22
    GetRepSpilloverTemplate := fun _ => none
    GetFactionTeamList := fun _ => none
    RATE_REPUTATION_GAIN := F32.finite 1
    fmul := exampleMul
    indefinite := -2147483648
    raceMask := 1
    classMask := 1
    PlayerLoading := false
    OnPlayerReputationChange := fun _ standing _ => (true, standing) }

/-- The world `exampleWorld` with a hook that vetoes every change. -/
def vetoWorld : World :=
  { exampleWorld with OnPlayerReputationChange := fun _ standing _ => (false, standing) }

/-- The world `exampleWorld` with a hook that allows every change and leaves
`42999` in the standing it receives by reference. -/
def rewriteWorld : World :=
  { exampleWorld with OnPlayerReputationChange := fun _ _ _ => (true, 42999) }

/-- The world `exampleWorld` with a spillover template for faction `21` whose
first slot names faction `21` itself, at rate `1` and up to rank `Exalted`. -/
def selfSpillWorld : World :=
  { exampleWorld with
    GetRepSpilloverTemplate := fun id =>
      if id = 21 then
        some { slots := [{ faction := 21, faction_rate := F32.finite 1, faction_rank := 7 }] }
      else none }

/-- A ledger tracking `exampleFaction` with stored standing `2500`, that is
total standing `3000` (`Friendly`), and the rounding toggle at "down". -/
def exampleLedger : ReputationMgr :=
  { _factions :=
      [(3, { ID := 21, ReputationListID := 3, Standing := 2500, Flags := 1, needSend := false,
             needSave := false, roundedUp := false })]
    _visibleFactionCount := 1
    _honoredFactionCount := 0
    _reveredFactionCount := 0
    _exaltedFactionCount := 0
    _sendFactionIncreased := false
    sent := [] }

/-- A second catalog faction, with reputation-list id `4` and base standing
`0`. -/
def exampleRecipient : FactionEntry :=
  { ID := 22, reputationListID := 4, BaseRepRaceMask := [0, 0, 0, 0],
    BaseRepClassMask := [0, 0, 0, 0], BaseRepValue := [0, 0, 0, 0],
    ReputationFlags := [0, 0, 0, 0], team := 0, spilloverRateIn := F32.finite 1,
    spilloverRateOut := F32.finite 0, spilloverMaxRankIn := 7, CanBeSetAtWar := true }

/-- The world `exampleWorld` with the second faction `exampleRecipient` and a
spillover template for faction `21` whose first slot names faction `22`, at
rate `1` and up to rank `Exalted`. -/
def spillWorld : World :=
  { exampleWorld with
    LookupEntry := fun id =>
      if id = 21 then some exampleFaction else if id = 22 then some exampleRecipient else none
    GetNumRows := 23
    GetRepSpilloverTemplate := fun id =>
      if id = 21 then
        some { slots := [{ faction := 22, faction_rate := F32.finite 1, faction_rank := 7 }] }
      else none }

/-- The ledger `exampleLedger` with a second entry, for `exampleRecipient`,
of stored standing `0`. -/
def twoFactionLedger : ReputationMgr :=
  { exampleLedger with
    _factions :=
      exampleLedger._factions ++
        [(4, { ID := 22, ReputationListID := 4, Standing := 0, Flags := 1, needSend := false,
               needSave := false, roundedUp := false })]
    _visibleFactionCount := 2 }

end ReputationMgr

/-! # Item entity of `Item.cpp`

A shallow embedding of `src/server/game/Entities/Item/Item.cpp`.

* An `Item*` is the address of the item, a `Nat`; the methods take the address
  of `this` as `self` where the source stores or compares the pointer, and the
  item's members as an `Item`. `delete this` leaves no item (`none`).
* The data fields the source reads with `GetUInt32Value` are members of
  `Item` under the name of the field.
* The `Player` carries the members of the owning player the item code
  touches.
-/

/-- An `ObjectGuid`: the kind of object and its counter; `Empty` is zero. -/
structure ObjectGuid where
  high : Nat
  counter : Nat
deriving DecidableEq

/-- The guid `ObjectGuid::Empty`. -/
def ObjectGuid.Empty : ObjectGuid := { high := 0, counter := 0 }

/-- The high part `HighGuid::Player`. -/
def HighGuid.Player : Nat := 0x0000

/-- The high part `HighGuid::Item`. -/
def HighGuid.Item : Nat := 0x4000

/-- The enumeration `ItemUpdateState`. -/
inductive ItemUpdateState where
  | ITEM_UNCHANGED : ItemUpdateState
  | ITEM_CHANGED : ItemUpdateState
  | ITEM_NEW : ItemUpdateState
  | ITEM_REMOVED : ItemUpdateState
deriving DecidableEq

/-- The enumeration `InventoryResult`: the three results `Item.cpp` names, and
every other one by its code. -/
inductive InventoryResult where
  | EQUIP_ERR_OK : InventoryResult
  | EQUIP_ERR_ITEM_CANT_STACK : InventoryResult
  | EQUIP_ERR_ALREADY_LOOTED : InventoryResult
  | other (code : Nat) : InventoryResult
deriving DecidableEq

/-- Modelled from the spec: the constants of the item headers, which are not
among the sources. The specification gives an item a fixed small number of
enchantment slots (permanent, temporary, three sockets, bonus, prismatic, and
the property slots), each holding an id, a duration and charges, the
low-numbered ones inspectable, and a fixed count of spell-charge counters. -/
def MAX_ENCHANTMENT_SLOT : Nat := 12

def PERM_ENCHANTMENT_SLOT : Nat := 0

def TEMP_ENCHANTMENT_SLOT : Nat := 1

def SOCK_ENCHANTMENT_SLOT : Nat := 2

def BONUS_ENCHANTMENT_SLOT : Nat := 5

def PRISMATIC_ENCHANTMENT_SLOT : Nat := 6

def MAX_INSPECTED_ENCHANTMENT_SLOT : Nat := 7

def PROP_ENCHANTMENT_SLOT_0 : Nat := 7

def MAX_GEM_SOCKETS : Nat := 3

def MAX_ENCHANTMENT_OFFSET : Nat := 3

def ENCHANTMENT_ID_OFFSET : Nat := 0

def ENCHANTMENT_DURATION_OFFSET : Nat := 1

def ENCHANTMENT_CHARGES_OFFSET : Nat := 2

def MAX_SPELL_ITEM_ENCHANTMENT_EFFECTS : Nat := 3

def MAX_ITEM_PROTO_SPELLS : Nat := 5

/-- Modelled from the spec: the bits of `ITEM_FIELD_FLAGS`, of the template
flags and of an enchantment's `slot` mask that `Item.cpp` tests, and the
values `NO_BIND`, `INVTYPE_BAG` and `INVENTORY_SLOT_BAG_0`; their declarations
are not among the sources. Each flag is one bit. -/
def ITEM_FIELD_FLAG_SOULBOUND : Nat := 0x00000001

def ITEM_FIELD_FLAG_WRAPPED : Nat := 0x00000008

def ITEM_FIELD_FLAG_BOP_TRADEABLE : Nat := 0x00000100

def ITEM_FIELD_FLAG_REFUNDABLE : Nat := 0x00001000

def ITEM_FLAG_IS_BOUND_TO_ACCOUNT : Nat := 0x08000000

def ENCHANTMENT_CAN_SOULBOUND : Nat := 0x01

def NO_BIND : Nat := 0

def INVTYPE_BAG : Nat := 18

def INVENTORY_SLOT_BAG_0 : Nat := 255

/-- The static definition `ItemTemplate`, with the members `Item.cpp` reads.
`MaxStackSize` is the result of the helper `GetMaxStackSize()`, whose body is
not among the sources. `SocketColor` holds `Socket[i].Color`,
`SpellCharges` holds `Spells[i].SpellCharges`; element `i` is read with
default `0`. -/
structure ItemTemplate where
  ItemId : Nat
  Class : Nat
  SubClass : Nat
  Flags : Nat
  InventoryType : Nat
  MaxDurability : Nat
  Duration : Nat
  Bonding : Nat
  MaxStackSize : Nat
  SocketColor : List Nat
  GemProperties : Nat
  SpellCharges : List Int
  RandomProperty : Nat
  RandomSuffix : Nat
  ItemSet : Nat
deriving DecidableEq

/-- A row of the enchantment catalog, with the members `Item.cpp` reads. -/
structure SpellItemEnchantmentEntry where
  ID : Nat
  slot : Nat
  GemID : Nat
  requiredSkill : Nat
  requiredSkillValue : Nat
  requiredLevel : Nat
deriving DecidableEq

/-- A row of the gem-properties catalog. -/
structure GemPropertiesEntry where
  ID : Nat
  color : Nat
deriving DecidableEq

/-- The mutable record of one item instance: its data fields and the members
of the class `Item`. `ITEM_FIELD_ENCHANTMENT` is the block of data fields that
starts at `ITEM_FIELD_ENCHANTMENT_1_1`: `MAX_ENCHANTMENT_OFFSET` fields for
each slot. `m_container` is the slot of the bag the item lies in, if it lies
in one; `bagIsEmpty` is the result of `Bag::IsEmpty()` for an item that is a
bag. The queue-position marker `uQueuePos` is a member whose declared width
is in a header that is not among the sources; it is carried as an integer. -/
structure Item where
  GUID : ObjectGuid
  Entry : Nat
  ITEM_FIELD_OWNER : ObjectGuid
  ITEM_FIELD_CONTAINED : ObjectGuid
  ITEM_FIELD_CREATOR : ObjectGuid
  ITEM_FIELD_GIFTCREATOR : ObjectGuid
  ITEM_FIELD_STACK_COUNT : Nat
  ITEM_FIELD_DURATION : Nat
  ITEM_FIELD_SPELL_CHARGES : List Int
  ITEM_FIELD_FLAGS : Nat
  ITEM_FIELD_ENCHANTMENT : List Nat
  ITEM_FIELD_PROPERTY_SEED : Nat
  ITEM_FIELD_RANDOM_PROPERTIES_ID : Int
  ITEM_FIELD_DURABILITY : Nat
  ITEM_FIELD_MAXDURABILITY : Nat
  ITEM_FIELD_CREATE_PLAYED_TIME : Nat
  m_text : String
  m_slot : Nat
  m_container : Option Nat
  bagIsEmpty : Bool
  uState : ItemUpdateState
  uQueuePos : Int
  m_lootGenerated : Bool
  mb_in_trade : Bool
  m_lastPlayedTimeUpdate : Int
  m_refundRecipient : Nat
  m_paidMoney : Nat
  m_paidExtendedCost : Nat
  allowedGUIDs : List ObjectGuid
deriving DecidableEq

/-- A notification `SendEnchantmentLog(target, caster, itemId, enchantId)` handed
to the owner's session. -/
structure EnchantmentLog where
  target : ObjectGuid
  caster : ObjectGuid
  itemId : Nat
  enchantId : Nat
deriving DecidableEq

/-- A spell definition `SpellInfo`, with the member `Item.cpp` reads. -/
structure SpellInfo where
  Id : Nat
deriving DecidableEq

/-- Modelled from the spec: the tracking record `ItemSetEffect` of one item
set of a player, declared in a header that is not among the sources: the set
id, the count of contributing items and the granted spells, one slot for each
of the `MAX_ITEM_SET_SPELLS` spells a set can have (`none` is `nullptr`). A new
record has the count `0` and no granted spell. The count is a member whose
declared width is in that header; it is carried as an integer. -/
structure ItemSetEffect where
  setid : Nat
  item_count : Int
  spells : List (Option SpellInfo)
deriving DecidableEq

/-- The members of the owning player that the item code touches: the
pending-save queue of item pointers (`none` is `nullptr`) and its block flag,
the refund references, the loot guid, the enchantment logs handed to the
player's session so far (oldest first), the vector `ItemSetEff` of pointers
to the tracking records of the item sets (`none` is `nullptr`), and the calls
`ApplyEquipSpell(spellInfo, nullptr, apply)` made on the player so far
(oldest first). -/
structure Player where
  GUID : ObjectGuid
  m_itemUpdateQueue : List (Option Nat)
  m_itemUpdateQueueBlocked : Bool
  m_refundableItems : List ObjectGuid
  lootGUID : ObjectGuid
  enchantmentLog : List EnchantmentLog
  ItemSetEff : List (Option ItemSetEffect) := []
  equipSpells : List (SpellInfo × Bool) := []
deriving DecidableEq

/-- The item row a save statement carries, in parameter order. -/
structure ItemInstanceData where
  itemEntry : Nat
  owner_guid : Nat
  creatorGuid : Nat
  giftCreatorGuid : Nat
  count : Nat
  duration : Nat
  charges : String
  flags : Nat
  enchantments : String
  randomPropertyId : Int
  durability : Nat
  playedTime : Nat
  text : String
  guid : Nat
deriving DecidableEq

/-- A prepared statement of the character database with its parameters, in
parameter order. -/
inductive Statement where
  | CHAR_REP_ITEM_INSTANCE (data : ItemInstanceData) : Statement
  | CHAR_UPD_ITEM_INSTANCE (data : ItemInstanceData) : Statement
  | CHAR_UPD_GIFT_OWNER (owner_guid : Nat) (guid : Nat) : Statement
  | CHAR_DEL_ITEM_INSTANCE (guid : Nat) : Statement
  | CHAR_DEL_GIFT (guid : Nat) : Statement
  | CHAR_UPD_ITEM_INSTANCE_ON_LOAD (duration : Nat) (flags : Nat) (durability : Nat)
      (guid : Nat) : Statement
  | CHAR_DEL_CHAR_REPUTATION_BY_FACTION (guid : Nat) (faction : Nat) : Statement
  | CHAR_INS_CHAR_REPUTATION_BY_FACTION (guid : Nat) (faction : Nat) (standing : Int)
      (flags : Nat) : Statement
deriving DecidableEq

/-- The persisted item row `LoadFromDB` decodes, by column. -/
structure ItemFields where
  creatorGuid : Nat
  giftCreatorGuid : Nat
  count : Nat
  duration : Nat
  charges : String
  flags : Nat
  enchantments : String
  randomPropertyId : Int
  durability : Nat
  playedTime : Nat
  text : String
deriving DecidableEq

/-- The read-only collaborators of the item code: the static catalogs, the
helpers of other classes and the script hooks.

* `GetItemTemplate` is `sObjectMgr->GetItemTemplate`;
* `LookupEnchantment` is `sSpellItemEnchantmentStore.LookupEntry`;
* `LookupGemProperties` is `sGemPropertiesStore.LookupEntry`;
* `IsBagPos` is `Player::IsBagPos`;
* `CanUnequipItem player pos` is `player->CanUnequipItem(pos, false)`;
* `CanApplySoulboundFlag` is the script hook of that name;
* `GenerateEnchSuffixFactor` is the function of that name;
* `Tokenize data` is `Acore::Tokenize(data, ' ', false)` and `StringToInt32`
  is `Acore::StringTo<int32>`;
* `LoadIntoDataField data fields` is the block of enchantment data fields
  after `_LoadIntoDataField(data, ITEM_FIELD_ENCHANTMENT_1_1, ...)`, given the
  block before. -/
structure ItemWorld where
  GetItemTemplate : Nat → Option ItemTemplate
  LookupEnchantment : Nat → Option SpellItemEnchantmentEntry
  LookupGemProperties : Nat → Option GemPropertiesEntry
  IsBagPos : Nat → Bool
  CanUnequipItem : Player → Nat → InventoryResult
  CanApplySoulboundFlag : Item → ItemTemplate → Bool
  GenerateEnchSuffixFactor : Nat → Nat
  Tokenize : String → List String
  StringToInt32 : String → Option Int
  LoadIntoDataField : String → List Nat → List Nat

/-- The result of `Item::SaveToDB`: the item afterwards (`none` after
`delete this`), the statements of the transaction after the call (those the
caller's transaction held, then the appended ones), and whether the call
committed the transaction itself. -/
structure SaveResult where
  item : Option Item
  trans : List Statement
  committed : Bool
deriving DecidableEq

/-- A block of data fields after `SetUInt32Value(base + index, value)`: element
`index` becomes `value`; fields are read with default `0`. -/
def dataFieldSet {α : Type} (zero : α) (fields : List α) (index : Nat) (value : α) : List α :=
  if index < fields.length then fields.set index value
  else fields ++ List.replicate (index - fields.length) zero ++ [value]

namespace Item

/-- Modelled from the spec: the accessors of the class header, which is not
among the sources. An enchantment slot holds an id, a duration and charges in
consecutive data fields. -/
def GetEnchantmentId (item : Item) (slot : Nat) : Nat :=
  item.ITEM_FIELD_ENCHANTMENT.getD (slot * MAX_ENCHANTMENT_OFFSET + ENCHANTMENT_ID_OFFSET) 0

/-- Modelled from the spec: see `GetEnchantmentId`. -/
def GetEnchantmentDuration (item : Item) (slot : Nat) : Nat :=
  item.ITEM_FIELD_ENCHANTMENT.getD (slot * MAX_ENCHANTMENT_OFFSET + ENCHANTMENT_DURATION_OFFSET) 0

/-- Modelled from the spec: see `GetEnchantmentId`. -/
def GetEnchantmentCharges (item : Item) (slot : Nat) : Nat :=
  item.ITEM_FIELD_ENCHANTMENT.getD (slot * MAX_ENCHANTMENT_OFFSET + ENCHANTMENT_CHARGES_OFFSET) 0

/-- Modelled from the spec: the header's `GetSpellCharges(index)`. -/
def GetSpellCharges (item : Item) (index : Nat) : Int :=
  item.ITEM_FIELD_SPELL_CHARGES.getD index 0

/-- Modelled from the spec: the header's `IsInUpdateQueue()`; the specification
tracks the enqueue by a queue-position marker, which the constructor (line
271) and `SetState` (line 739) set to `-1` for "not queued". -/
def IsInUpdateQueue (item : Item) : Bool := item.uQueuePos != -1

/-- Modelled from the spec: the header's flag tests on `ITEM_FIELD_FLAGS`. -/
def IsSoulBound (item : Item) : Bool := (item.ITEM_FIELD_FLAGS &&& ITEM_FIELD_FLAG_SOULBOUND) != 0

/-- Modelled from the spec: see `IsSoulBound`. -/
def IsBOPTradable (item : Item) : Bool :=
  (item.ITEM_FIELD_FLAGS &&& ITEM_FIELD_FLAG_BOP_TRADEABLE) != 0

/-- Modelled from the spec: see `IsSoulBound`; the "wrapped gift" state. -/
def IsWrapped (item : Item) : Bool := (item.ITEM_FIELD_FLAGS &&& ITEM_FIELD_FLAG_WRAPPED) != 0

/-- Modelled from the spec: see `IsSoulBound`. -/
def IsRefundable (item : Item) : Bool :=
  (item.ITEM_FIELD_FLAGS &&& ITEM_FIELD_FLAG_REFUNDABLE) != 0

/-- Source lines 544-547: `GetTemplate`; `none` is the null pointer. -/
def GetTemplate (w : ItemWorld) (item : Item) : Option ItemTemplate :=
  w.GetItemTemplate item.Entry

/-- Modelled from the spec: the header's `IsBoundAccountWide()`, a flag of the
item's template; `none` when the template pointer it dereferences is null. -/
def IsBoundAccountWide (w : ItemWorld) (item : Item) : Option Bool :=
  (GetTemplate w item).map (fun proto => (proto.Flags &&& ITEM_FLAG_IS_BOUND_TO_ACCOUNT) != 0)

/-- Modelled from the spec: the header's `IsBag()`, a test of the template's
inventory type; `none` when the template pointer it dereferences is null. -/
def IsBag (w : ItemWorld) (item : Item) : Option Bool :=
  (GetTemplate w item).map (fun proto => proto.InventoryType == INVTYPE_BAG)

/-- Source lines 784-787: `GetBagSlot`. -/
def GetBagSlot (item : Item) : Nat :=
  match item.m_container with
  | some containerSlot => containerSlot
  | none => INVENTORY_SLOT_BAG_0

/-- Modelled from the spec: the header's `GetPos()`, the bag slot and the slot
packed into sixteen bits. -/
def GetPos (item : Item) : Nat := (GetBagSlot item % 256) * 256 ||| (item.m_slot % 256)

/-- Source lines 744-762: `AddToUpdateQueueOf` for a non-null player. -/
def AddToUpdateQueueOf (self : Nat) (item : Item) (player : Player) : Item × Player :=
  if IsInUpdateQueue item then (item, player)
  else if player.GUID ≠ item.ITEM_FIELD_OWNER then (item, player)
  else if player.m_itemUpdateQueueBlocked then (item, player)
  else
    let queue := player.m_itemUpdateQueue ++ [some self]
    ({ item with uQueuePos := (queue.length : Int) - 1 },
      { player with m_itemUpdateQueue := queue })

/-- Source lines 764-782: `RemoveFromUpdateQueueOf` for a non-null player.
The marker of a queued item is the index of an element of the queue. -/
def RemoveFromUpdateQueueOf (item : Item) (player : Player) : Item × Player :=
  if IsInUpdateQueue item = false then (item, player)
  else if player.GUID ≠ item.ITEM_FIELD_OWNER then (item, player)
  else if player.m_itemUpdateQueueBlocked then (item, player)
  else
    ({ item with uQueuePos := -1 },
      { player with m_itemUpdateQueue := player.m_itemUpdateQueue.set item.uQueuePos.toNat none })

/-- Modelled from the spec: `Player::DeleteRefundReference(guid)` is a method
of the player, which is not among the sources; the player forgets the refund
reference to the item. -/
def DeleteRefundReference (player : Player) (guid : ObjectGuid) : Player :=
  { player with m_refundableItems := player.m_refundableItems.filter (fun g => g != guid) }

/-- Source lines 714-742: `SetState`. The result is the item afterwards
(`none` after `delete this`) and the player afterwards. -/
def SetState (self : Nat) (item : Item) (state : ItemUpdateState) (forplayer : Option Player) :
    Option Item × Option Player :=
  if item.uState = ItemUpdateState.ITEM_NEW ∧ state = ItemUpdateState.ITEM_REMOVED then
    match forplayer with
    | some player =>
      (none, some (DeleteRefundReference (RemoveFromUpdateQueueOf item player).2 item.GUID))
    | none => (none, none)
  else if state ≠ ItemUpdateState.ITEM_UNCHANGED then
    let item1 : Item :=
      if item.uState ≠ ItemUpdateState.ITEM_NEW then { item with uState := state } else item
    match forplayer with
    | some player =>
      (some (AddToUpdateQueueOf self item1 player).1, some (AddToUpdateQueueOf self item1 player).2)
    | none => (some item1, none)
  else
    (some { item with uQueuePos := -1, uState := ItemUpdateState.ITEM_UNCHANGED }, forplayer)

/-- Source lines 357-360: the five spell charges, each followed by a blank. -/
def chargesText (item : Item) : String :=
  String.join ((List.range MAX_ITEM_PROTO_SPELLS).map (fun i =>
    toString (GetSpellCharges item i) ++ " "))

/-- Source lines 364-371: id, duration and charges of every enchantment slot,
each followed by a blank. -/
def enchantsText (item : Item) : String :=
  String.join ((List.range MAX_ENCHANTMENT_SLOT).map (fun i =>
    toString (GetEnchantmentId item i) ++ " " ++ toString (GetEnchantmentDuration item i) ++ " " ++
      toString (GetEnchantmentCharges item i) ++ " "))

/-- Source lines 350-377: the parameters of the insert or update statement. -/
def instanceData (item : Item) : ItemInstanceData :=
  { itemEntry := item.Entry
    owner_guid := item.ITEM_FIELD_OWNER.counter
    creatorGuid := item.ITEM_FIELD_CREATOR.counter
    giftCreatorGuid := item.ITEM_FIELD_GIFTCREATOR.counter
    count := item.ITEM_FIELD_STACK_COUNT
    duration := item.ITEM_FIELD_DURATION
    charges := chargesText item
    flags := item.ITEM_FIELD_FLAGS
    enchantments := enchantsText item
    randomPropertyId := item.ITEM_FIELD_RANDOM_PROPERTIES_ID
    durability := item.ITEM_FIELD_DURABILITY
    playedTime := item.ITEM_FIELD_CREATE_PLAYED_TIME
    text := item.m_text
    guid := item.GUID.counter }

/-- Source lines 336-417: `SaveToDB`. The argument `trans` is the caller's
transaction, `none` when the caller gives none and the call opens its own. -/
def SaveToDB (self : Nat) (item : Item) (trans : Option (List Statement)) : SaveResult :=
  let isInTransaction := trans.isSome
  let trans0 := trans.getD []
  let guid := item.GUID.counter
  match item.uState with
  | ItemUpdateState.ITEM_NEW =>
    { item := (SetState self item ItemUpdateState.ITEM_UNCHANGED none).1
      trans := trans0 ++ [Statement.CHAR_REP_ITEM_INSTANCE (instanceData item)]
      committed := !isInTransaction }
  | ItemUpdateState.ITEM_CHANGED =>
    { item := (SetState self item ItemUpdateState.ITEM_UNCHANGED none).1
      trans :=
        trans0 ++ [Statement.CHAR_UPD_ITEM_INSTANCE (instanceData item)] ++
          (if IsWrapped item then
            [Statement.CHAR_UPD_GIFT_OWNER item.ITEM_FIELD_OWNER.counter guid]
          else [])
      committed := !isInTransaction }
  | ItemUpdateState.ITEM_REMOVED =>
    { item := none
      trans :=
        trans0 ++ [Statement.CHAR_DEL_ITEM_INSTANCE guid] ++
          (if IsWrapped item then [Statement.CHAR_DEL_GIFT guid] else [])
      committed := !isInTransaction }
  | ItemUpdateState.ITEM_UNCHANGED =>
    { item := (SetState self item ItemUpdateState.ITEM_UNCHANGED none).1
      trans := trans0
      committed := !isInTransaction }

/-- Source lines 940-947: the enchantment logs `SetEnchantment` hands to the
owner's session, in order. -/
def enchantmentLogs (item : Item) (slot id : Nat) (caster : ObjectGuid) : List EnchantmentLog :=
  if slot < MAX_INSPECTED_ENCHANTMENT_SLOT then
    (if GetEnchantmentId item slot ≠ 0 then
        [{ target := item.ITEM_FIELD_OWNER, caster := ObjectGuid.Empty, itemId := item.Entry,
           enchantId := GetEnchantmentId item slot }]
      else []) ++
      (if id ≠ 0 then
        [{ target := item.ITEM_FIELD_OWNER, caster := caster, itemId := item.Entry,
           enchantId := id }]
      else [])
  else []

/-- Source lines 933-953: `SetEnchantment`. The argument `owner` is the result
of `GetOwner()`, `none` for the null pointer. The result is `none` when the
call dereferences a null owner to reach its session; otherwise the item
afterwards and the owner afterwards. -/
def SetEnchantment (self : Nat) (item : Item) (owner : Option Player) (slot id duration
    charges : Nat) (caster : ObjectGuid) : Option (Option Item × Option Player) :=
  if GetEnchantmentId item slot = id ∧ GetEnchantmentDuration item slot = duration ∧
      GetEnchantmentCharges item slot = charges then
    some (some item, owner)
  else
    let logs := enchantmentLogs item slot id caster
    let owner1 : Option (Option Player) :=
      if logs = [] then some owner
      else
        match owner with
        | some player => some (some { player with enchantmentLog := player.enchantmentLog ++ logs })
        | none => none
    match owner1 with
    | none => none
    | some owner2 =>
      let fields1 := dataFieldSet 0 item.ITEM_FIELD_ENCHANTMENT
        (slot * MAX_ENCHANTMENT_OFFSET + ENCHANTMENT_ID_OFFSET) id
      let fields2 := dataFieldSet 0 fields1
        (slot * MAX_ENCHANTMENT_OFFSET + ENCHANTMENT_DURATION_OFFSET) duration
      let fields3 := dataFieldSet 0 fields2
        (slot * MAX_ENCHANTMENT_OFFSET + ENCHANTMENT_CHARGES_OFFSET) charges
      some (SetState self { item with ITEM_FIELD_ENCHANTMENT := fields3 }
        ItemUpdateState.ITEM_CHANGED owner2)

/-- Source lines 880-895: `CanBeMergedPartlyWith` for a non-null template. -/
def CanBeMergedPartlyWith (item : Item) (proto : ItemTemplate) : InventoryResult :=
  if item.m_lootGenerated then InventoryResult.EQUIP_ERR_ALREADY_LOOTED
  else if item.Entry ≠ proto.ItemId then InventoryResult.EQUIP_ERR_ITEM_CANT_STACK
  else if item.ITEM_FIELD_STACK_COUNT ≥ proto.MaxStackSize then
    InventoryResult.EQUIP_ERR_ITEM_CANT_STACK
  else InventoryResult.EQUIP_ERR_OK

/-- The test of lines 851-854 (and 873-876) for one enchantment slot: the
slot holds an enchantment that resolves and can soulbind. -/
def slotCanSoulbind (w : ItemWorld) (item : Item) (enchant_slot : Nat) : Bool :=
  if GetEnchantmentId item enchant_slot ≠ 0 then
    match w.LookupEnchantment (GetEnchantmentId item enchant_slot) with
    | some enchantEntry => (enchantEntry.slot &&& ENCHANTMENT_CAN_SOULBOUND) != 0
    | none => false
  else false

/-- Source lines 847-856: `IsBoundByEnchant`. -/
def IsBoundByEnchant (w : ItemWorld) (item : Item) : Bool :=
  ((List.range MAX_ENCHANTMENT_SLOT).filter (fun s => PERM_ENCHANTMENT_SLOT ≤ s)).any
    (slotCanSoulbind w item)

/-- Source lines 871-878: `IsBoundByTempEnchant`. -/
def IsBoundByTempEnchant (w : ItemWorld) (item : Item) : Bool :=
  slotCanSoulbind w item TEMP_ENCHANTMENT_SLOT

/-- The condition `!mail || !IsBoundAccountWide()` of lines 796 and 815; the
template is looked at only when `mail` is set. -/
def notMailedAccountBound (w : ItemWorld) (item : Item) (mail : Bool) : Option Bool :=
  if mail = false then some true else (IsBoundAccountWide w item).map (fun b => !b)

/-- Source lines 802-810: whether the owner, if there is one, stands in the
way of the trade. -/
def ownerBlocksTrade (w : ItemWorld) (item : Item) (owner : Option Player) : Bool :=
  match owner with
  | some player =>
    if w.CanUnequipItem player (GetPos item) ≠ InventoryResult.EQUIP_ERR_OK then true
    else if player.lootGUID = item.GUID then true
    else false
  | none => false

/-- Source lines 794-819: `CanBeTraded`. The argument `owner` is the result of
`GetOwner()`. The result is `none` when the call dereferences a null
template. -/
def CanBeTraded (w : ItemWorld) (item : Item) (owner : Option Player) (mail trade : Bool) :
    Option Bool :=
  match notMailedAccountBound w item mail with
  | none => none
  | some c1 =>
    if c1 && (IsSoulBound item && (!IsBOPTradable item || !trade)) then some false
    else
      match IsBag w item with
      | none => none
      | some bag =>
        if bag && (w.IsBagPos (GetPos item) || !item.bagIsEmpty) then some false
        else if ownerBlocksTrade w item owner then some false
        else if IsBoundByTempEnchant w item then some false
        else
          match notMailedAccountBound w item mail with
          | none => none
          | some c2 => if c2 && IsBoundByEnchant w item then some false else some true

/-- Source lines 1000-1012: the colour `GemColor` of the gem of an enchantment
entry, an 8-bit value. -/
def gemColor (w : ItemWorld) (enchantEntry : SpellItemEnchantmentEntry) : Nat :=
  if enchantEntry.GemID ≠ 0 then
    match w.GetItemTemplate enchantEntry.GemID with
    | some gemProto =>
      match w.LookupGemProperties gemProto.GemProperties with
      | some gemProperty => gemProperty.color % 256
      | none => 0
    | none => 0
  else 0

/-- Source lines 987-1015: one iteration of the socket loop, for socket
`i = enchant_slot - SOCK_ENCHANTMENT_SLOT`: `true` when the loop goes on,
`false` when it returns `false`. `SocketColor` is an 8-bit value. -/
def socketFits (w : ItemWorld) (item : Item) (proto : ItemTemplate) (i : Nat) : Bool :=
  let SocketColor := proto.SocketColor.getD i 0 % 256
  if SocketColor = 0 then true
  else
    let enchant_id := GetEnchantmentId item (SOCK_ENCHANTMENT_SLOT + i)
    if enchant_id = 0 then false
    else
      match w.LookupEnchantment enchant_id with
      | none => false
      | some enchantEntry => (gemColor w enchantEntry &&& SocketColor) != 0

/-- Source lines 983-1018: `GemsFitSockets`; `none` when the template
pointer it dereferences is null. -/
def GemsFitSockets (w : ItemWorld) (item : Item) : Option Bool :=
  match GetTemplate w item with
  | none => none
  | some proto => some ((List.range MAX_GEM_SOCKETS).all (socketFits w item proto))

/-- Source lines 706-712: `UpdateItemSuffixFactor`. -/
def UpdateItemSuffixFactor (w : ItemWorld) (item : Item) : Item :=
  if item.ITEM_FIELD_PROPERTY_SEED = w.GenerateEnchSuffixFactor item.Entry then item
  else { item with ITEM_FIELD_PROPERTY_SEED := w.GenerateEnchSuffixFactor item.Entry }

/-- Source lines 457-467: the spell charges after the charge tokens are read. -/
def loadCharges (w : ItemWorld) (tokens : List String) (charges : List Int) : List Int :=
  if tokens.length = MAX_ITEM_PROTO_SPELLS then
    (List.range MAX_ITEM_PROTO_SPELLS).foldl (fun acc i =>
      match w.StringToInt32 (tokens.getD i "") with
      | some c => dataFieldSet 0 acc i c
      | none => acc) charges
  else charges

/-- Source lines 426-469 of `LoadFromDB`, for the template `proto` of `entry`:
the item once the guid, the entry, the owner, the creators, the count, the
duration (with its fix), the spell charges and the stored flags are set. -/
def loadedHead (w : ItemWorld) (item : Item) (guid : Nat) (owner_guid : ObjectGuid)
    (fields : ItemFields) (entry : Nat) (proto : ItemTemplate) : Item :=
  { item with
    GUID := { high := HighGuid.Item, counter := guid }
    Entry := entry
    ITEM_FIELD_OWNER := if owner_guid ≠ ObjectGuid.Empty then owner_guid else item.ITEM_FIELD_OWNER
    ITEM_FIELD_CREATOR := { high := HighGuid.Player, counter := fields.creatorGuid }
    ITEM_FIELD_GIFTCREATOR := { high := HighGuid.Player, counter := fields.giftCreatorGuid }
    ITEM_FIELD_STACK_COUNT := fields.count
    ITEM_FIELD_DURATION :=
      if (decide (proto.Duration = 0) != decide (fields.duration = 0)) = true then proto.Duration
      else fields.duration
    ITEM_FIELD_SPELL_CHARGES :=
      loadCharges w (w.Tokenize fields.charges) item.ITEM_FIELD_SPELL_CHARGES
    ITEM_FIELD_FLAGS := fields.flags }

/-- Source line 471: the condition under which `LoadFromDB` removes the bind
flag, for the item `head` the call has built so far. -/
def loadFixesBind (w : ItemWorld) (head : Item) (proto : ItemTemplate) : Bool :=
  IsSoulBound head && proto.Bonding == NO_BIND && w.CanApplySoulboundFlag head proto

/-- Source lines 471-475: the flags after the bind fix. -/
def loadedFlags (w : ItemWorld) (head : Item) (proto : ItemTemplate) : Nat :=
  if loadFixesBind w head proto then
    ReputationMgr.clearFlag head.ITEM_FIELD_FLAGS ITEM_FIELD_FLAG_SOULBOUND
  else head.ITEM_FIELD_FLAGS

/-- Source line 495: the condition under which `LoadFromDB` clamps the
durability; the item is wrapped when its flags, after the bind fix, say so. -/
def loadFixesDurability (w : ItemWorld) (head : Item) (proto : ItemTemplate)
    (fields : ItemFields) : Bool :=
  decide (fields.durability > proto.MaxDurability) &&
    !IsWrapped { head with ITEM_FIELD_FLAGS := loadedFlags w head proto }

/-- Source lines 419-515: `LoadFromDB`. The result is the return value, the
item afterwards and the statements the call has executed on the database.
The template is the one of `entry`, which the call has set before it looks
the template up. -/
def LoadFromDB (w : ItemWorld) (item : Item) (guid : Nat) (owner_guid : ObjectGuid)
    (fields : ItemFields) (entry : Nat) : Bool × Item × List Statement :=
  match w.GetItemTemplate entry with
  | none =>
    (false, { item with GUID := { high := HighGuid.Item, counter := guid }, Entry := entry }, [])
  | some proto =>
    let head := loadedHead w item guid owner_guid fields entry proto
    let seeded : Item :=
      if fields.randomPropertyId < 0 then
        UpdateItemSuffixFactor w { head with ITEM_FIELD_RANDOM_PROPERTIES_ID := fields.randomPropertyId }
      else head
    let loaded : Item :=
      { head with
        ITEM_FIELD_FLAGS := loadedFlags w head proto
        ITEM_FIELD_ENCHANTMENT :=
          w.LoadIntoDataField fields.enchantments head.ITEM_FIELD_ENCHANTMENT
        ITEM_FIELD_RANDOM_PROPERTIES_ID := fields.randomPropertyId
        ITEM_FIELD_PROPERTY_SEED := seeded.ITEM_FIELD_PROPERTY_SEED
        ITEM_FIELD_DURABILITY :=
          if loadFixesDurability w head proto fields then proto.MaxDurability
          else fields.durability
        ITEM_FIELD_MAXDURABILITY := proto.MaxDurability
        ITEM_FIELD_CREATE_PLAYED_TIME := fields.playedTime
        m_text := fields.text }
    let need_save : Bool :=
      (decide (proto.Duration = 0) != decide (fields.duration = 0)) ||
        loadFixesBind w head proto || loadFixesDurability w head proto fields
    (true, loaded,
      if need_save then
        [Statement.CHAR_UPD_ITEM_INSTANCE_ON_LOAD loaded.ITEM_FIELD_DURATION
          loaded.ITEM_FIELD_FLAGS loaded.ITEM_FIELD_DURABILITY guid]
      else [])

end Item

/-! ## Concrete items -/

/-- A template with id `100`: account-wide bound, max stack size `20`, no
duration, max durability `50`, one red socket. -/
def exampleTemplate : ItemTemplate :=
  { ItemId := 100, Class := 2, SubClass := 0, Flags := ITEM_FLAG_IS_BOUND_TO_ACCOUNT,
    InventoryType := 13, MaxDurability := 50, Duration := 0, Bonding := 1, MaxStackSize := 20,
    SocketColor := [2, 0, 0], GemProperties := 0, SpellCharges := [0, 0, 0, 0, 0],
    RandomProperty := 0, RandomSuffix := 0, ItemSet := 0 }

/-- A gem template with id `200` and gem properties `7`. -/
def exampleGemTemplate : ItemTemplate :=
  { exampleTemplate with ItemId := 200, Flags := 0, SocketColor := [0, 0, 0], GemProperties := 7 }

/-- A world with the two templates, the enchantment `55` of gem `200`, the gem
properties `7` of colour red, no bag positions, an owner who can unequip
everything, a tokenizer that splits at blanks and a field loader that keeps
the fields. -/
def exampleItemWorld : ItemWorld :=
  { GetItemTemplate := fun id =>
      if id = 100 then some exampleTemplate
      else if id = 200 then some exampleGemTemplate else none
    LookupEnchantment := fun id =>
      if id = 55 then
        some { ID := 55, slot := 0, GemID := 200, requiredSkill := 0, requiredSkillValue := 0,
               requiredLevel := 0 }
      else none
    LookupGemProperties := fun id => if id = 7 then some { ID := 7, color := 2 } else none
    IsBagPos := fun _ => false
    CanUnequipItem := fun _ _ => InventoryResult.EQUIP_ERR_OK
    CanApplySoulboundFlag := fun _ _ => true
    GenerateEnchSuffixFactor := fun _ => 0
    Tokenize := fun data => (data.splitOn " ").filter (fun t => t != "")
    StringToInt32 := fun t => t.toInt?
    LoadIntoDataField := fun _ fields => fields }

/-- An item of template `100` in state `ITEM_NEW`, owned by player `9`, not
queued, soulbound, with a stack of `20` and the gem enchantment `55` in its
first socket. -/
def exampleItem : Item :=
  { GUID := { high := HighGuid.Item, counter := 1 }
    Entry := 100
    ITEM_FIELD_OWNER := { high := HighGuid.Player, counter := 9 }
    ITEM_FIELD_CONTAINED := { high := HighGuid.Player, counter := 9 }
    ITEM_FIELD_CREATOR := ObjectGuid.Empty
    ITEM_FIELD_GIFTCREATOR := ObjectGuid.Empty
    ITEM_FIELD_STACK_COUNT := 20
    ITEM_FIELD_DURATION := 0
    ITEM_FIELD_SPELL_CHARGES := [0, 0, 0, 0, 0]
    ITEM_FIELD_FLAGS := ITEM_FIELD_FLAG_SOULBOUND
    ITEM_FIELD_ENCHANTMENT := [0, 0, 0, 0, 0, 0, 55, 0, 0] ++ List.replicate 27 0
    ITEM_FIELD_PROPERTY_SEED := 0
    ITEM_FIELD_RANDOM_PROPERTIES_ID := 0
    ITEM_FIELD_DURABILITY := 50
    ITEM_FIELD_MAXDURABILITY := 50
    ITEM_FIELD_CREATE_PLAYED_TIME := 0
    m_text := ""
    m_slot := 23
    m_container := none
    bagIsEmpty := true
    uState := ItemUpdateState.ITEM_NEW
    uQueuePos := -1
    m_lootGenerated := false
    mb_in_trade := false
    m_lastPlayedTimeUpdate := 0
    m_refundRecipient := 0
    m_paidMoney := 0
    m_paidExtendedCost := 0
    allowedGUIDs := [] }

/-- The player `9` with an empty, unblocked pending-save queue. -/
def examplePlayer : Player :=
  { GUID := { high := HighGuid.Player, counter := 9 }
    m_itemUpdateQueue := []
    m_itemUpdateQueueBlocked := false
    m_refundableItems := []
    lootGUID := ObjectGuid.Empty
    enchantmentLog := [] }

/-- The item `exampleItem`, at address `5`, queued at index `0`. -/
def queuedItem : Item := { exampleItem with uQueuePos := 0 }

/-- The player `9` with `queuedItem` in the pending-save queue and the queue
blocked. -/
def blockedPlayer : Player :=
  { examplePlayer with m_itemUpdateQueue := [some 5], m_itemUpdateQueueBlocked := true }

/-- The `uState` a live item has after `SetState(state)` (lines 727-741). -/
def nextState (uState state : ItemUpdateState) : ItemUpdateState :=
  if state ≠ ItemUpdateState.ITEM_UNCHANGED then
    if uState ≠ ItemUpdateState.ITEM_NEW then state else uState
  else ItemUpdateState.ITEM_UNCHANGED

/-- No call of the sequence meets an item in state `ITEM_NEW` with the state
`ITEM_REMOVED`, for an item that starts in `uState`. -/
def noNewToRemoved : ItemUpdateState → List ItemUpdateState → Bool
  | _, [] => true
  | uState, state :: rest =>
    !(decide (uState = ItemUpdateState.ITEM_NEW ∧ state = ItemUpdateState.ITEM_REMOVED)) &&
      noNewToRemoved (nextState uState state) rest

/-- The item at address `self` and the player after the calls
`SetState(state, player)` for the states of the list, in order; `none` once a
call has deleted the item. -/
def setStateRun (self : Nat) : List ItemUpdateState → Item → Player → Option (Item × Player)
  | [], item, player => some (item, player)
  | state :: rest, item, player =>
    match Item.SetState self item state (some player) with
    | (some item1, some player1) => setStateRun self rest item1 player1
    | _ => none

/-- The gem of socket `i` of the item fits the 8-bit socket colour
`SocketColor`, in the words of the specification: the socket's enchantment
slot holds a nonzero enchantment id that resolves to an enchantment entry
whose gem resolves, through its item template and its gem properties, to a
colour whose 8-bit value intersects `SocketColor`. -/
def gemFitsColor (w : ItemWorld) (item : Item) (i SocketColor : Nat) : Prop :=
  Item.GetEnchantmentId item (SOCK_ENCHANTMENT_SLOT + i) ≠ 0 ∧
    ∃ enchantEntry gemProto gemProperty,
      w.LookupEnchantment (Item.GetEnchantmentId item (SOCK_ENCHANTMENT_SLOT + i)) =
        some enchantEntry ∧
      enchantEntry.GemID ≠ 0 ∧
      w.GetItemTemplate enchantEntry.GemID = some gemProto ∧
      w.LookupGemProperties gemProto.GemProperties = some gemProperty ∧
      (gemProperty.color % 256) &&& SocketColor ≠ 0

namespace ReputationMgr

/-! ## Initialization, loading and saving of the ledger -/

/-- The map after `_factions[key] = value`: the element under `key` is
replaced, or a new element is put in key order. -/
def insertState (l : FactionStateList) (key : Nat) (value : FactionState) : FactionStateList :=
  match l with
  | [] => [(key, value)]
  | (k, v) :: rest =>
    if key < k then (key, value) :: (k, v) :: rest
    else if key = k then (key, value) :: rest
    else (k, v) :: insertState rest key value

/-- The faction state `Initialize` builds for a catalog faction (lines
278-285). -/
def newFactionState (w : World) (factionEntry : FactionEntry) : FactionState :=
  { ID := factionEntry.ID
    ReputationListID := toU32 factionEntry.reputationListID
    Standing := 0
    Flags := GetDefaultStateFlags w factionEntry
    needSend := true
    needSave := true
    roundedUp := false }

/-- Source lines 274-293: the body of the loop of `Initialize` for row `i`. -/
def initializeRow (w : World) (m : ReputationMgr) (i : Nat) : ReputationMgr :=
  match w.LookupEntry i with
  | none => m
  | some factionEntry =>
    if factionEntry.reputationListID ≥ 0 then
      let newFaction : FactionState := newFactionState w factionEntry
      let m1 : ReputationMgr :=
        if (newFaction.Flags &&& FACTION_FLAG_VISIBLE) ≠ 0 then
          { m with _visibleFactionCount := m._visibleFactionCount + 1 }
        else m
      let m2 := UpdateRankCounters m1 REP_HOSTILE (ReputationToRank (GetBaseReputation w factionEntry))
      { m2 with _factions := insertState m2._factions newFaction.ReputationListID newFaction }
    else m

/-- Source lines 263-295: `Initialize`; the loop runs over the rows
`1, ..., GetNumRows() - 1`. -/
def Initialize (w : World) (m : ReputationMgr) : ReputationMgr :=
  (List.range' 1 (w.GetNumRows - 1)).foldl (initializeRow w)
    { m with
      _factions := []
      _visibleFactionCount := 0
      _honoredFactionCount := 0
      _reveredFactionCount := 0
      _exaltedFactionCount := 0
      _sendFactionIncreased := false }

/-- Source lines 548-565: `SetInactive(FactionState*, bool)`. -/
def SetInactive (faction : FactionState) (inactive : Bool) : FactionState :=
  if inactive ∧
      ((faction.Flags &&& (FACTION_FLAG_INVISIBLE_FORCED ||| FACTION_FLAG_HIDDEN)) ≠ 0 ∨
        (faction.Flags &&& FACTION_FLAG_VISIBLE) = 0) then faction
  else if decide ((faction.Flags &&& FACTION_FLAG_INACTIVE) ≠ 0) = inactive then faction
  else
    { faction with
      Flags :=
        if inactive then faction.Flags ||| FACTION_FLAG_INACTIVE
        else clearFlag faction.Flags FACTION_FLAG_INACTIVE
      needSend := true
      needSave := true }

/-- A persisted reputation row: the columns `faction` (read as `uint16`),
`standing` (read as `int32`) and `flags` (read as `uint16`). -/
structure ReputationRow where
  faction : Nat
  standing : Int
  flags : Nat
deriving DecidableEq

/-- The value-initialized `FactionState` that `_factions[key]` creates for a
key the map does not have. -/
def emptyState : FactionState :=
  { ID := 0, ReputationListID := 0, Standing := 0, Flags := 0, needSend := false,
    needSave := false, roundedUp := false }

/-- The map after the access `_factions[key]`: a value-initialized element is
put under a key the map does not have. -/
def accessState (l : FactionStateList) (key : Nat) : FactionStateList :=
  match l.find key with
  | some _ => l
  | none => insertState l key emptyState

/-- Source lines 578-626: the body of the loop of `LoadFromDB` for one row. -/
def loadRow (w : World) (m : ReputationMgr) (row : ReputationRow) : ReputationMgr :=
  match w.LookupEntry row.faction with
  | none => m
  | some factionEntry =>
    if factionEntry.reputationListID ≥ 0 then
      let key := toU32 factionEntry.reputationListID
      let m1 : ReputationMgr :=
        { m with
          _factions :=
            (accessState m._factions key).modify key (fun f => { f with Standing := row.standing }) }
      let BaseRep := GetBaseReputation w factionEntry
      let old_rank := ReputationToRank BaseRep
      let new_rank := ReputationToRank (wrap32 (BaseRep + row.standing))
      let m2 := UpdateRankCounters m1 old_rank new_rank
      let dbFactionFlags := row.flags
      let m3 := if (dbFactionFlags &&& FACTION_FLAG_VISIBLE) ≠ 0 then SetVisible w m2 key else m2
      let m4 : ReputationMgr :=
        if (dbFactionFlags &&& FACTION_FLAG_INACTIVE) ≠ 0 then
          { m3 with _factions := m3._factions.modify key (fun f => SetInactive f true) }
        else m3
      let m5 : ReputationMgr :=
        if (dbFactionFlags &&& FACTION_FLAG_AT_WAR) ≠ 0 then
          { m4 with
            _factions := m4._factions.modify key (fun f =>
              SetAtWar f (decide ((dbFactionFlags &&& FACTION_FLAG_HIDDEN) = 0 ∨
                GetRank w m4 (some factionEntry) < REP_NEUTRAL))) }
        else
          { m4 with
            _factions := m4._factions.modify key (fun f =>
              if (f.Flags &&& FACTION_FLAG_VISIBLE) ≠ 0 then SetAtWar f false else f) }
      let m6 : ReputationMgr :=
        if GetRank w m5 (some factionEntry) ≤ REP_HOSTILE then
          { m5 with _factions := m5._factions.modify key (fun f => SetAtWar f true) }
        else m5
      { m6 with
        _factions := m6._factions.modify key (fun f =>
          { (if f.Flags = dbFactionFlags then { f with needSend := false, needSave := false }
              else f) with roundedUp := false }) }
    else m

/-- Source lines 567-629: `LoadFromDB` over the rows of the query result. -/
def LoadFromDB (w : World) (m : ReputationMgr) (rows : List ReputationRow) : ReputationMgr :=
  rows.foldl (loadRow w) (Initialize w m)

/-- Source lines 635-650: the statements `SaveToDB` appends for one faction
state, for the counter `guid` of the player's guid. -/
def saveStatements (guid : Nat) (faction : FactionState) : List Statement :=
  if faction.needSave then
    [Statement.CHAR_DEL_CHAR_REPUTATION_BY_FACTION guid (faction.ID % 65536),
      Statement.CHAR_INS_CHAR_REPUTATION_BY_FACTION guid (faction.ID % 65536) faction.Standing
        (faction.Flags % 65536)]
  else []

/-- Source lines 631-652: `SaveToDB`, for the counter `guid` of the player's
guid and the statements `trans` the transaction holds. The result is the
ledger afterwards and the statements of the transaction afterwards. -/
def SaveToDB (guid : Nat) (m : ReputationMgr) (trans : List Statement) :
    ReputationMgr × List Statement :=
  ({ m with
      _factions :=
        m._factions.map (fun p => if p.2.needSave then (p.1, { p.2 with needSave := false }) else p) },
    trans ++ (m._factions.map (fun p => saveStatements guid p.2)).flatten)

/-- The current rank of a tracked faction state: the rank of the base
standing of its faction plus its stored `Standing`, the `int32` sum the
ledger computes. -/
def stateRank (w : World) (state : FactionState) : Nat :=
  match w.LookupEntry state.ID with
  | some factionEntry =>
    ReputationToRank (wrap32 (state.Standing + GetBaseReputation w factionEntry))
  | none => ReputationToRank state.Standing

/-- The number of tracked factions whose current rank is at least `rank`. -/
def countAtLeast (w : World) (l : FactionStateList) (rank : Nat) : Int :=
  ((l.filter (fun p => decide (stateRank w p.2 ≥ rank))).length : Int)

/-- The catalog is well formed: the row found under an id has that id;
distinct factions with a reputation list have distinct reputation-list ids;
reputation-list ids and base standings are `int32` values. -/
structure CatalogOK (w : World) : Prop where
  id_eq : ∀ id fe, w.LookupEntry id = some fe → fe.ID = id
  key_inj : ∀ a b fa fb, w.LookupEntry a = some fa → w.LookupEntry b = some fb →
    0 ≤ fa.reputationListID → 0 ≤ fb.reputationListID →
    toU32 fa.reputationListID = toU32 fb.reputationListID → a = b
  list_range : ∀ id fe, w.LookupEntry id = some fe →
    -2147483648 ≤ fe.reputationListID ∧ fe.reputationListID ≤ 2147483647
  base_range : ∀ id fe, w.LookupEntry id = some fe →
    -2147483648 ≤ GetBaseReputation w fe ∧ GetBaseReputation w fe ≤ 2147483647

/-- The persisted rows name each faction at most once, and only catalog rows
that `Initialize` walks. -/
def RowsOK (w : World) (rows : List ReputationRow) : Prop :=
  (rows.map (fun row => row.faction)).Nodup ∧
    ∀ row, row ∈ rows → 1 ≤ row.faction ∧ row.faction < w.GetNumRows

/-- The ledger states reached from `Initialize` by `LoadFromDB`,
`SetOneFactionReputation` and `SetReputation`, called with factions of the
catalog. -/
inductive Reachable (w : World) : ReputationMgr → Prop where
  | init (m : ReputationMgr) : Reachable w (Initialize w m)
  | load (m : ReputationMgr) (rows : List ReputationRow) (hrows : RowsOK w rows) :
      Reachable w (LoadFromDB w m rows)
  | setOne (m : ReputationMgr) (factionEntry : FactionEntry) (stand : F32) (incremental : Bool)
      (repMaxCap : Option Nat) (hm : Reachable w m)
      (hfe : w.LookupEntry factionEntry.ID = some factionEntry) :
      Reachable w (SetOneFactionReputation w m factionEntry stand incremental repMaxCap).1
  | setReputation (m : ReputationMgr) (factionEntry : FactionEntry) (standing : F32)
      (incremental noSpillOver : Bool) (repMaxCap : Option Nat) (r : ReputationMgr × Bool)
      (hm : Reachable w m) (hfe : w.LookupEntry factionEntry.ID = some factionEntry)
      (hr : SetReputation w m factionEntry standing incremental noSpillOver repMaxCap = some r) :
      Reachable w r.1

/-- The invariant of the rank counters: every map element is the state of a
catalog faction with a reputation list and sits under that faction's
reputation-list id, and each rank counter is the number of map elements of
at least its rank. -/
def CountersOK (w : World) (m : ReputationMgr) : Prop :=
  (∀ k st, m._factions.find k = some st →
    ∃ fe, w.LookupEntry st.ID = some fe ∧ 0 ≤ fe.reputationListID ∧
      toU32 fe.reputationListID = k) ∧
  m._honoredFactionCount = countAtLeast w m._factions REP_HONORED ∧
  m._reveredFactionCount = countAtLeast w m._factions REP_REVERED ∧
  m._exaltedFactionCount = countAtLeast w m._factions REP_EXALTED

/-- The persisted row that puts `exampleFaction` at stored standing `9000`,
visible. -/
def exampleRow : ReputationRow := { faction := 21, standing := 9000, flags := 1 }

/-- A catalog faction in row `0`, which `Initialize` does not walk: it has the
reputation list `0` and the base standing `9000` (`Honored`) for the example
player. -/
def zeroRowFaction : FactionEntry :=
  { exampleFaction with ID := 0, reputationListID := 0, BaseRepValue := [9000, 0, 0, 0] }

/-- The world `exampleWorld` with a catalog of the one row `0`. -/
def zeroRowWorld : World :=
  { exampleWorld with
    LookupEntry := fun id => if id = 0 then some zeroRowFaction else none
    GetNumRows := 1 }

end ReputationMgr

namespace ReputationMgr

/-! ## The standing update, element by element -/

/-- Source lines 193-206: the body of the loop of `SendState` for the map
element `p`. The state of the loop is the elements walked so far, as the loop
leaves them, the (list id, standing) pairs written to the packet so far and
the local `count`. -/
def sendStateStep (faction : FactionState)
    (acc : FactionStateList × List (Nat × Nat) × Nat) (p : Nat × FactionState) :
    FactionStateList × List (Nat × Nat) × Nat :=
  if p.2.needSend then
    if p.2.ReputationListID ≠ faction.ReputationListID then
      (acc.1 ++ [(p.1, { p.2 with needSend := false })],
        acc.2.1 ++ [(p.2.ReputationListID, toU32 p.2.Standing)], acc.2.2 + 1)
    else (acc.1 ++ [(p.1, { p.2 with needSend := false })], acc.2.1, acc.2.2)
  else (acc.1 ++ [p], acc.2.1, acc.2.2)

/-- Source lines 178-209: `SendState`, statement by statement: the packet
starts with the pair of `faction` and the count `1`, the loop walks the map
in order, and the final count is put in the packet. -/
def SendStateWalk (m : ReputationMgr) (faction : FactionState) : ReputationMgr :=
  let walked :=
    m._factions.foldl (sendStateStep faction)
      ([], [(faction.ReputationListID, toU32 faction.Standing)], 1)
  { m with
    _factions := walked.1
    _sendFactionIncreased := false
    sent :=
      m.sent ++ [Packet.SMSG_SET_FACTION_STANDING m._sendFactionIncreased walked.2.2 walked.2.1] }

/-- A ledger tracking `exampleFaction` at war, with stored standing `-10500`,
that is total standing `-10000` (`Hated`). -/
def hatedLedger : ReputationMgr :=
  { exampleLedger with
    _factions :=
      [(3, { ID := 21, ReputationListID := 3, Standing := -10500, Flags := 3, needSend := false,
             needSave := false, roundedUp := false })] }

/-- The ledger `hatedLedger` with stored standing `-5500`, that is total
standing `-5000` (`Hostile`). -/
def hostileLedger : ReputationMgr :=
  { exampleLedger with
    _factions :=
      [(3, { ID := 21, ReputationListID := 3, Standing := -5500, Flags := 3, needSend := false,
             needSave := false, roundedUp := false })] }

end ReputationMgr

/-! ## Further concrete items -/

/-- The world `exampleItemWorld` with the enchantment `77`, which can
soulbind. -/
def bindingWorld : ItemWorld :=
  { exampleItemWorld with
    LookupEnchantment := fun id =>
      if id = 77 then
        some { ID := 77, slot := ENCHANTMENT_CAN_SOULBOUND, GemID := 0, requiredSkill := 0,
               requiredSkillValue := 0, requiredLevel := 0 }
      else exampleItemWorld.LookupEnchantment id }

/-- An item of template `200` (not account-wide bound), not soulbound, with
the enchantment `77` in its permanent slot. -/
def enchantedItem : Item :=
  { exampleItem with
    Entry := 200
    ITEM_FIELD_FLAGS := 0
    ITEM_FIELD_ENCHANTMENT := [77, 0, 0] ++ List.replicate 33 0 }

/-- A persisted row with durability `80` and no flags. -/
def exampleFields : ItemFields :=
  { creatorGuid := 0, giftCreatorGuid := 0, count := 1, duration := 0, charges := "",
    flags := 0, enchantments := "", randomPropertyId := 0, durability := 80, playedTime := 0,
    text := "" }

/-! ## Refund eligibility and creation of items -/

/-- Modelled from the spec: the constant `HOUR` of the time headers, which are
not among the sources, in seconds; the refund threshold `2 * HOUR` is the
specification's "2 hours of played time". -/
def HOUR : Nat := 3600

/-- A row of the random-properties catalog or of the random-suffix catalog:
its id and the enchantments of the property slots. -/
structure ItemRandomEntry where
  ID : Nat
  Enchantment : List Nat
deriving DecidableEq

/-- The collaborators of `Item::CreateItem`, on top of those of `ItemWorld`:

* `LookupRandomProperties` is `sItemRandomPropertiesStore.LookupEntry`;
* `LookupRandomSuffix` is `sItemRandomSuffixStore.LookupEntry`;
* `GetItemEnchantMod` is the function of that name, which draws the entry;
* `OnItemCreate item itemProto owner` is the item after the script hook of
  that name, which is handed the item pointer;
* `Generate` is the value `sObjectMgr->GetGenerator<HighGuid::Item>().Generate()`
  returns. -/
structure CreateWorld extends ItemWorld where
  LookupRandomProperties : Nat → Option ItemRandomEntry
  LookupRandomSuffix : Nat → Option ItemRandomEntry
  GetItemEnchantMod : Nat → Nat
  OnItemCreate : Item → ItemTemplate → Option Player → Item
  Generate : Nat

namespace Item

/-- Source lines 1214-1230: `SetNotRefundable(owner, changestate)` with the
default `trans = nullptr`, for which `DeleteRefundDataFromDB` (lines 1205-1212)
appends nothing. The result is `none` when the call dereferences a null
owner (line 1229); otherwise the item afterwards and the owner afterwards. -/
def SetNotRefundable (self : Nat) (item : Item) (owner : Option Player) (changestate : Bool) :
    Option (Option Item × Option Player) :=
  if IsRefundable item = false then some (some item, owner)
  else
    let item1 : Item :=
      { item with
        ITEM_FIELD_FLAGS :=
          ReputationMgr.clearFlag item.ITEM_FIELD_FLAGS ITEM_FIELD_FLAG_REFUNDABLE }
    let changed : Option Item × Option Player :=
      if changestate then SetState self item1 ItemUpdateState.ITEM_CHANGED owner
      else (some item1, owner)
    match changed.2 with
    | none => none
    | some player =>
      some (changed.1.map (fun i =>
          { i with m_refundRecipient := 0, m_paidMoney := 0, m_paidExtendedCost := 0 }),
        some (DeleteRefundReference player item.GUID))

/-- Source lines 1232-1258: `UpdatePlayedTime(owner)` at the game time
`curtime` (the value of `GameTime::GetGameTime().count()`). The elapsed time
and the new played time are `uint32` values. The result is `none` when the
call dereferences a null owner; otherwise the item afterwards and the owner
afterwards. -/
def UpdatePlayedTime (self : Nat) (item : Item) (owner : Option Player) (curtime : Int) :
    Option (Option Item × Option Player) :=
  let current_playtime := item.ITEM_FIELD_CREATE_PLAYED_TIME
  let elapsed := toU32 (curtime - item.m_lastPlayedTimeUpdate)
  let new_playtime := (current_playtime + elapsed) % 4294967296
  if new_playtime ≤ 2 * HOUR then
    let changed :=
      SetState self { item with ITEM_FIELD_CREATE_PLAYED_TIME := new_playtime }
        ItemUpdateState.ITEM_CHANGED owner
    some (changed.1.map (fun i => { i with m_lastPlayedTimeUpdate := curtime }), changed.2)
  else SetNotRefundable self item owner true

/-- Source lines 262-278: the constructor `Item()` at the game time `now`. The
data fields are zero until `Create` sets them; a new bag is empty. -/
def newItem (now : Int) : Item :=
  { GUID := ObjectGuid.Empty
    Entry := 0
    ITEM_FIELD_OWNER := ObjectGuid.Empty
    ITEM_FIELD_CONTAINED := ObjectGuid.Empty
    ITEM_FIELD_CREATOR := ObjectGuid.Empty
    ITEM_FIELD_GIFTCREATOR := ObjectGuid.Empty
    ITEM_FIELD_STACK_COUNT := 0
    ITEM_FIELD_DURATION := 0
    ITEM_FIELD_SPELL_CHARGES := []
    ITEM_FIELD_FLAGS := 0
    ITEM_FIELD_ENCHANTMENT := []
    ITEM_FIELD_PROPERTY_SEED := 0
    ITEM_FIELD_RANDOM_PROPERTIES_ID := 0
    ITEM_FIELD_DURABILITY := 0
    ITEM_FIELD_MAXDURABILITY := 0
    ITEM_FIELD_CREATE_PLAYED_TIME := 0
    m_text := ""
    m_slot := 0
    m_container := none
    bagIsEmpty := true
    uState := ItemUpdateState.ITEM_NEW
    uQueuePos := -1
    m_lootGenerated := false
    mb_in_trade := false
    m_lastPlayedTimeUpdate := now
    m_refundRecipient := 0
    m_paidMoney := 0
    m_paidExtendedCost := 0
    allowedGUIDs := [] }

/-- Source lines 280-307: `Create(guidlow, itemid, owner)`. The result is the
return value and the item afterwards. -/
def Create (w : CreateWorld) (item : Item) (guidlow itemid : Nat) (owner : Option Player) :
    Bool × Item :=
  let ownerGuid : ObjectGuid :=
    match owner with
    | some player => player.GUID
    | none => ObjectGuid.Empty
  let item1 : Item :=
    { item with
      GUID := { high := HighGuid.Item, counter := guidlow }
      Entry := itemid
      ITEM_FIELD_OWNER := ownerGuid
      ITEM_FIELD_CONTAINED := ownerGuid }
  match w.GetItemTemplate itemid with
  | none => (false, item1)
  | some itemProto =>
    (true,
      w.OnItemCreate
        { item1 with
          ITEM_FIELD_STACK_COUNT := 1
          ITEM_FIELD_MAXDURABILITY := itemProto.MaxDurability
          ITEM_FIELD_DURABILITY := itemProto.MaxDurability
          ITEM_FIELD_SPELL_CHARGES :=
            (List.range MAX_ITEM_PROTO_SPELLS).foldl
              (fun acc i => dataFieldSet 0 acc i (itemProto.SpellCharges.getD i 0))
              item1.ITEM_FIELD_SPELL_CHARGES
          ITEM_FIELD_DURATION := itemProto.Duration
          ITEM_FIELD_CREATE_PLAYED_TIME := 0 }
        itemProto owner)

/-- Source lines 611-653: `GenerateItemRandomPropertyId`; the result is an
`int32`. -/
def GenerateItemRandomPropertyId (w : CreateWorld) (item_id : Nat) : Int :=
  match w.GetItemTemplate item_id with
  | none => 0
  | some itemProto =>
    if itemProto.RandomProperty = 0 ∧ itemProto.RandomSuffix = 0 then 0
    else if itemProto.RandomProperty ≠ 0 ∧ itemProto.RandomSuffix ≠ 0 then 0
    else if itemProto.RandomProperty ≠ 0 then
      match w.LookupRandomProperties (w.GetItemEnchantMod itemProto.RandomProperty) with
      | none => 0
      | some random_id => wrap32 random_id.ID
    else
      match w.LookupRandomSuffix (w.GetItemEnchantMod itemProto.RandomSuffix) with
      | none => 0
      | some random_id => wrap32 (-(wrap32 random_id.ID))

/-- Source lines 669-670 and 686-687: the loop
`SetEnchantment(i, item_rand->Enchantment[i - PROP_ENCHANTMENT_SLOT_0], 0, 0)`
over the property slots `i` of the list. The owner is the result of
`GetOwner()`. -/
def setPropertyEnchantments (self : Nat) (Enchantment : List Nat) :
    List Nat → Item → Option Player → Option (Option Item × Option Player)
  | [], item, owner => some (some item, owner)
  | i :: rest, item, owner =>
    match SetEnchantment self item owner i (Enchantment.getD (i - PROP_ENCHANTMENT_SLOT_0) 0) 0 0
        ObjectGuid.Empty with
    | none => none
    | some (none, owner1) => some (none, owner1)
    | some (some item1, owner1) => setPropertyEnchantments self Enchantment rest item1 owner1

/-- The property slots `PROP_ENCHANTMENT_SLOT_0, ..., MAX_ENCHANTMENT_SLOT - 1`. -/
def propertySlots : List Nat :=
  List.range' PROP_ENCHANTMENT_SLOT_0 (MAX_ENCHANTMENT_SLOT - PROP_ENCHANTMENT_SLOT_0)

/-- Source lines 655-704: `SetItemRandomProperties(randomPropId)` for the
`int32` value `randomPropId`. The owner is the result of `GetOwner()`; the
suffix factor is the data field `ITEM_FIELD_PROPERTY_SEED`. -/
def SetItemRandomProperties (w : CreateWorld) (self : Nat) (item : Item) (owner : Option Player)
    (randomPropId : Int) : Option (Option Item × Option Player) :=
  if randomPropId = 0 then some (some item, owner)
  else if randomPropId > 0 then
    match w.LookupRandomProperties randomPropId.toNat with
    | none => some (some item, owner)
    | some item_rand =>
      let changed : Option Item × Option Player :=
        if item.ITEM_FIELD_RANDOM_PROPERTIES_ID ≠ wrap32 item_rand.ID then
          SetState self { item with ITEM_FIELD_RANDOM_PROPERTIES_ID := wrap32 item_rand.ID }
            ItemUpdateState.ITEM_CHANGED owner
        else (some item, owner)
      match changed with
      | (none, owner1) => some (none, owner1)
      | (some item1, owner1) =>
        setPropertyEnchantments self item_rand.Enchantment propertySlots item1 owner1
  else
    match w.LookupRandomSuffix (toU32 (-randomPropId)) with
    | none => some (some item, owner)
    | some item_rand =>
      let changed : Option Item × Option Player :=
        if item.ITEM_FIELD_RANDOM_PROPERTIES_ID ≠ wrap32 (-(wrap32 item_rand.ID)) ∨
            item.ITEM_FIELD_PROPERTY_SEED = 0 then
          SetState self
            (UpdateItemSuffixFactor w.toItemWorld
              { item with ITEM_FIELD_RANDOM_PROPERTIES_ID := wrap32 (-(wrap32 item_rand.ID)) })
            ItemUpdateState.ITEM_CHANGED owner
        else (some item, owner)
      match changed with
      | (none, owner1) => some (none, owner1)
      | (some item1, owner1) =>
        setPropertyEnchantments self item_rand.Enchantment propertySlots item1 owner1

/-- Source lines 1118-1121 of `CreateItem`: the random properties of the new
item `pItem` of template `item`. The value handed to
`SetItemRandomProperties` is the `uint32` of the conditional expression,
converted to `int32`. -/
def randomizeCreated (w : CreateWorld) (self : Nat) (pItem : Item) (owner : Option Player)
    (item : Nat) (clone : Bool) (randomPropertyId : Nat) : Option (Option Item × Option Player) :=
  if clone = false then
    SetItemRandomProperties w self pItem owner
      (wrap32
        (if randomPropertyId ≠ 0 then (randomPropertyId : Int)
          else (toU32 (GenerateItemRandomPropertyId w item) : Int)))
  else if randomPropertyId ≠ 0 then
    SetItemRandomProperties w self pItem owner (wrap32 randomPropertyId)
  else some (some pItem, owner)

/-- Source lines 1119 and 1129 of `CreateItem`: the pointer returned once
`SetItemRandomProperties` has run; `none` when that call has not returned or
has left no item. -/
def returnedItem (randomized : Option (Option Item × Option Player)) :
    Option (Option (Item × Option Player)) :=
  match randomized with
  | none => none
  | some (none, _) => none
  | some (some pItem1, owner1) => some (some (pItem1, owner1))

/-- Source lines 1100-1130: `CreateItem(item, count, player, clone,
randomPropertyId, temp)` at the game time `now`, for the address `self` of the
new instance. The argument `owner` is the result of `GetOwner()` for the new
item. The result is `none` when the call aborts (no template, or the
assertion of line 1111 fails); otherwise the returned pointer (`none` is
`nullptr`): the new item, with the owner afterwards. -/
def CreateItem (w : CreateWorld) (self : Nat) (now : Int) (item count : Nat)
    (player owner : Option Player) (clone : Bool) (randomPropertyId : Nat) (temp : Bool) :
    Option (Option (Item × Option Player)) :=
  if count < 1 then some none
  else
    match w.GetItemTemplate item with
    | none => none
    | some pProto =>
      let count1 := if count > pProto.MaxStackSize then pProto.MaxStackSize else count
      if count1 = 0 then none
      else
        let guid := if temp then 0xFFFFFFFF else w.Generate
        let created := Create w (newItem now) guid item player
        if created.1 then
          let pItem : Item := { created.2 with ITEM_FIELD_STACK_COUNT := count1 }
          returnedItem (randomizeCreated w self pItem owner item clone randomPropertyId)
        else some none

end Item

/-- A `CreateWorld` over `exampleItemWorld`, without random properties, whose
creation hook leaves the item as it is and whose guid generator yields `7`. -/
def exampleCreateWorld : CreateWorld :=
  { exampleItemWorld with
    LookupRandomProperties := fun _ => none
    LookupRandomSuffix := fun _ => none
    GetItemEnchantMod := fun _ => 0
    OnItemCreate := fun item _ _ => item
    Generate := 7 }

/-- The example item, refundable, bought for `100` by the player `9`, with a
created-played-time of `7000` seconds and last updated at game time `1000`. -/
def refundableItem : Item :=
  { exampleItem with
    ITEM_FIELD_FLAGS := ITEM_FIELD_FLAG_REFUNDABLE
    ITEM_FIELD_CREATE_PLAYED_TIME := 7000
    m_lastPlayedTimeUpdate := 1000
    m_refundRecipient := 9
    m_paidMoney := 100
    m_paidExtendedCost := 3 }

/-! # Item set aggregator of `Item.cpp` -/

/-- Modelled from the spec: the number `MAX_ITEM_SET_SPELLS` of spells an item
set can have, a constant of a header that is not among the sources. -/
def MAX_ITEM_SET_SPELLS : Nat := 8

/-- A row of the item-set catalog, with the members `Item.cpp` reads: the
spell ids and their trigger thresholds, element `x` read with default `0`,
and the skill requirement. -/
structure ItemSetEntry where
  spells : List Nat
  items_to_triggerspell : List Nat
  required_skill_id : Nat
  required_skill_value : Nat
deriving DecidableEq

/-- The collaborators of the item set aggregator, on top of those of
`ItemWorld`:

* `LookupItemSet` is `sItemSetStore.LookupEntry`;
* `GetSpellInfo` is `sSpellMgr->GetSpellInfo`;
* `GetSkillValue player skill` is `player->GetSkillValue(skill)`;
* `CanItemApplyEquipSpell` is the script hook of that name. -/
structure ItemSetWorld extends ItemWorld where
  LookupItemSet : Nat → Option ItemSetEntry
  GetSpellInfo : Nat → Option SpellInfo
  GetSkillValue : Player → Nat → Nat
  CanItemApplyEquipSpell : Player → Item → Bool

/-- Source lines 50-57 and 132-140: the first slot of `ItemSetEff` that holds a
record of the set `setid`, and that record. -/
def findSetEffect : List (Option ItemSetEffect) → Nat → Option (Nat × ItemSetEffect)
  | [], _ => none
  | none :: rest, setid => (findSetEffect rest setid).map (fun r => (r.1 + 1, r.2))
  | some eff :: rest, setid =>
    if eff.setid = setid then some (0, eff)
    else (findSetEffect rest setid).map (fun r => (r.1 + 1, r.2))

/-- Source lines 64-67: the first empty slot of `ItemSetEff`. -/
def firstEmptySlot : List (Option ItemSetEffect) → Option Nat
  | [] => none
  | none :: _ => some 0
  | some _ :: rest => (firstEmptySlot rest).map (fun x => x + 1)

/-- Source lines 85-87 and 152-154: the first spell slot `z` that holds a spell
of the id `id`, and that spell. -/
def findSetSpell : List (Option SpellInfo) → Nat → Option (Nat × SpellInfo)
  | [], _ => none
  | none :: rest, id => (findSetSpell rest id).map (fun r => (r.1 + 1, r.2))
  | some spell :: rest, id =>
    if spell.Id = id then some (0, spell)
    else (findSetSpell rest id).map (fun r => (r.1 + 1, r.2))

/-- Source lines 93-95: the first free spell slot `y`. -/
def firstFreeSpell : List (Option SpellInfo) → Option Nat
  | [] => none
  | none :: _ => some 0
  | some _ :: rest => (firstFreeSpell rest).map (fun y => y + 1)

/-- Source lines 77-113: the body of the spell loop of `AddItemsSetItem` for
the set spell `x`. The state of the loop is the record `eff`, which is the
element `e` of the vector `ItemSetEff` of the player `p0`, and the calls of
`ApplyEquipSpell` made on the player so far. -/
def addSetSpell (w : ItemSetWorld) (p0 : Player) (e : Nat) (item : Item) (set : ItemSetEntry)
    (st : ItemSetEffect × List (SpellInfo × Bool)) (x : Nat) :
    ItemSetEffect × List (SpellInfo × Bool) :=
  if set.spells.getD x 0 = 0 then st
  else if (set.items_to_triggerspell.getD x 0 : Int) > st.1.item_count then st
  else if (findSetSpell st.1.spells (set.spells.getD x 0)).isSome then st
  else
    match firstFreeSpell st.1.spells with
    | none => st
    | some y =>
      match w.GetSpellInfo (set.spells.getD x 0) with
      | none => st
      | some spellInfo =>
        ({ st.1 with spells := st.1.spells.set y (some spellInfo) },
          if w.CanItemApplyEquipSpell
              { p0 with ItemSetEff := p0.ItemSetEff.set e (some st.1), equipSpells := st.2 }
              item then
            st.2 ++ [(spellInfo, true)]
          else st.2)

/-- Source lines 46-72: the record of the set `setid` that `AddItemsSetItem`
works on, its slot in the vector, and the vector: the first record of the
set, or a new record put in the first empty slot, or at the end when no slot
is empty. -/
def locateSetEffect (ItemSetEff : List (Option ItemSetEffect)) (setid : Nat) :
    Nat × ItemSetEffect × List (Option ItemSetEffect) :=
  match findSetEffect ItemSetEff setid with
  | some (x, eff) => (x, eff, ItemSetEff)
  | none =>
    let eff : ItemSetEffect :=
      { setid := setid, item_count := 0, spells := List.replicate MAX_ITEM_SET_SPELLS none }
    match firstEmptySlot ItemSetEff with
    | some x => (x, eff, ItemSetEff.set x (some eff))
    | none => (ItemSetEff.length, eff, ItemSetEff ++ [some eff])

/-- Source lines 32-116: `AddItemsSetItem(player, item)`. The result is `none`
when the call dereferences a null template. -/
def AddItemsSetItem (w : ItemSetWorld) (player : Player) (item : Item) : Option Player :=
  match Item.GetTemplate w.toItemWorld item with
  | none => none
  | some proto =>
    let setid := proto.ItemSet
    match w.LookupItemSet setid with
    | none => some player
    | some set =>
      if set.required_skill_id ≠ 0 ∧
          w.GetSkillValue player set.required_skill_id < set.required_skill_value then
        some player
      else
        let located := locateSetEffect player.ItemSetEff setid
        let eff : ItemSetEffect :=
          { located.2.1 with item_count := located.2.1.item_count + 1 }
        let granted :=
          (List.range MAX_ITEM_SET_SPELLS).foldl
            (addSetSpell w { player with ItemSetEff := located.2.2 } located.1 item set)
            (eff, player.equipSpells)
        some { player with
          ItemSetEff := located.2.2.set located.1 (some granted.1)
          equipSpells := granted.2 }

/-- Source lines 144-161: the body of the spell loop of `RemoveItemsSetItem`
for the set spell `x`. The state of the loop is the record `eff` and the
calls of `ApplyEquipSpell` made on the player so far. -/
def removeSetSpell (set : ItemSetEntry) (st : ItemSetEffect × List (SpellInfo × Bool))
    (x : Nat) : ItemSetEffect × List (SpellInfo × Bool) :=
  if set.spells.getD x 0 = 0 then st
  else if (set.items_to_triggerspell.getD x 0 : Int) ≤ st.1.item_count then st
  else
    match findSetSpell st.1.spells (set.spells.getD x 0) with
    | none => st
    | some (z, spell) =>
      ({ st.1 with spells := st.1.spells.set z none }, st.2 ++ [(spell, false)])

/-- Source lines 118-169: `RemoveItemsSetItem(player, proto)` for a non-null
template. -/
def RemoveItemsSetItem (w : ItemSetWorld) (player : Player) (proto : ItemTemplate) : Player :=
  let setid := proto.ItemSet
  match w.LookupItemSet setid with
  | none => player
  | some set =>
    match findSetEffect player.ItemSetEff setid with
    | none => player
    | some (setindex, eff) =>
      let revoked :=
        (List.range MAX_ITEM_SET_SPELLS).foldl (removeSetSpell set)
          ({ eff with item_count := eff.item_count - 1 }, player.equipSpells)
      if revoked.1.item_count = 0 then
        { player with
          ItemSetEff := player.ItemSetEff.set setindex none
          equipSpells := revoked.2 }
      else
        { player with
          ItemSetEff := player.ItemSetEff.set setindex (some revoked.1)
          equipSpells := revoked.2 }

/-- The ids of the spells a record holds as granted, in slot order. -/
def grantedIds (spells : List (Option SpellInfo)) : List Nat :=
  spells.filterMap (fun s => s.map (fun spell => spell.Id))

/-- The spell ids of the `MAX_ITEM_SET_SPELLS` spells of a set. -/
def setSpells (set : ItemSetEntry) : List Nat :=
  (List.range MAX_ITEM_SET_SPELLS).map (fun x => set.spells.getD x 0)

/-- The representation invariant of the spell slots of a tracking record of
the set `set`: there are `MAX_ITEM_SET_SPELLS` slots, the granted spells have
different ids, and each is a spell of the set. -/
structure SpellsOK (set : ItemSetEntry) (spells : List (Option SpellInfo)) : Prop where
  slots : spells.length = MAX_ITEM_SET_SPELLS
  nodup : (grantedIds spells).Nodup
  listed : ∀ id, id ∈ grantedIds spells → id ∈ setSpells set

/-- The representation invariant of a tracking record of the set `set` that
the vector `ItemSetEff` holds: its spell slots are well formed and it counts
at least one item. -/
def EffOK (set : ItemSetEntry) (eff : ItemSetEffect) : Prop :=
  SpellsOK set eff.spells ∧ 1 ≤ eff.item_count

/-- A set with the spells `501` from two items and `502` from four items, and
no skill requirement. -/
def exampleSet : ItemSetEntry :=
  { spells := [501, 502, 0, 0, 0, 0, 0, 0]
    items_to_triggerspell := [2, 4, 0, 0, 0, 0, 0, 0]
    required_skill_id := 0
    required_skill_value := 0 }

/-- The world `exampleItemWorld` in which the template `100` belongs to no set
known and the template `300` is a piece of the set `9`, `exampleSet`; spells
resolve to themselves and can always be applied. -/
def exampleSetWorld : ItemSetWorld :=
  { exampleItemWorld with
    GetItemTemplate := fun id =>
      if id = 300 then some { exampleTemplate with ItemId := 300, ItemSet := 9 }
      else exampleItemWorld.GetItemTemplate id
    LookupItemSet := fun id => if id = 9 then some exampleSet else none
    GetSpellInfo := fun id => some { Id := id }
    GetSkillValue := fun _ _ => 0
    CanItemApplyEquipSpell := fun _ _ => true }

/-- A piece of the set `9`. -/
def setPiece : Item := { exampleItem with Entry := 300 }

/-- The player `9` with one piece of the set `9` equipped. -/
def onePiecePlayer : Player :=
  { examplePlayer with
    ItemSetEff :=
      [some { setid := 9, item_count := 1, spells := List.replicate MAX_ITEM_SET_SPELLS none }] }

/-- The player `9` with two pieces of the set `9` equipped and the spell `501`
granted. -/
def twoPiecePlayer : Player :=
  { examplePlayer with
    ItemSetEff :=
      [some { setid := 9, item_count := 2,
              spells := some { Id := 501 } :: List.replicate 7 none }]
    equipSpells := [({ Id := 501 }, true)] }

/-! ## Clearing an enchantment slot -/

namespace Item

/-- Source lines 954-962: `SetEnchantmentDuration(slot, duration, owner)`. The
result is the item afterwards and the owner afterwards. -/
def SetEnchantmentDuration (self : Nat) (item : Item) (slot duration : Nat)
    (owner : Option Player) : Option Item × Option Player :=
  if GetEnchantmentDuration item slot = duration then (some item, owner)
  else
    SetState self
      { item with
        ITEM_FIELD_ENCHANTMENT :=
          dataFieldSet 0 item.ITEM_FIELD_ENCHANTMENT
            (slot * MAX_ENCHANTMENT_OFFSET + ENCHANTMENT_DURATION_OFFSET) duration }
      ItemUpdateState.ITEM_CHANGED owner

/-- Source lines 964-971: `SetEnchantmentCharges(slot, charges)`. The argument
`owner` is the result of `GetOwner()`. -/
def SetEnchantmentCharges (self : Nat) (item : Item) (owner : Option Player)
    (slot charges : Nat) : Option Item × Option Player :=
  if GetEnchantmentCharges item slot = charges then (some item, owner)
  else
    SetState self
      { item with
        ITEM_FIELD_ENCHANTMENT :=
          dataFieldSet 0 item.ITEM_FIELD_ENCHANTMENT
            (slot * MAX_ENCHANTMENT_OFFSET + ENCHANTMENT_CHARGES_OFFSET) charges }
      ItemUpdateState.ITEM_CHANGED owner

/-- Source lines 973-981: `ClearEnchantment(slot)`. The argument `owner` is the
result of `GetOwner()`. -/
def ClearEnchantment (self : Nat) (item : Item) (owner : Option Player) (slot : Nat) :
    Option Item × Option Player :=
  if GetEnchantmentId item slot = 0 then (some item, owner)
  else
    SetState self
      { item with
        ITEM_FIELD_ENCHANTMENT :=
          (List.range MAX_SPELL_ITEM_ENCHANTMENT_EFFECTS).foldl
            (fun fields x => dataFieldSet 0 fields (slot * MAX_ENCHANTMENT_OFFSET + x) 0)
            item.ITEM_FIELD_ENCHANTMENT }
      ItemUpdateState.ITEM_CHANGED owner

end Item

/-- The example item after it has been saved and then marked for removal. -/
def removedItem : Item := { exampleItem with uState := ItemUpdateState.ITEM_REMOVED }

/-! ## Flag toggles by faction and by list id -/

/-- A row of the faction-template catalog, with the field `SetVisible` reads. -/
structure FactionTemplateEntry where
  faction : Nat
deriving DecidableEq

namespace ReputationMgr

/-- Source lines 475-485: `SetVisible(FactionEntry const*)`. -/
def SetVisibleFactionEntry (w : World) (m : ReputationMgr) (factionEntry : FactionEntry) :
    ReputationMgr :=
  if factionEntry.reputationListID < 0 then m
  else SetVisible w m (toU32 factionEntry.reputationListID)

/-- Source lines 464-473: `SetVisible(FactionTemplateEntry const*)`. -/
def SetVisibleFactionTemplate (w : World) (m : ReputationMgr)
    (factionTemplateEntry : FactionTemplateEntry) : ReputationMgr :=
  if factionTemplateEntry.faction = 0 then m
  else
    match w.LookupEntry factionTemplateEntry.faction with
    | none => m
    | some factionEntry =>
      if ¬ (((factionEntry.BaseRepRaceMask.getD 1 0) &&& w.raceMask) ≠ 0 ∧
          factionEntry.BaseRepValue.getD 1 0 = Reputation_Bottom) then
        SetVisibleFactionEntry w m factionEntry
      else m

/-- Source lines 507-518: `SetAtWar(RepListID, bool)`; `flag` is the argument
`on`. -/
def SetAtWarRepListID (m : ReputationMgr) (repListID : Nat) (flag : Bool) : ReputationMgr :=
  match m._factions.find repListID with
  | none => m
  | some faction =>
    if (faction.Flags &&& (FACTION_FLAG_INVISIBLE_FORCED ||| FACTION_FLAG_HIDDEN)) ≠ 0 then m
    else { m with _factions := m._factions.modify repListID (fun f => SetAtWar f flag) }

/-- Source lines 539-546: `SetInactive(RepListID, bool)`; `flag` is the argument
`on`. -/
def SetInactiveRepListID (m : ReputationMgr) (repListID : Nat) (flag : Bool) : ReputationMgr :=
  match m._factions.find repListID with
  | none => m
  | some _ => { m with _factions := m._factions.modify repListID (fun f => SetInactive f flag) }

/-- One for a faction state whose visible flag is set, zero otherwise. -/
def visibleIndicator (faction : FactionState) : Int :=
  if (faction.Flags &&& FACTION_FLAG_VISIBLE) ≠ 0 then 1 else 0

/-- The number of tracked factions whose visible flag is set. -/
def countVisible (l : FactionStateList) : Int :=
  ((l.filter (fun p => decide ((p.2.Flags &&& FACTION_FLAG_VISIBLE) ≠ 0))).length : Int)

/-- The ledger states reached from `Initialize` by `LoadFromDB`, the three
`SetVisible`, `SetAtWar` and `SetInactive` by list id,
`SetOneFactionReputation` and `SetReputation`. -/
inductive ReachableByCalls (w : World) : ReputationMgr → Prop where
  | init (m : ReputationMgr) : ReachableByCalls w (Initialize w m)
  | load (m : ReputationMgr) (rows : List ReputationRow) :
      ReachableByCalls w (LoadFromDB w m rows)
  | setVisible (m : ReputationMgr) (key : Nat) (hm : ReachableByCalls w m) :
      ReachableByCalls w (SetVisible w m key)
  | setVisibleFactionEntry (m : ReputationMgr) (factionEntry : FactionEntry)
      (hm : ReachableByCalls w m) : ReachableByCalls w (SetVisibleFactionEntry w m factionEntry)
  | setVisibleFactionTemplate (m : ReputationMgr) (factionTemplateEntry : FactionTemplateEntry)
      (hm : ReachableByCalls w m) :
      ReachableByCalls w (SetVisibleFactionTemplate w m factionTemplateEntry)
  | setAtWar (m : ReputationMgr) (repListID : Nat) (flag : Bool) (hm : ReachableByCalls w m) :
      ReachableByCalls w (SetAtWarRepListID m repListID flag)
  | setInactive (m : ReputationMgr) (repListID : Nat) (flag : Bool) (hm : ReachableByCalls w m) :
      ReachableByCalls w (SetInactiveRepListID m repListID flag)
  | setOne (m : ReputationMgr) (factionEntry : FactionEntry) (stand : F32) (incremental : Bool)
      (repMaxCap : Option Nat) (hm : ReachableByCalls w m) :
      ReachableByCalls w (SetOneFactionReputation w m factionEntry stand incremental repMaxCap).1
  | setReputation (m : ReputationMgr) (factionEntry : FactionEntry) (standing : F32)
      (incremental noSpillOver : Bool) (repMaxCap : Option Nat) (r : ReputationMgr × Bool)
      (hm : ReachableByCalls w m)
      (hr : SetReputation w m factionEntry standing incremental noSpillOver repMaxCap = some r) :
      ReachableByCalls w r.1

/-- A faction state that is peace-forced and not at war. -/
def peaceForcedAtPeace (faction : FactionState) : Prop :=
  (faction.Flags &&& FACTION_FLAG_PEACE_FORCED) ≠ 0 ∧ (faction.Flags &&& FACTION_FLAG_AT_WAR) = 0

/-- The ledger `exampleLedger` with the example faction visible, peace-forced
and not at war. -/
def peaceLedger : ReputationMgr :=
  { exampleLedger with
    _factions :=
      [(3, { ID := 21, ReputationListID := 3, Standing := 2500, Flags := 0x11, needSend := false,
             needSave := false, roundedUp := false })] }

/-- A persisted row that gives the example faction the standing `50000`. -/
def unboundedRow : ReputationRow := { faction := 21, standing := 50000, flags := 1 }

/-- The world `exampleWorld` with a spillover template for faction `21` whose
first slot names faction `21` itself, at rate `-1` and up to rank `Exalted`. -/
def negSpillWorld : World :=
  { exampleWorld with
    GetRepSpilloverTemplate := fun id =>
      if id = 21 then
        some { slots := [{ faction := 21, faction_rate := F32.finite (-1), faction_rank := 7 }] }
      else none }

end ReputationMgr

/-! ## Round trip of the item set aggregator -/

/-- The ids of the set spells that are due at the count `count`: those with an
id whose trigger threshold is at most `count`, in the order of the set. -/
def dueSpells (set : ItemSetEntry) (count : Int) : List Nat :=
  ((List.range MAX_ITEM_SET_SPELLS).filter
    (fun x => decide (set.spells.getD x 0 ≠ 0 ∧
      (set.items_to_triggerspell.getD x 0 : Int) ≤ count))).map
    (fun x => set.spells.getD x 0)

/-! # Theorems -/

namespace ReputationMgr

/-! ## Rank functions -/

/-- Closed form of `ReputationToRank` as a chain of threshold tests. -/
theorem ReputationToRank_eq (s : Int) :
    ReputationToRank s =
      if 42000 ≤ s then 7 else if 21000 ≤ s then 6 else if 9000 ≤ s then 5
      else if 3000 ≤ s then 4 else if 0 ≤ s then 3 else if -3000 ≤ s then 2
      else if -6000 ≤ s then 1 else 0 := by
  simp only [ReputationToRank, ReputationToRank.loop, MAX_REPUTATION_RANK, PointsInRank,
    Reputation_Cap, MIN_REPUTATION_RANK, List.getD_cons_succ, List.getD_cons_zero, ge_iff_le]
  norm_num

/-- The eight bands of `ReputationToRank`. -/
theorem ReputationToRank_cases (s : Int) :
    (ReputationToRank s = 7 ∧ 42000 ≤ s) ∨ (ReputationToRank s = 6 ∧ 21000 ≤ s ∧ s < 42000) ∨
    (ReputationToRank s = 5 ∧ 9000 ≤ s ∧ s < 21000) ∨
    (ReputationToRank s = 4 ∧ 3000 ≤ s ∧ s < 9000) ∨ (ReputationToRank s = 3 ∧ 0 ≤ s ∧ s < 3000) ∨
    (ReputationToRank s = 2 ∧ -3000 ≤ s ∧ s < 0) ∨
    (ReputationToRank s = 1 ∧ -6000 ≤ s ∧ s < -3000) ∨ (ReputationToRank s = 0 ∧ s < -6000) := by
  rw [ReputationToRank_eq]
  split_ifs <;> omega

/-- The values of `ReputationRankToStanding` on the eight ranks. -/
theorem ReputationRankToStanding_values :
    ReputationRankToStanding 0 = -6001 ∧ ReputationRankToStanding 1 = -3001 ∧
    ReputationRankToStanding 2 = -1 ∧ ReputationRankToStanding 3 = 2999 ∧
    ReputationRankToStanding 4 = 8999 ∧ ReputationRankToStanding 5 = 20999 ∧
    ReputationRankToStanding 6 = 41999 ∧ ReputationRankToStanding 7 = 42999 := by
  decide

/-- C1: for every standing `s` (every 32-bit one in particular),
`ReputationToRank s` is one of the eight ranks `Hated .. Exalted`; it is
`Hated` below `-42000`, and from `-42000` on it is the highest rank whose
lower boundary (`-42000, -6000, -3000, 0, 3000, 9000, 21000, 42000`) is at most
`s`: its own lower boundary is at most `s`, and every rank whose lower
boundary is at most `s` is at most it. In particular `-42000` is `Hated` and
`42999` is `Exalted`. -/
theorem ReputationToRank_highest_band (s : Int) :
    ReputationToRank s ≤ REP_EXALTED ∧
    (s < -42000 → ReputationToRank s = REP_HATED) ∧
    (-42000 ≤ s →
      rankLowerBoundary.getD (ReputationToRank s) 0 ≤ s ∧
      ∀ r : Nat, r ≤ REP_EXALTED → rankLowerBoundary.getD r 0 ≤ s →
        r ≤ ReputationToRank s) ∧
    ReputationToRank (-42000) = REP_HATED ∧ ReputationToRank 42999 = REP_EXALTED := by
  refine ⟨?_, ?_, ?_, by decide, by decide⟩
  · rw [ReputationToRank_eq]; unfold REP_EXALTED; split_ifs <;> omega
  · intro h; rw [ReputationToRank_eq]; unfold REP_HATED; split_ifs <;> omega
  · intro h
    refine ⟨?_, ?_⟩
    · rw [ReputationToRank_eq]
      unfold rankLowerBoundary
      split_ifs <;> simp <;> omega
    · intro r hr hb
      unfold REP_EXALTED at hr
      rw [ReputationToRank_eq]
      unfold rankLowerBoundary at hb
      interval_cases r <;> simp at hb <;> split_ifs <;> omega

/-- C2: `ReputationToRank` is monotonic non-decreasing in the standing. -/
theorem ReputationToRank_mono (s1 s2 : Int) (h : s1 ≤ s2) :
    ReputationToRank s1 ≤ ReputationToRank s2 := by
  rcases ReputationToRank_cases s1 with h1 | h1 | h1 | h1 | h1 | h1 | h1 | h1 <;>
    rcases ReputationToRank_cases s2 with h2 | h2 | h2 | h2 | h2 | h2 | h2 | h2 <;> omega

/-- Witness of C2 at the standings `-5` and `3000`. -/
theorem ReputationToRank_mono_witness :
    (-5 : Int) ≤ 3000 ∧ ReputationToRank (-5) ≤ ReputationToRank 3000 :=
  ⟨by decide, ReputationToRank_mono (-5) 3000 (by decide)⟩

/-- C3: for every standing `s`, `ReputationRankToStanding (ReputationToRank s)`
is the representative of the band of `s`: it has the rank of `s`, it lies
within the global bounds, it is at least `s` when `s ≤ 42999`, and it is the
largest standing within the global bounds that has the rank of `s`. -/
theorem ReputationRankToStanding_band_representative (s : Int) :
    ReputationToRank (ReputationRankToStanding (ReputationToRank s)) = ReputationToRank s ∧
    (Reputation_Bottom ≤ ReputationRankToStanding (ReputationToRank s) ∧
      ReputationRankToStanding (ReputationToRank s) ≤ Reputation_Cap) ∧
    (s ≤ 42999 → s ≤ ReputationRankToStanding (ReputationToRank s)) ∧
    ∀ t : Int, t ≤ 42999 → ReputationToRank t = ReputationToRank s →
      t ≤ ReputationRankToStanding (ReputationToRank s) := by
  obtain ⟨v0, v1, v2, v3, v4, v5, v6, v7⟩ := ReputationRankToStanding_values
  have key : ∀ t : Int, t ≤ 42999 → t ≤ ReputationRankToStanding (ReputationToRank t) := by
    intro t ht
    rw [ReputationToRank_eq]
    split_ifs <;> simp only [v0, v1, v2, v3, v4, v5, v6, v7] <;> omega
  refine ⟨?_, ?_, key s, ?_⟩
  · rw [ReputationToRank_eq s]
    split_ifs <;> simp only [v0, v1, v2, v3, v4, v5, v6, v7] <;> decide
  · rw [ReputationToRank_eq s]
    unfold Reputation_Bottom Reputation_Cap
    split_ifs <;> simp only [v0, v1, v2, v3, v4, v5, v6, v7] <;> omega
  · intro t ht hts
    rw [← hts]
    exact key t ht

/-- C4: for every rank `r` in `Hated .. Exalted`,
`ReputationRankToStanding r` is `-42000` plus the sum of `PointsInRank[0..r]`
minus one, that is `-6001, -3001, -1, 2999, 8999, 20999, 41999, 42999`; its
rank is `r`, and below `Exalted` the standing one above it has rank `r + 1`. -/
theorem ReputationRankToStanding_upper_boundary (r : Nat) (hr : r ≤ REP_EXALTED) :
    ReputationRankToStanding r = -42000 + (PointsInRank.take (r + 1)).sum - 1 ∧
    ReputationRankToStanding r = rankRepresentative.getD r 0 ∧
    ReputationToRank (ReputationRankToStanding r) = r ∧
    (r < REP_EXALTED → ReputationToRank (ReputationRankToStanding r + 1) = r + 1) := by
  unfold REP_EXALTED at hr ⊢
  interval_cases r <;> decide

/-- Witness of C4 at the rank `Honored`. -/
theorem ReputationRankToStanding_upper_boundary_witness :
    REP_HONORED ≤ REP_EXALTED ∧ ReputationRankToStanding REP_HONORED = 20999 ∧
    ReputationToRank (ReputationRankToStanding REP_HONORED + 1) = REP_REVERED :=
  ⟨by decide,
    (ReputationRankToStanding_upper_boundary REP_HONORED (by decide)).2.1.trans (by decide),
    (ReputationRankToStanding_upper_boundary REP_HONORED (by decide)).2.2.2 (by decide)⟩


/-! ## The faction map -/

theorem find_modify (l : FactionStateList) (key k : Nat) (g : FactionState → FactionState) :
    (l.modify key g).find k = if k = key then (l.find key).map g else l.find k := by
  induction l with
  | nil => simp [FactionStateList.modify, FactionStateList.find]
  | cons p rest ih =>
    obtain ⟨a, v⟩ := p
    by_cases ha : a = key
    · subst ha
      by_cases hk : a = k
      · subst hk; simp [FactionStateList.modify, FactionStateList.find]
      · have hk2 : ¬ k = a := fun h => hk h.symm
        simp [FactionStateList.modify, FactionStateList.find, hk, hk2]
    · by_cases hk : a = k
      · subst hk
        simp [FactionStateList.modify, FactionStateList.find, ha]
      · simp only [FactionStateList.modify, FactionStateList.find, ha, hk, if_false, ih]

theorem modify_modify (l : FactionStateList) (key : Nat) (g1 g2 : FactionState → FactionState) :
    (l.modify key g1).modify key g2 = l.modify key (fun f => g2 (g1 f)) := by
  induction l with
  | nil => rfl
  | cons p rest ih =>
    obtain ⟨a, v⟩ := p
    by_cases ha : a = key
    · simp [FactionStateList.modify, ha]
    · simp [FactionStateList.modify, ha, ih]

theorem modify_congr_of_find (l : FactionStateList) (key : Nat) (f : FactionState)
    (g1 g2 : FactionState → FactionState) (hf : l.find key = some f) (hg : g1 f = g2 f) :
    l.modify key g1 = l.modify key g2 := by
  induction l with
  | nil => rfl
  | cons p rest ih =>
    obtain ⟨a, v⟩ := p
    by_cases ha : a = key
    · simp only [FactionStateList.find, ha, if_true, Option.some.injEq] at hf
      subst hf
      simp [FactionStateList.modify, ha, hg]
    · simp only [FactionStateList.find, ha, if_false] at hf
      simp [FactionStateList.modify, ha, ih hf]

theorem modify_of_find_none (l : FactionStateList) (key : Nat) (g : FactionState → FactionState)
    (hf : l.find key = none) : l.modify key g = l := by
  induction l with
  | nil => rfl
  | cons p rest ih =>
    obtain ⟨a, v⟩ := p
    by_cases ha : a = key
    · simp [FactionStateList.find, ha] at hf
    · simp only [FactionStateList.find, ha, if_false] at hf
      simp [FactionStateList.modify, ha, ih hf]

theorem modify_id (l : FactionStateList) (key : Nat) : l.modify key (fun f => f) = l := by
  induction l with
  | nil => rfl
  | cons p rest ih =>
    obtain ⟨a, v⟩ := p
    by_cases ha : a = key
    · simp [FactionStateList.modify, ha]
    · simp [FactionStateList.modify, ha, ih]

/-- `SetVisible` changes the map by `visibleState` at the key. -/
theorem SetVisible_factions (w : World) (m : ReputationMgr) (key : Nat) :
    (SetVisible w m key)._factions = m._factions.modify key visibleState := by
  unfold SetVisible
  cases hf : m._factions.find key with
  | none => simp [modify_of_find_none _ _ _ hf]
  | some faction =>
    simp only
    by_cases h1 : (faction.Flags &&& (FACTION_FLAG_INVISIBLE_FORCED ||| FACTION_FLAG_HIDDEN)) ≠ 0 ∧
        (faction.Flags &&& FACTION_FLAG_SPECIAL) = 0
    · rw [if_pos h1]
      rw [modify_congr_of_find _ key faction visibleState (fun f => f) hf (by simp [visibleState, h1]),
        modify_id]
    · rw [if_neg h1]
      by_cases h2 : (faction.Flags &&& FACTION_FLAG_VISIBLE) ≠ 0
      · rw [if_pos h2]
        rw [modify_congr_of_find _ key faction visibleState (fun f => f) hf
          (by simp [visibleState, h1, h2]), modify_id]
      · rw [if_neg h2]
        unfold SendVisible
        have : (visibleState faction) = { faction with
            Flags := faction.Flags ||| FACTION_FLAG_VISIBLE, needSend := true, needSave := true } := by
          simp [visibleState, h1, h2]
        split_ifs <;> exact modify_congr_of_find _ key faction _ _ hf this.symm

/-! ## `SetOneFactionReputation`, branch by branch -/

theorem UpdateRankCounters_factions (m : ReputationMgr) (a b : Nat) :
    (UpdateRankCounters m a b)._factions = m._factions := rfl

theorem toggledState_true : toggledState true = fun f => { f with roundedUp := !f.roundedUp } := by
  funext f; simp [toggledState]

theorem toggledState_false : toggledState false = fun f => f := by
  funext f; simp [toggledState]

/-- The ledger after the rounding block. -/
theorem rounding_block_eq (m : ReputationMgr) (key : Nat) (r : Bool) :
    (if r = true then
        ({ m with
            _factions :=
              m._factions.modify key (fun f => { f with roundedUp := !f.roundedUp }) } :
          ReputationMgr)
      else m) =
      { m with _factions := m._factions.modify key (toggledState r) } := by
  cases r
  · simp [toggledState_false, modify_id]
  · simp [toggledState_true]

/-- An untracked faction: the call fails and changes nothing. -/
theorem SetOneFactionReputation_untracked (w : World) (m : ReputationMgr)
    (factionEntry : FactionEntry) (stand : F32) (incremental : Bool) (repMaxCap : Option Nat)
    (hf : m._factions.find (toU32 factionEntry.reputationListID) = none) :
    SetOneFactionReputation w m factionEntry stand incremental repMaxCap = (m, false) := by
  unfold SetOneFactionReputation
  simp only [hf]

/-- A vetoed call on a tracked faction: the call fails, and the ledger is the
one on entry with the rounding block applied to the target. -/
theorem SetOneFactionReputation_vetoed (w : World) (m : ReputationMgr)
    (factionEntry : FactionEntry) (stand : F32) (incremental : Bool) (repMaxCap : Option Nat)
    (itr : FactionState)
    (hf : m._factions.find (toU32 factionEntry.reputationListID) = some itr)
    (hveto : (w.OnPlayerReputationChange factionEntry.ID
      (applyRankCap repMaxCap (candidateStanding w itr (GetBaseReputation w factionEntry)
        (scaledStand w factionEntry stand incremental) incremental)).1 incremental).1 = false) :
    SetOneFactionReputation w m factionEntry stand incremental repMaxCap =
      ({ m with
          _factions := m._factions.modify (toU32 factionEntry.reputationListID)
            (toggledState (roundingMade (scaledStand w factionEntry stand incremental))) },
        false) := by
  unfold SetOneFactionReputation
  simp only [hf, hveto, rounding_block_eq]
  simp

/-- An allowed call on a tracked faction: the call succeeds and the map
changes by `awardedState` at the target. -/
theorem SetOneFactionReputation_allowed (w : World) (m : ReputationMgr)
    (factionEntry : FactionEntry) (stand : F32) (incremental : Bool) (repMaxCap : Option Nat)
    (itr : FactionState)
    (hf : m._factions.find (toU32 factionEntry.reputationListID) = some itr)
    (hok : (w.OnPlayerReputationChange factionEntry.ID
      (applyRankCap repMaxCap (candidateStanding w itr (GetBaseReputation w factionEntry)
        (scaledStand w factionEntry stand incremental) incremental)).1 incremental).1 = true) :
    (SetOneFactionReputation w m factionEntry stand incremental repMaxCap).2 = true ∧
    (SetOneFactionReputation w m factionEntry stand incremental repMaxCap).1._factions =
      m._factions.modify (toU32 factionEntry.reputationListID)
        (awardedState factionEntry
          (ReputationToRank (wrap32 (itr.Standing + GetBaseReputation w factionEntry)))
          (applyRankCap repMaxCap (candidateStanding w itr (GetBaseReputation w factionEntry)
            (scaledStand w factionEntry stand incremental) incremental)).2
          (roundingMade (scaledStand w factionEntry stand incremental))
          (wrap32 ((w.OnPlayerReputationChange factionEntry.ID
            (applyRankCap repMaxCap (candidateStanding w itr (GetBaseReputation w factionEntry)
              (scaledStand w factionEntry stand incremental) incremental)).1 incremental).2 -
            GetBaseReputation w factionEntry))) := by
  unfold SetOneFactionReputation
  simp only [hf, hok, if_true, UpdateRankCounters_factions, true_and, rounding_block_eq]
  unfold awardedState
  split_ifs <;> simp only [SetVisible_factions, modify_modify]

/-! ## Arithmetic of the award -/

theorem abs_sub_truncQ_lt_one (q : ℚ) : |q - (F32.truncQ q : ℚ)| < 1 := by
  unfold F32.truncQ
  rw [abs_lt]
  split_ifs with h
  · have h1 := Int.floor_le q
    have h2 := Int.lt_floor_add_one q
    constructor <;> linarith
  · have h1 := Int.le_ceil q
    have h2 := Int.ceil_lt_add_one q
    constructor <;> linarith

/-- The rounding block runs for every `stand` that is a number. -/
theorem roundingMade_eq (x : F32) : roundingMade x = !x.isNaN := by
  cases x with
  | nan => rfl
  | inf n => simp [roundingMade, F32.modff, F32.fabs, F32.lt, F32.isNaN]
  | finite q =>
    simp only [roundingMade, F32.modff, F32.fabs, F32.lt, F32.isNaN, Bool.not_false,
      decide_eq_true_eq]
    exact abs_sub_truncQ_lt_one q

theorem wrap32_of_range (x : Int) (h1 : -2147483648 ≤ x) (h2 : x ≤ 2147483647) :
    wrap32 x = x := by
  unfold wrap32; omega

theorem wrap32_sub_add (s b : Int) (h1 : -2147483648 ≤ s) (h2 : s ≤ 2147483647) :
    wrap32 (wrap32 (s - b) + b) = s := by
  unfold wrap32; omega

theorem clampStanding_bounds (x : Int) :
    Reputation_Bottom ≤ clampStanding x ∧ clampStanding x ≤ Reputation_Cap := by
  unfold clampStanding Reputation_Bottom Reputation_Cap
  split_ifs <;> omega

theorem candidateStanding_bounds (w : World) (itr : FactionState) (b : Int) (stand : F32)
    (inc : Bool) :
    Reputation_Bottom ≤ candidateStanding w itr b stand inc ∧
      candidateStanding w itr b stand inc ≤ Reputation_Cap :=
  clampStanding_bounds _

/-- The representative standing of a rank has that rank. -/
theorem rank_of_representative (r : Nat) (hr : r ≤ 7) :
    ReputationToRank (ReputationRankToStanding r) = r := by
  interval_cases r <;> decide

theorem representative_bounds (r : Nat) (hr : r ≤ 7) :
    Reputation_Bottom ≤ ReputationRankToStanding r ∧
      ReputationRankToStanding r ≤ Reputation_Cap := by
  interval_cases r <;> decide

theorem applyRankCap_bounds (repMaxCap : Option Nat) (x : Int)
    (hcap : ∀ c, repMaxCap = some c → c ≤ REP_EXALTED)
    (hx : Reputation_Bottom ≤ x ∧ x ≤ Reputation_Cap) :
    Reputation_Bottom ≤ (applyRankCap repMaxCap x).1 ∧
      (applyRankCap repMaxCap x).1 ≤ Reputation_Cap := by
  unfold applyRankCap
  cases repMaxCap with
  | none => exact hx
  | some c =>
    have hc : c ≤ 7 := hcap c rfl
    simp only
    split_ifs
    · exact representative_bounds c hc
    · exact hx

theorem SetAtWar_Standing (f : FactionState) (b : Bool) : (SetAtWar f b).Standing = f.Standing := by
  unfold SetAtWar; split_ifs <;> rfl

theorem visibleState_Standing (f : FactionState) : (visibleState f).Standing = f.Standing := by
  unfold visibleState; split_ifs <;> rfl

theorem awardedState_Standing (fe : FactionEntry) (o n : Nat) (r : Bool) (s : Int)
    (f : FactionState) : (awardedState fe o n r s f).Standing = s := by
  unfold awardedState
  split_ifs <;> simp [SetAtWar_Standing, visibleState_Standing]

/-- A successful call was made on a tracked faction and was allowed by the hook. -/
theorem SetOneFactionReputation_success (w : World) (m : ReputationMgr)
    (factionEntry : FactionEntry) (stand : F32) (incremental : Bool) (repMaxCap : Option Nat)
    (hok : (SetOneFactionReputation w m factionEntry stand incremental repMaxCap).2 = true) :
    ∃ itr, m._factions.find (toU32 factionEntry.reputationListID) = some itr ∧
      (w.OnPlayerReputationChange factionEntry.ID
        (applyRankCap repMaxCap (candidateStanding w itr (GetBaseReputation w factionEntry)
          (scaledStand w factionEntry stand incremental) incremental)).1 incremental).1 = true := by
  cases hf : m._factions.find (toU32 factionEntry.reputationListID) with
  | none =>
    rw [SetOneFactionReputation_untracked w m factionEntry stand incremental repMaxCap hf] at hok
    simp at hok
  | some itr =>
    refine ⟨itr, rfl, ?_⟩
    by_contra hv
    simp only [Bool.not_eq_true] at hv
    rw [SetOneFactionReputation_vetoed w m factionEntry stand incremental repMaxCap itr hf hv]
      at hok
    simp at hok

/-- The total standing after a successful call is the value the hook left in
`standing`, when that is an `int32`. -/
theorem totalStanding_after_success (w : World) (m : ReputationMgr)
    (factionEntry : FactionEntry) (stand : F32) (incremental : Bool) (repMaxCap : Option Nat)
    (itr : FactionState)
    (hf : m._factions.find (toU32 factionEntry.reputationListID) = some itr)
    (hok : (w.OnPlayerReputationChange factionEntry.ID
      (applyRankCap repMaxCap (candidateStanding w itr (GetBaseReputation w factionEntry)
        (scaledStand w factionEntry stand incremental) incremental)).1 incremental).1 = true)
    (v : Int)
    (hv : (w.OnPlayerReputationChange factionEntry.ID
      (applyRankCap repMaxCap (candidateStanding w itr (GetBaseReputation w factionEntry)
        (scaledStand w factionEntry stand incremental) incremental)).1 incremental).2 = v)
    (h1 : -2147483648 ≤ v) (h2 : v ≤ 2147483647) :
    totalStanding w (SetOneFactionReputation w m factionEntry stand incremental repMaxCap).1
      factionEntry = v := by
  have h := (SetOneFactionReputation_allowed w m factionEntry stand incremental repMaxCap itr
    hf hok).2
  unfold totalStanding
  rw [h, find_modify, if_pos rfl, hf]
  simp only [Option.map_some', awardedState_Standing, hv]
  exact wrap32_sub_add v _ h1 h2


/-! ## Standing bounds, rank cap and veto -/

/-- C5: after every successful `SetOneFactionReputation` call with a hook
that does not alter the value, for any delta, mode and optional rank cap
(a rank `Hated .. Exalted`), the faction is tracked and its total standing
(base standing plus stored `Standing`, the `int32` sum the ledger computes)
lies in `[-42000, 42999]`; when the base standing is at most `2147440648` in
absolute value the sum does not wrap, and base standing plus stored
`Standing` lies in `[-42000, 42999]` as integers. -/
theorem SetOneFactionReputation_total_in_bounds (w : World) (m : ReputationMgr)
    (factionEntry : FactionEntry) (stand : F32) (incremental : Bool) (repMaxCap : Option Nat)
    (hcap : ∀ c, repMaxCap = some c → c ≤ REP_EXALTED)
    (hhook : ∀ id standing inc, (w.OnPlayerReputationChange id standing inc).2 = standing)
    (hok : (SetOneFactionReputation w m factionEntry stand incremental repMaxCap).2 = true) :
    (∃ state,
      (SetOneFactionReputation w m factionEntry stand incremental repMaxCap).1._factions.find
        (toU32 factionEntry.reputationListID) = some state ∧
      ((-2147440648 ≤ GetBaseReputation w factionEntry ∧
          GetBaseReputation w factionEntry ≤ 2147440648) →
        Reputation_Bottom ≤ GetBaseReputation w factionEntry + state.Standing ∧
          GetBaseReputation w factionEntry + state.Standing ≤ Reputation_Cap)) ∧
    Reputation_Bottom ≤
      totalStanding w (SetOneFactionReputation w m factionEntry stand incremental repMaxCap).1
        factionEntry ∧
    totalStanding w (SetOneFactionReputation w m factionEntry stand incremental repMaxCap).1
        factionEntry ≤ Reputation_Cap := by
  obtain ⟨itr, hf, hallow⟩ :=
    SetOneFactionReputation_success w m factionEntry stand incremental repMaxCap hok
  have hb := applyRankCap_bounds repMaxCap
    (candidateStanding w itr (GetBaseReputation w factionEntry)
      (scaledStand w factionEntry stand incremental) incremental) hcap
    (candidateStanding_bounds _ _ _ _ _)
  have hb1 := hb.1
  have hb2 := hb.2
  unfold Reputation_Bottom at hb1
  unfold Reputation_Cap at hb2
  have ht := totalStanding_after_success w m factionEntry stand incremental repMaxCap itr hf
    hallow _ (hhook _ _ _) (by omega) (by omega)
  refine ⟨?_, ?_, ?_⟩
  · rw [(SetOneFactionReputation_allowed w m factionEntry stand incremental repMaxCap itr hf
      hallow).2, find_modify, if_pos rfl, hf]
    refine ⟨_, rfl, ?_⟩
    intro hbase
    rw [awardedState_Standing, hhook, wrap32_of_range _ (by omega) (by omega)]
    unfold Reputation_Bottom Reputation_Cap
    constructor <;> omega
  · rw [ht]; exact hb.1
  · rw [ht]; exact hb.2

/-- Witness of C5: an incremental award of `10` with cap `Honored` on the
example ledger. -/
theorem SetOneFactionReputation_total_in_bounds_witness :
    (SetOneFactionReputation exampleWorld exampleLedger exampleFaction (F32.finite 10) true
      (some REP_HONORED)).2 = true ∧
    Reputation_Bottom ≤
      totalStanding exampleWorld
        (SetOneFactionReputation exampleWorld exampleLedger exampleFaction (F32.finite 10) true
          (some REP_HONORED)).1 exampleFaction ∧
    totalStanding exampleWorld
        (SetOneFactionReputation exampleWorld exampleLedger exampleFaction (F32.finite 10) true
          (some REP_HONORED)).1 exampleFaction ≤ Reputation_Cap :=
  ⟨by decide,
    (SetOneFactionReputation_total_in_bounds exampleWorld exampleLedger exampleFaction
      (F32.finite 10) true (some REP_HONORED)
      (by intro c hc; cases hc; decide) (fun _ _ _ => rfl) (by decide)).2⟩

/-- C6, as the code has it: the hook of line 427 receives the capped standing
by reference and line 429 stores what the hook left. In the world whose hook
allows every change and leaves `42999`, setting the example faction to
`40000` with the cap `Honored` succeeds; the clamped candidate `40000` has a
rank above the cap, yet the resulting total standing is `42999`, not
`ReputationRankToStanding Honored = 20999`, and the resulting rank is
`Exalted`, above the cap. -/
theorem SetOneFactionReputation_rank_cap_overridden_by_hook :
    (SetOneFactionReputation rewriteWorld exampleLedger exampleFaction (F32.finite 40000) false
      (some REP_HONORED)).2 = true ∧
    ReputationToRank (candidateStanding rewriteWorld
      { ID := 21, ReputationListID := 3, Standing := 2500, Flags := 1, needSend := false,
        needSave := false, roundedUp := false }
      (GetBaseReputation rewriteWorld exampleFaction)
      (scaledStand rewriteWorld exampleFaction (F32.finite 40000) false) false) > REP_HONORED ∧
    ReputationRankToStanding REP_HONORED = 20999 ∧
    totalStanding rewriteWorld
      (SetOneFactionReputation rewriteWorld exampleLedger exampleFaction (F32.finite 40000) false
        (some REP_HONORED)).1 exampleFaction = 42999 ∧
    ReputationToRank
      (totalStanding rewriteWorld
        (SetOneFactionReputation rewriteWorld exampleLedger exampleFaction (F32.finite 40000)
          false (some REP_HONORED)).1 exampleFaction) = REP_EXALTED ∧
    ¬ ReputationToRank
      (totalStanding rewriteWorld
        (SetOneFactionReputation rewriteWorld exampleLedger exampleFaction (F32.finite 40000)
          false (some REP_HONORED)).1 exampleFaction) ≤ REP_HONORED := by
  decide!

/-- C6, amended: for every successful `SetOneFactionReputation` call with a
rank cap `c` (a rank `Hated .. Exalted`) and a hook that does not alter the
value: if the clamped candidate total standing has a rank greater than `c`,
the resulting total standing is exactly `ReputationRankToStanding c`,
otherwise it is the clamped candidate; in every case the resulting rank is at
most `c`. -/
theorem SetOneFactionReputation_rank_cap (w : World) (m : ReputationMgr)
    (factionEntry : FactionEntry) (stand : F32) (incremental : Bool) (c : Nat)
    (hc : c ≤ REP_EXALTED)
    (hhook : ∀ id standing inc, (w.OnPlayerReputationChange id standing inc).2 = standing)
    (hok : (SetOneFactionReputation w m factionEntry stand incremental (some c)).2 = true) :
    ∃ itr, m._factions.find (toU32 factionEntry.reputationListID) = some itr ∧
      (ReputationToRank (candidateStanding w itr (GetBaseReputation w factionEntry)
          (scaledStand w factionEntry stand incremental) incremental) > c →
        totalStanding w (SetOneFactionReputation w m factionEntry stand incremental (some c)).1
          factionEntry = ReputationRankToStanding c) ∧
      (¬ ReputationToRank (candidateStanding w itr (GetBaseReputation w factionEntry)
          (scaledStand w factionEntry stand incremental) incremental) > c →
        totalStanding w (SetOneFactionReputation w m factionEntry stand incremental (some c)).1
          factionEntry =
          candidateStanding w itr (GetBaseReputation w factionEntry)
            (scaledStand w factionEntry stand incremental) incremental) ∧
      ReputationToRank
        (totalStanding w (SetOneFactionReputation w m factionEntry stand incremental (some c)).1
          factionEntry) ≤ c := by
  obtain ⟨itr, hf, hallow⟩ :=
    SetOneFactionReputation_success w m factionEntry stand incremental (some c) hok
  have hcap : ∀ c1, some c = some c1 → c1 ≤ REP_EXALTED := by
    intro c1 h; cases h; exact hc
  have hb := applyRankCap_bounds (some c)
    (candidateStanding w itr (GetBaseReputation w factionEntry)
      (scaledStand w factionEntry stand incremental) incremental) hcap
    (candidateStanding_bounds _ _ _ _ _)
  have hb1 := hb.1
  have hb2 := hb.2
  unfold Reputation_Bottom at hb1
  unfold Reputation_Cap at hb2
  have ht := totalStanding_after_success w m factionEntry stand incremental (some c) itr hf
    hallow _ (hhook _ _ _) (by omega) (by omega)
  refine ⟨itr, hf, ?_, ?_, ?_⟩
  · intro hgt
    rw [ht]
    simp [applyRankCap, hgt]
  · intro hle
    rw [ht]
    simp only [applyRankCap, if_neg hle]
  · rw [ht]
    unfold applyRankCap
    simp only
    split_ifs with hgt
    · exact le_of_eq (rank_of_representative c hc)
    · exact not_lt.mp hgt

/-- Witness of C6, amended: an award of `40000` to the example faction (total `3000`)
with cap `Honored` ends at `20999`. -/
theorem SetOneFactionReputation_rank_cap_witness :
    REP_HONORED ≤ REP_EXALTED ∧
    ∃ itr, exampleLedger._factions.find (toU32 exampleFaction.reputationListID) = some itr ∧
      (ReputationToRank (candidateStanding exampleWorld itr
          (GetBaseReputation exampleWorld exampleFaction)
          (scaledStand exampleWorld exampleFaction (F32.finite 40000) false) false) > REP_HONORED →
        totalStanding exampleWorld
          (SetOneFactionReputation exampleWorld exampleLedger exampleFaction (F32.finite 40000)
            false (some REP_HONORED)).1 exampleFaction =
          ReputationRankToStanding REP_HONORED) ∧
      (¬ ReputationToRank (candidateStanding exampleWorld itr
          (GetBaseReputation exampleWorld exampleFaction)
          (scaledStand exampleWorld exampleFaction (F32.finite 40000) false) false) > REP_HONORED →
        totalStanding exampleWorld
          (SetOneFactionReputation exampleWorld exampleLedger exampleFaction (F32.finite 40000)
            false (some REP_HONORED)).1 exampleFaction =
          candidateStanding exampleWorld itr (GetBaseReputation exampleWorld exampleFaction)
            (scaledStand exampleWorld exampleFaction (F32.finite 40000) false) false) ∧
      ReputationToRank
        (totalStanding exampleWorld
          (SetOneFactionReputation exampleWorld exampleLedger exampleFaction (F32.finite 40000)
            false (some REP_HONORED)).1 exampleFaction) ≤ REP_HONORED :=
  ⟨by decide,
    SetOneFactionReputation_rank_cap exampleWorld exampleLedger exampleFaction (F32.finite 40000)
      false REP_HONORED (by decide) (fun _ _ _ => rfl) (by decide)⟩


theorem toggledState_core (r : Bool) (f : FactionState) : coreFields (toggledState r f) = coreFields f := by
  cases r <;> rfl

theorem toggledState_roundedUp (r : Bool) (f : FactionState) :
    (toggledState r f).roundedUp = (if r then !f.roundedUp else f.roundedUp) := by
  cases r <;> rfl

/-- C7, as the code has it: the hook's veto undoes nothing of the rounding
block, which has run before the hook is asked. For a world whose hook vetoes,
an award of `10` to the example faction fails and leaves the faction's
`roundedUp` toggle flipped. -/
theorem SetOneFactionReputation_veto_flips_toggle :
    (SetOneFactionReputation vetoWorld exampleLedger exampleFaction (F32.finite 10) true none).2 =
      false ∧
    ((SetOneFactionReputation vetoWorld exampleLedger exampleFaction (F32.finite 10) true
        none).1._factions.find 3).map (fun f => f.roundedUp) ≠
      (exampleLedger._factions.find 3).map (fun f => f.roundedUp) := by
  with_unfolding_all decide

/-- C7, amended: when the policy hook vetoes the change,
`SetOneFactionReputation` returns failure; the ledger's visible, honored,
revered and exalted counters, its "increased" flag and its sent packets are
as before the call; every faction's `ID`, `ReputationListID`, `Standing`,
`Flags`, `needSend` and `needSave` are as before; every faction other than
the target is as before altogether. The target's `roundedUp` toggle is not
kept: it is flipped whenever the scaled delta is a number. -/
theorem SetOneFactionReputation_veto_frame (w : World) (m : ReputationMgr)
    (factionEntry : FactionEntry) (stand : F32) (incremental : Bool) (repMaxCap : Option Nat)
    (hveto : ∀ id standing inc, (w.OnPlayerReputationChange id standing inc).1 = false) :
    (SetOneFactionReputation w m factionEntry stand incremental repMaxCap).2 = false ∧
    (SetOneFactionReputation w m factionEntry stand incremental repMaxCap).1._visibleFactionCount =
      m._visibleFactionCount ∧
    (SetOneFactionReputation w m factionEntry stand incremental repMaxCap).1._honoredFactionCount =
      m._honoredFactionCount ∧
    (SetOneFactionReputation w m factionEntry stand incremental repMaxCap).1._reveredFactionCount =
      m._reveredFactionCount ∧
    (SetOneFactionReputation w m factionEntry stand incremental repMaxCap).1._exaltedFactionCount =
      m._exaltedFactionCount ∧
    (SetOneFactionReputation w m factionEntry stand incremental repMaxCap).1._sendFactionIncreased =
      m._sendFactionIncreased ∧
    (SetOneFactionReputation w m factionEntry stand incremental repMaxCap).1.sent = m.sent ∧
    (∀ k,
      ((SetOneFactionReputation w m factionEntry stand incremental repMaxCap).1._factions.find
        k).map coreFields = (m._factions.find k).map coreFields) ∧
    (∀ k, k ≠ toU32 factionEntry.reputationListID →
      (SetOneFactionReputation w m factionEntry stand incremental repMaxCap).1._factions.find k =
        m._factions.find k) ∧
    ((SetOneFactionReputation w m factionEntry stand incremental repMaxCap).1._factions.find
        (toU32 factionEntry.reputationListID)).map (fun f => f.roundedUp) =
      (m._factions.find (toU32 factionEntry.reputationListID)).map (fun f =>
        if (scaledStand w factionEntry stand incremental).isNaN then f.roundedUp
        else !f.roundedUp) := by
  cases hf : m._factions.find (toU32 factionEntry.reputationListID) with
  | none =>
    rw [SetOneFactionReputation_untracked w m factionEntry stand incremental repMaxCap hf]
    simp [hf]
  | some itr =>
    rw [SetOneFactionReputation_vetoed w m factionEntry stand incremental repMaxCap itr hf
      (hveto _ _ _)]
    refine ⟨rfl, rfl, rfl, rfl, rfl, rfl, rfl, ?_, ?_, ?_⟩
    · intro k
      simp only [find_modify]
      split_ifs with hk
      · subst hk
        simp [hf, toggledState_core]
      · rfl
    · intro k hk
      simp only [find_modify, if_neg hk]
    · simp only [find_modify, if_true, hf, Option.map_some', toggledState_roundedUp,
        roundingMade_eq]
      cases (scaledStand w factionEntry stand incremental).isNaN <;> simp

/-- Witness of the amended C7 in the vetoing world. -/
theorem SetOneFactionReputation_veto_frame_witness :
    (SetOneFactionReputation vetoWorld exampleLedger exampleFaction (F32.finite 10) true none).2 =
      false ∧
    ((SetOneFactionReputation vetoWorld exampleLedger exampleFaction (F32.finite 10) true
        none).1._factions.find 3).map coreFields =
      (exampleLedger._factions.find 3).map coreFields :=
  ⟨(SetOneFactionReputation_veto_frame vetoWorld exampleLedger exampleFaction (F32.finite 10) true
      none (fun _ _ _ => rfl)).1,
    (SetOneFactionReputation_veto_frame vetoWorld exampleLedger exampleFaction (F32.finite 10) true
      none (fun _ _ _ => rfl)).2.2.2.2.2.2.2.1 3⟩


/-! ## Alternating rounding -/

theorem SetAtWar_roundedUp (f : FactionState) (b : Bool) :
    (SetAtWar f b).roundedUp = f.roundedUp := by
  unfold SetAtWar; split_ifs <;> rfl

theorem visibleState_roundedUp (f : FactionState) :
    (visibleState f).roundedUp = f.roundedUp := by
  unfold visibleState; split_ifs <;> rfl

theorem awardedState_roundedUp (fe : FactionEntry) (o n : Nat) (r : Bool) (s : Int)
    (f : FactionState) :
    (awardedState fe o n r s f).roundedUp = (if r then !f.roundedUp else f.roundedUp) := by
  rw [← toggledState_roundedUp]
  unfold awardedState
  split_ifs <;> simp [SetAtWar_roundedUp, visibleState_roundedUp]

theorem find_map_snd (l : FactionStateList) (g : FactionState → FactionState) (k : Nat) :
    FactionStateList.find (l.map (fun p => (p.1, g p.2))) k = (l.find k).map g := by
  induction l with
  | nil => rfl
  | cons p rest ih =>
    obtain ⟨a, v⟩ := p
    by_cases ha : a = k
    · simp [FactionStateList.find, ha]
    · simp only [List.map, FactionStateList.find, ha, if_false]
      exact ih

/-- `SendState` changes no field of a faction but `needSend`. -/
theorem SendState_find (m : ReputationMgr) (faction : FactionState) (k : Nat) :
    (SendState m faction)._factions.find k =
      (m._factions.find k).map
        (fun f => if f.needSend then { f with needSend := false } else f) := by
  unfold SendState
  simp only
  rw [← find_map_snd]
  congr 1
  apply List.map_congr_left
  intro p _
  split_ifs <;> rfl

theorem SendState_find_Standing (m : ReputationMgr) (faction : FactionState) (k : Nat) :
    ((SendState m faction)._factions.find k).map (fun f => f.Standing) =
      (m._factions.find k).map (fun f => f.Standing) := by
  rw [SendState_find, Option.map_map]
  congr 1
  funext f
  simp only [Function.comp]
  split_ifs <;> rfl

/-- `SetOneFactionReputation` leaves every faction but its target as it is. -/
theorem SetOneFactionReputation_find_other (w : World) (m : ReputationMgr)
    (factionEntry : FactionEntry) (stand : F32) (incremental : Bool) (repMaxCap : Option Nat)
    (k : Nat) (hk : k ≠ toU32 factionEntry.reputationListID) :
    (SetOneFactionReputation w m factionEntry stand incremental repMaxCap).1._factions.find k =
      m._factions.find k := by
  cases hf : m._factions.find (toU32 factionEntry.reputationListID) with
  | none => rw [SetOneFactionReputation_untracked w m factionEntry stand incremental repMaxCap hf]
  | some itr =>
    by_cases hallow : (w.OnPlayerReputationChange factionEntry.ID
      (applyRankCap repMaxCap (candidateStanding w itr (GetBaseReputation w factionEntry)
        (scaledStand w factionEntry stand incremental) incremental)).1 incremental).1 = true
    · rw [(SetOneFactionReputation_allowed w m factionEntry stand incremental repMaxCap itr hf
        hallow).2, find_modify, if_neg hk]
    · simp only [Bool.not_eq_true] at hallow
      rw [SetOneFactionReputation_vetoed w m factionEntry stand incremental repMaxCap itr hf
        hallow]
      simp only [find_modify, if_neg hk]

/-- C9: every `SetReputation` call with `noSpillOver = true` returns, and the
stored `Standing` of every faction other than the target (every map element
under another reputation-list id) is unchanged, whatever spillover template
or team list the world configures for the target. -/
theorem SetReputation_noSpillOver_frame (w : World) (m : ReputationMgr)
    (factionEntry : FactionEntry) (standing : F32) (incremental : Bool)
    (repMaxCap : Option Nat) :
    ∃ r, SetReputation w m factionEntry standing incremental true repMaxCap = some r ∧
      ∀ k, k ≠ toU32 factionEntry.reputationListID →
        (r.1._factions.find k).map (fun f => f.Standing) =
          (m._factions.find k).map (fun f => f.Standing) := by
  unfold SetReputation
  simp only [Bool.true_eq_false, if_false]
  cases hf : m._factions.find (toU32 factionEntry.reputationListID) with
  | none => exact ⟨_, rfl, fun _ _ => rfl⟩
  | some itr =>
    simp only
    have hother : ∀ k, k ≠ toU32 factionEntry.reputationListID →
        ((if capExceeded repMaxCap (GetRank w m (some factionEntry)) = false then
            SetOneFactionReputation w m factionEntry standing incremental repMaxCap
          else (m, false)).1._factions.find k) = m._factions.find k := by
      intro k hk
      split_ifs
      · exact SetOneFactionReputation_find_other w m factionEntry standing incremental repMaxCap
          k hk
      · rfl
    cases hf2 : (if capExceeded repMaxCap (GetRank w m (some factionEntry)) = false then
            SetOneFactionReputation w m factionEntry standing incremental repMaxCap
          else (m, false)).1._factions.find (toU32 factionEntry.reputationListID) with
    | none =>
      refine ⟨_, rfl, ?_⟩
      intro k hk
      rw [hother k hk]
    | some faction =>
      refine ⟨_, rfl, ?_⟩
      intro k hk
      rw [SendState_find_Standing, hother k hk]


/-- The rank of a faction depends on the ledger through the map element of the
faction's reputation-list id only. -/
theorem GetRank_congr (w : World) (m m1 : ReputationMgr) (factionEntry : FactionEntry)
    (h : m1._factions.find (toU32 factionEntry.reputationListID) =
      m._factions.find (toU32 factionEntry.reputationListID)) :
    GetRank w m1 (some factionEntry) = GetRank w m (some factionEntry) := by
  unfold GetRank GetReputation GetState
  simp only [h]

/-- The template loop leaves the map element under `key` as it is when no
slot resolves to a faction of that reputation-list id. -/
theorem spilloverTemplateLoop_find (w : World) (standing : F32) (incremental : Bool) (key : Nat)
    (slots : List SpilloverSlot)
    (hslots : ∀ slot, slot ∈ slots → ∀ e, w.LookupEntry slot.faction = some e →
      toU32 e.reputationListID ≠ key)
    (m m1 : ReputationMgr)
    (h : spilloverTemplateLoop w standing incremental slots m = some m1) :
    m1._factions.find key = m._factions.find key := by
  induction slots generalizing m with
  | nil =>
    simp only [spilloverTemplateLoop, Option.some.injEq] at h
    rw [← h]
  | cons slot rest ih =>
    have hrest : ∀ s, s ∈ rest → ∀ e, w.LookupEntry s.faction = some e →
        toU32 e.reputationListID ≠ key :=
      fun s hs => hslots s (List.mem_cons_of_mem _ hs)
    unfold spilloverTemplateLoop at h
    split_ifs at h with hc
    · cases he : w.LookupEntry slot.faction with
      | none => simp [he] at h
      | some target =>
        simp only [he] at h
        rw [ih hrest _ h]
        exact SetOneFactionReputation_find_other w m target _ incremental none key
          (fun hk => hslots slot (List.mem_cons_self _ _) target he hk.symm)
    · exact ih hrest _ h

/-- The team loop leaves the map element under the target's key as it is when
no other catalog faction has the target's reputation-list id. -/
theorem spilloverTeamLoop_find (w : World) (factionEntry : FactionEntry) (out : F32)
    (incremental : Bool)
    (hteam : ∀ id e, w.LookupEntry id = some e → e.ID ≠ factionEntry.ID →
      toU32 e.reputationListID ≠ toU32 factionEntry.reputationListID)
    (ids : List Nat) (s : ReputationMgr × Bool) :
    (spilloverTeamLoop w factionEntry out incremental ids s).1._factions.find
        (toU32 factionEntry.reputationListID) =
      s.1._factions.find (toU32 factionEntry.reputationListID) := by
  induction ids generalizing s with
  | nil => rfl
  | cons id rest ih =>
    unfold spilloverTeamLoop
    cases he : w.LookupEntry id with
    | none => exact ih s
    | some fc =>
      simp only
      split_ifs with h1 h2
      · exact ih s
      · rw [ih]
        have hne : fc.ID ≠ factionEntry.ID := fun hid => h1 (Or.inl hid)
        exact SetOneFactionReputation_find_other w s.1 fc _ incremental none _
          (fun hk => hteam id fc he hne hk.symm)
      · exact ih s

theorem spilloverTeam_find (w : World) (m : ReputationMgr) (factionEntry : FactionEntry)
    (out : F32) (incremental : Bool)
    (hteam : ∀ id e, w.LookupEntry id = some e → e.ID ≠ factionEntry.ID →
      toU32 e.reputationListID ≠ toU32 factionEntry.reputationListID)
    (flist : Option (List Nat)) :
    (spilloverTeam w m factionEntry out incremental flist).1._factions.find
        (toU32 factionEntry.reputationListID) =
      m._factions.find (toU32 factionEntry.reputationListID) := by
  unfold spilloverTeam
  cases flist with
  | none => rfl
  | some ids => exact spilloverTeamLoop_find w factionEntry out incremental hteam ids (m, false)

/-- The spillover block leaves the target's map element as it is when no
recipient resolves to it. -/
theorem spillover_find (w : World) (m : ReputationMgr) (factionEntry : FactionEntry)
    (standing : F32) (incremental : Bool)
    (hslots : ∀ t, w.GetRepSpilloverTemplate factionEntry.ID = some t →
      ∀ slot, slot ∈ t.slots → ∀ e, w.LookupEntry slot.faction = some e →
        toU32 e.reputationListID ≠ toU32 factionEntry.reputationListID)
    (hparent : ∀ p, w.LookupEntry factionEntry.team = some p →
      toU32 p.reputationListID ≠ toU32 factionEntry.reputationListID)
    (hteam : ∀ id e, w.LookupEntry id = some e → e.ID ≠ factionEntry.ID →
      toU32 e.reputationListID ≠ toU32 factionEntry.reputationListID)
    (r : ReputationMgr × Bool) (h : spillover w m factionEntry standing incremental = some r) :
    r.1._factions.find (toU32 factionEntry.reputationListID) =
      m._factions.find (toU32 factionEntry.reputationListID) := by
  unfold spillover at h
  cases ht : w.GetRepSpilloverTemplate factionEntry.ID with
  | some t =>
    simp only [ht, Option.map_eq_some'] at h
    obtain ⟨m1, hm1, rfl⟩ := h
    exact spilloverTemplateLoop_find w standing incremental _ t.slots (hslots t ht) m m1 hm1
  | none =>
    simp only [ht] at h
    split_ifs at h with hc
    · cases hp : w.LookupEntry factionEntry.team with
      | none =>
        simp only [hp, Option.some.injEq] at h
        rw [← h]
      | some parent =>
        simp only [hp] at h
        split_ifs at h with hs
        · simp only [Option.some.injEq] at h
          rw [← h]
          exact SetOneFactionReputation_find_other w m parent _ incremental none _
            (fun hk => hparent parent hp hk.symm)
        · simp only [Option.some.injEq] at h
          rw [← h]
          exact spilloverTeam_find w m factionEntry _ incremental hteam _
    · simp only [Option.some.injEq] at h
      rw [← h]
      exact spilloverTeam_find w m factionEntry _ incremental hteam _


/-- The template loop returns when every slot it uses resolves in the catalog. -/
theorem spilloverTemplateLoop_returns (w : World) (standing : F32) (incremental : Bool)
    (slots : List SpilloverSlot)
    (hres : ∀ slot, slot ∈ slots → slot.faction ≠ 0 → ∃ e, w.LookupEntry slot.faction = some e)
    (m : ReputationMgr) :
    ∃ m1, spilloverTemplateLoop w standing incremental slots m = some m1 := by
  induction slots generalizing m with
  | nil => exact ⟨m, rfl⟩
  | cons slot rest ih =>
    have hrest : ∀ s, s ∈ rest → s.faction ≠ 0 → ∃ e, w.LookupEntry s.faction = some e :=
      fun s hs => hres s (List.mem_cons_of_mem _ hs)
    unfold spilloverTemplateLoop
    split_ifs with hc
    · obtain ⟨e, he⟩ := hres slot (List.mem_cons_self _ _) hc.1
      simp only [he]
      exact ih hrest _
    · exact ih hrest _

/-- The spillover block returns when every template slot it uses resolves in
the catalog. -/
theorem spillover_returns (w : World) (m : ReputationMgr) (factionEntry : FactionEntry)
    (standing : F32) (incremental : Bool)
    (hres : ∀ t, w.GetRepSpilloverTemplate factionEntry.ID = some t →
      ∀ slot, slot ∈ t.slots → slot.faction ≠ 0 → ∃ e, w.LookupEntry slot.faction = some e) :
    ∃ r, spillover w m factionEntry standing incremental = some r := by
  unfold spillover
  cases ht : w.GetRepSpilloverTemplate factionEntry.ID with
  | some t =>
    obtain ⟨m1, hm1⟩ := spilloverTemplateLoop_returns w standing incremental t.slots (hres t ht) m
    simp only [hm1]
    exact ⟨_, rfl⟩
  | none =>
    simp only
    split_ifs
    · cases w.LookupEntry factionEntry.team with
      | none => exact ⟨_, rfl⟩
      | some parent =>
        simp only
        split_ifs <;> exact ⟨_, rfl⟩
    · exact ⟨_, rfl⟩

/-- The update of the target itself is skipped when its rank after the
spillover block exceeds the cap: the call returns the ledger after
spillover, reported to the client. -/
theorem SetReputation_after_spill (w : World) (m m1 : ReputationMgr) (res : Bool)
    (factionEntry : FactionEntry) (standing : F32) (incremental noSpillOver : Bool) (c : Nat)
    (hspill : (if noSpillOver = false then spillover w m factionEntry standing incremental
      else some (m, false)) = some (m1, res))
    (hcur : GetRank w m1 (some factionEntry) > c) :
    ∃ r, SetReputation w m factionEntry standing incremental noSpillOver (some c) = some r ∧
      ∀ k, (r.1._factions.find k).map (fun f => f.Standing) =
        (m1._factions.find k).map (fun f => f.Standing) := by
  unfold SetReputation
  simp only [hspill]
  have hex : capExceeded (some c) (GetRank w m1 (some factionEntry)) = true := by
    simp [capExceeded, hcur]
  simp only [hex, Bool.true_eq_false, if_false]
  cases hf : m1._factions.find (toU32 factionEntry.reputationListID) with
  | none => exact ⟨_, rfl, fun _ => rfl⟩
  | some faction =>
    simp only
    exact ⟨_, rfl, fun k => SendState_find_Standing m1 faction k⟩

/-- C10, as the code has it: the spillover block runs before the cap test and
may update the target itself. In a world whose spillover template for the
example faction names that faction as its own recipient, a capped award of
`100` to the faction, whose rank `Friendly` exceeds the cap `Neutral`, moves
its stored `Standing` from `2500` to `2600`. -/
theorem SetReputation_capped_target_moved_by_own_spillover :
    GetRank selfSpillWorld exampleLedger (some exampleFaction) > REP_NEUTRAL ∧
    (exampleLedger._factions.find 3).map (fun f => f.Standing) = some 2500 ∧
    (SetReputation selfSpillWorld exampleLedger exampleFaction (F32.finite 100) true false
      (some REP_NEUTRAL)).map (fun r => (r.1._factions.find 3).map (fun f => f.Standing)) =
      some (some 2600) := by
  decide!

/-- C10, amended: for every `SetReputation` call with a rank cap `c` on a
target faction whose current rank already exceeds `c`, the target's own
stored `Standing` is left untouched by the call (spillover to other factions
may still be applied), provided no spillover recipient is the target's own
ledger entry: no slot of its spillover template and no parent team resolves
to a faction with the target's reputation-list id, and no other catalog
faction has that id. The call returns when every template slot it uses
resolves in the catalog. -/
theorem SetReputation_capped_target_untouched (w : World) (m : ReputationMgr)
    (factionEntry : FactionEntry) (standing : F32) (incremental noSpillOver : Bool) (c : Nat)
    (hcur : GetRank w m (some factionEntry) > c)
    (hslots : ∀ t, w.GetRepSpilloverTemplate factionEntry.ID = some t →
      ∀ slot, slot ∈ t.slots → ∀ e, w.LookupEntry slot.faction = some e →
        toU32 e.reputationListID ≠ toU32 factionEntry.reputationListID)
    (hparent : ∀ p, w.LookupEntry factionEntry.team = some p →
      toU32 p.reputationListID ≠ toU32 factionEntry.reputationListID)
    (hteam : ∀ id e, w.LookupEntry id = some e → e.ID ≠ factionEntry.ID →
      toU32 e.reputationListID ≠ toU32 factionEntry.reputationListID) :
    (∀ r, SetReputation w m factionEntry standing incremental noSpillOver (some c) = some r →
      (r.1._factions.find (toU32 factionEntry.reputationListID)).map (fun f => f.Standing) =
        (m._factions.find (toU32 factionEntry.reputationListID)).map (fun f => f.Standing)) ∧
    ((∀ t, w.GetRepSpilloverTemplate factionEntry.ID = some t →
        ∀ slot, slot ∈ t.slots → slot.faction ≠ 0 → ∃ e, w.LookupEntry slot.faction = some e) →
      ∃ r, SetReputation w m factionEntry standing incremental noSpillOver (some c) = some r) := by
  have hkey : ∀ m1 res,
      (if noSpillOver = false then spillover w m factionEntry standing incremental
        else some (m, false)) = some (m1, res) →
      m1._factions.find (toU32 factionEntry.reputationListID) =
        m._factions.find (toU32 factionEntry.reputationListID) := by
    intro m1 res h
    split_ifs at h
    · exact spillover_find w m factionEntry standing incremental hslots hparent hteam (m1, res) h
    · simp only [Option.some.injEq, Prod.mk.injEq] at h
      rw [← h.1]
  constructor
  · intro r hr
    cases hs : (if noSpillOver = false then spillover w m factionEntry standing incremental
        else some (m, false)) with
    | none =>
      unfold SetReputation at hr
      simp [hs] at hr
    | some p =>
      obtain ⟨m1, res⟩ := p
      have hfind := hkey m1 res hs
      have hcur1 : GetRank w m1 (some factionEntry) > c := by
        rw [GetRank_congr w m m1 factionEntry hfind]; exact hcur
      obtain ⟨r1, hr1, hst⟩ := SetReputation_after_spill w m m1 res factionEntry standing
        incremental noSpillOver c hs hcur1
      rw [hr1, Option.some.injEq] at hr
      rw [← hr, hst, hfind]
  · intro hres
    have hsome : ∃ p, (if noSpillOver = false then
        spillover w m factionEntry standing incremental else some (m, false)) = some p := by
      split_ifs
      · exact spillover_returns w m factionEntry standing incremental hres
      · exact ⟨_, rfl⟩
    obtain ⟨⟨m1, res⟩, hs⟩ := hsome
    have hfind := hkey m1 res hs
    have hcur1 : GetRank w m1 (some factionEntry) > c := by
      rw [GetRank_congr w m m1 factionEntry hfind]; exact hcur
    obtain ⟨r1, hr1, _⟩ := SetReputation_after_spill w m m1 res factionEntry standing
      incremental noSpillOver c hs hcur1
    exact ⟨r1, hr1⟩

/-- Witness of the amended C10: in a world whose spillover template for the
example faction names a second faction, a capped award of `100` to the example
faction (rank `Friendly`, cap `Neutral`) returns, leaves the stored `Standing`
of the example faction untouched and moves the recipient's from `0` to `100`. -/
theorem SetReputation_capped_target_untouched_witness :
    GetRank spillWorld twoFactionLedger (some exampleFaction) > REP_NEUTRAL ∧
    (∃ r, SetReputation spillWorld twoFactionLedger exampleFaction (F32.finite 100) true false
        (some REP_NEUTRAL) = some r ∧
      (r.1._factions.find (toU32 exampleFaction.reputationListID)).map (fun f => f.Standing) =
        (twoFactionLedger._factions.find (toU32 exampleFaction.reputationListID)).map
          (fun f => f.Standing)) ∧
    (SetReputation spillWorld twoFactionLedger exampleFaction (F32.finite 100) true false
      (some REP_NEUTRAL)).map (fun r => (r.1._factions.find 4).map (fun f => f.Standing)) =
      some (some 100) := by
  have h := SetReputation_capped_target_untouched spillWorld twoFactionLedger exampleFaction
    (F32.finite 100) true false REP_NEUTRAL (by decide)
    (by
      intro t ht slot hs e he
      simp only [spillWorld, exampleFaction, if_true, Option.some.injEq] at ht
      subst ht
      simp only [List.mem_singleton] at hs
      subst hs
      simp only [spillWorld, if_true, Option.some.injEq, show ¬ (22 = 21) by decide,
        if_false] at he
      subst he
      decide)
    (by
      intro p hp
      simp [spillWorld, exampleFaction] at hp)
    (by
      intro id e he hne
      simp only [spillWorld] at he
      split_ifs at he
      · simp only [Option.some.injEq] at he
        subst he
        exact absurd rfl hne
      · simp only [Option.some.injEq] at he
        subst he
        decide)
  obtain ⟨r, hr⟩ := h.2 (by
    intro t ht slot hs _
    simp only [spillWorld, exampleFaction, if_true, Option.some.injEq] at ht
    subst ht
    simp only [List.mem_singleton] at hs
    subst hs
    exact ⟨exampleRecipient, rfl⟩)
  exact ⟨by decide, ⟨r, hr, h.1 r hr⟩, by decide!⟩

end ReputationMgr

namespace Item

/-! ## Persistence state machine of an item -/

theorem AddToUpdateQueueOf_queued (self : Nat) (item : Item) (player : Player)
    (hq : IsInUpdateQueue item = true) : AddToUpdateQueueOf self item player = (item, player) := by
  unfold AddToUpdateQueueOf
  rw [if_pos hq]

theorem AddToUpdateQueueOf_unqueued (self : Nat) (item : Item) (player : Player)
    (hq : item.uQueuePos = -1) (hown : player.GUID = item.ITEM_FIELD_OWNER)
    (hblock : player.m_itemUpdateQueueBlocked = false) :
    AddToUpdateQueueOf self item player =
      ({ item with uQueuePos := (player.m_itemUpdateQueue.length : Int) },
        { player with m_itemUpdateQueue := player.m_itemUpdateQueue ++ [some self] }) := by
  have hnq : IsInUpdateQueue item = false := by simp [IsInUpdateQueue, hq]
  unfold AddToUpdateQueueOf
  simp [hnq, hown, hblock]

/-- A call `SetState(state, player)` with a state other than `ITEM_UNCHANGED`
that does not delete the item sets `uState` and enqueues. -/
theorem SetState_alive (self : Nat) (item : Item) (player : Player) (state : ItemUpdateState)
    (hs : state ≠ ItemUpdateState.ITEM_UNCHANGED)
    (hnr : ¬ (item.uState = ItemUpdateState.ITEM_NEW ∧ state = ItemUpdateState.ITEM_REMOVED)) :
    SetState self item state (some player) =
      (some (AddToUpdateQueueOf self { item with uState := nextState item.uState state } player).1,
        some (AddToUpdateQueueOf self { item with uState := nextState item.uState state }
          player).2) := by
  unfold SetState
  rw [if_neg hnr, if_pos hs]
  by_cases hn : item.uState = ItemUpdateState.ITEM_NEW
  · have hns : nextState item.uState state = item.uState := by
      simp [nextState, hs, hn]
    rw [hns, if_neg (fun h => h hn)]
  · have hns : nextState item.uState state = state := by
      simp [nextState, hs, hn]
    rw [hns, if_pos hn]

/-- C11, as the code has it: `RemoveFromUpdateQueueOf` returns early when the
owner's queue is blocked (line 777). An item in state `ITEM_NEW` that is
queued at index `0` of its owner's blocked queue is deleted by
`SetState(ITEM_REMOVED, owner)` while its entry in the queue is not nulled. -/
theorem SetState_new_removed_keeps_entry_when_blocked :
    queuedItem.uState = ItemUpdateState.ITEM_NEW ∧
    blockedPlayer.GUID = queuedItem.ITEM_FIELD_OWNER ∧
    blockedPlayer.m_itemUpdateQueue.get? queuedItem.uQueuePos.toNat = some (some 5) ∧
    (SetState 5 queuedItem ItemUpdateState.ITEM_REMOVED (some blockedPlayer)).1 = none ∧
    ((SetState 5 queuedItem ItemUpdateState.ITEM_REMOVED (some blockedPlayer)).2).map
      (fun p => p.m_itemUpdateQueue) = some [some 5] := by
  decide

/-- C11, amended: for an item and its owner, `SetState(ITEM_REMOVED, owner)`
on an item in state `ITEM_NEW` deletes the instance at once and nulls its
entry in the owner's pending-save queue if it was queued and the queue is not
blocked (the queue is left as it is otherwise); the call takes and appends to
no transaction. On an item in state `ITEM_CHANGED` that is queued it only
sets the state to `ITEM_REMOVED`: the item stays alive with its marker, and
the owner and the queue stay as they are. The following `SaveToDB` appends
the delete statement to the transaction and deletes the instance. -/
theorem SetState_removed_lifecycle (self : Nat) (item : Item) (owner : Player)
    (trans : Option (List Statement)) :
    (item.uState = ItemUpdateState.ITEM_NEW → owner.GUID = item.ITEM_FIELD_OWNER →
      (SetState self item ItemUpdateState.ITEM_REMOVED (some owner)).1 = none ∧
      ∃ owner1, (SetState self item ItemUpdateState.ITEM_REMOVED (some owner)).2 = some owner1 ∧
        owner1.m_itemUpdateQueue =
          (if IsInUpdateQueue item = true ∧ owner.m_itemUpdateQueueBlocked = false then
            owner.m_itemUpdateQueue.set item.uQueuePos.toNat none
          else owner.m_itemUpdateQueue)) ∧
    (item.uState = ItemUpdateState.ITEM_CHANGED → IsInUpdateQueue item = true →
      SetState self item ItemUpdateState.ITEM_REMOVED (some owner) =
        (some { item with uState := ItemUpdateState.ITEM_REMOVED }, some owner)) ∧
    (item.uState = ItemUpdateState.ITEM_REMOVED →
      (SaveToDB self item trans).item = none ∧
      (SaveToDB self item trans).trans =
        trans.getD [] ++ [Statement.CHAR_DEL_ITEM_INSTANCE item.GUID.counter] ++
          (if IsWrapped item then [Statement.CHAR_DEL_GIFT item.GUID.counter] else [])) := by
  refine ⟨?_, ?_, ?_⟩
  · intro hnew hown
    simp only [SetState, hnew, true_and, if_true]
    refine ⟨_, rfl, ?_⟩
    simp only [DeleteRefundReference, RemoveFromUpdateQueueOf, hown]
    by_cases hq : IsInUpdateQueue item = true
    · by_cases hb : owner.m_itemUpdateQueueBlocked = true
      · simp [hq, hb]
      · simp [hq, hb]
    · simp [hq]
  · intro hch hq
    rw [SetState_alive self item owner _ (by decide) (by simp [hch]),
      AddToUpdateQueueOf_queued self
        { item with uState := nextState item.uState ItemUpdateState.ITEM_REMOVED } owner hq]
    simp [nextState, hch]
  · intro hrem
    simp [SaveToDB, hrem]

/-- A queued item stays as queued as it is: a call `SetState(state, player)`
with a state other than `ITEM_UNCHANGED` that does not delete the item
changes nothing but `uState`, and leaves the player as it is. -/
theorem SetState_queued (self : Nat) (item : Item) (player : Player) (state : ItemUpdateState)
    (hq : IsInUpdateQueue item = true) (hs : state ≠ ItemUpdateState.ITEM_UNCHANGED)
    (hnr : ¬ (item.uState = ItemUpdateState.ITEM_NEW ∧ state = ItemUpdateState.ITEM_REMOVED)) :
    SetState self item state (some player) =
      (some { item with uState := nextState item.uState state }, some player) := by
  rw [SetState_alive self item player state hs hnr,
    AddToUpdateQueueOf_queued self { item with uState := nextState item.uState state } player hq]

/-- A run of calls on a queued item leaves the marker and the player as they
are. -/
theorem setStateRun_queued (self : Nat) (states : List ItemUpdateState) (item : Item)
    (player : Player) (hq : IsInUpdateQueue item = true)
    (hs : ∀ s, s ∈ states → s ≠ ItemUpdateState.ITEM_UNCHANGED)
    (hnr : noNewToRemoved item.uState states = true) :
    ∃ item1, setStateRun self states item player = some (item1, player) ∧
      item1.uQueuePos = item.uQueuePos := by
  induction states generalizing item with
  | nil => exact ⟨item, rfl, rfl⟩
  | cons s rest ih =>
    simp only [noNewToRemoved, Bool.and_eq_true, Bool.not_eq_true', decide_eq_false_iff_not] at hnr
    have hs1 := hs s (List.mem_cons_self _ _)
    rw [setStateRun, SetState_queued self item player s hq hs1 hnr.1]
    simp only
    obtain ⟨item1, h1, h2⟩ := ih { item with uState := nextState item.uState s } hq
      (fun t ht => hs t (List.mem_cons_of_mem _ ht)) hnr.2
    exact ⟨item1, h1, h2⟩

/-- C12: for an item that is not queued (its marker is `-1` and its address is
not in the queue) and whose owner is the given player with an unblocked
queue, after any non-empty sequence of `SetState(state, player)` calls with
states other than `ITEM_UNCHANGED`, none of which meets the item in state
`ITEM_NEW` with `ITEM_REMOVED`, the item is alive, occurs exactly once in the
owner's pending-save queue, the queue has grown by exactly one entry, at its
end, and the item's marker is the index of that entry. -/
theorem SetState_enqueue_idempotent (self : Nat) (states : List ItemUpdateState) (item : Item)
    (player : Player) (hne : states ≠ [])
    (hs : ∀ s, s ∈ states → s ≠ ItemUpdateState.ITEM_UNCHANGED)
    (hnr : noNewToRemoved item.uState states = true)
    (hq : item.uQueuePos = -1) (habsent : some self ∉ player.m_itemUpdateQueue)
    (hown : player.GUID = item.ITEM_FIELD_OWNER)
    (hblock : player.m_itemUpdateQueueBlocked = false) :
    ∃ item1 player1, setStateRun self states item player = some (item1, player1) ∧
      player1.m_itemUpdateQueue = player.m_itemUpdateQueue ++ [some self] ∧
      player1.m_itemUpdateQueue.count (some self) = 1 ∧
      player1.m_itemUpdateQueue.length = player.m_itemUpdateQueue.length + 1 ∧
      item1.uQueuePos = (player.m_itemUpdateQueue.length : Int) ∧
      player1.m_itemUpdateQueue.get? item1.uQueuePos.toNat = some (some self) := by
  cases states with
  | nil => exact absurd rfl hne
  | cons s rest =>
    simp only [noNewToRemoved, Bool.and_eq_true, Bool.not_eq_true', decide_eq_false_iff_not] at hnr
    have hs1 := hs s (List.mem_cons_self _ _)
    have hfirst : SetState self item s (some player) =
        (some { item with
            uState := nextState item.uState s
            uQueuePos := (player.m_itemUpdateQueue.length : Int) },
          some { player with m_itemUpdateQueue := player.m_itemUpdateQueue ++ [some self] }) := by
      rw [SetState_alive self item player s hs1 hnr.1,
        AddToUpdateQueueOf_unqueued self { item with uState := nextState item.uState s } player
          hq hown hblock]
    rw [setStateRun, hfirst]
    simp only
    obtain ⟨item1, h1, h2⟩ := setStateRun_queued self rest
      { item with
        uState := nextState item.uState s
        uQueuePos := (player.m_itemUpdateQueue.length : Int) }
      { player with m_itemUpdateQueue := player.m_itemUpdateQueue ++ [some self] }
      (by simp [IsInUpdateQueue])
      (fun t ht => hs t (List.mem_cons_of_mem _ ht)) hnr.2
    refine ⟨item1, _, h1, rfl, ?_, ?_, h2, ?_⟩
    · simp [List.count_append, List.count_eq_zero_of_not_mem habsent]
    · simp
    · rw [h2]
      simp

/-- Witness of C12: the calls `ITEM_CHANGED, ITEM_REMOVED, ITEM_CHANGED` on an
unqueued item in state `ITEM_UNCHANGED` at address `5`, for its owner. -/
theorem SetState_enqueue_idempotent_witness :
    ∃ item1 player1,
      setStateRun 5
        [ItemUpdateState.ITEM_CHANGED, ItemUpdateState.ITEM_REMOVED, ItemUpdateState.ITEM_CHANGED]
        { exampleItem with uState := ItemUpdateState.ITEM_UNCHANGED } examplePlayer =
        some (item1, player1) ∧
      player1.m_itemUpdateQueue = examplePlayer.m_itemUpdateQueue ++ [some 5] ∧
      player1.m_itemUpdateQueue.count (some 5) = 1 ∧
      player1.m_itemUpdateQueue.length = examplePlayer.m_itemUpdateQueue.length + 1 ∧
      item1.uQueuePos = (examplePlayer.m_itemUpdateQueue.length : Int) ∧
      player1.m_itemUpdateQueue.get? item1.uQueuePos.toNat = some (some 5) :=
  SetState_enqueue_idempotent 5
    [ItemUpdateState.ITEM_CHANGED, ItemUpdateState.ITEM_REMOVED, ItemUpdateState.ITEM_CHANGED]
    { exampleItem with uState := ItemUpdateState.ITEM_UNCHANGED } examplePlayer
    (by decide) (by decide) (by decide) (by decide) (by decide) (by decide) (by decide)

/-! ## Enchantments, stacking, trading and sockets -/

/-- C13: for every item, owner, slot, id, duration, charges and caster: if the
slot's current (id, duration, charges) triple equals the arguments,
`SetEnchantment` returns with the item as it was, every field, its
persistence state and its queue marker included, and with the owner as it
was, the pending-save queue and the enchantment logs handed to the session
included. -/
theorem SetEnchantment_same_triple (self : Nat) (item : Item) (owner : Option Player)
    (slot id duration charges : Nat) (caster : ObjectGuid)
    (hid : GetEnchantmentId item slot = id)
    (hduration : GetEnchantmentDuration item slot = duration)
    (hcharges : GetEnchantmentCharges item slot = charges) :
    SetEnchantment self item owner slot id duration charges caster = some (some item, owner) := by
  unfold SetEnchantment
  rw [if_pos ⟨hid, hduration, hcharges⟩]

/-- Witness of C13: the gem enchantment `55` of the first socket of the example
item, set again. -/
theorem SetEnchantment_same_triple_witness :
    SetEnchantment 5 exampleItem (some examplePlayer) SOCK_ENCHANTMENT_SLOT 55 0 0
      ObjectGuid.Empty = some (some exampleItem, some examplePlayer) :=
  SetEnchantment_same_triple 5 exampleItem (some examplePlayer) SOCK_ENCHANTMENT_SLOT 55 0 0
    ObjectGuid.Empty (by decide) (by decide) (by decide)

/-- C14: `CanBeMergedPartlyWith(proto)` returns `EQUIP_ERR_OK` if and only if
the item is not mid-loot, its template id equals the id of `proto` and its
stack count is below the max stack size of `proto`; an item that is not
mid-loot and holds at least the max stack count returns
`EQUIP_ERR_ITEM_CANT_STACK` (the call has no argument for the source stack). -/
theorem CanBeMergedPartlyWith_ok_iff (item : Item) (proto : ItemTemplate) :
    (CanBeMergedPartlyWith item proto = InventoryResult.EQUIP_ERR_OK ↔
      item.m_lootGenerated = false ∧ item.Entry = proto.ItemId ∧
        item.ITEM_FIELD_STACK_COUNT < proto.MaxStackSize) ∧
    (item.m_lootGenerated = false → item.ITEM_FIELD_STACK_COUNT ≥ proto.MaxStackSize →
      CanBeMergedPartlyWith item proto = InventoryResult.EQUIP_ERR_ITEM_CANT_STACK) := by
  unfold CanBeMergedPartlyWith
  constructor
  · constructor
    · intro h
      split_ifs at h with h1 h2 h3
      refine ⟨by simpa using h1, by simpa using h2, by omega⟩
    · rintro ⟨h1, h2, h3⟩
      simp [h1, h2]
      omega
  · intro h1 h3
    simp only [h1, Bool.false_eq_true, if_false]
    split_ifs <;> rfl

/-- C15: every soulbound item that is not BoP-tradeable fails
`CanBeTraded(mail = false, trade = true)`; the same item, if it is
additionally account-wide bound, passes `CanBeTraded` with `mail = true`
(whatever `trade` is) provided it is not a bag, its owner, if it has one, can
unequip it and is not looting it, and it has no binding temporary enchant. -/
theorem CanBeTraded_soulbound (w : ItemWorld) (item : Item) (owner : Option Player)
    (trade : Bool) (hbound : IsSoulBound item = true) (hbop : IsBOPTradable item = false) :
    CanBeTraded w item owner false true = some false ∧
    (IsBoundAccountWide w item = some true → IsBag w item = some false →
      (∀ player, owner = some player →
        w.CanUnequipItem player (GetPos item) = InventoryResult.EQUIP_ERR_OK ∧
          player.lootGUID ≠ item.GUID) →
      IsBoundByTempEnchant w item = false →
      CanBeTraded w item owner true trade = some true) := by
  constructor
  · simp [CanBeTraded, notMailedAccountBound, hbound, hbop]
  · intro hboa hbag hown htemp
    have hblock : ownerBlocksTrade w item owner = false := by
      unfold ownerBlocksTrade
      cases owner with
      | none => rfl
      | some player =>
        obtain ⟨h1, h2⟩ := hown player rfl
        simp [h1, h2]
    simp [CanBeTraded, notMailedAccountBound, hboa, hbag, hblock, htemp]

/-- Witness of C15: the example item, soulbound and account-wide bound, with
its owner. -/
theorem CanBeTraded_soulbound_witness :
    CanBeTraded exampleItemWorld exampleItem (some examplePlayer) false true = some false ∧
    CanBeTraded exampleItemWorld exampleItem (some examplePlayer) true true = some true :=
  ⟨(CanBeTraded_soulbound exampleItemWorld exampleItem (some examplePlayer) true (by decide)
      (by decide)).1,
    (CanBeTraded_soulbound exampleItemWorld exampleItem (some examplePlayer) true (by decide)
      (by decide)).2 (by decide) (by decide)
      (by intro player h; cases h; decide) (by decide)⟩

/-! ## Loading an item -/

/-- C16: `LoadFromDB` succeeds exactly when the template of `entry` resolves.
After a successful load the item's duration is zero if and only if the
template's duration is zero: when stored and template agree on being zero the
stored duration is kept, when the stored duration is nonzero but the
template's is zero the duration becomes `0`, when the stored duration is zero
but the template's is nonzero it becomes the template value, and in both
disagreeing cases the corrective statement is executed, with the duration,
flags and durability the item has after the load. -/
theorem LoadFromDB_duration (w : ItemWorld) (item : Item) (guid : Nat) (owner_guid : ObjectGuid)
    (fields : ItemFields) (entry : Nat) :
    ((LoadFromDB w item guid owner_guid fields entry).1 = true ↔
      ∃ proto, w.GetItemTemplate entry = some proto) ∧
    ∀ proto, w.GetItemTemplate entry = some proto →
      ((LoadFromDB w item guid owner_guid fields entry).2.1.ITEM_FIELD_DURATION = 0 ↔
        proto.Duration = 0) ∧
      ((proto.Duration = 0 ↔ fields.duration = 0) →
        (LoadFromDB w item guid owner_guid fields entry).2.1.ITEM_FIELD_DURATION =
          fields.duration) ∧
      (fields.duration ≠ 0 → proto.Duration = 0 →
        (LoadFromDB w item guid owner_guid fields entry).2.1.ITEM_FIELD_DURATION = 0) ∧
      (fields.duration = 0 → proto.Duration ≠ 0 →
        (LoadFromDB w item guid owner_guid fields entry).2.1.ITEM_FIELD_DURATION =
          proto.Duration) ∧
      (¬ (proto.Duration = 0 ↔ fields.duration = 0) →
        (LoadFromDB w item guid owner_guid fields entry).2.2 =
          [Statement.CHAR_UPD_ITEM_INSTANCE_ON_LOAD
            (LoadFromDB w item guid owner_guid fields entry).2.1.ITEM_FIELD_DURATION
            (LoadFromDB w item guid owner_guid fields entry).2.1.ITEM_FIELD_FLAGS
            (LoadFromDB w item guid owner_guid fields entry).2.1.ITEM_FIELD_DURABILITY guid]) := by
  constructor
  · unfold LoadFromDB
    cases h : w.GetItemTemplate entry with
    | none => simp
    | some proto => simp
  · intro proto hproto
    have hdur : (LoadFromDB w item guid owner_guid fields entry).2.1.ITEM_FIELD_DURATION =
        if (decide (proto.Duration = 0) != decide (fields.duration = 0)) = true then
          proto.Duration else fields.duration := by
      unfold LoadFromDB
      simp only [hproto, loadedHead]
    have hstmt : (decide (proto.Duration = 0) != decide (fields.duration = 0)) = true →
        (LoadFromDB w item guid owner_guid fields entry).2.2 =
          [Statement.CHAR_UPD_ITEM_INSTANCE_ON_LOAD
            (LoadFromDB w item guid owner_guid fields entry).2.1.ITEM_FIELD_DURATION
            (LoadFromDB w item guid owner_guid fields entry).2.1.ITEM_FIELD_FLAGS
            (LoadFromDB w item guid owner_guid fields entry).2.1.ITEM_FIELD_DURABILITY guid] := by
      intro hfix
      unfold LoadFromDB
      simp only [hproto, hfix, Bool.true_or, if_true]
    by_cases hp : proto.Duration = 0 <;> by_cases hf : fields.duration = 0
    · refine ⟨?_, ?_, ?_, ?_, ?_⟩
      · rw [hdur]; simp [hp, hf]
      · intro _; rw [hdur]; simp [hp, hf]
      · intro h; exact absurd hf h
      · intro _ h; exact absurd hp h
      · intro h; exact absurd (by simp [hp, hf]) h
    · refine ⟨?_, ?_, ?_, ?_, ?_⟩
      · rw [hdur]; simp [hp, hf]
      · intro h; exact absurd (h.mp hp) hf
      · intro _ _; rw [hdur]; simp [hp, hf]
      · intro h; exact absurd h hf
      · intro _; exact hstmt (by simp [hp, hf])
    · refine ⟨?_, ?_, ?_, ?_, ?_⟩
      · rw [hdur]; simp [hp, hf]
      · intro h; exact absurd (h.mpr hf) hp
      · intro h; exact absurd hf h
      · intro _ _; rw [hdur]; simp [hp, hf]
      · intro _; exact hstmt (by simp [hp, hf])
    · refine ⟨?_, ?_, ?_, ?_, ?_⟩
      · rw [hdur]; simp [hp, hf]
      · intro _; rw [hdur]; simp [hp, hf]
      · intro _ h; exact absurd h hp
      · intro h; exact absurd h hf
      · intro h; exact absurd (by simp [hp, hf]) h

/-! ## Gems and sockets -/

/-- The colour of the gem of an enchantment entry is nonzero on a mask exactly
when the gem resolves to a colour that meets the mask. -/
theorem gemColor_and_ne_zero (w : ItemWorld) (e : SpellItemEnchantmentEntry) (c : Nat) :
    (gemColor w e &&& c) ≠ 0 ↔
      e.GemID ≠ 0 ∧ ∃ gemProto gemProperty, w.GetItemTemplate e.GemID = some gemProto ∧
        w.LookupGemProperties gemProto.GemProperties = some gemProperty ∧
        (gemProperty.color % 256) &&& c ≠ 0 := by
  unfold gemColor
  by_cases hg : e.GemID = 0
  · simp [hg]
  · simp only [hg, ne_eq, not_false_eq_true, if_true, true_and]
    cases hp : w.GetItemTemplate e.GemID with
    | none => simp
    | some gemProto =>
      cases hq : w.LookupGemProperties gemProto.GemProperties with
      | none => simp [hq]
      | some gemProperty => simp [hq]

/-- One iteration of the socket loop goes on exactly when the socket has no
colour or its gem fits the colour. -/
theorem socketFits_iff (w : ItemWorld) (item : Item) (proto : ItemTemplate) (i : Nat) :
    socketFits w item proto i = true ↔
      (proto.SocketColor.getD i 0 % 256 ≠ 0 →
        gemFitsColor w item i (proto.SocketColor.getD i 0 % 256)) := by
  unfold socketFits gemFitsColor
  dsimp only
  generalize proto.SocketColor.getD i 0 % 256 = c
  by_cases hc : c = 0
  · simp [hc]
  · simp only [hc, if_false, ne_eq, not_false_eq_true, true_implies]
    by_cases he : GetEnchantmentId item (SOCK_ENCHANTMENT_SLOT + i) = 0
    · simp [he]
    · simp only [he, if_false, not_false_eq_true, true_and]
      cases hl : w.LookupEnchantment (GetEnchantmentId item (SOCK_ENCHANTMENT_SLOT + i)) with
      | none => simp
      | some e =>
        have := gemColor_and_ne_zero w e c
        simp only [bne_iff_ne, ne_eq, Option.some.injEq, exists_and_left, exists_eq_left'] at this ⊢
        rw [this]

/-- C17: for an item whose template resolves, `GemsFitSockets` returns, and it
returns true if and only if, for every one of the template's gem sockets
whose colour (the 8-bit value the code reads) is nonzero, the corresponding
socket enchantment slot holds a nonzero enchantment id that resolves to an
enchantment entry whose gem resolves (gem item template and gem properties)
to a colour intersecting the socket's colour; a coloured socket with no gem,
or with an unresolvable enchantment, makes it false, and a template whose
sockets all have colour `0` yields true. When every socket colour and every
gem colour is below `256`, the 8-bit values are the colours themselves. -/
theorem GemsFitSockets_iff (w : ItemWorld) (item : Item) (proto : ItemTemplate)
    (htemplate : GetTemplate w item = some proto) :
    (∃ b, GemsFitSockets w item = some b) ∧
    (GemsFitSockets w item = some true ↔
      ∀ i, i < MAX_GEM_SOCKETS → proto.SocketColor.getD i 0 % 256 ≠ 0 →
        gemFitsColor w item i (proto.SocketColor.getD i 0 % 256)) ∧
    (∀ i, i < MAX_GEM_SOCKETS → proto.SocketColor.getD i 0 % 256 ≠ 0 →
      (GetEnchantmentId item (SOCK_ENCHANTMENT_SLOT + i) = 0 ∨
        w.LookupEnchantment (GetEnchantmentId item (SOCK_ENCHANTMENT_SLOT + i)) = none) →
      GemsFitSockets w item = some false) ∧
    ((∀ i, i < MAX_GEM_SOCKETS → proto.SocketColor.getD i 0 = 0) →
      GemsFitSockets w item = some true) ∧
    ((∀ i, i < MAX_GEM_SOCKETS → proto.SocketColor.getD i 0 < 256) →
      (∀ id gemProperty, w.LookupGemProperties id = some gemProperty →
        gemProperty.color < 256) →
      (GemsFitSockets w item = some true ↔
        ∀ i, i < MAX_GEM_SOCKETS → proto.SocketColor.getD i 0 ≠ 0 →
          GetEnchantmentId item (SOCK_ENCHANTMENT_SLOT + i) ≠ 0 ∧
            ∃ enchantEntry gemProto gemProperty,
              w.LookupEnchantment (GetEnchantmentId item (SOCK_ENCHANTMENT_SLOT + i)) =
                some enchantEntry ∧
              enchantEntry.GemID ≠ 0 ∧
              w.GetItemTemplate enchantEntry.GemID = some gemProto ∧
              w.LookupGemProperties gemProto.GemProperties = some gemProperty ∧
              gemProperty.color &&& proto.SocketColor.getD i 0 ≠ 0)) := by
  have hiff : GemsFitSockets w item = some true ↔
      ∀ i, i < MAX_GEM_SOCKETS → proto.SocketColor.getD i 0 % 256 ≠ 0 →
        gemFitsColor w item i (proto.SocketColor.getD i 0 % 256) := by
    unfold GemsFitSockets
    simp only [htemplate, Option.some.injEq, List.all_eq_true, List.mem_range, socketFits_iff]
  refine ⟨?_, hiff, ?_, ?_, ?_⟩
  · unfold GemsFitSockets
    simp only [htemplate]
    exact ⟨_, rfl⟩
  · intro i hi hc hbad
    have hnot : ¬ GemsFitSockets w item = some true := by
      rw [hiff]
      intro hall
      obtain ⟨h1, e, _, _, h2, _⟩ := hall i hi hc
      rcases hbad with hb | hb
      · exact h1 hb
      · rw [hb] at h2; exact Option.noConfusion h2
    unfold GemsFitSockets at hnot ⊢
    simp only [htemplate, Option.some.injEq] at hnot ⊢
    simpa using hnot
  · intro hall
    rw [hiff]
    intro i hi hc
    rw [hall i hi] at hc
    exact absurd rfl hc
  · intro hsock hgem
    rw [hiff]
    constructor
    · intro h i hi hc
      have hm := Nat.mod_eq_of_lt (hsock i hi)
      obtain ⟨h1, e, gp, g, h2, h3, h4, h5, h6⟩ := h i hi (by rw [hm]; exact hc)
      rw [hm, Nat.mod_eq_of_lt (hgem _ g h5)] at h6
      exact ⟨h1, e, gp, g, h2, h3, h4, h5, h6⟩
    · intro h i hi hc
      have hm := Nat.mod_eq_of_lt (hsock i hi)
      rw [hm] at hc ⊢
      obtain ⟨h1, e, gp, g, h2, h3, h4, h5, h6⟩ := h i hi hc
      refine ⟨h1, e, gp, g, h2, h3, h4, h5, ?_⟩
      rw [Nat.mod_eq_of_lt (hgem _ g h5)]
      exact h6

/-- Witness of C17: the example item, whose one red socket holds a red gem. -/
theorem GemsFitSockets_iff_witness :
    GetTemplate exampleItemWorld exampleItem = some exampleTemplate ∧
    GemsFitSockets exampleItemWorld exampleItem = some true ∧
    ∀ i, i < MAX_GEM_SOCKETS → exampleTemplate.SocketColor.getD i 0 % 256 ≠ 0 →
      gemFitsColor exampleItemWorld exampleItem i (exampleTemplate.SocketColor.getD i 0 % 256) :=
  ⟨by decide, by decide,
    (GemsFitSockets_iff exampleItemWorld exampleItem exampleTemplate (by decide)).2.1.mp
      (by decide)⟩

end Item

namespace ReputationMgr

/-! ## Saving the ledger -/

theorem saveStatements_flatten (guid : Nat) (l : FactionStateList) :
    (l.map (fun p => saveStatements guid p.2)).flatten =
      ((l.filter (fun p => p.2.needSave)).map (fun p =>
        [Statement.CHAR_DEL_CHAR_REPUTATION_BY_FACTION guid (p.2.ID % 65536),
          Statement.CHAR_INS_CHAR_REPUTATION_BY_FACTION guid (p.2.ID % 65536) p.2.Standing
            (p.2.Flags % 65536)])).flatten := by
  induction l with
  | nil => rfl
  | cons p rest ih =>
    rw [List.map_cons, List.flatten_cons, ih]
    by_cases hs : p.2.needSave = true
    · rw [List.filter_cons_of_pos (by simpa using hs)]
      simp [saveStatements, hs]
    · rw [List.filter_cons_of_neg (by simpa using hs)]
      simp [saveStatements, hs]

/-- C20: `SaveToDB` appends to the transaction, for each faction whose
`needSave` is set and in map order, exactly one delete statement followed by
one insert statement, both keyed by the player and the faction id (as
`uint16`), the insert carrying that faction's `Standing` and its `Flags` (as
`uint16`), and nothing for clean factions; it leaves every faction's key,
`Standing` and `Flags` unchanged; afterwards no faction has `needSave` set,
and an immediately repeated `SaveToDB` appends nothing and changes nothing. -/
theorem SaveToDB_appends_dirty_pairs (guid : Nat) (m : ReputationMgr) (trans : List Statement) :
    (SaveToDB guid m trans).2 =
      trans ++ ((m._factions.filter (fun p => p.2.needSave)).map (fun p =>
        [Statement.CHAR_DEL_CHAR_REPUTATION_BY_FACTION guid (p.2.ID % 65536),
          Statement.CHAR_INS_CHAR_REPUTATION_BY_FACTION guid (p.2.ID % 65536) p.2.Standing
            (p.2.Flags % 65536)])).flatten ∧
    (SaveToDB guid m trans).1._factions.map (fun p => (p.1, p.2.Standing, p.2.Flags)) =
      m._factions.map (fun p => (p.1, p.2.Standing, p.2.Flags)) ∧
    (∀ p, p ∈ (SaveToDB guid m trans).1._factions → p.2.needSave = false) ∧
    SaveToDB guid (SaveToDB guid m trans).1 (SaveToDB guid m trans).2 =
      SaveToDB guid m trans := by
  have hclean : ∀ p, p ∈ (SaveToDB guid m trans).1._factions → p.2.needSave = false := by
    intro p hp
    simp only [SaveToDB, List.mem_map] at hp
    obtain ⟨q, _, hq⟩ := hp
    by_cases hs : q.2.needSave = true
    · rw [if_pos hs] at hq; rw [← hq]
    · rw [if_neg hs] at hq; rw [← hq]; simpa using hs
  refine ⟨?_, ?_, hclean, ?_⟩
  · simp only [SaveToDB, saveStatements_flatten]
  · simp only [SaveToDB, List.map_map]
    apply List.map_congr_left
    intro p _
    simp only [Function.comp]
    split_ifs <;> rfl
  · have hnone : (SaveToDB guid m trans).1._factions.filter (fun p => p.2.needSave) = [] := by
      rw [List.filter_eq_nil_iff]
      intro p hp
      simp [hclean p hp]
    have hmap : (SaveToDB guid m trans).1._factions.map
        (fun p => if p.2.needSave = true then (p.1, { p.2 with needSave := false }) else p) =
        (SaveToDB guid m trans).1._factions := by
      conv_rhs => rw [← List.map_id (SaveToDB guid m trans).1._factions]
      apply List.map_congr_left
      intro p hp
      simp [hclean p hp]
    have h2 : (SaveToDB guid (SaveToDB guid m trans).1 (SaveToDB guid m trans).2).2 =
        (SaveToDB guid m trans).2 := by
      show _ ++ ((SaveToDB guid m trans).1._factions.map _).flatten = _
      rw [saveStatements_flatten, hnone]
      simp
    have h1 : (SaveToDB guid (SaveToDB guid m trans).1 (SaveToDB guid m trans).2).1 =
        (SaveToDB guid m trans).1 := by
      show ({ (SaveToDB guid m trans).1 with _factions := _ } : ReputationMgr) = _
      rw [hmap]
    exact Prod.ext h1 h2

/-! ## Initializing the ledger -/

theorem find_insertState (l : FactionStateList) (key k : Nat) (v : FactionState) :
    (insertState l key v).find k = if k = key then some v else l.find k := by
  induction l with
  | nil =>
    by_cases hk : k = key
    · simp [insertState, FactionStateList.find, hk]
    · have hk2 : ¬ key = k := fun h => hk h.symm
      simp [insertState, FactionStateList.find, hk, hk2]
  | cons p rest ih =>
    obtain ⟨a, x⟩ := p
    unfold insertState
    by_cases h1 : key < a
    · rw [if_pos h1]
      by_cases hk : k = key
      · simp [FactionStateList.find, hk]
      · have hk2 : ¬ key = k := fun h => hk h.symm
        simp [FactionStateList.find, hk, hk2]
    · rw [if_neg h1]
      by_cases h2 : key = a
      · rw [if_pos h2]
        subst h2
        by_cases hk : k = key
        · simp [FactionStateList.find, hk]
        · have hk2 : ¬ key = k := fun h => hk h.symm
          simp [FactionStateList.find, hk, hk2]
      · rw [if_neg h2]
        by_cases hk : k = key
        · subst hk
          have h3 : ¬ a = k := fun h => h2 h.symm
          simp [FactionStateList.find, h3, ih]
        · by_cases h4 : a = k
          · simp [FactionStateList.find, h4, hk]
          · simp [FactionStateList.find, h4, hk, ih]

theorem keys_insertState (l : FactionStateList) (key : Nat) (v : FactionState) (x : Nat)
    (hx : x ∈ (insertState l key v).map Prod.fst) : x = key ∨ x ∈ l.map Prod.fst := by
  induction l with
  | nil => simp [insertState] at hx; exact Or.inl hx
  | cons p rest ih =>
    obtain ⟨a, y⟩ := p
    unfold insertState at hx
    split_ifs at hx with h1 h2
    · simp only [List.map_cons, List.mem_cons] at hx ⊢
      rcases hx with h | h | h
      · exact Or.inl h
      · exact Or.inr (Or.inl h)
      · exact Or.inr (Or.inr h)
    · simp only [List.map_cons, List.mem_cons] at hx ⊢
      rcases hx with h | h
      · exact Or.inl h
      · exact Or.inr (Or.inr h)
    · simp only [List.map_cons, List.mem_cons] at hx ⊢
      rcases hx with h | h
      · exact Or.inr (Or.inl h)
      · rcases ih h with h3 | h3
        · exact Or.inl h3
        · exact Or.inr (Or.inr h3)

/-- Putting an element into a map in key order keeps the keys strictly
increasing. -/
theorem sorted_insertState (l : FactionStateList) (key : Nat) (v : FactionState)
    (hs : (l.map Prod.fst).Pairwise (· < ·)) :
    ((insertState l key v).map Prod.fst).Pairwise (· < ·) := by
  induction l with
  | nil => simp [insertState]
  | cons p rest ih =>
    obtain ⟨a, y⟩ := p
    simp only [List.map_cons, List.pairwise_cons] at hs
    unfold insertState
    split_ifs with h1 h2
    · simp only [List.map_cons, List.pairwise_cons, List.mem_cons]
      refine ⟨?_, hs.1, hs.2⟩
      intro b hb
      rcases hb with hb | hb
      · rw [hb]; exact h1
      · exact lt_trans h1 (hs.1 b hb)
    · simp only [List.map_cons, List.pairwise_cons]
      subst h2
      exact ⟨hs.1, hs.2⟩
    · simp only [List.map_cons, List.pairwise_cons]
      refine ⟨?_, ih hs.2⟩
      intro b hb
      rcases keys_insertState rest key v b hb with h3 | h3
      · rw [h3]; omega
      · exact hs.1 b h3

/-- The effect of one row of `Initialize` on the map. -/
theorem initializeRow_factions (w : World) (m : ReputationMgr) (i : Nat) :
    (initializeRow w m i)._factions =
      match w.LookupEntry i with
      | some fe =>
        if fe.reputationListID ≥ 0 then
          insertState m._factions (toU32 fe.reputationListID) (newFactionState w fe)
        else m._factions
      | none => m._factions := by
  unfold initializeRow
  cases w.LookupEntry i with
  | none => rfl
  | some fe =>
    simp only
    split_ifs <;> rfl

theorem initializeRow_sent (w : World) (m : ReputationMgr) (i : Nat) :
    (initializeRow w m i).sent = m.sent ∧
      (initializeRow w m i)._sendFactionIncreased = m._sendFactionIncreased := by
  unfold initializeRow
  cases w.LookupEntry i with
  | none => exact ⟨rfl, rfl⟩
  | some fe =>
    simp only
    split_ifs <;> exact ⟨rfl, rfl⟩

/-- The map after the loop of `Initialize` has walked the rows `ids`, from an
empty map: its elements are the states built for the walked catalog factions
with a reputation list, one under each of their reputation-list ids, in key
order. -/
theorem initialize_fold (w : World) (m0 : ReputationMgr) (h0 : m0._factions = [])
    (ids : List Nat) :
    (∀ k st, (ids.foldl (initializeRow w) m0)._factions.find k = some st →
      ∃ i fe, i ∈ ids ∧ w.LookupEntry i = some fe ∧ 0 ≤ fe.reputationListID ∧
        toU32 fe.reputationListID = k ∧ st = newFactionState w fe) ∧
    (∀ i fe, i ∈ ids → w.LookupEntry i = some fe → 0 ≤ fe.reputationListID →
      ∃ st, (ids.foldl (initializeRow w) m0)._factions.find (toU32 fe.reputationListID) =
        some st) ∧
    ((ids.foldl (initializeRow w) m0)._factions.map Prod.fst).Pairwise (· < ·) ∧
    (ids.foldl (initializeRow w) m0).sent = m0.sent ∧
    (ids.foldl (initializeRow w) m0)._sendFactionIncreased = m0._sendFactionIncreased := by
  induction ids using List.reverseRecOn with
  | nil =>
    refine ⟨?_, ?_, ?_, rfl, rfl⟩
    · intro k st h
      simp [h0, FactionStateList.find] at h
    · intro i fe hi
      simp at hi
    · simp [h0]
  | append_singleton ids i ih =>
    obtain ⟨hA, hB, hC, hD, hE⟩ := ih
    rw [List.foldl_append, List.foldl_cons, List.foldl_nil]
    have hf := initializeRow_factions w (ids.foldl (initializeRow w) m0) i
    have hs := initializeRow_sent w (ids.foldl (initializeRow w) m0) i
    refine ⟨?_, ?_, ?_, hs.1.trans hD, hs.2.trans hE⟩
    · intro k st h
      rw [hf] at h
      cases hl : w.LookupEntry i with
      | none =>
        rw [hl] at h
        obtain ⟨j, fe, hj, rest⟩ := hA k st h
        exact ⟨j, fe, by simp [hj], rest⟩
      | some fe0 =>
        rw [hl] at h
        simp only at h
        split_ifs at h with hpos
        · rw [find_insertState] at h
          split_ifs at h with hk
          · simp only [Option.some.injEq] at h
            exact ⟨i, fe0, by simp, hl, hpos, hk.symm, h.symm⟩
          · obtain ⟨j, fe, hj, rest⟩ := hA k st h
            exact ⟨j, fe, by simp [hj], rest⟩
        · obtain ⟨j, fe, hj, rest⟩ := hA k st h
          exact ⟨j, fe, by simp [hj], rest⟩
    · intro j fe hj hlj hposj
      rw [hf]
      rw [List.mem_append, List.mem_singleton] at hj
      cases hl : w.LookupEntry i with
      | none =>
        simp only
        rcases hj with hj | hj
        · exact hB j fe hj hlj hposj
        · rw [hj, hl] at hlj; exact Option.noConfusion hlj
      | some fe0 =>
        simp only
        split_ifs with hpos
        · rw [find_insertState]
          split_ifs with hk
          · exact ⟨_, rfl⟩
          · rcases hj with hj | hj
            · exact hB j fe hj hlj hposj
            · rw [hj, hl, Option.some.injEq] at hlj
              rw [hlj] at hk
              exact absurd rfl hk
        · rcases hj with hj | hj
          · exact hB j fe hj hlj hposj
          · rw [hj, hl, Option.some.injEq] at hlj
            rw [hlj] at hpos
            exact absurd hposj hpos
    · rw [hf]
      cases hl : w.LookupEntry i with
      | none => exact hC
      | some fe0 =>
        simp only
        split_ifs
        · exact sorted_insertState _ _ _ hC
        · exact hC

/-- `Initialize` keeps nothing of the ledger it is called on but the packets
already sent. -/
theorem Initialize_congr (w : World) (m1 m2 : ReputationMgr) (h : m1.sent = m2.sent) :
    Initialize w m1 = Initialize w m2 := by
  unfold Initialize
  rw [h]

/-- C19: after `Initialize`, the faction map has an element under a key
exactly when the key is the reputation-list id of a catalog faction in a row
`1 ≤ i < GetNumRows()` with a non-negative reputation-list id, and exactly
one element under each such key (the keys are strictly increasing); each
element has `Standing` `0`, `needSend` and `needSave` set, `roundedUp` false,
and the id, the reputation-list id and the default race/class flags of such
a faction of its key; the result does not depend on what the ledger
contained before, and calling `Initialize` twice gives the same state as
calling it once. -/
theorem Initialize_entries (w : World) (m : ReputationMgr) :
    (∀ k, (∃ st, (Initialize w m)._factions.find k = some st) ↔
      ∃ i fe, 1 ≤ i ∧ i < w.GetNumRows ∧ w.LookupEntry i = some fe ∧
        0 ≤ fe.reputationListID ∧ toU32 fe.reputationListID = k) ∧
    (∀ k st, (Initialize w m)._factions.find k = some st →
      st.Standing = 0 ∧ st.needSend = true ∧ st.needSave = true ∧ st.roundedUp = false ∧
      st.ReputationListID = k ∧
      ∃ i fe, 1 ≤ i ∧ i < w.GetNumRows ∧ w.LookupEntry i = some fe ∧
        0 ≤ fe.reputationListID ∧ toU32 fe.reputationListID = k ∧ st.ID = fe.ID ∧
        st.Flags = GetDefaultStateFlags w fe) ∧
    ((Initialize w m)._factions.map Prod.fst).Pairwise (· < ·) ∧
    (∀ m2, m2.sent = m.sent → Initialize w m2 = Initialize w m) ∧
    Initialize w (Initialize w m) = Initialize w m := by
  have hfold := initialize_fold w
    { m with
      _factions := []
      _visibleFactionCount := 0
      _honoredFactionCount := 0
      _reveredFactionCount := 0
      _exaltedFactionCount := 0
      _sendFactionIncreased := false } rfl (List.range' 1 (w.GetNumRows - 1))
  obtain ⟨hA, hB, hC, hD, _⟩ := hfold
  have hmem : ∀ i, i ∈ List.range' 1 (w.GetNumRows - 1) ↔ 1 ≤ i ∧ i < w.GetNumRows := by
    intro i
    rw [List.mem_range'_1]
    omega
  refine ⟨?_, ?_, hC, ?_, ?_⟩
  · intro k
    constructor
    · rintro ⟨st, hst⟩
      obtain ⟨i, fe, hi, hl, hpos, hk, _⟩ := hA k st hst
      exact ⟨i, fe, ((hmem i).mp hi).1, ((hmem i).mp hi).2, hl, hpos, hk⟩
    · rintro ⟨i, fe, h1, h2, hl, hpos, hk⟩
      rw [← hk]
      exact hB i fe ((hmem i).mpr ⟨h1, h2⟩) hl hpos
  · intro k st hst
    obtain ⟨i, fe, hi, hl, hpos, hk, hst2⟩ := hA k st hst
    subst hst2
    refine ⟨rfl, rfl, rfl, rfl, hk, i, fe, ((hmem i).mp hi).1, ((hmem i).mp hi).2, hl, hpos, hk,
      rfl, rfl⟩
  · intro m2 h2
    exact Initialize_congr w m2 m h2
  · exact Initialize_congr w (Initialize w m) m hD

/-! ## The rank counters -/

theorem countAtLeast_cons (w : World) (p : Nat × FactionState) (l : FactionStateList)
    (r : Nat) :
    countAtLeast w (p :: l) r = (if stateRank w p.2 ≥ r then 1 else 0) + countAtLeast w l r := by
  unfold countAtLeast
  by_cases h : stateRank w p.2 ≥ r
  · rw [List.filter_cons_of_pos (by simpa using h), if_pos h]
    simp only [List.length_cons]
    push_cast
    ring
  · rw [List.filter_cons_of_neg (by simpa using h), if_neg h]
    ring

/-- Assigning through an iterator moves the number of elements of at least a
rank by the element assigned to. -/
theorem countAtLeast_modify (w : World) (l : FactionStateList) (key : Nat)
    (g : FactionState → FactionState) (st : FactionState) (r : Nat)
    (hf : l.find key = some st) :
    countAtLeast w (l.modify key g) r =
      countAtLeast w l r - (if stateRank w st ≥ r then 1 else 0) +
        (if stateRank w (g st) ≥ r then 1 else 0) := by
  induction l with
  | nil => simp [FactionStateList.find] at hf
  | cons p rest ih =>
    obtain ⟨a, v⟩ := p
    by_cases ha : a = key
    · simp only [FactionStateList.find, ha, if_true, Option.some.injEq] at hf
      subst hf
      simp only [FactionStateList.modify, ha, if_true, countAtLeast_cons]
      ring
    · simp only [FactionStateList.find, ha, if_false] at hf
      simp only [FactionStateList.modify, ha, if_false, countAtLeast_cons, ih hf]
      ring

/-- Putting an element under a key the map does not have adds it to the
count. -/
theorem countAtLeast_insertState (w : World) (l : FactionStateList) (key : Nat)
    (v : FactionState) (r : Nat) (hf : l.find key = none) :
    countAtLeast w (insertState l key v) r =
      countAtLeast w l r + (if stateRank w v ≥ r then 1 else 0) := by
  induction l with
  | nil =>
    unfold insertState
    rw [countAtLeast_cons]
    ring
  | cons p rest ih =>
    obtain ⟨a, x⟩ := p
    by_cases ha : a = key
    · simp [FactionStateList.find, ha] at hf
    · simp only [FactionStateList.find, ha, if_false] at hf
      have ha2 : ¬ key = a := fun h => ha h.symm
      unfold insertState
      by_cases h1 : key < a
      · rw [if_pos h1]
        simp only [countAtLeast_cons]
        ring
      · rw [if_neg h1, if_neg ha2]
        simp only [countAtLeast_cons, ih hf]
        ring

theorem UpdateRankCounters_counts (m : ReputationMgr) (o n : Nat) :
    (UpdateRankCounters m o n)._honoredFactionCount =
      m._honoredFactionCount - (if o ≥ REP_HONORED then 1 else 0) +
        (if n ≥ REP_HONORED then 1 else 0) ∧
    (UpdateRankCounters m o n)._reveredFactionCount =
      m._reveredFactionCount - (if o ≥ REP_REVERED then 1 else 0) +
        (if n ≥ REP_REVERED then 1 else 0) ∧
    (UpdateRankCounters m o n)._exaltedFactionCount =
      m._exaltedFactionCount - (if o ≥ REP_EXALTED then 1 else 0) +
        (if n ≥ REP_EXALTED then 1 else 0) := by
  unfold UpdateRankCounters
  refine ⟨?_, ?_, ?_⟩ <;> simp only <;> split_ifs <;> ring

theorem stateRank_of_lookup (w : World) (st : FactionState) (fe : FactionEntry)
    (hl : w.LookupEntry st.ID = some fe) :
    stateRank w st = ReputationToRank (wrap32 (st.Standing + GetBaseReputation w fe)) := by
  unfold stateRank
  rw [hl]

theorem stateRank_congr (w : World) (a b : FactionState) (hid : a.ID = b.ID)
    (hs : a.Standing = b.Standing) : stateRank w a = stateRank w b := by
  unfold stateRank
  rw [hid, hs]

/-- A step that assigns to one tracked faction and moves the counters from
its old rank to its new rank keeps the invariant. -/
theorem CountersOK_step (w : World) (m m1 : ReputationMgr) (key : Nat) (st : FactionState)
    (G : FactionState → FactionState) (o n : Nat)
    (hinv : CountersOK w m) (hf : m._factions.find key = some st)
    (hG : (G st).ID = st.ID) (ho : o = stateRank w st) (hn : n = stateRank w (G st))
    (hfac : m1._factions = m._factions.modify key G)
    (hh : m1._honoredFactionCount = (UpdateRankCounters m o n)._honoredFactionCount)
    (hr : m1._reveredFactionCount = (UpdateRankCounters m o n)._reveredFactionCount)
    (he : m1._exaltedFactionCount = (UpdateRankCounters m o n)._exaltedFactionCount) :
    CountersOK w m1 := by
  obtain ⟨hE, h5, h6, h7⟩ := hinv
  obtain ⟨u5, u6, u7⟩ := UpdateRankCounters_counts m o n
  refine ⟨?_, ?_, ?_, ?_⟩
  · intro k s hs
    rw [hfac, find_modify] at hs
    split_ifs at hs with hk
    · rw [hf, Option.map_some', Option.some.injEq] at hs
      subst hs
      rw [hG, hk]
      exact hE key st hf
    · exact hE k s hs
  · rw [hh, u5, hfac, countAtLeast_modify w _ key G st _ hf, h5, ho, hn]
  · rw [hr, u6, hfac, countAtLeast_modify w _ key G st _ hf, h6, ho, hn]
  · rw [he, u7, hfac, countAtLeast_modify w _ key G st _ hf, h7, ho, hn]

/-- A step that changes neither the faction id nor the standing of any
element, nor a rank counter, keeps the invariant. -/
theorem CountersOK_flags (w : World) (m m1 : ReputationMgr) (key : Nat)
    (G : FactionState → FactionState)
    (hinv : CountersOK w m)
    (hG : ∀ f, (G f).ID = f.ID ∧ (G f).Standing = f.Standing)
    (hfac : m1._factions = m._factions.modify key G)
    (hh : m1._honoredFactionCount = m._honoredFactionCount)
    (hr : m1._reveredFactionCount = m._reveredFactionCount)
    (he : m1._exaltedFactionCount = m._exaltedFactionCount) :
    CountersOK w m1 := by
  cases hf : m._factions.find key with
  | none =>
    rw [modify_of_find_none _ _ _ hf] at hfac
    unfold CountersOK
    rw [hfac, hh, hr, he]
    exact hinv
  | some st =>
    have hrank : stateRank w (G st) = stateRank w st :=
      stateRank_congr w _ _ (hG st).1 (hG st).2
    obtain ⟨u5, u6, u7⟩ := UpdateRankCounters_counts m (stateRank w st) (stateRank w st)
    refine CountersOK_step w m m1 key st G (stateRank w st) (stateRank w st) hinv hf (hG st).1 rfl
      hrank.symm hfac ?_ ?_ ?_
    · rw [hh, u5]; ring
    · rw [hr, u6]; ring
    · rw [he, u7]; ring

theorem initializeRow_tracked (w : World) (m : ReputationMgr) (i : Nat) (fe : FactionEntry)
    (hl : w.LookupEntry i = some fe) (hpos : 0 ≤ fe.reputationListID) :
    (initializeRow w m i)._factions =
      insertState m._factions (toU32 fe.reputationListID) (newFactionState w fe) ∧
    (initializeRow w m i)._honoredFactionCount =
      (UpdateRankCounters m REP_HOSTILE
        (ReputationToRank (GetBaseReputation w fe)))._honoredFactionCount ∧
    (initializeRow w m i)._reveredFactionCount =
      (UpdateRankCounters m REP_HOSTILE
        (ReputationToRank (GetBaseReputation w fe)))._reveredFactionCount ∧
    (initializeRow w m i)._exaltedFactionCount =
      (UpdateRankCounters m REP_HOSTILE
        (ReputationToRank (GetBaseReputation w fe)))._exaltedFactionCount := by
  unfold initializeRow
  rw [hl]
  simp only [ge_iff_le, hpos, if_true]
  split_ifs <;> exact ⟨rfl, rfl, rfl, rfl⟩

/-- The state `Initialize` builds for a catalog faction has the rank of the
faction's base standing. -/
theorem stateRank_newFactionState (w : World) (hw : CatalogOK w) (i : Nat) (fe : FactionEntry)
    (hl : w.LookupEntry i = some fe) :
    w.LookupEntry (newFactionState w fe).ID = some fe ∧
      stateRank w (newFactionState w fe) = ReputationToRank (GetBaseReputation w fe) := by
  have hid : w.LookupEntry (newFactionState w fe).ID = some fe := by
    show w.LookupEntry fe.ID = some fe
    rw [hw.id_eq i fe hl]
    exact hl
  refine ⟨hid, ?_⟩
  rw [stateRank_of_lookup w _ fe hid]
  have hb := hw.base_range i fe hl
  show ReputationToRank (wrap32 (0 + GetBaseReputation w fe)) = _
  rw [zero_add, wrap32_of_range _ hb.1 hb.2]

/-- The loop of `Initialize` keeps the invariant of the rank counters. -/
theorem initialize_fold_counters (w : World) (hw : CatalogOK w) (m0 : ReputationMgr)
    (h0 : m0._factions = []) (h5 : m0._honoredFactionCount = 0)
    (h6 : m0._reveredFactionCount = 0) (h7 : m0._exaltedFactionCount = 0)
    (ids : List Nat) (hnd : ids.Nodup) :
    CountersOK w (ids.foldl (initializeRow w) m0) := by
  induction ids using List.reverseRecOn with
  | nil =>
    refine ⟨?_, ?_, ?_, ?_⟩
    · intro k st h
      simp [h0, FactionStateList.find] at h
    · simp [h0, h5, countAtLeast]
    · simp [h0, h6, countAtLeast]
    · simp [h0, h7, countAtLeast]
  | append_singleton ids i ih =>
    have hnd2 : ids.Nodup ∧ i ∉ ids := by
      rw [List.nodup_append] at hnd
      refine ⟨hnd.1, ?_⟩
      intro hi
      exact hnd.2.2 hi (List.mem_singleton_self i)
    have hprev := ih hnd2.1
    have hA := (initialize_fold w m0 h0 ids).1
    rw [List.foldl_append, List.foldl_cons, List.foldl_nil]
    cases hl : w.LookupEntry i with
    | none =>
      have : initializeRow w (ids.foldl (initializeRow w) m0) i = ids.foldl (initializeRow w) m0 := by
        unfold initializeRow
        rw [hl]
      rw [this]
      exact hprev
    | some fe =>
      by_cases hpos : 0 ≤ fe.reputationListID
      · obtain ⟨hfac, c5, c6, c7⟩ :=
          initializeRow_tracked w (ids.foldl (initializeRow w) m0) i fe hl hpos
        obtain ⟨u5, u6, u7⟩ := UpdateRankCounters_counts (ids.foldl (initializeRow w) m0)
          REP_HOSTILE (ReputationToRank (GetBaseReputation w fe))
        obtain ⟨hid, hrank⟩ := stateRank_newFactionState w hw i fe hl
        have hfresh : (ids.foldl (initializeRow w) m0)._factions.find
            (toU32 fe.reputationListID) = none := by
          cases hfind : (ids.foldl (initializeRow w) m0)._factions.find
              (toU32 fe.reputationListID) with
          | none => rfl
          | some st =>
            obtain ⟨j, fe2, hj, hl2, hpos2, hk, _⟩ := hA _ st hfind
            have := hw.key_inj j i fe2 fe hl2 hl hpos2 hpos hk
            rw [this] at hj
            exact absurd hj hnd2.2
        obtain ⟨hE, p5, p6, p7⟩ := hprev
        refine ⟨?_, ?_, ?_, ?_⟩
        · intro k st hst
          rw [hfac, find_insertState] at hst
          split_ifs at hst with hk
          · rw [Option.some.injEq] at hst
            subst hst
            exact ⟨fe, hid, hpos, hk.symm⟩
          · exact hE k st hst
        · rw [c5, u5, hfac, countAtLeast_insertState w _ _ _ _ hfresh, hrank, p5]
          simp [REP_HOSTILE, REP_HONORED]
        · rw [c6, u6, hfac, countAtLeast_insertState w _ _ _ _ hfresh, hrank, p6]
          simp [REP_HOSTILE, REP_REVERED]
        · rw [c7, u7, hfac, countAtLeast_insertState w _ _ _ _ hfresh, hrank, p7]
          simp [REP_HOSTILE, REP_EXALTED]
      · have : initializeRow w (ids.foldl (initializeRow w) m0) i =
            ids.foldl (initializeRow w) m0 := by
          unfold initializeRow
          rw [hl]
          simp only [ge_iff_le, hpos, if_false]
        rw [this]
        exact hprev

theorem Initialize_CountersOK (w : World) (hw : CatalogOK w) (m : ReputationMgr) :
    CountersOK w (Initialize w m) :=
  initialize_fold_counters w hw _ rfl rfl rfl rfl _ (List.nodup_range' 1 _)

/-- After `Initialize` the map element of a walked catalog faction with a
reputation list is the state built for that faction. -/
theorem Initialize_tracked (w : World) (hw : CatalogOK w) (m : ReputationMgr) (i : Nat)
    (fe : FactionEntry) (h1 : 1 ≤ i) (h2 : i < w.GetNumRows) (hl : w.LookupEntry i = some fe)
    (hpos : 0 ≤ fe.reputationListID) :
    (Initialize w m)._factions.find (toU32 fe.reputationListID) =
      some (newFactionState w fe) := by
  have hfold := initialize_fold w
    { m with
      _factions := []
      _visibleFactionCount := 0
      _honoredFactionCount := 0
      _reveredFactionCount := 0
      _exaltedFactionCount := 0
      _sendFactionIncreased := false } rfl (List.range' 1 (w.GetNumRows - 1))
  obtain ⟨hA, hB, _, _, _⟩ := hfold
  have hmem : i ∈ List.range' 1 (w.GetNumRows - 1) := by
    rw [List.mem_range'_1]
    omega
  obtain ⟨st, hst⟩ := hB i fe hmem hl hpos
  obtain ⟨j, fe2, _, hl2, hpos2, hk, hst2⟩ := hA _ st hst
  have hji := hw.key_inj j i fe2 fe hl2 hl hpos2 hpos hk
  rw [hji, hl, Option.some.injEq] at hl2
  rw [← hl2] at hst2
  unfold Initialize
  rw [hst, hst2]

theorem SetVisible_counters (w : World) (m : ReputationMgr) (key : Nat) :
    (SetVisible w m key)._honoredFactionCount = m._honoredFactionCount ∧
    (SetVisible w m key)._reveredFactionCount = m._reveredFactionCount ∧
    (SetVisible w m key)._exaltedFactionCount = m._exaltedFactionCount := by
  unfold SetVisible SendVisible
  cases m._factions.find key with
  | none => exact ⟨rfl, rfl, rfl⟩
  | some faction =>
    simp only
    split_ifs <;> exact ⟨rfl, rfl, rfl⟩

theorem SetAtWar_ID (f : FactionState) (b : Bool) : (SetAtWar f b).ID = f.ID := by
  unfold SetAtWar; split_ifs <;> rfl

theorem visibleState_ID (f : FactionState) : (visibleState f).ID = f.ID := by
  unfold visibleState; split_ifs <;> rfl

theorem SetInactive_ID (f : FactionState) (b : Bool) : (SetInactive f b).ID = f.ID := by
  unfold SetInactive; split_ifs <;> rfl

theorem SetInactive_Standing (f : FactionState) (b : Bool) :
    (SetInactive f b).Standing = f.Standing := by
  unfold SetInactive; split_ifs <;> rfl

/-- One row of `LoadFromDB` for a tracked faction: the map changes at the
faction's element, which keeps its faction id and takes the standing of the
row, and the rank counters move from the rank of the base standing to the
rank of the base standing plus the standing of the row. -/
theorem loadRow_tracked (w : World) (m : ReputationMgr) (row : ReputationRow)
    (fe : FactionEntry) (st : FactionState)
    (hl : w.LookupEntry row.faction = some fe) (hpos : 0 ≤ fe.reputationListID)
    (hf : m._factions.find (toU32 fe.reputationListID) = some st) :
    ∃ G : FactionState → FactionState,
      (∀ f, (G f).ID = f.ID ∧ (G f).Standing = row.standing) ∧
      (loadRow w m row)._factions = m._factions.modify (toU32 fe.reputationListID) G ∧
      (loadRow w m row)._honoredFactionCount =
        (UpdateRankCounters m (ReputationToRank (GetBaseReputation w fe))
          (ReputationToRank (wrap32 (GetBaseReputation w fe + row.standing))))._honoredFactionCount ∧
      (loadRow w m row)._reveredFactionCount =
        (UpdateRankCounters m (ReputationToRank (GetBaseReputation w fe))
          (ReputationToRank (wrap32 (GetBaseReputation w fe + row.standing))))._reveredFactionCount ∧
      (loadRow w m row)._exaltedFactionCount =
        (UpdateRankCounters m (ReputationToRank (GetBaseReputation w fe))
          (ReputationToRank (wrap32 (GetBaseReputation w fe + row.standing))))._exaltedFactionCount := by
  have hacc : accessState m._factions (toU32 fe.reputationListID) = m._factions := by
    unfold accessState
    rw [hf]
  unfold loadRow
  rw [hl]
  simp only [ge_iff_le, hpos, if_true, hacc]
  split_ifs <;>
    simp only [SetVisible_factions, modify_modify, UpdateRankCounters_factions,
      (SetVisible_counters w _ _).1, (SetVisible_counters w _ _).2.1,
      (SetVisible_counters w _ _).2.2] <;>
    refine ⟨_, ?_, rfl, rfl, rfl, rfl⟩ <;>
    intro f <;>
    constructor <;>
    (try split_ifs) <;>
    simp [SetAtWar_ID, SetAtWar_Standing, visibleState_ID, visibleState_Standing, SetInactive_ID,
      SetInactive_Standing]

/-- The rows of `LoadFromDB` keep the invariant of the rank counters, when
they name each faction at most once and the element of every faction they
name still has the standing `0` that `Initialize` gave it. -/
theorem loadRows_CountersOK (w : World) (hw : CatalogOK w) (rows : List ReputationRow) :
    ∀ m : ReputationMgr, CountersOK w m →
      (rows.map (fun row => row.faction)).Nodup →
      (∀ row, row ∈ rows → ∀ fe, w.LookupEntry row.faction = some fe →
        0 ≤ fe.reputationListID →
        ∃ st, m._factions.find (toU32 fe.reputationListID) = some st ∧ st.Standing = 0 ∧
          st.ID = fe.ID) →
      CountersOK w (rows.foldl (loadRow w) m) := by
  induction rows with
  | nil => intro m hinv _ _; exact hinv
  | cons row rest ih =>
    intro m hinv hnd hzero
    rw [List.map_cons, List.nodup_cons] at hnd
    rw [List.foldl_cons]
    cases hl : w.LookupEntry row.faction with
    | none =>
      have : loadRow w m row = m := by
        unfold loadRow
        rw [hl]
      rw [this]
      exact ih m hinv hnd.2 (fun r hr => hzero r (List.mem_cons_of_mem _ hr))
    | some fe =>
      by_cases hpos : 0 ≤ fe.reputationListID
      · obtain ⟨st, hf, hs0, hsid⟩ := hzero row (List.mem_cons_self _ _) fe hl hpos
        obtain ⟨G, hG, hfac, c5, c6, c7⟩ := loadRow_tracked w m row fe st hl hpos hf
        have hlid : w.LookupEntry st.ID = some fe := by
          rw [hsid, hw.id_eq _ fe hl]
          exact hl
        have hb := hw.base_range _ fe hl
        have ho : ReputationToRank (GetBaseReputation w fe) = stateRank w st := by
          rw [stateRank_of_lookup w st fe hlid, hs0, zero_add, wrap32_of_range _ hb.1 hb.2]
        have hn : ReputationToRank (wrap32 (GetBaseReputation w fe + row.standing)) =
            stateRank w (G st) := by
          have hlid2 : w.LookupEntry (G st).ID = some fe := by
            rw [(hG st).1]
            exact hlid
          rw [stateRank_of_lookup w (G st) fe hlid2, (hG st).2, add_comm]
        have hstep := CountersOK_step w m (loadRow w m row) (toU32 fe.reputationListID) st G _ _
          hinv hf (hG st).1 ho hn hfac c5 c6 c7
        apply ih (loadRow w m row) hstep hnd.2
        intro row2 hr2 fe2 hl2 hpos2
        have hne : toU32 fe2.reputationListID ≠ toU32 fe.reputationListID := by
          intro hk
          have hsame := hw.key_inj _ _ fe2 fe hl2 hl hpos2 hpos hk
          apply hnd.1
          rw [← hsame]
          exact List.mem_map_of_mem (fun row => row.faction) hr2
        rw [hfac, find_modify, if_neg hne]
        exact hzero row2 (List.mem_cons_of_mem _ hr2) fe2 hl2 hpos2
      · have : loadRow w m row = m := by
          unfold loadRow
          rw [hl]
          simp only [ge_iff_le, hpos, if_false]
        rw [this]
        exact ih m hinv hnd.2 (fun r hr => hzero r (List.mem_cons_of_mem _ hr))

theorem LoadFromDB_CountersOK (w : World) (hw : CatalogOK w) (m : ReputationMgr)
    (rows : List ReputationRow) (hrows : RowsOK w rows) :
    CountersOK w (LoadFromDB w m rows) := by
  unfold LoadFromDB
  apply loadRows_CountersOK w hw rows (Initialize w m) (Initialize_CountersOK w hw m) hrows.1
  intro row hr fe hl hpos
  obtain ⟨h1, h2⟩ := hrows.2 row hr
  exact ⟨newFactionState w fe, Initialize_tracked w hw m row.faction fe h1 h2 hl hpos, rfl, rfl⟩

theorem toggledState_ID (r : Bool) (f : FactionState) :
    (toggledState r f).ID = f.ID ∧ (toggledState r f).Standing = f.Standing := by
  cases r <;> exact ⟨rfl, rfl⟩

theorem awardedState_ID (fe : FactionEntry) (o n : Nat) (r : Bool) (s : Int)
    (f : FactionState) : (awardedState fe o n r s f).ID = f.ID := by
  unfold awardedState
  split_ifs <;> simp [SetAtWar_ID, visibleState_ID, (toggledState_ID r f).1]

/-- The rank `applyRankCap` returns is the rank of the standing it returns,
and that standing is between the two ends of the scale. -/
theorem applyRankCap_rank (repMaxCap : Option Nat) (x : Int)
    (hx : Reputation_Bottom ≤ x ∧ x ≤ Reputation_Cap) :
    (applyRankCap repMaxCap x).2 = ReputationToRank (applyRankCap repMaxCap x).1 ∧
      Reputation_Bottom ≤ (applyRankCap repMaxCap x).1 ∧
      (applyRankCap repMaxCap x).1 ≤ Reputation_Cap := by
  unfold applyRankCap
  cases repMaxCap with
  | none => exact ⟨rfl, hx⟩
  | some c =>
    simp only
    split_ifs with hc
    · have h7 : ReputationToRank x ≤ 7 := by
        rcases ReputationToRank_cases x with h | h | h | h | h | h | h | h <;> omega
      have hc7 : c ≤ 7 := by omega
      exact ⟨(rank_of_representative c hc7).symm, representative_bounds c hc7⟩
    · exact ⟨rfl, hx⟩

/-- The rank counters after an allowed `SetOneFactionReputation`. -/
theorem SetOneFactionReputation_allowed_counters (w : World) (m : ReputationMgr)
    (factionEntry : FactionEntry) (stand : F32) (incremental : Bool) (repMaxCap : Option Nat)
    (itr : FactionState)
    (hf : m._factions.find (toU32 factionEntry.reputationListID) = some itr)
    (hok : (w.OnPlayerReputationChange factionEntry.ID
      (applyRankCap repMaxCap (candidateStanding w itr (GetBaseReputation w factionEntry)
        (scaledStand w factionEntry stand incremental) incremental)).1 incremental).1 = true) :
    (SetOneFactionReputation w m factionEntry stand incremental repMaxCap).1._honoredFactionCount =
      (UpdateRankCounters m
        (ReputationToRank (wrap32 (itr.Standing + GetBaseReputation w factionEntry)))
        (applyRankCap repMaxCap (candidateStanding w itr (GetBaseReputation w factionEntry)
          (scaledStand w factionEntry stand incremental) incremental)).2)._honoredFactionCount ∧
    (SetOneFactionReputation w m factionEntry stand incremental repMaxCap).1._reveredFactionCount =
      (UpdateRankCounters m
        (ReputationToRank (wrap32 (itr.Standing + GetBaseReputation w factionEntry)))
        (applyRankCap repMaxCap (candidateStanding w itr (GetBaseReputation w factionEntry)
          (scaledStand w factionEntry stand incremental) incremental)).2)._reveredFactionCount ∧
    (SetOneFactionReputation w m factionEntry stand incremental repMaxCap).1._exaltedFactionCount =
      (UpdateRankCounters m
        (ReputationToRank (wrap32 (itr.Standing + GetBaseReputation w factionEntry)))
        (applyRankCap repMaxCap (candidateStanding w itr (GetBaseReputation w factionEntry)
          (scaledStand w factionEntry stand incremental) incremental)).2)._exaltedFactionCount := by
  unfold SetOneFactionReputation
  simp only [hf, hok, if_true, rounding_block_eq, (UpdateRankCounters_counts _ _ _).1,
    (UpdateRankCounters_counts _ _ _).2.1, (UpdateRankCounters_counts _ _ _).2.2]
  refine ⟨?_, ?_, ?_⟩ <;> congr 2 <;> split_ifs <;>
    simp only [(SetVisible_counters w _ _).1, (SetVisible_counters w _ _).2.1,
      (SetVisible_counters w _ _).2.2]

/-- Two `int32` values that are the same `uint32` are the same, and a
non-negative one stays so. -/
theorem toU32_inj (a b : Int) (ha1 : -2147483648 ≤ a) (ha2 : a ≤ 2147483647)
    (hb1 : -2147483648 ≤ b) (hb2 : b ≤ 2147483647) (h : toU32 a = toU32 b) : a = b := by
  unfold toU32 at h
  omega

/-- `SetOneFactionReputation` for a catalog faction keeps the invariant of
the rank counters, when the hook leaves the standing as it is. -/
theorem SetOneFactionReputation_CountersOK (w : World) (hw : CatalogOK w)
    (hhook : ∀ id s inc, (w.OnPlayerReputationChange id s inc).2 = s)
    (m : ReputationMgr) (factionEntry : FactionEntry) (stand : F32) (incremental : Bool)
    (repMaxCap : Option Nat) (hinv : CountersOK w m)
    (hfe : w.LookupEntry factionEntry.ID = some factionEntry) :
    CountersOK w (SetOneFactionReputation w m factionEntry stand incremental repMaxCap).1 := by
  cases hf : m._factions.find (toU32 factionEntry.reputationListID) with
  | none =>
    rw [SetOneFactionReputation_untracked w m factionEntry stand incremental repMaxCap hf]
    exact hinv
  | some itr =>
    by_cases hallow : (w.OnPlayerReputationChange factionEntry.ID
      (applyRankCap repMaxCap (candidateStanding w itr (GetBaseReputation w factionEntry)
        (scaledStand w factionEntry stand incremental) incremental)).1 incremental).1 = true
    · obtain ⟨_, hfac⟩ := SetOneFactionReputation_allowed w m factionEntry stand incremental
        repMaxCap itr hf hallow
      obtain ⟨c5, c6, c7⟩ := SetOneFactionReputation_allowed_counters w m factionEntry stand
        incremental repMaxCap itr hf hallow
      obtain ⟨fe2, hl2, hpos2, hk2⟩ := hinv.1 _ itr hf
      have hr1 := hw.list_range _ factionEntry hfe
      have hr2 := hw.list_range _ fe2 hl2
      have hsame : fe2.reputationListID = factionEntry.reputationListID :=
        toU32_inj _ _ hr2.1 hr2.2 hr1.1 hr1.2 hk2
      have hpos : 0 ≤ factionEntry.reputationListID := by rw [← hsame]; exact hpos2
      have hid : itr.ID = factionEntry.ID :=
        hw.key_inj _ _ fe2 factionEntry hl2 hfe hpos2 hpos hk2
      have hlid : w.LookupEntry itr.ID = some factionEntry := by rw [hid]; exact hfe
      have hcap := applyRankCap_rank repMaxCap
        (candidateStanding w itr (GetBaseReputation w factionEntry)
          (scaledStand w factionEntry stand incremental) incremental)
        (candidateStanding_bounds w itr _ _ _)
      have hAid := awardedState_ID factionEntry
        (ReputationToRank (wrap32 (itr.Standing + GetBaseReputation w factionEntry)))
        (applyRankCap repMaxCap (candidateStanding w itr (GetBaseReputation w factionEntry)
          (scaledStand w factionEntry stand incremental) incremental)).2
        (roundingMade (scaledStand w factionEntry stand incremental))
        (wrap32 ((w.OnPlayerReputationChange factionEntry.ID
          (applyRankCap repMaxCap (candidateStanding w itr (GetBaseReputation w factionEntry)
            (scaledStand w factionEntry stand incremental) incremental)).1 incremental).2 -
          GetBaseReputation w factionEntry)) itr
      refine CountersOK_step w m _ (toU32 factionEntry.reputationListID) itr _ _ _ hinv hf hAid
        (stateRank_of_lookup w itr factionEntry hlid).symm ?_ hfac c5 c6 c7
      rw [stateRank_of_lookup w _ factionEntry (by rw [hAid]; exact hlid), awardedState_Standing,
        hhook, hcap.1]
      unfold Reputation_Bottom Reputation_Cap at hcap
      rw [wrap32_sub_add _ _ (by omega) (by omega)]
    · simp only [Bool.not_eq_true] at hallow
      rw [SetOneFactionReputation_vetoed w m factionEntry stand incremental repMaxCap itr hf
        hallow]
      exact CountersOK_flags w m _ (toU32 factionEntry.reputationListID)
        (toggledState (roundingMade (scaledStand w factionEntry stand incremental))) hinv
        (fun f => toggledState_ID _ f) rfl rfl rfl rfl

theorem spilloverTemplateLoop_CountersOK (w : World) (hw : CatalogOK w)
    (hhook : ∀ id s inc, (w.OnPlayerReputationChange id s inc).2 = s)
    (standing : F32) (incremental : Bool) (slots : List SpilloverSlot) :
    ∀ m m1 : ReputationMgr, CountersOK w m →
      spilloverTemplateLoop w standing incremental slots m = some m1 → CountersOK w m1 := by
  induction slots with
  | nil =>
    intro m m1 hinv h
    simp only [spilloverTemplateLoop, Option.some.injEq] at h
    rw [← h]
    exact hinv
  | cons slot rest ih =>
    intro m m1 hinv h
    unfold spilloverTemplateLoop at h
    split_ifs at h with hc
    · cases hl : w.LookupEntry slot.faction with
      | none => rw [hl] at h; exact Option.noConfusion h
      | some target =>
        rw [hl] at h
        simp only at h
        have htarget : w.LookupEntry target.ID = some target := by
          rw [hw.id_eq _ target hl]
          exact hl
        exact ih _ m1
          (SetOneFactionReputation_CountersOK w hw hhook m target _ incremental none hinv htarget)
          h
    · exact ih m m1 hinv h

theorem spilloverTeamLoop_CountersOK (w : World) (hw : CatalogOK w)
    (hhook : ∀ id s inc, (w.OnPlayerReputationChange id s inc).2 = s)
    (factionEntry : FactionEntry) (out : F32) (incremental : Bool) (ids : List Nat) :
    ∀ s : ReputationMgr × Bool, CountersOK w s.1 →
      CountersOK w (spilloverTeamLoop w factionEntry out incremental ids s).1 := by
  induction ids with
  | nil => intro s hinv; exact hinv
  | cons id rest ih =>
    intro s hinv
    unfold spilloverTeamLoop
    cases hl : w.LookupEntry id with
    | none => exact ih s hinv
    | some calc1 =>
      simp only
      have hcalc : w.LookupEntry calc1.ID = some calc1 := by
        rw [hw.id_eq _ calc1 hl]
        exact hl
      split_ifs
      · exact ih s hinv
      · exact ih _
          (SetOneFactionReputation_CountersOK w hw hhook s.1 calc1 _ incremental none hinv hcalc)
      · exact ih s hinv

theorem spilloverTeam_CountersOK (w : World) (hw : CatalogOK w)
    (hhook : ∀ id s inc, (w.OnPlayerReputationChange id s inc).2 = s)
    (m : ReputationMgr) (factionEntry : FactionEntry) (out : F32) (incremental : Bool)
    (flist : Option (List Nat)) (hinv : CountersOK w m) :
    CountersOK w (spilloverTeam w m factionEntry out incremental flist).1 := by
  unfold spilloverTeam
  cases flist with
  | none => exact hinv
  | some ids => exact spilloverTeamLoop_CountersOK w hw hhook factionEntry out incremental ids _ hinv

theorem spillover_CountersOK (w : World) (hw : CatalogOK w)
    (hhook : ∀ id s inc, (w.OnPlayerReputationChange id s inc).2 = s)
    (m : ReputationMgr) (factionEntry : FactionEntry) (standing : F32) (incremental : Bool)
    (r : ReputationMgr × Bool) (hinv : CountersOK w m)
    (h : spillover w m factionEntry standing incremental = some r) : CountersOK w r.1 := by
  unfold spillover at h
  cases ht : w.GetRepSpilloverTemplate factionEntry.ID with
  | some repTemplate =>
    rw [ht] at h
    simp only at h
    cases hloop : spilloverTemplateLoop w standing incremental repTemplate.slots m with
    | none => rw [hloop] at h; simp at h
    | some m1 =>
      rw [hloop] at h
      simp only [Option.map_some', Option.some.injEq] at h
      rw [← h]
      exact spilloverTemplateLoop_CountersOK w hw hhook standing incremental _ m m1 hinv hloop
  | none =>
    rw [ht] at h
    simp only at h
    split_ifs at h with hc
    · cases hl : w.LookupEntry factionEntry.team with
      | none =>
        rw [hl] at h
        simp only [Option.some.injEq] at h
        rw [← h]
        exact hinv
      | some parent =>
        rw [hl] at h
        simp only at h
        have hparent : w.LookupEntry parent.ID = some parent := by
          rw [hw.id_eq _ parent hl]
          exact hl
        split_ifs at h
        · simp only [Option.some.injEq] at h
          rw [← h]
          exact SetOneFactionReputation_CountersOK w hw hhook m parent _ incremental none hinv
            hparent
        · simp only [Option.some.injEq] at h
          rw [← h]
          exact spilloverTeam_CountersOK w hw hhook m factionEntry _ incremental _ hinv
    · simp only [Option.some.injEq] at h
      rw [← h]
      exact spilloverTeam_CountersOK w hw hhook m factionEntry _ incremental _ hinv

/-- `SendState` keeps the invariant of the rank counters. -/
theorem SendState_CountersOK (w : World) (m : ReputationMgr) (faction : FactionState)
    (hinv : CountersOK w m) : CountersOK w (SendState m faction) := by
  have hmap : ∀ l : FactionStateList, ∀ r,
      countAtLeast w
        (l.map (fun p => if p.2.needSend then (p.1, { p.2 with needSend := false }) else p)) r =
        countAtLeast w l r := by
    intro l r
    induction l with
    | nil => rfl
    | cons p rest ih =>
      have hp : stateRank w
          (if p.2.needSend then (p.1, { p.2 with needSend := false }) else p).2 =
          stateRank w p.2 := by
        split_ifs <;> rfl
      rw [List.map_cons, countAtLeast_cons, countAtLeast_cons, ih]
      simp only [hp]
  obtain ⟨hE, h5, h6, h7⟩ := hinv
  refine ⟨?_, ?_, ?_, ?_⟩
  · intro k st hst
    rw [SendState_find] at hst
    cases hfind : m._factions.find k with
    | none => rw [hfind] at hst; simp at hst
    | some st0 =>
      rw [hfind, Option.map_some', Option.some.injEq] at hst
      have hid : st.ID = st0.ID := by
        rw [← hst]
        split_ifs <;> rfl
      rw [hid]
      exact hE k st0 hfind
  · show m._honoredFactionCount = _
    rw [h5]
    exact (hmap _ _).symm
  · show m._reveredFactionCount = _
    rw [h6]
    exact (hmap _ _).symm
  · show m._exaltedFactionCount = _
    rw [h7]
    exact (hmap _ _).symm

theorem SetReputation_CountersOK (w : World) (hw : CatalogOK w)
    (hhook : ∀ id s inc, (w.OnPlayerReputationChange id s inc).2 = s)
    (m : ReputationMgr) (factionEntry : FactionEntry) (standing : F32)
    (incremental noSpillOver : Bool) (repMaxCap : Option Nat) (r : ReputationMgr × Bool)
    (hinv : CountersOK w m) (hfe : w.LookupEntry factionEntry.ID = some factionEntry)
    (h : SetReputation w m factionEntry standing incremental noSpillOver repMaxCap = some r) :
    CountersOK w r.1 := by
  unfold SetReputation at h
  simp only at h
  cases hsp : (if noSpillOver = false then spillover w m factionEntry standing incremental
      else some (m, false)) with
  | none => rw [hsp] at h; exact Option.noConfusion h
  | some sp =>
    obtain ⟨m1, res⟩ := sp
    have hinv1 : CountersOK w m1 := by
      split_ifs at hsp
      · exact spillover_CountersOK w hw hhook m factionEntry standing incremental (m1, res) hinv hsp
      · simp only [Option.some.injEq, Prod.mk.injEq] at hsp
        rw [← hsp.1]
        exact hinv
    rw [hsp] at h
    simp only at h
    cases hf : m1._factions.find (toU32 factionEntry.reputationListID) with
    | none =>
      rw [hf] at h
      simp only [Option.some.injEq] at h
      rw [← h]
      exact hinv1
    | some itr =>
      rw [hf] at h
      simp only at h
      have hinv2 : CountersOK w
          (if capExceeded repMaxCap (GetRank w m1 (some factionEntry)) = false then
            SetOneFactionReputation w m1 factionEntry standing incremental repMaxCap
          else (m1, res)).1 := by
        split_ifs
        · exact SetOneFactionReputation_CountersOK w hw hhook m1 factionEntry standing incremental
            repMaxCap hinv1 hfe
        · exact hinv1
      cases hf2 : (if capExceeded repMaxCap (GetRank w m1 (some factionEntry)) = false then
            SetOneFactionReputation w m1 factionEntry standing incremental repMaxCap
          else (m1, res)).1._factions.find (toU32 factionEntry.reputationListID) with
      | none =>
        rw [hf2] at h
        simp only [Option.some.injEq] at h
        rw [← h]
        exact hinv2
      | some faction =>
        rw [hf2] at h
        simp only [Option.some.injEq] at h
        rw [← h]
        exact SendState_CountersOK w _ faction hinv2

theorem exampleWorld_CatalogOK : CatalogOK exampleWorld := by
  have hlook : ∀ id fe, exampleWorld.LookupEntry id = some fe → id = 21 ∧ fe = exampleFaction := by
    intro id fe h
    have h2 : (if id = 21 then some exampleFaction else none) = some fe := h
    split_ifs at h2 with hid
    · exact ⟨hid, (Option.some.inj h2).symm⟩
  refine ⟨?_, ?_, ?_, ?_⟩
  · intro id fe h
    obtain ⟨h1, h2⟩ := hlook id fe h
    rw [h1, h2]
    rfl
  · intro a b fa fb ha hb _ _ _
    rw [(hlook a fa ha).1, (hlook b fb hb).1]
  · intro id fe h
    rw [(hlook id fe h).2]
    decide
  · intro id fe h
    rw [(hlook id fe h).2]
    decide

theorem zeroRowWorld_CatalogOK : CatalogOK zeroRowWorld := by
  have hlook : ∀ id fe, zeroRowWorld.LookupEntry id = some fe → id = 0 ∧ fe = zeroRowFaction := by
    intro id fe h
    have h2 : (if id = 0 then some zeroRowFaction else none) = some fe := h
    split_ifs at h2 with hid
    · exact ⟨hid, (Option.some.inj h2).symm⟩
  refine ⟨?_, ?_, ?_, ?_⟩
  · intro id fe h
    obtain ⟨h1, h2⟩ := hlook id fe h
    rw [h1, h2]
    rfl
  · intro a b fa fb ha hb _ _ _
    rw [(hlook a fa ha).1, (hlook b fb hb).1]
  · intro id fe h
    rw [(hlook id fe h).2]
    decide
  · intro id fe h
    rw [(hlook id fe h).2]
    decide

/-- C18, as the code has it: `Initialize` walks the catalog rows from `1` on,
while `LoadFromDB` gives a map element to a faction of any catalog row a
persisted row names. For a well-formed catalog whose row `0` is a faction
with reputation list `0` and base standing `9000`, and a hook that does not
alter the standing, loading the one row `(faction 0, standing 0)` tracks
that faction at rank `Honored`: one tracked faction has a rank `≥ Honored`,
and the honored counter is `0`. -/
theorem LoadFromDB_row_zero_uncounted :
    CatalogOK zeroRowWorld ∧
    (∀ id s inc, (zeroRowWorld.OnPlayerReputationChange id s inc).2 = s) ∧
    (LoadFromDB zeroRowWorld exampleLedger [{ faction := 0, standing := 0, flags := 0 }])._factions.find 0
      ≠ none ∧
    GetRank zeroRowWorld
      (LoadFromDB zeroRowWorld exampleLedger [{ faction := 0, standing := 0, flags := 0 }])
      (some zeroRowFaction) = REP_HONORED ∧
    countAtLeast zeroRowWorld
      (LoadFromDB zeroRowWorld exampleLedger
        [{ faction := 0, standing := 0, flags := 0 }])._factions REP_HONORED = 1 ∧
    (LoadFromDB zeroRowWorld exampleLedger
      [{ faction := 0, standing := 0, flags := 0 }])._honoredFactionCount = 0 := by
  refine ⟨zeroRowWorld_CatalogOK, fun _ _ _ => rfl, by decide, by decide, by decide, by decide⟩

/-- C18, amended: for a well-formed catalog (the row under an id has that id,
distinct factions with a reputation list have distinct reputation-list ids,
reputation-list ids and base standings are `int32` values) and a hook that
does not alter the standing, in every ledger state reached from `Initialize`
by `SetOneFactionReputation` and `SetReputation` on catalog factions and by
`LoadFromDB` whose rows name each faction at most once and only catalog rows
`1 ≤ id < GetNumRows()` (the rows `Initialize` walks), the honored, revered
and exalted counters equal the number of tracked factions whose current rank
(rank of base + `Standing`) is `≥ Honored`, `≥ Revered` and `≥ Exalted`
respectively. -/
theorem counters_count_ranked_factions (w : World) (hw : CatalogOK w)
    (hhook : ∀ id s inc, (w.OnPlayerReputationChange id s inc).2 = s)
    (m : ReputationMgr) (hm : Reachable w m) :
    m._honoredFactionCount = countAtLeast w m._factions REP_HONORED ∧
    m._reveredFactionCount = countAtLeast w m._factions REP_REVERED ∧
    m._exaltedFactionCount = countAtLeast w m._factions REP_EXALTED := by
  have hinv : CountersOK w m := by
    induction hm with
    | init m0 => exact Initialize_CountersOK w hw m0
    | load m0 rows hrows => exact LoadFromDB_CountersOK w hw m0 rows hrows
    | setOne m0 fe stand inc cap _ hfe ih =>
      exact SetOneFactionReputation_CountersOK w hw hhook m0 fe stand inc cap ih hfe
    | setReputation m0 fe standing inc nsp cap r _ hfe hr ih =>
      exact SetReputation_CountersOK w hw hhook m0 fe standing inc nsp cap r ih hfe hr
  exact hinv.2

theorem counters_count_ranked_factions_witness :
    CatalogOK exampleWorld ∧
    (∀ id s inc, (exampleWorld.OnPlayerReputationChange id s inc).2 = s) ∧
    Reachable exampleWorld (LoadFromDB exampleWorld exampleLedger [exampleRow]) ∧
    (LoadFromDB exampleWorld exampleLedger [exampleRow])._honoredFactionCount = 1 ∧
    ((LoadFromDB exampleWorld exampleLedger [exampleRow])._honoredFactionCount =
      countAtLeast exampleWorld (LoadFromDB exampleWorld exampleLedger [exampleRow])._factions
        REP_HONORED ∧
    (LoadFromDB exampleWorld exampleLedger [exampleRow])._reveredFactionCount =
      countAtLeast exampleWorld (LoadFromDB exampleWorld exampleLedger [exampleRow])._factions
        REP_REVERED ∧
    (LoadFromDB exampleWorld exampleLedger [exampleRow])._exaltedFactionCount =
      countAtLeast exampleWorld (LoadFromDB exampleWorld exampleLedger [exampleRow])._factions
        REP_EXALTED) :=
  ⟨exampleWorld_CatalogOK, fun _ _ _ => rfl,
    Reachable.load exampleLedger [exampleRow] ⟨by decide, by decide⟩, by decide,
    counters_count_ranked_factions exampleWorld exampleWorld_CatalogOK (fun _ _ _ => rfl) _
      (Reachable.load exampleLedger [exampleRow] ⟨by decide, by decide⟩)⟩

end ReputationMgr

namespace ReputationMgr

/-! ## The at-war flag after a change of rank -/

theorem and_clearFlag_self (f b : Nat) : clearFlag f b &&& b = 0 := by
  unfold clearFlag
  apply Nat.eq_of_testBit_eq
  intro i
  simp only [Nat.testBit_and, Nat.testBit_xor, Nat.zero_testBit]
  cases f.testBit i <;> cases b.testBit i <;> rfl

theorem and_clearFlag_other (f b c : Nat) (h : b &&& c = 0) :
    clearFlag f b &&& c = f &&& c := by
  unfold clearFlag
  apply Nat.eq_of_testBit_eq
  intro i
  have hi : (b &&& c).testBit i = false := by rw [h]; exact Nat.zero_testBit i
  simp only [Nat.testBit_and, Nat.testBit_xor] at hi ⊢
  cases f.testBit i <;> cases hb : b.testBit i <;> cases hc : c.testBit i <;> simp_all

theorem or_and_self (f b : Nat) : (f ||| b) &&& b = b := by
  apply Nat.eq_of_testBit_eq
  intro i
  simp only [Nat.testBit_and, Nat.testBit_or]
  cases f.testBit i <;> cases b.testBit i <;> rfl

theorem or_and_other (f b c : Nat) (h : b &&& c = 0) : (f ||| b) &&& c = f &&& c := by
  apply Nat.eq_of_testBit_eq
  intro i
  have hi : (b &&& c).testBit i = false := by rw [h]; exact Nat.zero_testBit i
  simp only [Nat.testBit_and, Nat.testBit_or] at hi ⊢
  cases f.testBit i <;> cases hb : b.testBit i <;> cases hc : c.testBit i <;> simp_all

/-- `SetAtWar(faction, true)` leaves the at-war bit set, unless the faction is
peace-forced. -/
theorem SetAtWar_true_Flags (f : FactionState)
    (hp : (f.Flags &&& FACTION_FLAG_PEACE_FORCED) = 0) :
    ((SetAtWar f true).Flags &&& FACTION_FLAG_AT_WAR) ≠ 0 := by
  unfold SetAtWar
  rw [if_neg (by simp [hp])]
  by_cases hw : (f.Flags &&& FACTION_FLAG_AT_WAR) ≠ 0
  · rw [if_pos (by simpa using hw)]
    exact hw
  · rw [if_neg (by simpa using hw)]
    simp only [if_true]
    rw [or_and_self]
    decide

/-- `SetAtWar(faction, false)` leaves the at-war bit clear. -/
theorem SetAtWar_false_Flags (f : FactionState) :
    ((SetAtWar f false).Flags &&& FACTION_FLAG_AT_WAR) = 0 := by
  unfold SetAtWar
  rw [if_neg (by simp)]
  by_cases hw : (f.Flags &&& FACTION_FLAG_AT_WAR) ≠ 0
  · rw [if_neg (by simpa using hw)]
    simp only [Bool.false_eq_true, if_false]
    exact and_clearFlag_self _ _
  · rw [if_pos (by simpa using hw)]
    simpa using hw

/-- `SetVisible` changes no bit of the flags but the visible bit. -/
theorem visibleState_Flags (f : FactionState) (c : Nat)
    (hc : FACTION_FLAG_VISIBLE &&& c = 0) :
    (visibleState f).Flags &&& c = f.Flags &&& c := by
  unfold visibleState
  split_ifs
  · rfl
  · rfl
  · exact or_and_other _ _ _ hc

theorem toggledState_Flags (r : Bool) (f : FactionState) :
    (toggledState r f).Flags = f.Flags := by
  cases r <;> rfl

/-- The flags of the target after an allowed call whose new rank is at most
`Hostile`: the at-war bit is set unless the faction is peace-forced. -/
theorem awardedState_at_war (fe : FactionEntry) (o n : Nat) (r : Bool) (s : Int)
    (f : FactionState) (hn : n ≤ REP_HOSTILE)
    (hp : (f.Flags &&& FACTION_FLAG_PEACE_FORCED) = 0) :
    ((awardedState fe o n r s f).Flags &&& FACTION_FLAG_AT_WAR) ≠ 0 := by
  unfold awardedState
  have hn2 : ¬ (o = REP_HOSTILE ∧ n ≥ REP_UNFRIENDLY ∧ fe.CanBeSetAtWar = true) := by
    unfold REP_HOSTILE at hn
    unfold REP_UNFRIENDLY
    omega
  simp only [hn, if_true, hn2, if_false]
  apply SetAtWar_true_Flags
  rw [visibleState_Flags _ _ (by decide)]
  show (toggledState r f).Flags &&& FACTION_FLAG_PEACE_FORCED = 0
  rw [toggledState_Flags]
  exact hp

/-- The flags of the target after an allowed call that leaves rank `Hostile`
for `Unfriendly` or higher, for a faction that can be set at war: the at-war
bit is clear. -/
theorem awardedState_at_peace (fe : FactionEntry) (o n : Nat) (r : Bool) (s : Int)
    (f : FactionState) (ho : o = REP_HOSTILE) (hn : n ≥ REP_UNFRIENDLY)
    (hcan : fe.CanBeSetAtWar = true) :
    ((awardedState fe o n r s f).Flags &&& FACTION_FLAG_AT_WAR) = 0 := by
  unfold awardedState
  simp only [ho, hn, hcan, and_self, if_true]
  exact SetAtWar_false_Flags _

/-- C21: after a successful `SetOneFactionReputation` (the target is tracked
and the hook allows the change) whose new rank is in the bottom band, `Hated`
(the test of line 435 is `new_rank <= REP_HOSTILE`, so the same holds for
`Hostile`), the call returns true and the faction's at-war flag is set, unless
the faction carries the peace-forced flag. -/
theorem SetOneFactionReputation_bottom_band_at_war (w : World) (m : ReputationMgr)
    (factionEntry : FactionEntry) (stand : F32) (incremental : Bool) (repMaxCap : Option Nat)
    (itr : FactionState)
    (hf : m._factions.find (toU32 factionEntry.reputationListID) = some itr)
    (hok : (w.OnPlayerReputationChange factionEntry.ID
      (applyRankCap repMaxCap (candidateStanding w itr (GetBaseReputation w factionEntry)
        (scaledStand w factionEntry stand incremental) incremental)).1 incremental).1 = true)
    (hnew : (applyRankCap repMaxCap (candidateStanding w itr (GetBaseReputation w factionEntry)
        (scaledStand w factionEntry stand incremental) incremental)).2 = REP_HATED ∨
      (applyRankCap repMaxCap (candidateStanding w itr (GetBaseReputation w factionEntry)
        (scaledStand w factionEntry stand incremental) incremental)).2 = REP_HOSTILE)
    (hpeace : (itr.Flags &&& FACTION_FLAG_PEACE_FORCED) = 0) :
    (SetOneFactionReputation w m factionEntry stand incremental repMaxCap).2 = true ∧
    ∃ st, (SetOneFactionReputation w m factionEntry stand incremental
        repMaxCap).1._factions.find (toU32 factionEntry.reputationListID) = some st ∧
      (st.Flags &&& FACTION_FLAG_AT_WAR) ≠ 0 := by
  obtain ⟨hres, hfac⟩ := SetOneFactionReputation_allowed w m factionEntry stand incremental
    repMaxCap itr hf hok
  refine ⟨hres, ?_⟩
  rw [hfac, find_modify, if_pos rfl, hf]
  refine ⟨_, rfl, awardedState_at_war _ _ _ _ _ _ ?_ hpeace⟩
  rcases hnew with h | h <;> simp [h, REP_HATED, REP_HOSTILE]

/-- Witness of C21: setting the example faction, tracked at `Friendly` and not
at war, to the total standing `-10000` (`Hated`). -/
theorem SetOneFactionReputation_bottom_band_at_war_witness :
    (SetOneFactionReputation exampleWorld exampleLedger exampleFaction (F32.finite (-10000))
      false none).2 = true ∧
    ∃ st, (SetOneFactionReputation exampleWorld exampleLedger exampleFaction
        (F32.finite (-10000)) false none).1._factions.find
          (toU32 exampleFaction.reputationListID) = some st ∧
      (st.Flags &&& FACTION_FLAG_AT_WAR) ≠ 0 :=
  SetOneFactionReputation_bottom_band_at_war exampleWorld exampleLedger exampleFaction
    (F32.finite (-10000)) false none
    { ID := 21, ReputationListID := 3, Standing := 2500, Flags := 1, needSend := false,
      needSave := false, roundedUp := false }
    (by decide) (by decide!) (Or.inl (by decide!)) (by decide)

/-- C22, as the code has it: line 438 clears the at-war flag only when the old
rank is exactly `REP_HOSTILE`. The example faction, which can be set at war,
is tracked at total standing `-10000` (`Hated`) and at war; setting its
standing to `0` succeeds and moves it to `Neutral`, and it is still at war. -/
theorem SetOneFactionReputation_from_hated_stays_at_war :
    exampleFaction.CanBeSetAtWar = true ∧
    GetRank exampleWorld hatedLedger (some exampleFaction) = REP_HATED ∧
    (SetOneFactionReputation exampleWorld hatedLedger exampleFaction (F32.finite 0) false
      none).2 = true ∧
    GetRank exampleWorld
      (SetOneFactionReputation exampleWorld hatedLedger exampleFaction (F32.finite 0) false
        none).1 (some exampleFaction) = REP_NEUTRAL ∧
    ((SetOneFactionReputation exampleWorld hatedLedger exampleFaction (F32.finite 0) false
      none).1._factions.find 3).map (fun st => st.Flags &&& FACTION_FLAG_AT_WAR) =
        some FACTION_FLAG_AT_WAR := by
  refine ⟨by decide, by decide, by decide!, by decide!, by decide!⟩

/-- C22, amended: after a successful `SetOneFactionReputation` (the target is
tracked and the hook allows the change) that moves a faction from rank
`Hostile` (old rank exactly `REP_HOSTILE`) to rank `Unfriendly` or higher, in
particular to `Neutral` or higher, the call returns true and the faction's
at-war flag is clear, provided the faction allows being placed at war. -/
theorem SetOneFactionReputation_leaving_hostile_at_peace (w : World) (m : ReputationMgr)
    (factionEntry : FactionEntry) (stand : F32) (incremental : Bool) (repMaxCap : Option Nat)
    (itr : FactionState)
    (hf : m._factions.find (toU32 factionEntry.reputationListID) = some itr)
    (hok : (w.OnPlayerReputationChange factionEntry.ID
      (applyRankCap repMaxCap (candidateStanding w itr (GetBaseReputation w factionEntry)
        (scaledStand w factionEntry stand incremental) incremental)).1 incremental).1 = true)
    (hold : ReputationToRank (wrap32 (itr.Standing + GetBaseReputation w factionEntry)) =
      REP_HOSTILE)
    (hnew : (applyRankCap repMaxCap (candidateStanding w itr (GetBaseReputation w factionEntry)
        (scaledStand w factionEntry stand incremental) incremental)).2 ≥ REP_UNFRIENDLY)
    (hcan : factionEntry.CanBeSetAtWar = true) :
    (SetOneFactionReputation w m factionEntry stand incremental repMaxCap).2 = true ∧
    ∃ st, (SetOneFactionReputation w m factionEntry stand incremental
        repMaxCap).1._factions.find (toU32 factionEntry.reputationListID) = some st ∧
      (st.Flags &&& FACTION_FLAG_AT_WAR) = 0 := by
  obtain ⟨hres, hfac⟩ := SetOneFactionReputation_allowed w m factionEntry stand incremental
    repMaxCap itr hf hok
  refine ⟨hres, ?_⟩
  rw [hfac, find_modify, if_pos rfl, hf]
  exact ⟨_, rfl, awardedState_at_peace _ _ _ _ _ _ hold hnew hcan⟩

/-- Witness of C22, amended: the example faction, tracked at total standing
`-5000` (`Hostile`) and at war, set to the standing `0` (`Neutral`). -/
theorem SetOneFactionReputation_leaving_hostile_at_peace_witness :
    GetRank exampleWorld hostileLedger (some exampleFaction) = REP_HOSTILE ∧
    (SetOneFactionReputation exampleWorld hostileLedger exampleFaction (F32.finite 0) false
      none).2 = true ∧
    ∃ st, (SetOneFactionReputation exampleWorld hostileLedger exampleFaction (F32.finite 0)
        false none).1._factions.find (toU32 exampleFaction.reputationListID) = some st ∧
      (st.Flags &&& FACTION_FLAG_AT_WAR) = 0 :=
  ⟨by decide,
    SetOneFactionReputation_leaving_hostile_at_peace exampleWorld hostileLedger exampleFaction
      (F32.finite 0) false none
      { ID := 21, ReputationListID := 3, Standing := -5500, Flags := 3, needSend := false,
        needSave := false, roundedUp := false }
      (by decide) (by decide!) (by decide) (by decide!) (by decide)⟩

/-! ## The standing update -/

/-- The loop of `SendState` from any state of the loop: the elements walked
are appended with `needSend` cleared, the pairs of the pending elements of
another reputation list are appended to the packet, and the count grows by
their number. -/
theorem sendStateStep_foldl (faction : FactionState) (l : FactionStateList) :
    ∀ acc : FactionStateList × List (Nat × Nat) × Nat,
      l.foldl (sendStateStep faction) acc =
        (acc.1 ++
            l.map (fun p => if p.2.needSend then (p.1, { p.2 with needSend := false }) else p),
          acc.2.1 ++
            (l.filter (fun p =>
              p.2.needSend && p.2.ReputationListID != faction.ReputationListID)).map
                (fun p => (p.2.ReputationListID, toU32 p.2.Standing)),
          acc.2.2 +
            (l.filter (fun p =>
              p.2.needSend && p.2.ReputationListID != faction.ReputationListID)).length) := by
  induction l with
  | nil => intro acc; simp
  | cons p rest ih =>
    intro acc
    rw [List.foldl_cons, ih]
    unfold sendStateStep
    by_cases hs : p.2.needSend = true
    · by_cases hne : p.2.ReputationListID = faction.ReputationListID
      · simp [hs, hne]
      · simp [hs, hne]
        omega
    · simp [hs]

/-- The statement-by-statement `SendStateWalk` and the closed form `SendState`
are the same function. -/
theorem SendStateWalk_eq (m : ReputationMgr) (faction : FactionState) :
    SendStateWalk m faction = SendState m faction := by
  unfold SendStateWalk SendState
  simp only [sendStateStep_foldl, List.nil_append, List.cons_append, List.length_cons,
    List.length_map]
  rw [Nat.add_comm 1]

/-- C30: `SendState(faction)` hands the session one standing update: it
carries the "increased" flag of the ledger, lists the given faction first,
followed by exactly the map elements of another reputation list whose
`needSend` was set, in map order and each once, and its count field is the
number of listed (list id, standing) pairs. Afterwards no faction has
`needSend` set, the "increased" flag is cleared, and no faction's key, id,
`Standing`, `Flags`, `needSave` or rounding toggle has changed, nor has a
counter. -/
theorem SendState_update (m : ReputationMgr) (faction : FactionState) :
    (SendStateWalk m faction).sent =
      m.sent ++ [Packet.SMSG_SET_FACTION_STANDING m._sendFactionIncreased
        (1 + (m._factions.filter (fun p =>
          p.2.needSend && p.2.ReputationListID != faction.ReputationListID)).length)
        ((faction.ReputationListID, toU32 faction.Standing) ::
          (m._factions.filter (fun p =>
            p.2.needSend && p.2.ReputationListID != faction.ReputationListID)).map
              (fun p => (p.2.ReputationListID, toU32 p.2.Standing)))] ∧
    (∀ p, p ∈ (SendStateWalk m faction)._factions → p.2.needSend = false) ∧
    (SendStateWalk m faction)._sendFactionIncreased = false ∧
    (SendStateWalk m faction)._factions.map
        (fun p => (p.1, p.2.ID, p.2.ReputationListID, p.2.Standing, p.2.Flags, p.2.needSave,
          p.2.roundedUp)) =
      m._factions.map
        (fun p => (p.1, p.2.ID, p.2.ReputationListID, p.2.Standing, p.2.Flags, p.2.needSave,
          p.2.roundedUp)) ∧
    (SendStateWalk m faction)._visibleFactionCount = m._visibleFactionCount ∧
    (SendStateWalk m faction)._honoredFactionCount = m._honoredFactionCount ∧
    (SendStateWalk m faction)._reveredFactionCount = m._reveredFactionCount ∧
    (SendStateWalk m faction)._exaltedFactionCount = m._exaltedFactionCount := by
  have hfac : (SendStateWalk m faction)._factions =
      m._factions.map
        (fun p => if p.2.needSend then (p.1, { p.2 with needSend := false }) else p) := by
    unfold SendStateWalk
    simp only [sendStateStep_foldl, List.nil_append]
  refine ⟨?_, ?_, rfl, ?_, rfl, rfl, rfl, rfl⟩
  · unfold SendStateWalk
    simp only [sendStateStep_foldl, List.cons_append, List.nil_append]
  · intro p hp
    rw [hfac, List.mem_map] at hp
    obtain ⟨q, _, hq⟩ := hp
    by_cases hs : q.2.needSend = true
    · rw [if_pos hs] at hq
      rw [← hq]
    · rw [if_neg hs] at hq
      rw [← hq]
      simpa using hs
  · rw [hfac, List.map_map]
    apply List.map_congr_left
    intro p _
    simp only [Function.comp]
    split_ifs <;> rfl

end ReputationMgr

namespace Item

/-! ## Saving an item -/

/-- C23: `SaveToDB` drives exactly one persistence action by state. For an
item in state `ITEM_NEW` it appends exactly one replace statement, for
`ITEM_CHANGED` exactly one update statement, followed by one gift-owner
update if and only if the item is wrapped, for `ITEM_UNCHANGED` nothing; in
these three cases the item stays alive and ends in state `ITEM_UNCHANGED` with
its queue-position marker cleared, no other member changed. For
`ITEM_REMOVED` it appends one delete statement, followed by one gift delete
if and only if the item is wrapped, and the instance is deleted. The
statements the transaction held stay in front, and the call commits exactly
when it was given no transaction. -/
theorem SaveToDB_one_action (self : Nat) (item : Item) (trans : Option (List Statement)) :
    (item.uState = ItemUpdateState.ITEM_NEW →
      (SaveToDB self item trans).trans =
        trans.getD [] ++ [Statement.CHAR_REP_ITEM_INSTANCE (instanceData item)] ∧
      (SaveToDB self item trans).item =
        some { item with uQueuePos := -1, uState := ItemUpdateState.ITEM_UNCHANGED }) ∧
    (item.uState = ItemUpdateState.ITEM_CHANGED →
      (SaveToDB self item trans).trans =
        trans.getD [] ++ [Statement.CHAR_UPD_ITEM_INSTANCE (instanceData item)] ++
          (if IsWrapped item then
            [Statement.CHAR_UPD_GIFT_OWNER item.ITEM_FIELD_OWNER.counter item.GUID.counter]
          else []) ∧
      (SaveToDB self item trans).item =
        some { item with uQueuePos := -1, uState := ItemUpdateState.ITEM_UNCHANGED }) ∧
    (item.uState = ItemUpdateState.ITEM_UNCHANGED →
      (SaveToDB self item trans).trans = trans.getD [] ∧
      (SaveToDB self item trans).item =
        some { item with uQueuePos := -1, uState := ItemUpdateState.ITEM_UNCHANGED }) ∧
    (item.uState = ItemUpdateState.ITEM_REMOVED →
      (SaveToDB self item trans).trans =
        trans.getD [] ++ [Statement.CHAR_DEL_ITEM_INSTANCE item.GUID.counter] ++
          (if IsWrapped item then [Statement.CHAR_DEL_GIFT item.GUID.counter] else []) ∧
      (SaveToDB self item trans).item = none) ∧
    (SaveToDB self item trans).committed = trans.isNone := by
  have hunset : (SetState self item ItemUpdateState.ITEM_UNCHANGED none).1 =
      some { item with uQueuePos := -1, uState := ItemUpdateState.ITEM_UNCHANGED } := by
    unfold SetState
    simp
  refine ⟨?_, ?_, ?_, ?_, ?_⟩
  · intro h
    simp only [SaveToDB, h, hunset, and_self]
  · intro h
    simp only [SaveToDB, h, hunset, and_self]
  · intro h
    simp only [SaveToDB, h, hunset, and_self]
  · intro h
    simp only [SaveToDB, h, and_self]
  · unfold SaveToDB
    cases item.uState <;> cases trans <;> rfl

/-! ## Durability after a load -/

/-- The bind fix of `LoadFromDB` leaves the wrapped bit of the flags as it is. -/
theorem loadedFlags_wrapped (w : ItemWorld) (head : Item) (proto : ItemTemplate) :
    loadedFlags w head proto &&& ITEM_FIELD_FLAG_WRAPPED =
      head.ITEM_FIELD_FLAGS &&& ITEM_FIELD_FLAG_WRAPPED := by
  unfold loadedFlags
  split_ifs
  · exact ReputationMgr.and_clearFlag_other _ _ _ (by decide)
  · rfl

/-- C28: after a successful `LoadFromDB` (the template of `entry` resolves, and
the call returns true) of an item that is not a wrapped gift, the durability
is `min(stored durability, template max durability)`, so it is at most the
max durability the item then has, and the corrective statement is executed,
carrying the clamped durability, whenever the stored durability exceeded the
template max; for a wrapped gift the stored durability is kept as it is. The
item is wrapped exactly when the stored flags have the wrapped bit. -/
theorem LoadFromDB_durability (w : ItemWorld) (item : Item) (guid : Nat) (owner_guid : ObjectGuid)
    (fields : ItemFields) (entry : Nat) (proto : ItemTemplate)
    (hproto : w.GetItemTemplate entry = some proto) :
    (LoadFromDB w item guid owner_guid fields entry).1 = true ∧
    (IsWrapped (LoadFromDB w item guid owner_guid fields entry).2.1 = true ↔
      (fields.flags &&& ITEM_FIELD_FLAG_WRAPPED) ≠ 0) ∧
    (IsWrapped (LoadFromDB w item guid owner_guid fields entry).2.1 = false →
      (LoadFromDB w item guid owner_guid fields entry).2.1.ITEM_FIELD_DURABILITY =
        min fields.durability proto.MaxDurability ∧
      (LoadFromDB w item guid owner_guid fields entry).2.1.ITEM_FIELD_DURABILITY ≤
        (LoadFromDB w item guid owner_guid fields entry).2.1.ITEM_FIELD_MAXDURABILITY ∧
      (LoadFromDB w item guid owner_guid fields entry).2.1.ITEM_FIELD_MAXDURABILITY =
        proto.MaxDurability ∧
      (fields.durability > proto.MaxDurability →
        (LoadFromDB w item guid owner_guid fields entry).2.2 =
          [Statement.CHAR_UPD_ITEM_INSTANCE_ON_LOAD
            (LoadFromDB w item guid owner_guid fields entry).2.1.ITEM_FIELD_DURATION
            (LoadFromDB w item guid owner_guid fields entry).2.1.ITEM_FIELD_FLAGS
            proto.MaxDurability guid])) ∧
    (IsWrapped (LoadFromDB w item guid owner_guid fields entry).2.1 = true →
      (LoadFromDB w item guid owner_guid fields entry).2.1.ITEM_FIELD_DURABILITY =
        fields.durability) := by
  have hflags : (LoadFromDB w item guid owner_guid fields entry).2.1.ITEM_FIELD_FLAGS =
      loadedFlags w (loadedHead w item guid owner_guid fields entry proto) proto := by
    unfold LoadFromDB
    simp only [hproto]
  have hwrap : IsWrapped (LoadFromDB w item guid owner_guid fields entry).2.1 =
      IsWrapped { loadedHead w item guid owner_guid fields entry proto with
        ITEM_FIELD_FLAGS :=
          loadedFlags w (loadedHead w item guid owner_guid fields entry proto) proto } := by
    unfold IsWrapped
    rw [hflags]
  have hbit : (IsWrapped (LoadFromDB w item guid owner_guid fields entry).2.1 = true ↔
      (fields.flags &&& ITEM_FIELD_FLAG_WRAPPED) ≠ 0) := by
    unfold IsWrapped
    rw [hflags, loadedFlags_wrapped]
    simp [loadedHead]
  have hdur : (LoadFromDB w item guid owner_guid fields entry).2.1.ITEM_FIELD_DURABILITY =
      if loadFixesDurability w (loadedHead w item guid owner_guid fields entry proto) proto
        fields then proto.MaxDurability else fields.durability := by
    unfold LoadFromDB
    simp only [hproto]
  have hmax : (LoadFromDB w item guid owner_guid fields entry).2.1.ITEM_FIELD_MAXDURABILITY =
      proto.MaxDurability := by
    unfold LoadFromDB
    simp only [hproto]
  have hfix : loadFixesDurability w (loadedHead w item guid owner_guid fields entry proto) proto
      fields =
      (decide (fields.durability > proto.MaxDurability) &&
        !IsWrapped (LoadFromDB w item guid owner_guid fields entry).2.1) := by
    rw [hwrap]
    rfl
  refine ⟨?_, hbit, ?_, ?_⟩
  · unfold LoadFromDB
    simp only [hproto]
  · intro hnw
    rw [hnw] at hfix
    refine ⟨?_, ?_, hmax, ?_⟩
    · rw [hdur, hfix]
      by_cases hgt : fields.durability > proto.MaxDurability
      · simp [hgt]
        omega
      · simp [hgt]
        omega
    · rw [hdur, hfix, hmax]
      by_cases hgt : fields.durability > proto.MaxDurability
      · simp [hgt]
      · simp [hgt]
        omega
    · intro hgt
      have hfix2 : loadFixesDurability w (loadedHead w item guid owner_guid fields entry proto)
          proto fields = true := by
        rw [hfix]
        simp [hgt]
      have hd2 : (LoadFromDB w item guid owner_guid fields entry).2.1.ITEM_FIELD_DURABILITY =
          proto.MaxDurability := by
        rw [hdur, hfix2]
        rfl
      have hst : (LoadFromDB w item guid owner_guid fields entry).2.2 =
          [Statement.CHAR_UPD_ITEM_INSTANCE_ON_LOAD
            (LoadFromDB w item guid owner_guid fields entry).2.1.ITEM_FIELD_DURATION
            (LoadFromDB w item guid owner_guid fields entry).2.1.ITEM_FIELD_FLAGS
            (LoadFromDB w item guid owner_guid fields entry).2.1.ITEM_FIELD_DURABILITY guid] := by
        unfold LoadFromDB
        simp only [hproto, hfix2, Bool.or_true, if_true]
      rw [hst, hd2]
  · intro hw
    rw [hw] at hfix
    rw [hdur, hfix]
    simp

/-- Witness of C28: the stored durability `80` of an item of template `100`,
whose max durability is `50`. -/
theorem LoadFromDB_durability_witness :
    exampleItemWorld.GetItemTemplate 100 = some exampleTemplate ∧
    (LoadFromDB exampleItemWorld exampleItem 1 ObjectGuid.Empty exampleFields
      100).2.1.ITEM_FIELD_DURABILITY = 50 :=
  ⟨by decide,
    ((LoadFromDB_durability exampleItemWorld exampleItem 1 ObjectGuid.Empty exampleFields 100
      exampleTemplate (by decide)).2.2.1
        (by
          have h := (LoadFromDB_durability exampleItemWorld exampleItem 1 ObjectGuid.Empty
            exampleFields 100 exampleTemplate (by decide)).2.1
          cases hw : IsWrapped (LoadFromDB exampleItemWorld exampleItem 1 ObjectGuid.Empty
            exampleFields 100).2.1 with
          | false => rfl
          | true => exact absurd rfl (h.mp hw))).1.trans (by decide)⟩

/-! ## Trading an item bound by an enchant -/

/-- An enchant of the permanent slot that can soulbind makes `IsBoundByEnchant`
true. -/
theorem IsBoundByEnchant_of_perm (w : ItemWorld) (item : Item)
    (h : slotCanSoulbind w item PERM_ENCHANTMENT_SLOT = true) : IsBoundByEnchant w item = true := by
  unfold IsBoundByEnchant
  rw [List.any_eq_true]
  refine ⟨PERM_ENCHANTMENT_SLOT, ?_, h⟩
  simp [PERM_ENCHANTMENT_SLOT, MAX_ENCHANTMENT_SLOT]

/-- C29, as the code has it: the last test of `CanBeTraded` (line 815) is
skipped only for a mail request of an account-wide bound item. An item of a
template that is not account-wide bound, not soulbound, not a bag, that its
owner can unequip and is not looting, without a temporary enchant and with a
permanent enchant that can soulbind, fails `CanBeTraded` with `mail = true`. -/
theorem CanBeTraded_mail_fails_for_enchant :
    slotCanSoulbind bindingWorld enchantedItem PERM_ENCHANTMENT_SLOT = true ∧
    IsBoundAccountWide bindingWorld enchantedItem = some false ∧
    IsSoulBound enchantedItem = false ∧
    IsBag bindingWorld enchantedItem = some false ∧
    bindingWorld.CanUnequipItem examplePlayer (GetPos enchantedItem) =
      InventoryResult.EQUIP_ERR_OK ∧
    examplePlayer.lootGUID ≠ enchantedItem.GUID ∧
    IsBoundByTempEnchant bindingWorld enchantedItem = false ∧
    CanBeTraded bindingWorld enchantedItem (some examplePlayer) true true = some false ∧
    CanBeTraded bindingWorld enchantedItem (some examplePlayer) true false = some false := by
  decide

/-- C29, amended: binding by a permanent enchant that carries the can-soulbind
flag blocks trading for non-mail requests and for mail requests of an item
that is not account-wide bound. An item with such an enchant does not pass
`CanBeTraded` when `mail = false` (the call returns false when the template
resolves), nor when `mail = true` and the item is not account-wide bound; for
`mail = true` and an account-wide bound item that enchant alone does not make
`CanBeTraded` fail: such an item that is not a bag, that its owner, if it has
one, can unequip and is not looting, and that has no binding temporary
enchant passes. -/
theorem CanBeTraded_bound_by_enchant (w : ItemWorld) (item : Item) (owner : Option Player)
    (trade : Bool) (hperm : slotCanSoulbind w item PERM_ENCHANTMENT_SLOT = true) :
    CanBeTraded w item owner false trade ≠ some true ∧
    ((∃ proto, GetTemplate w item = some proto) →
      CanBeTraded w item owner false trade = some false) ∧
    (IsBoundAccountWide w item = some false →
      CanBeTraded w item owner true trade = some false) ∧
    (IsBoundAccountWide w item = some true → IsBag w item = some false →
      (∀ player, owner = some player →
        w.CanUnequipItem player (GetPos item) = InventoryResult.EQUIP_ERR_OK ∧
          player.lootGUID ≠ item.GUID) →
      IsBoundByTempEnchant w item = false →
      CanBeTraded w item owner true trade = some true) := by
  have hbound := IsBoundByEnchant_of_perm w item hperm
  refine ⟨?_, ?_, ?_, ?_⟩
  · unfold CanBeTraded
    cases hbag : IsBag w item with
    | none =>
      simp only [notMailedAccountBound, if_true, Bool.true_and, hbound]
      split_ifs <;> simp
    | some bag =>
      simp only [notMailedAccountBound, if_true, Bool.true_and, hbound]
      split_ifs <;> simp
  · rintro ⟨proto, hproto⟩
    have hbag : IsBag w item = some (proto.InventoryType == INVTYPE_BAG) := by
      unfold IsBag
      rw [hproto]
      rfl
    unfold CanBeTraded
    simp only [notMailedAccountBound, if_true, Bool.true_and, hbound, hbag]
    split_ifs <;> rfl
  · intro hboa
    have hbag : ∃ bag, IsBag w item = some bag := by
      unfold IsBoundAccountWide at hboa
      unfold IsBag
      cases hproto : GetTemplate w item with
      | none => rw [hproto] at hboa; simp at hboa
      | some proto => exact ⟨_, rfl⟩
    obtain ⟨bag, hbag⟩ := hbag
    unfold CanBeTraded
    simp only [notMailedAccountBound, hboa, Bool.true_eq_false, if_false, Option.map_some',
      Bool.not_false, Bool.true_and, hbound, hbag]
    split_ifs <;> rfl
  · intro hboa hbag hown htemp
    have hblock : ownerBlocksTrade w item owner = false := by
      unfold ownerBlocksTrade
      cases owner with
      | none => rfl
      | some player =>
        obtain ⟨h1, h2⟩ := hown player rfl
        simp [h1, h2]
    simp [CanBeTraded, notMailedAccountBound, hboa, hbag, hblock, htemp]

/-- Witness of C29, amended: the account-wide bound example item with the
enchantment `77` in its permanent slot. -/
theorem CanBeTraded_bound_by_enchant_witness :
    slotCanSoulbind bindingWorld
      { exampleItem with ITEM_FIELD_ENCHANTMENT := [77, 0, 0] ++ List.replicate 33 0 }
      PERM_ENCHANTMENT_SLOT = true ∧
    CanBeTraded bindingWorld
      { exampleItem with ITEM_FIELD_ENCHANTMENT := [77, 0, 0] ++ List.replicate 33 0 }
      (some examplePlayer) false true = some false ∧
    CanBeTraded bindingWorld
      { exampleItem with ITEM_FIELD_ENCHANTMENT := [77, 0, 0] ++ List.replicate 33 0 }
      (some examplePlayer) true true = some true :=
  ⟨by decide,
    (CanBeTraded_bound_by_enchant bindingWorld
      { exampleItem with ITEM_FIELD_ENCHANTMENT := [77, 0, 0] ++ List.replicate 33 0 }
      (some examplePlayer) true (by decide)).2.1 ⟨exampleTemplate, by decide⟩,
    (CanBeTraded_bound_by_enchant bindingWorld
      { exampleItem with ITEM_FIELD_ENCHANTMENT := [77, 0, 0] ++ List.replicate 33 0 }
      (some examplePlayer) true (by decide)).2.2.2 (by decide) (by decide)
      (by intro player h; cases h; decide) (by decide)⟩

/-! ## Marking an item changed -/

/-- `AddToUpdateQueueOf` changes nothing of the item but the queue-position
marker and nothing of the player but the queue. -/
theorem AddToUpdateQueueOf_frame (self : Nat) (item : Item) (player : Player) :
    ∃ q queue, AddToUpdateQueueOf self item player =
      ({ item with uQueuePos := q }, { player with m_itemUpdateQueue := queue }) := by
  unfold AddToUpdateQueueOf
  split_ifs
  · exact ⟨item.uQueuePos, player.m_itemUpdateQueue, rfl⟩
  · exact ⟨item.uQueuePos, player.m_itemUpdateQueue, rfl⟩
  · exact ⟨item.uQueuePos, player.m_itemUpdateQueue, rfl⟩
  · exact ⟨_, _, rfl⟩

/-- `SetState(ITEM_CHANGED, owner)` keeps the item alive and changes nothing of
it but `uState`, which becomes `ITEM_CHANGED` unless it is `ITEM_NEW`, and the
queue-position marker; of the owner it changes nothing but the queue. -/
theorem SetState_changed_frame (self : Nat) (item : Item) (owner : Option Player) :
    ∃ q owner1, SetState self item ItemUpdateState.ITEM_CHANGED owner =
        (some { item with
          uState := nextState item.uState ItemUpdateState.ITEM_CHANGED, uQueuePos := q },
          owner1) ∧
      (owner = none → owner1 = none) ∧
      ∀ player, owner = some player →
        ∃ queue, owner1 = some { player with m_itemUpdateQueue := queue } := by
  cases owner with
  | none =>
    refine ⟨item.uQueuePos, none, ?_, fun _ => rfl, fun p h => Option.noConfusion h⟩
    by_cases hn : item.uState = ItemUpdateState.ITEM_NEW
    · have hns : nextState item.uState ItemUpdateState.ITEM_CHANGED = item.uState := by
        simp [nextState, hn]
      rw [hns]
      show SetState self item ItemUpdateState.ITEM_CHANGED none = (some item, none)
      unfold SetState
      simp [hn]
    · have hns : nextState item.uState ItemUpdateState.ITEM_CHANGED =
          ItemUpdateState.ITEM_CHANGED := by
        simp [nextState, hn]
      rw [hns]
      unfold SetState
      simp [hn]
  | some player =>
    obtain ⟨q, queue, hadd⟩ := AddToUpdateQueueOf_frame self
      { item with uState := nextState item.uState ItemUpdateState.ITEM_CHANGED } player
    refine ⟨q, some { player with m_itemUpdateQueue := queue }, ?_, fun h => Option.noConfusion h,
      fun p h => ⟨queue, by rw [Option.some.inj h]⟩⟩
    rw [SetState_alive self item player ItemUpdateState.ITEM_CHANGED (by decide)
      (by intro h; exact absurd h.2 (by decide)), hadd]

/-- The state after `SetState(ITEM_CHANGED)`: `ITEM_CHANGED`, or `ITEM_NEW` for
an item that has not been saved yet. -/
theorem nextState_changed (uState : ItemUpdateState) :
    nextState uState ItemUpdateState.ITEM_CHANGED =
      (if uState = ItemUpdateState.ITEM_NEW then ItemUpdateState.ITEM_NEW
        else ItemUpdateState.ITEM_CHANGED) ∧
    nextState uState ItemUpdateState.ITEM_CHANGED ≠ ItemUpdateState.ITEM_UNCHANGED := by
  cases uState <;> decide

/-! ## The refund timer -/

/-- C27: `UpdatePlayedTime` adds the time elapsed since the last update to the
item's stored created-played-time, both as `uint32` values (the plain sum
when time has not gone back and the sum is a `uint32`). If the sum is at most
`2 * HOUR = 7200` seconds, the sum is stored, the item is marked changed by
`SetState(ITEM_CHANGED, owner)` (its state becomes `ITEM_CHANGED`, or stays
`ITEM_NEW` for an item not yet saved), the time of the last update becomes
the current time, and no other member but the queue-position marker changes:
the flags, with the refundable flag, are untouched. If the sum exceeds `2 *
HOUR`, a refundable item with its owner becomes not refundable: the
refundable flag is cleared, the refund recipient, the paid money and the
paid extended cost are `0`, the item is marked changed, and the stored played
time and the time of the last update are not advanced; an item that is not
refundable is left as it is. -/
theorem UpdatePlayedTime_refund_timer (self : Nat) (item : Item) (owner : Option Player)
    (curtime : Int) :
    2 * HOUR = 7200 ∧
    ((item.ITEM_FIELD_CREATE_PLAYED_TIME + toU32 (curtime - item.m_lastPlayedTimeUpdate)) %
        4294967296 ≤ 2 * HOUR →
      ∃ q owner1, UpdatePlayedTime self item owner curtime =
        some (some { item with
          ITEM_FIELD_CREATE_PLAYED_TIME :=
            (item.ITEM_FIELD_CREATE_PLAYED_TIME +
              toU32 (curtime - item.m_lastPlayedTimeUpdate)) % 4294967296
          uState := nextState item.uState ItemUpdateState.ITEM_CHANGED
          uQueuePos := q
          m_lastPlayedTimeUpdate := curtime }, owner1)) ∧
    (¬ (item.ITEM_FIELD_CREATE_PLAYED_TIME + toU32 (curtime - item.m_lastPlayedTimeUpdate)) %
        4294967296 ≤ 2 * HOUR →
      (IsRefundable item = true → ∀ player, owner = some player →
        ∃ q player1, UpdatePlayedTime self item owner curtime =
          some (some { item with
            ITEM_FIELD_FLAGS :=
              ReputationMgr.clearFlag item.ITEM_FIELD_FLAGS ITEM_FIELD_FLAG_REFUNDABLE
            uState := nextState item.uState ItemUpdateState.ITEM_CHANGED
            uQueuePos := q
            m_refundRecipient := 0
            m_paidMoney := 0
            m_paidExtendedCost := 0 }, some player1) ∧
          IsRefundable { item with
            ITEM_FIELD_FLAGS :=
              ReputationMgr.clearFlag item.ITEM_FIELD_FLAGS ITEM_FIELD_FLAG_REFUNDABLE } =
            false) ∧
      (IsRefundable item = false →
        UpdatePlayedTime self item owner curtime = some (some item, owner))) ∧
    (0 ≤ curtime - item.m_lastPlayedTimeUpdate →
      item.ITEM_FIELD_CREATE_PLAYED_TIME + (curtime - item.m_lastPlayedTimeUpdate).toNat <
        4294967296 →
      (item.ITEM_FIELD_CREATE_PLAYED_TIME + toU32 (curtime - item.m_lastPlayedTimeUpdate)) %
          4294967296 =
        item.ITEM_FIELD_CREATE_PLAYED_TIME + (curtime - item.m_lastPlayedTimeUpdate).toNat) := by
  refine ⟨rfl, ?_, ?_, ?_⟩
  · intro hle
    obtain ⟨q, owner1, hset, _, _⟩ := SetState_changed_frame self
      { item with
        ITEM_FIELD_CREATE_PLAYED_TIME :=
          (item.ITEM_FIELD_CREATE_PLAYED_TIME +
            toU32 (curtime - item.m_lastPlayedTimeUpdate)) % 4294967296 } owner
    refine ⟨q, owner1, ?_⟩
    unfold UpdatePlayedTime
    simp only [hle, if_true, hset, Option.map_some']
  · intro hgt
    constructor
    · intro href player hown
      obtain ⟨q, owner1, hset, _, hsome⟩ := SetState_changed_frame self
        { item with
          ITEM_FIELD_FLAGS :=
            ReputationMgr.clearFlag item.ITEM_FIELD_FLAGS ITEM_FIELD_FLAG_REFUNDABLE } owner
      obtain ⟨queue, hqueue⟩ := hsome player hown
      refine ⟨q, DeleteRefundReference { player with m_itemUpdateQueue := queue } item.GUID, ?_, ?_⟩
      · unfold UpdatePlayedTime
        simp only [hgt, if_false]
        unfold SetNotRefundable
        simp only [href, Bool.true_eq_false, if_false, if_true, hset, hqueue, Option.map_some']
      · unfold IsRefundable
        simp only [ReputationMgr.and_clearFlag_self]
        rfl
    · intro href
      unfold UpdatePlayedTime
      simp only [hgt, if_false]
      unfold SetNotRefundable
      simp only [href, if_true]
  · intro h0 hlt
    unfold toU32
    omega

/-- The refund timer on `refundableItem` (7000 seconds played, last updated at
game time 1000): at game time 1100 the played time becomes 7100 and the item
stays refundable; at game time 1300 the sum, 7300, exceeds two hours, and the
item loses the refundable flag and its refund data while the stored played
time and the time of the last update stay. The item is not yet saved, so its
state stays `ITEM_NEW`. -/
theorem UpdatePlayedTime_example :
    (UpdatePlayedTime 1 refundableItem (some examplePlayer) 1100).map
        (fun r => r.1.map (fun i =>
          (i.ITEM_FIELD_CREATE_PLAYED_TIME, IsRefundable i, i.m_lastPlayedTimeUpdate,
            i.m_refundRecipient, i.m_paidMoney, i.m_paidExtendedCost, i.uState))) =
      some (some (7100, true, 1100, 9, 100, 3, ItemUpdateState.ITEM_NEW)) ∧
    (UpdatePlayedTime 1 refundableItem (some examplePlayer) 1300).map
        (fun r => r.1.map (fun i =>
          (i.ITEM_FIELD_CREATE_PLAYED_TIME, IsRefundable i, i.m_lastPlayedTimeUpdate,
            i.m_refundRecipient, i.m_paidMoney, i.m_paidExtendedCost, i.uState))) =
      some (some (7000, false, 1000, 0, 0, 0, ItemUpdateState.ITEM_NEW)) :=
  ⟨rfl, rfl⟩

/-! ## Creating an item -/

/-- `SetEnchantment` on a slot that is not inspected returns, keeps the item
alive and leaves its stack count as it is. -/
theorem SetEnchantment_property_slot (self : Nat) (item : Item) (owner : Option Player)
    (slot id duration charges : Nat) (caster : ObjectGuid)
    (hslot : MAX_INSPECTED_ENCHANTMENT_SLOT ≤ slot) :
    ∃ item1 owner1, SetEnchantment self item owner slot id duration charges caster =
        some (some item1, owner1) ∧
      item1.ITEM_FIELD_STACK_COUNT = item.ITEM_FIELD_STACK_COUNT := by
  unfold SetEnchantment
  split_ifs
  · exact ⟨item, owner, rfl, rfl⟩
  · have hlogs : enchantmentLogs item slot id caster = [] := by
      unfold enchantmentLogs
      rw [if_neg (by omega)]
    simp only [hlogs, if_true]
    obtain ⟨q, owner1, hset, _, _⟩ := SetState_changed_frame self
      { item with
        ITEM_FIELD_ENCHANTMENT :=
          dataFieldSet 0
            (dataFieldSet 0
              (dataFieldSet 0 item.ITEM_FIELD_ENCHANTMENT
                (slot * MAX_ENCHANTMENT_OFFSET + ENCHANTMENT_ID_OFFSET) id)
              (slot * MAX_ENCHANTMENT_OFFSET + ENCHANTMENT_DURATION_OFFSET) duration)
            (slot * MAX_ENCHANTMENT_OFFSET + ENCHANTMENT_CHARGES_OFFSET) charges } owner
    rw [hset]
    exact ⟨_, _, rfl, rfl⟩

theorem setPropertyEnchantments_frame (self : Nat) (Enchantment : List Nat) (slots : List Nat)
    (hslots : ∀ i, i ∈ slots → MAX_INSPECTED_ENCHANTMENT_SLOT ≤ i) :
    ∀ (item : Item) (owner : Option Player),
      ∃ item1 owner1, setPropertyEnchantments self Enchantment slots item owner =
          some (some item1, owner1) ∧
        item1.ITEM_FIELD_STACK_COUNT = item.ITEM_FIELD_STACK_COUNT := by
  induction slots with
  | nil => intro item owner; exact ⟨item, owner, rfl, rfl⟩
  | cons i rest ih =>
    intro item owner
    obtain ⟨item1, owner1, h1, h2⟩ := SetEnchantment_property_slot self item owner i
      (Enchantment.getD (i - PROP_ENCHANTMENT_SLOT_0) 0) 0 0 ObjectGuid.Empty
      (hslots i (List.mem_cons_self _ _))
    obtain ⟨item2, owner2, h3, h4⟩ := ih (fun j hj => hslots j (List.mem_cons_of_mem _ hj))
      item1 owner1
    refine ⟨item2, owner2, ?_, h4.trans h2⟩
    rw [setPropertyEnchantments, h1]
    exact h3

theorem propertySlots_not_inspected (i : Nat) (hi : i ∈ propertySlots) :
    MAX_INSPECTED_ENCHANTMENT_SLOT ≤ i := by
  unfold propertySlots at hi
  rw [List.mem_range'_1] at hi
  unfold MAX_INSPECTED_ENCHANTMENT_SLOT
  unfold PROP_ENCHANTMENT_SLOT_0 at hi
  omega

/-- `SetItemRandomProperties` returns, keeps the item alive and leaves its
stack count as it is. -/
theorem SetItemRandomProperties_frame (w : CreateWorld) (self : Nat) (item : Item)
    (owner : Option Player) (randomPropId : Int) :
    ∃ item1 owner1, SetItemRandomProperties w self item owner randomPropId =
        some (some item1, owner1) ∧
      item1.ITEM_FIELD_STACK_COUNT = item.ITEM_FIELD_STACK_COUNT := by
  unfold SetItemRandomProperties
  split_ifs with h0 hpos
  · exact ⟨item, owner, rfl, rfl⟩
  · cases w.LookupRandomProperties randomPropId.toNat with
    | none => exact ⟨item, owner, rfl, rfl⟩
    | some item_rand =>
      simp only
      split_ifs
      · obtain ⟨q, owner1, hset, _, _⟩ := SetState_changed_frame self
          { item with ITEM_FIELD_RANDOM_PROPERTIES_ID := wrap32 item_rand.ID } owner
        rw [hset]
        exact setPropertyEnchantments_frame self _ _ propertySlots_not_inspected _ _
      · exact setPropertyEnchantments_frame self _ _ propertySlots_not_inspected _ _
  · cases w.LookupRandomSuffix (toU32 (-randomPropId)) with
    | none => exact ⟨item, owner, rfl, rfl⟩
    | some item_rand =>
      simp only
      split_ifs
      · obtain ⟨q, owner1, hset, _, _⟩ := SetState_changed_frame self
          (UpdateItemSuffixFactor w.toItemWorld
            { item with ITEM_FIELD_RANDOM_PROPERTIES_ID := wrap32 (-(wrap32 item_rand.ID)) })
          owner
        rw [hset]
        obtain ⟨item1, owner2, h1, h2⟩ := setPropertyEnchantments_frame self
          item_rand.Enchantment _ propertySlots_not_inspected
          { UpdateItemSuffixFactor w.toItemWorld
              { item with
                ITEM_FIELD_RANDOM_PROPERTIES_ID := wrap32 (-(wrap32 item_rand.ID)) } with
            uState := nextState
              (UpdateItemSuffixFactor w.toItemWorld
                { item with
                  ITEM_FIELD_RANDOM_PROPERTIES_ID := wrap32 (-(wrap32 item_rand.ID)) }).uState
              ItemUpdateState.ITEM_CHANGED
            uQueuePos := q } owner1
        refine ⟨item1, owner2, h1, h2.trans ?_⟩
        unfold UpdateItemSuffixFactor
        split_ifs <;> rfl
      · exact setPropertyEnchantments_frame self _ _ propertySlots_not_inspected _ _

theorem randomizeCreated_frame (w : CreateWorld) (self : Nat) (pItem : Item)
    (owner : Option Player) (item : Nat) (clone : Bool) (randomPropertyId : Nat) :
    ∃ item1 owner1, randomizeCreated w self pItem owner item clone randomPropertyId =
        some (some item1, owner1) ∧
      item1.ITEM_FIELD_STACK_COUNT = pItem.ITEM_FIELD_STACK_COUNT := by
  unfold randomizeCreated
  by_cases hclone : clone = false
  · rw [if_pos hclone]
    exact SetItemRandomProperties_frame w self pItem owner _
  · rw [if_neg hclone]
    by_cases hid : randomPropertyId ≠ 0
    · rw [if_pos hid]
      exact SetItemRandomProperties_frame w self pItem owner _
    · rw [if_neg hid]
      exact ⟨pItem, owner, rfl, rfl⟩

/-- C26: for a resolvable template whose max stack size is at least `1` (the
assertion of line 1111), a requested count of `0` creates no item (the call
returns the null pointer), and for every requested count `≥ 1` `CreateItem`
returns an item whose stack count is `min(count, template max stack size)`,
hence `1 ≤ stack count ≤ max stack size`, whatever the creation hook and the
random properties do. -/
theorem CreateItem_stack_count (w : CreateWorld) (self : Nat) (now : Int) (item count : Nat)
    (player owner : Option Player) (clone : Bool) (randomPropertyId : Nat) (temp : Bool)
    (pProto : ItemTemplate) (hproto : w.GetItemTemplate item = some pProto)
    (hmax : 1 ≤ pProto.MaxStackSize) :
    CreateItem w self now item 0 player owner clone randomPropertyId temp = some none ∧
    (1 ≤ count →
      ∃ pItem owner1,
        CreateItem w self now item count player owner clone randomPropertyId temp =
          some (some (pItem, owner1)) ∧
        pItem.ITEM_FIELD_STACK_COUNT = min count pProto.MaxStackSize ∧
        1 ≤ pItem.ITEM_FIELD_STACK_COUNT ∧
        pItem.ITEM_FIELD_STACK_COUNT ≤ pProto.MaxStackSize) := by
  constructor
  · unfold CreateItem
    simp
  · intro hcount
    have hcreated : (Create w (newItem now) (if temp then 0xFFFFFFFF else w.Generate) item
        player).1 = true := by
      unfold Create
      simp only [hproto]
    have hc1 : (if count > pProto.MaxStackSize then pProto.MaxStackSize else count) =
        min count pProto.MaxStackSize := by
      split_ifs <;> omega
    unfold CreateItem
    rw [if_neg (by omega)]
    simp only [hproto, hc1, hcreated, if_true]
    rw [if_neg (by omega)]
    obtain ⟨item1, owner1, h1, h2⟩ := randomizeCreated_frame w self
      { (Create w (newItem now) (if temp then 0xFFFFFFFF else w.Generate) item player).2 with
        ITEM_FIELD_STACK_COUNT := min count pProto.MaxStackSize } owner item clone
      randomPropertyId
    rw [h1]
    exact ⟨item1, owner1, rfl, h2, by rw [h2]; show 1 ≤ min count pProto.MaxStackSize; omega,
      by rw [h2]; show min count pProto.MaxStackSize ≤ pProto.MaxStackSize; omega⟩

/-- Witness of C26: a request for `25` items of template `100`, whose max stack
size is `20`. -/
theorem CreateItem_stack_count_witness :
    exampleCreateWorld.GetItemTemplate 100 = some exampleTemplate ∧
    1 ≤ exampleTemplate.MaxStackSize ∧
    CreateItem exampleCreateWorld 5 0 100 0 (some examplePlayer) (some examplePlayer) false 0
      false = some none ∧
    ∃ pItem owner1,
      CreateItem exampleCreateWorld 5 0 100 25 (some examplePlayer) (some examplePlayer) false 0
        false = some (some (pItem, owner1)) ∧
      pItem.ITEM_FIELD_STACK_COUNT = min 25 exampleTemplate.MaxStackSize ∧
      1 ≤ pItem.ITEM_FIELD_STACK_COUNT ∧
      pItem.ITEM_FIELD_STACK_COUNT ≤ exampleTemplate.MaxStackSize :=
  ⟨by decide, by decide,
    (CreateItem_stack_count exampleCreateWorld 5 0 100 25 (some examplePlayer)
      (some examplePlayer) false 0 false exampleTemplate (by decide) (by decide)).1,
    (CreateItem_stack_count exampleCreateWorld 5 0 100 25 (some examplePlayer)
      (some examplePlayer) false 0 false exampleTemplate (by decide) (by decide)).2 (by decide)⟩

end Item

/-! # Item set aggregator -/

theorem AddItemsSetItem_example :
    AddItemsSetItem exampleSetWorld onePiecePlayer setPiece = some twoPiecePlayer := by
  decide

theorem RemoveItemsSetItem_example :
    RemoveItemsSetItem exampleSetWorld twoPiecePlayer
        { exampleTemplate with ItemId := 300, ItemSet := 9 } =
      { onePiecePlayer with equipSpells := [({ Id := 501 }, true), ({ Id := 501 }, false)] } := by
  decide

/-! ## The spell slots of a record -/

theorem mem_grantedIds (l : List (Option SpellInfo)) (id : Nat) :
    id ∈ grantedIds l ↔ ∃ s, some s ∈ l ∧ s.Id = id := by
  unfold grantedIds
  rw [List.mem_filterMap]
  constructor
  · rintro ⟨a, ha, h⟩
    cases a with
    | none => simp at h
    | some s =>
      simp only [Option.map_some', Option.some.injEq] at h
      exact ⟨s, ha, h⟩
  · rintro ⟨s, hs, h⟩
    exact ⟨some s, hs, by simp [h]⟩

theorem findSetSpell_some (l : List (Option SpellInfo)) (id : Nat) :
    ∀ z s, findSetSpell l id = some (z, s) → l[z]? = some (some s) ∧ s.Id = id := by
  induction l with
  | nil => intro z s h; simp [findSetSpell] at h
  | cons a rest ih =>
    intro z s h
    cases a with
    | none =>
      simp only [findSetSpell, Option.map_eq_some', Prod.mk.injEq] at h
      obtain ⟨r, hr, h1, h2⟩ := h
      obtain ⟨ih1, ih2⟩ := ih r.1 r.2 hr
      subst h1 h2
      exact ⟨by simpa using ih1, ih2⟩
    | some t =>
      simp only [findSetSpell] at h
      split_ifs at h with ht
      · simp only [Option.some.injEq, Prod.mk.injEq] at h
        obtain ⟨h1, h2⟩ := h
        subst h1 h2
        exact ⟨by simp, ht⟩
      · simp only [Option.map_eq_some', Prod.mk.injEq] at h
        obtain ⟨r, hr, h1, h2⟩ := h
        obtain ⟨ih1, ih2⟩ := ih r.1 r.2 hr
        subst h1 h2
        exact ⟨by simpa using ih1, ih2⟩

theorem findSetSpell_none (l : List (Option SpellInfo)) (id : Nat)
    (h : findSetSpell l id = none) : id ∉ grantedIds l := by
  induction l with
  | nil => simp [grantedIds]
  | cons a rest ih =>
    cases a with
    | none =>
      simp only [findSetSpell, Option.map_eq_none'] at h
      simpa [grantedIds] using ih h
    | some t =>
      simp only [findSetSpell] at h
      split_ifs at h with ht
      simp only [Option.map_eq_none'] at h
      have := ih h
      simp only [grantedIds, List.filterMap_cons, Option.map_some', List.mem_cons, not_or] at this ⊢
      exact ⟨fun h2 => ht h2.symm, this⟩

theorem firstFreeSpell_some (l : List (Option SpellInfo)) :
    ∀ y, firstFreeSpell l = some y → l[y]? = some none := by
  induction l with
  | nil => intro y h; simp [firstFreeSpell] at h
  | cons a rest ih =>
    intro y h
    cases a with
    | none =>
      simp only [firstFreeSpell, Option.some.injEq] at h
      subst h
      simp
    | some t =>
      simp only [firstFreeSpell, Option.map_eq_some'] at h
      obtain ⟨r, hr, h1⟩ := h
      subst h1
      simpa using ih r hr

theorem firstFreeSpell_none (l : List (Option SpellInfo)) (h : firstFreeSpell l = none) :
    (grantedIds l).length = l.length := by
  induction l with
  | nil => rfl
  | cons a rest ih =>
    cases a with
    | none => simp [firstFreeSpell] at h
    | some t =>
      simp only [firstFreeSpell, Option.map_eq_none'] at h
      simp [grantedIds] at ih ⊢
      exact ih h

/-- Granting a spell in a free slot adds its id to the granted ids. -/
theorem grantedIds_set_some (l : List (Option SpellInfo)) (s : SpellInfo) :
    ∀ y, l[y]? = some none → (grantedIds (l.set y (some s))).Perm (s.Id :: grantedIds l) := by
  induction l with
  | nil => intro y h; simp at h
  | cons a rest ih =>
    intro y h
    cases y with
    | zero =>
      simp only [List.getElem?_cons_zero, Option.some.injEq] at h
      subst h
      simp [grantedIds]
    | succ y =>
      simp only [List.getElem?_cons_succ] at h
      have hp := ih y h
      cases a with
      | none => simpa [grantedIds] using hp
      | some t =>
        simp only [grantedIds, List.set_cons_succ, List.filterMap_cons, Option.map_some'] at hp ⊢
        exact (List.Perm.cons t.Id hp).trans (List.Perm.swap _ _ _)

/-- Revoking the spell of a slot takes its id from the granted ids. -/
theorem grantedIds_set_none (l : List (Option SpellInfo)) (s : SpellInfo) :
    ∀ z, l[z]? = some (some s) → (grantedIds l).Perm (s.Id :: grantedIds (l.set z none)) := by
  induction l with
  | nil => intro z h; simp at h
  | cons a rest ih =>
    intro z h
    cases z with
    | zero =>
      simp only [List.getElem?_cons_zero, Option.some.injEq] at h
      subst h
      simp [grantedIds]
    | succ z =>
      simp only [List.getElem?_cons_succ] at h
      have hp := ih z h
      cases a with
      | none => simpa [grantedIds] using hp
      | some t =>
        simp only [grantedIds, List.set_cons_succ, List.filterMap_cons, Option.map_some'] at hp ⊢
        exact (List.Perm.cons t.Id hp).trans (List.Perm.swap _ _ _)

/-- A record whose granted spells are different spells of the set, none of
them the set spell `id`, has a free spell slot. -/
theorem free_slot_exists (set : ItemSetEntry) (spells : List (Option SpellInfo)) (id : Nat)
    (hok : SpellsOK set spells) (hid : id ∈ setSpells set) (hnot : id ∉ grantedIds spells) :
    ∃ y, firstFreeSpell spells = some y := by
  cases hfree : firstFreeSpell spells with
  | some y => exact ⟨y, rfl⟩
  | none =>
    exfalso
    have hlen := firstFreeSpell_none spells hfree
    have hsub : grantedIds spells ⊆ (setSpells set).erase id := by
      intro a ha
      have hne : a ≠ id := fun h => hnot (h ▸ ha)
      exact (List.mem_erase_of_ne hne).mpr (hok.listed a ha)
    have hle := (List.Nodup.subperm hok.nodup hsub).length_le
    rw [List.length_erase_of_mem hid, hlen, hok.slots] at hle
    simp [setSpells, MAX_ITEM_SET_SPELLS] at hle

/-- One turn of the spell loop of `AddItemsSetItem`: the record stays well
formed, its count and set id stay, no granted spell leaves its slot, the set
spell `x` is granted afterwards when it has an id, its threshold is met and
it resolves, and `ApplyEquipSpell` is called at most once, to apply a spell
that was not granted before the turn and is granted after it. -/
theorem addSetSpell_step (w : ItemSetWorld)
    (hspell : ∀ id s, w.GetSpellInfo id = some s → s.Id = id)
    (p0 : Player) (e : Nat) (item : Item) (set : ItemSetEntry) (eff : ItemSetEffect)
    (log : List (SpellInfo × Bool)) (x : Nat) (hx : x < MAX_ITEM_SET_SPELLS)
    (hok : SpellsOK set eff.spells) :
    SpellsOK set (addSetSpell w p0 e item set (eff, log) x).1.spells ∧
    (addSetSpell w p0 e item set (eff, log) x).1.item_count = eff.item_count ∧
    (addSetSpell w p0 e item set (eff, log) x).1.setid = eff.setid ∧
    (∀ (z : Nat) (t : SpellInfo), eff.spells[z]? = some (some t) →
      (addSetSpell w p0 e item set (eff, log) x).1.spells[z]? = some (some t)) ∧
    (set.spells.getD x 0 ≠ 0 → (set.items_to_triggerspell.getD x 0 : Int) ≤ eff.item_count →
      (∃ s, w.GetSpellInfo (set.spells.getD x 0) = some s) →
      set.spells.getD x 0 ∈ grantedIds (addSetSpell w p0 e item set (eff, log) x).1.spells) ∧
    ∃ extra, (addSetSpell w p0 e item set (eff, log) x).2 = log ++ extra ∧
      extra.length ≤ 1 ∧
      ∀ entry, entry ∈ extra → entry.2 = true ∧ entry.1.Id ∉ grantedIds eff.spells ∧
        entry.1.Id ∈ grantedIds (addSetSpell w p0 e item set (eff, log) x).1.spells := by
  have hsame : ∀ (r : ItemSetEffect × List (SpellInfo × Bool)) (P : Prop), r = (eff, log) →
      (set.spells.getD x 0 ≠ 0 → (set.items_to_triggerspell.getD x 0 : Int) ≤ eff.item_count →
        P → set.spells.getD x 0 ∈ grantedIds eff.spells) →
      SpellsOK set r.1.spells ∧ r.1.item_count = eff.item_count ∧ r.1.setid = eff.setid ∧
      (∀ (z : Nat) (t : SpellInfo), eff.spells[z]? = some (some t) → r.1.spells[z]? = some (some t)) ∧
      (set.spells.getD x 0 ≠ 0 → (set.items_to_triggerspell.getD x 0 : Int) ≤ eff.item_count →
        P → set.spells.getD x 0 ∈ grantedIds r.1.spells) ∧
      ∃ extra, r.2 = log ++ extra ∧ extra.length ≤ 1 ∧
        ∀ entry, entry ∈ extra → entry.2 = true ∧ entry.1.Id ∉ grantedIds eff.spells ∧
          entry.1.Id ∈ grantedIds r.1.spells := by
    intro r P hr hgr
    subst hr
    exact ⟨hok, rfl, rfl, fun _ _ h => h, hgr, [], by simp, by simp, by simp⟩
  unfold addSetSpell
  dsimp only
  by_cases h0 : set.spells.getD x 0 = 0
  · rw [if_pos h0]
    exact hsame _ _ rfl (fun h => absurd h0 h)
  · rw [if_neg h0]
    by_cases hthr : (set.items_to_triggerspell.getD x 0 : Int) > eff.item_count
    · rw [if_pos hthr]
      exact hsame _ _ rfl (fun _ h => absurd hthr (not_lt.mpr h))
    · rw [if_neg hthr]
      cases hfind : findSetSpell eff.spells (set.spells.getD x 0) with
      | some found =>
        rw [if_pos (show (some found).isSome = true from rfl)]
        refine hsame (eff, log) _ rfl ?_
        intro _ _ _
        obtain ⟨h1, h2⟩ := findSetSpell_some eff.spells _ found.1 found.2 hfind
        exact (mem_grantedIds _ _).mpr ⟨found.2, List.getElem?_mem h1, h2⟩
      | none =>
        rw [if_neg (by simp)]
        have hnot := findSetSpell_none eff.spells _ hfind
        have hid : set.spells.getD x 0 ∈ setSpells set := by
          unfold setSpells
          exact List.mem_map.mpr ⟨x, List.mem_range.mpr hx, rfl⟩
        obtain ⟨y, hy⟩ := free_slot_exists set eff.spells _ hok hid hnot
        have hyn := firstFreeSpell_some eff.spells y hy
        rw [hy]
        cases hinfo : w.GetSpellInfo (set.spells.getD x 0) with
        | none =>
          refine hsame (eff, log) _ rfl ?_
          rintro _ _ ⟨s, hs⟩
          exact Option.noConfusion hs
        | some spellInfo =>
          simp only
          have hsid := hspell _ _ hinfo
          have hperm := grantedIds_set_some eff.spells spellInfo y hyn
          have hmem : ∀ a, a ∈ grantedIds (eff.spells.set y (some spellInfo)) ↔
              a = spellInfo.Id ∨ a ∈ grantedIds eff.spells := by
            intro a
            rw [hperm.mem_iff, List.mem_cons]
          refine ⟨⟨?_, ?_, ?_⟩, trivial, trivial, ?_, ?_, ?_⟩
          · rw [List.length_set]
            exact hok.slots
          · rw [hperm.nodup_iff, List.nodup_cons, hsid]
            exact ⟨hnot, hok.nodup⟩
          · intro a ha
            rcases (hmem a).mp ha with h | h
            · rw [h, hsid]; exact hid
            · exact hok.listed a h
          · intro z t hz
            have hzy : y ≠ z := by
              intro h
              rw [h] at hyn
              rw [hyn] at hz
              simp at hz
            rw [List.getElem?_set_ne hzy]
            exact hz
          · intro _ _ _
            exact (hmem _).mpr (Or.inl hsid.symm)
          · by_cases hhook : w.CanItemApplyEquipSpell
                { p0 with ItemSetEff := p0.ItemSetEff.set e (some eff), equipSpells := log }
                item = true
            · rw [if_pos hhook]
              refine ⟨[(spellInfo, true)], rfl, by simp, ?_⟩
              intro entry hentry
              rw [List.mem_singleton] at hentry
              subst hentry
              exact ⟨rfl, by rw [hsid]; exact hnot, (hmem _).mpr (Or.inl rfl)⟩
            · rw [if_neg hhook]
              exact ⟨[], by simp, by simp, by simp⟩

/-- Granted spells that keep their slots keep their ids granted. -/
theorem grantedIds_mono (l1 l2 : List (Option SpellInfo))
    (h : ∀ (z : Nat) (t : SpellInfo), l1[z]? = some (some t) → l2[z]? = some (some t))
    (id : Nat) (hid : id ∈ grantedIds l1) : id ∈ grantedIds l2 := by
  rw [mem_grantedIds] at hid ⊢
  obtain ⟨s, hs, hsid⟩ := hid
  obtain ⟨z, hz⟩ := List.mem_iff_getElem?.mp hs
  exact ⟨s, List.getElem?_mem (h z s hz), hsid⟩

/-- The spell loop of `AddItemsSetItem` over the set spells `xs`: the record
stays well formed, its count and set id stay, no granted spell leaves its
slot, every set spell of `xs` that has an id, whose threshold is met and that
resolves is granted afterwards, and `ApplyEquipSpell` is called only to apply
spells that were not granted before the loop and are granted after it, each
once. -/
theorem addSetSpell_foldl (w : ItemSetWorld)
    (hspell : ∀ id s, w.GetSpellInfo id = some s → s.Id = id)
    (p0 : Player) (e : Nat) (item : Item) (set : ItemSetEntry) (xs : List Nat)
    (hxs : ∀ x, x ∈ xs → x < MAX_ITEM_SET_SPELLS) :
    ∀ (eff : ItemSetEffect) (log : List (SpellInfo × Bool)), SpellsOK set eff.spells →
      SpellsOK set (xs.foldl (addSetSpell w p0 e item set) (eff, log)).1.spells ∧
      (xs.foldl (addSetSpell w p0 e item set) (eff, log)).1.item_count = eff.item_count ∧
      (xs.foldl (addSetSpell w p0 e item set) (eff, log)).1.setid = eff.setid ∧
      (∀ (z : Nat) (t : SpellInfo), eff.spells[z]? = some (some t) →
        (xs.foldl (addSetSpell w p0 e item set) (eff, log)).1.spells[z]? = some (some t)) ∧
      (∀ x, x ∈ xs → set.spells.getD x 0 ≠ 0 →
        (set.items_to_triggerspell.getD x 0 : Int) ≤ eff.item_count →
        (∃ s, w.GetSpellInfo (set.spells.getD x 0) = some s) →
        set.spells.getD x 0 ∈
          grantedIds (xs.foldl (addSetSpell w p0 e item set) (eff, log)).1.spells) ∧
      ∃ extra, (xs.foldl (addSetSpell w p0 e item set) (eff, log)).2 = log ++ extra ∧
        (extra.map (fun entry => entry.1.Id)).Nodup ∧
        ∀ entry, entry ∈ extra → entry.2 = true ∧ entry.1.Id ∉ grantedIds eff.spells ∧
          entry.1.Id ∈
            grantedIds (xs.foldl (addSetSpell w p0 e item set) (eff, log)).1.spells := by
  induction xs with
  | nil =>
    intro eff log hok
    exact ⟨hok, rfl, rfl, fun _ _ h => h, fun x hx => absurd hx (List.not_mem_nil x), [],
      by simp, by simp, by simp⟩
  | cons x rest ih =>
    intro eff log hok
    obtain ⟨s1, s2, s3, s4, s5, extra1, s6, s7, s8⟩ :=
      addSetSpell_step w hspell p0 e item set eff log x (hxs x (List.mem_cons_self _ _)) hok
    obtain ⟨r1, r2, r3, r4, r5, extra2, r6, r7, r8⟩ :=
      ih (fun y hy => hxs y (List.mem_cons_of_mem _ hy))
        (addSetSpell w p0 e item set (eff, log) x).1
        (addSetSpell w p0 e item set (eff, log) x).2 s1
    rw [List.foldl_cons]
    have hmono1 := grantedIds_mono _ _ s4
    have hmono2 := grantedIds_mono _ _ r4
    refine ⟨r1, r2.trans s2, r3.trans s3, fun z t h => r4 z t (s4 z t h), ?_, extra1 ++ extra2,
      ?_, ?_, ?_⟩
    · intro y hy h0 hthr hres
      rcases List.mem_cons.mp hy with hyx | hyr
      · subst hyx
        exact hmono2 _ (s5 h0 hthr hres)
      · exact r5 y hyr h0 (by rw [s2]; exact hthr) hres
    · show (rest.foldl (addSetSpell w p0 e item set)
        ((addSetSpell w p0 e item set (eff, log) x).1,
          (addSetSpell w p0 e item set (eff, log) x).2)).2 = _
      rw [r6, s6, List.append_assoc]
    · rw [List.map_append, List.nodup_append]
      refine ⟨?_, r7, ?_⟩
      · cases extra1 with
        | nil => simp
        | cons a tl =>
          cases tl with
          | nil => simp
          | cons b tl2 => simp at s7
      · intro id h1 h2
        obtain ⟨en1, hen1, hid1⟩ := List.mem_map.mp h1
        obtain ⟨en2, hen2, hid2⟩ := List.mem_map.mp h2
        have hin := (s8 en1 hen1).2.2
        have hout := (r8 en2 hen2).2.1
        rw [hid1] at hin
        rw [hid2] at hout
        exact hout hin
    · intro entry hentry
      rcases List.mem_append.mp hentry with h | h
      · obtain ⟨a, b, c⟩ := s8 entry h
        exact ⟨a, b, hmono2 _ c⟩
      · obtain ⟨a, b, c⟩ := r8 entry h
        exact ⟨a, fun hin => b (hmono1 _ hin), c⟩

/-! ## The vector of tracking records -/

theorem findSetEffect_some (l : List (Option ItemSetEffect)) (setid : Nat) :
    ∀ e eff, findSetEffect l setid = some (e, eff) →
      l[e]? = some (some eff) ∧ eff.setid = setid := by
  induction l with
  | nil => intro e eff h; simp [findSetEffect] at h
  | cons a rest ih =>
    intro e eff h
    cases a with
    | none =>
      simp only [findSetEffect, Option.map_eq_some', Prod.mk.injEq] at h
      obtain ⟨r, hr, h1, h2⟩ := h
      obtain ⟨ih1, ih2⟩ := ih r.1 r.2 hr
      subst h1 h2
      exact ⟨by simpa using ih1, ih2⟩
    | some t =>
      simp only [findSetEffect] at h
      split_ifs at h with ht
      · simp only [Option.some.injEq, Prod.mk.injEq] at h
        obtain ⟨h1, h2⟩ := h
        subst h1 h2
        exact ⟨by simp, ht⟩
      · simp only [Option.map_eq_some', Prod.mk.injEq] at h
        obtain ⟨r, hr, h1, h2⟩ := h
        obtain ⟨ih1, ih2⟩ := ih r.1 r.2 hr
        subst h1 h2
        exact ⟨by simpa using ih1, ih2⟩

/-- Writing a record of the same set through the pointer found keeps it the
first record of the set. -/
theorem findSetEffect_set (l : List (Option ItemSetEffect)) (setid : Nat)
    (eff1 : ItemSetEffect) (h1 : eff1.setid = setid) :
    ∀ e eff, findSetEffect l setid = some (e, eff) →
      findSetEffect (l.set e (some eff1)) setid = some (e, eff1) := by
  induction l with
  | nil => intro e eff h; simp [findSetEffect] at h
  | cons a rest ih =>
    intro e eff h
    cases a with
    | none =>
      simp only [findSetEffect, Option.map_eq_some', Prod.mk.injEq] at h
      obtain ⟨r, hr, h2, h3⟩ := h
      subst h2 h3
      simp [findSetEffect, ih r.1 r.2 hr]
    | some t =>
      simp only [findSetEffect] at h
      split_ifs at h with ht
      · simp only [Option.some.injEq, Prod.mk.injEq] at h
        obtain ⟨h2, h3⟩ := h
        subst h2 h3
        simp [findSetEffect, h1]
      · simp only [Option.map_eq_some', Prod.mk.injEq] at h
        obtain ⟨r, hr, h2, h3⟩ := h
        subst h2 h3
        simp [findSetEffect, ht, ih r.1 r.2 hr]

/-- A new record put in the first empty slot of a vector without a record of
its set is the first record of the set. -/
theorem findSetEffect_empty_slot (l : List (Option ItemSetEffect)) (setid : Nat)
    (eff1 : ItemSetEffect) (h1 : eff1.setid = setid) :
    findSetEffect l setid = none → ∀ x, firstEmptySlot l = some x →
      findSetEffect (l.set x (some eff1)) setid = some (x, eff1) := by
  induction l with
  | nil => intro _ x h; simp [firstEmptySlot] at h
  | cons a rest ih =>
    intro hnone x hx
    cases a with
    | none =>
      simp only [firstEmptySlot, Option.some.injEq] at hx
      subst hx
      simp [findSetEffect, h1]
    | some t =>
      simp only [findSetEffect] at hnone
      split_ifs at hnone with ht
      simp only [Option.map_eq_none'] at hnone
      simp only [firstEmptySlot, Option.map_eq_some'] at hx
      obtain ⟨r, hr, h2⟩ := hx
      subst h2
      simp [findSetEffect, ht, ih hnone r hr]

/-- A new record put at the end of a vector without a record of its set is the
first record of the set. -/
theorem findSetEffect_push_back (l : List (Option ItemSetEffect)) (setid : Nat)
    (eff1 : ItemSetEffect) (h1 : eff1.setid = setid) :
    findSetEffect l setid = none →
      findSetEffect (l ++ [some eff1]) setid = some (l.length, eff1) := by
  induction l with
  | nil => intro _; simp [findSetEffect, h1]
  | cons a rest ih =>
    intro hnone
    cases a with
    | none =>
      simp only [findSetEffect, Option.map_eq_none'] at hnone
      simp [findSetEffect, ih hnone]
    | some t =>
      simp only [findSetEffect] at hnone
      split_ifs at hnone with ht
      simp only [Option.map_eq_none'] at hnone
      simp [findSetEffect, ht, ih hnone]

theorem firstEmptySlot_some (l : List (Option ItemSetEffect)) :
    ∀ x, firstEmptySlot l = some x → l[x]? = some none := by
  induction l with
  | nil => intro x h; simp [firstEmptySlot] at h
  | cons a rest ih =>
    intro x h
    cases a with
    | none =>
      simp only [firstEmptySlot, Option.some.injEq] at h
      subst h
      simp
    | some t =>
      simp only [firstEmptySlot, Option.map_eq_some'] at h
      obtain ⟨r, hr, h1⟩ := h
      subst h1
      simpa using ih r hr

/-- The record `AddItemsSetItem` works on is the first record of the set in
the vector it works on, which differs from the player's vector in the slot of
that record at most; it is the player's record of the set when there is one
and a new record otherwise. -/
theorem locateSetEffect_spec (l : List (Option ItemSetEffect)) (setid : Nat) :
    findSetEffect (locateSetEffect l setid).2.2 setid =
      some ((locateSetEffect l setid).1, (locateSetEffect l setid).2.1) ∧
    (∀ i : Nat, i ≠ (locateSetEffect l setid).1 → (locateSetEffect l setid).2.2[i]? = l[i]?) ∧
    (∀ e eff, findSetEffect l setid = some (e, eff) →
      (locateSetEffect l setid).1 = e ∧ (locateSetEffect l setid).2.1 = eff) ∧
    (findSetEffect l setid = none →
      (locateSetEffect l setid).2.1 =
        { setid := setid, item_count := 0,
          spells := List.replicate MAX_ITEM_SET_SPELLS none }) := by
  unfold locateSetEffect
  cases hfind : findSetEffect l setid with
  | some found =>
    obtain ⟨e, eff⟩ := found
    refine ⟨hfind, fun _ _ => rfl, ?_, fun h => Option.noConfusion h⟩
    intro e0 eff0 h
    simp only [Option.some.injEq, Prod.mk.injEq] at h
    exact ⟨h.1, h.2⟩
  | none =>
    cases hslot : firstEmptySlot l with
    | some x =>
      refine ⟨findSetEffect_empty_slot l setid _ rfl hfind x hslot, ?_,
        fun _ _ h => Option.noConfusion h, fun _ => rfl⟩
      intro i hi
      exact List.getElem?_set_ne (fun h => hi h.symm)
    | none =>
      refine ⟨findSetEffect_push_back l setid _ rfl hfind, ?_,
        fun _ _ h => Option.noConfusion h, fun _ => rfl⟩
      intro i hi
      simp only at hi
      rw [List.getElem?_append]
      split_ifs with hlt
      · rfl
      · have hgt : l.length < i := by omega
        have h1 : l[i]? = none := List.getElem?_eq_none (by omega)
        rw [h1]
        simp
        omega

theorem grantedIds_replicate_none (n : Nat) :
    grantedIds (List.replicate n (none : Option SpellInfo)) = [] := by
  induction n with
  | zero => rfl
  | succ n ih =>
    rw [List.replicate_succ]
    exact ih

/-- C24: after `AddItemsSetItem` for an item of a known item set whose skill
requirement the player meets, the set's tracking record exists (it is the
first record of the set in the player's vector) with its contributing-item
count increased by one (`1` if the record was just created), and every set
spell with a nonzero id, a trigger threshold `≤` the new count and a
resolvable spell appears in the record's granted spells exactly once. Spells
already granted stay in their slots and are not granted a second time:
`ApplyEquipSpell` is called only to apply spells that were not granted
before, each once. The other slots of the vector are as they were, and the
record is well formed. The catalog of spells resolves an id to the spell of
that id, and the record the player has of the set, if any, is well formed
(its granted spells are different spells of the set). -/
theorem AddItemsSetItem_grants (w : ItemSetWorld) (player : Player) (item : Item)
    (proto : ItemTemplate) (set : ItemSetEntry)
    (hproto : Item.GetTemplate w.toItemWorld item = some proto)
    (hset : w.LookupItemSet proto.ItemSet = some set)
    (hskill : set.required_skill_id = 0 ∨
      set.required_skill_value ≤ w.GetSkillValue player set.required_skill_id)
    (hspell : ∀ id s, w.GetSpellInfo id = some s → s.Id = id)
    (hok : ∀ e eff, findSetEffect player.ItemSetEff proto.ItemSet = some (e, eff) →
      EffOK set eff) :
    ∃ player1 e eff1,
      AddItemsSetItem w player item = some player1 ∧
      findSetEffect player1.ItemSetEff proto.ItemSet = some (e, eff1) ∧
      (∀ e0 eff0, findSetEffect player.ItemSetEff proto.ItemSet = some (e0, eff0) →
        e = e0 ∧ eff1.item_count = eff0.item_count + 1 ∧
        ∀ (z : Nat) (t : SpellInfo), eff0.spells[z]? = some (some t) →
          eff1.spells[z]? = some (some t)) ∧
      (findSetEffect player.ItemSetEff proto.ItemSet = none → eff1.item_count = 1) ∧
      EffOK set eff1 ∧
      (∀ x, x < MAX_ITEM_SET_SPELLS → set.spells.getD x 0 ≠ 0 →
        (set.items_to_triggerspell.getD x 0 : Int) ≤ eff1.item_count →
        (∃ s, w.GetSpellInfo (set.spells.getD x 0) = some s) →
        (grantedIds eff1.spells).count (set.spells.getD x 0) = 1) ∧
      (∃ extra, player1.equipSpells = player.equipSpells ++ extra ∧
        (extra.map (fun entry => entry.1.Id)).Nodup ∧
        ∀ entry, entry ∈ extra → entry.2 = true ∧ entry.1.Id ∈ grantedIds eff1.spells ∧
          ∀ e0 eff0, findSetEffect player.ItemSetEff proto.ItemSet = some (e0, eff0) →
            entry.1.Id ∉ grantedIds eff0.spells) ∧
      (∀ i : Nat, i ≠ e → player1.ItemSetEff[i]? = player.ItemSetEff[i]?) := by
  obtain ⟨hloc, hother, hprev, hnew⟩ := locateSetEffect_spec player.ItemSetEff proto.ItemSet
  have hsetid := (findSetEffect_some _ _ _ _ hloc).2
  have hspells : SpellsOK set (locateSetEffect player.ItemSetEff proto.ItemSet).2.1.spells ∧
      0 ≤ (locateSetEffect player.ItemSetEff proto.ItemSet).2.1.item_count := by
    cases hfind : findSetEffect player.ItemSetEff proto.ItemSet with
    | some found =>
      obtain ⟨e0, eff0⟩ := found
      rw [(hprev e0 eff0 hfind).2]
      have h := hok e0 eff0 hfind
      exact ⟨h.1, by have := h.2; omega⟩
    | none =>
      rw [hnew hfind]
      refine ⟨⟨by simp, ?_, ?_⟩, le_refl _⟩
      · simp only [grantedIds_replicate_none]
        exact List.nodup_nil
      · intro id hid
        simp only [grantedIds_replicate_none] at hid
        exact absurd hid (List.not_mem_nil id)
  obtain ⟨r1, r2, r3, r4, r5, extra, r6, r7, r8⟩ :=
    addSetSpell_foldl w hspell
      { player with ItemSetEff := (locateSetEffect player.ItemSetEff proto.ItemSet).2.2 }
      (locateSetEffect player.ItemSetEff proto.ItemSet).1 item set
      (List.range MAX_ITEM_SET_SPELLS) (fun x hx => List.mem_range.mp hx)
      { (locateSetEffect player.ItemSetEff proto.ItemSet).2.1 with
        item_count := (locateSetEffect player.ItemSetEff proto.ItemSet).2.1.item_count + 1 }
      player.equipSpells hspells.1
  have hnoskill : ¬ (set.required_skill_id ≠ 0 ∧
      w.GetSkillValue player set.required_skill_id < set.required_skill_value) := by
    rintro ⟨h1, h2⟩
    rcases hskill with h | h
    · exact h1 h
    · omega
  generalize hR : (List.range MAX_ITEM_SET_SPELLS).foldl
      (addSetSpell w
        { player with ItemSetEff := (locateSetEffect player.ItemSetEff proto.ItemSet).2.2 }
        (locateSetEffect player.ItemSetEff proto.ItemSet).1 item set)
      ({ (locateSetEffect player.ItemSetEff proto.ItemSet).2.1 with
          item_count := (locateSetEffect player.ItemSetEff proto.ItemSet).2.1.item_count + 1 },
        player.equipSpells) = R at r1 r2 r3 r4 r5 r6 r7 r8
  refine ⟨{ player with
      ItemSetEff :=
        (locateSetEffect player.ItemSetEff proto.ItemSet).2.2.set
          (locateSetEffect player.ItemSetEff proto.ItemSet).1 (some R.1)
      equipSpells := R.2 },
    (locateSetEffect player.ItemSetEff proto.ItemSet).1, R.1, ?_, ?_, ?_, ?_, ?_, ?_, ?_, ?_⟩
  · unfold AddItemsSetItem
    simp only [hproto, hset, hnoskill, if_false]
    rw [← hR]
  · exact findSetEffect_set _ _ _ (r3.trans hsetid) _ _ hloc
  · intro e0 eff0 hfind
    obtain ⟨h1, h2⟩ := hprev e0 eff0 hfind
    refine ⟨h1, ?_, ?_⟩
    · rw [r2, h2]
    · intro z t hz
      apply r4
      rw [h2]
      exact hz
  · intro hfind
    rw [r2, hnew hfind]
    rfl
  · refine ⟨r1, ?_⟩
    rw [r2]
    have := hspells.2
    show 1 ≤ (locateSetEffect player.ItemSetEff proto.ItemSet).2.1.item_count + 1
    omega
  · intro x hx h0 hthr hres
    apply List.count_eq_one_of_mem r1.nodup
    exact r5 x (List.mem_range.mpr hx) h0 (by rw [← r2]; exact hthr) hres
  · refine ⟨extra, r6, r7, ?_⟩
    intro entry hentry
    obtain ⟨a, b, c⟩ := r8 entry hentry
    refine ⟨a, c, ?_⟩
    intro e0 eff0 hfind
    have h2 := (hprev e0 eff0 hfind).2
    rw [← h2]
    exact b
  · intro i hi
    show ((locateSetEffect player.ItemSetEff proto.ItemSet).2.2.set _ _)[i]? = _
    rw [List.getElem?_set_ne (fun h => hi h.symm)]
    exact hother i hi

/-- Witness of C24: the player with one piece of the example set equips a
second piece, which grants the spell `501` of two pieces. -/
theorem AddItemsSetItem_grants_witness :
    AddItemsSetItem exampleSetWorld onePiecePlayer setPiece = some twoPiecePlayer ∧
    ∃ player1 e eff1,
      AddItemsSetItem exampleSetWorld onePiecePlayer setPiece = some player1 ∧
      findSetEffect player1.ItemSetEff 9 = some (e, eff1) ∧
      (∀ e0 eff0, findSetEffect onePiecePlayer.ItemSetEff 9 = some (e0, eff0) →
        e = e0 ∧ eff1.item_count = eff0.item_count + 1 ∧
        ∀ (z : Nat) (t : SpellInfo), eff0.spells[z]? = some (some t) →
          eff1.spells[z]? = some (some t)) ∧
      (findSetEffect onePiecePlayer.ItemSetEff 9 = none → eff1.item_count = 1) ∧
      EffOK exampleSet eff1 ∧
      (∀ x, x < MAX_ITEM_SET_SPELLS → exampleSet.spells.getD x 0 ≠ 0 →
        (exampleSet.items_to_triggerspell.getD x 0 : Int) ≤ eff1.item_count →
        (∃ s, exampleSetWorld.GetSpellInfo (exampleSet.spells.getD x 0) = some s) →
        (grantedIds eff1.spells).count (exampleSet.spells.getD x 0) = 1) ∧
      (∃ extra, player1.equipSpells = onePiecePlayer.equipSpells ++ extra ∧
        (extra.map (fun entry => entry.1.Id)).Nodup ∧
        ∀ entry, entry ∈ extra → entry.2 = true ∧ entry.1.Id ∈ grantedIds eff1.spells ∧
          ∀ e0 eff0, findSetEffect onePiecePlayer.ItemSetEff 9 = some (e0, eff0) →
            entry.1.Id ∉ grantedIds eff0.spells) ∧
      (∀ i : Nat, i ≠ e → player1.ItemSetEff[i]? = onePiecePlayer.ItemSetEff[i]?) :=
  ⟨by decide,
    AddItemsSetItem_grants exampleSetWorld onePiecePlayer setPiece
      { exampleTemplate with ItemId := 300, ItemSet := 9 } exampleSet (by decide) (by decide)
      (Or.inl (by decide))
      (by
        intro id s h
        have h2 : some ({ Id := id } : SpellInfo) = some s := h
        rw [← Option.some.inj h2])
      (by
        intro e eff h
        have h2 : some (0, (⟨9, 1, List.replicate MAX_ITEM_SET_SPELLS none⟩ : ItemSetEffect)) =
            some (e, eff) := h
        simp only [Option.some.injEq, Prod.mk.injEq] at h2
        rw [← h2.2]
        refine ⟨⟨by decide, by decide, ?_⟩, by decide⟩
        intro id hid
        have hnil : grantedIds (List.replicate MAX_ITEM_SET_SPELLS (none : Option SpellInfo)) = [] :=
          grantedIds_replicate_none _
        have hid2 : id ∈ grantedIds (List.replicate MAX_ITEM_SET_SPELLS (none : Option SpellInfo)) :=
          hid
        rw [hnil] at hid2
        exact absurd hid2 (List.not_mem_nil id))⟩

/-! ## Revoking the spells of a set -/

/-- One turn of the spell loop of `RemoveItemsSetItem`: the record stays well
formed, its count and set id stay, no spell is newly granted, a granted spell
stays in its slot unless it is the set spell `x` and that has an id and a
threshold above the count, in which case the spell is not granted afterwards;
`ApplyEquipSpell` is called only to revoke a spell that was granted and is
not granted afterwards. -/
theorem removeSetSpell_step (set : ItemSetEntry) (eff : ItemSetEffect)
    (log : List (SpellInfo × Bool)) (x : Nat) (hok : SpellsOK set eff.spells) :
    SpellsOK set (removeSetSpell set (eff, log) x).1.spells ∧
    (removeSetSpell set (eff, log) x).1.item_count = eff.item_count ∧
    (removeSetSpell set (eff, log) x).1.setid = eff.setid ∧
    (∀ (z : Nat) (t : SpellInfo),
      (removeSetSpell set (eff, log) x).1.spells[z]? = some (some t) →
      eff.spells[z]? = some (some t)) ∧
    (∀ (z : Nat) (t : SpellInfo), eff.spells[z]? = some (some t) →
      (set.spells.getD x 0 = t.Id → set.spells.getD x 0 ≠ 0 →
        (set.items_to_triggerspell.getD x 0 : Int) ≤ eff.item_count) →
      (removeSetSpell set (eff, log) x).1.spells[z]? = some (some t)) ∧
    (set.spells.getD x 0 ≠ 0 → ¬ (set.items_to_triggerspell.getD x 0 : Int) ≤ eff.item_count →
      set.spells.getD x 0 ∉ grantedIds (removeSetSpell set (eff, log) x).1.spells) ∧
    ∃ extra, (removeSetSpell set (eff, log) x).2 = log ++ extra ∧
      ∀ entry, entry ∈ extra → entry.2 = false ∧ entry.1.Id ∈ grantedIds eff.spells ∧
        entry.1.Id ∉ grantedIds (removeSetSpell set (eff, log) x).1.spells := by
  unfold removeSetSpell
  dsimp only
  by_cases h0 : set.spells.getD x 0 = 0
  · rw [if_pos h0]
    exact ⟨hok, rfl, rfl, fun _ _ h => h, fun _ _ h _ => h, fun h => absurd h0 h, [], by simp,
      by simp⟩
  · rw [if_neg h0]
    by_cases hthr : (set.items_to_triggerspell.getD x 0 : Int) ≤ eff.item_count
    · rw [if_pos hthr]
      exact ⟨hok, rfl, rfl, fun _ _ h => h, fun _ _ h _ => h, fun _ h => absurd hthr h, [],
        by simp, by simp⟩
    · rw [if_neg hthr]
      cases hfind : findSetSpell eff.spells (set.spells.getD x 0) with
      | none =>
        exact ⟨hok, rfl, rfl, fun _ _ h => h, fun _ _ h _ => h,
          fun _ _ => findSetSpell_none eff.spells _ hfind, [], by simp, by simp⟩
      | some found =>
        obtain ⟨z0, s⟩ := found
        obtain ⟨hz0, hsid⟩ := findSetSpell_some eff.spells _ z0 s hfind
        have hperm := grantedIds_set_none eff.spells s z0 hz0
        have hnd : (s.Id :: grantedIds (eff.spells.set z0 none)).Nodup :=
          hperm.nodup_iff.mp hok.nodup
        rw [List.nodup_cons] at hnd
        have hsub : ∀ a, a ∈ grantedIds (eff.spells.set z0 none) → a ∈ grantedIds eff.spells :=
          fun a ha => hperm.mem_iff.mpr (List.mem_cons_of_mem _ ha)
        have hlt : z0 < eff.spells.length := by
          by_contra hge
          rw [List.getElem?_eq_none (by omega)] at hz0
          exact Option.noConfusion hz0
        refine ⟨⟨?_, hnd.2, fun a ha => hok.listed a (hsub a ha)⟩, rfl, rfl, ?_, ?_, ?_,
          [(s, false)], rfl, ?_⟩
        · show (eff.spells.set z0 none).length = _
          rw [List.length_set]
          exact hok.slots
        · intro z t hz
          have hz2 : (eff.spells.set z0 none)[z]? = some (some t) := hz
          by_cases hzz : z0 = z
          · rw [← hzz, List.getElem?_set_self hlt] at hz2
            simp at hz2
          · rw [List.getElem?_set_ne hzz] at hz2
            exact hz2
        · intro z t hz hkeep
          show (eff.spells.set z0 none)[z]? = some (some t)
          have hzz : z0 ≠ z := by
            intro h
            rw [h, hz] at hz0
            simp only [Option.some.injEq] at hz0
            rw [← hz0] at hsid
            exact hthr (hkeep hsid.symm h0)
          rw [List.getElem?_set_ne hzz]
          exact hz
        · intro _ _
          show set.spells.getD x 0 ∉ grantedIds (eff.spells.set z0 none)
          rw [← hsid]
          exact hnd.1
        · intro entry hentry
          rw [List.mem_singleton] at hentry
          subst hentry
          exact ⟨rfl, hperm.mem_iff.mpr (List.mem_cons_self _ _), hnd.1⟩

/-- The spell loop of `RemoveItemsSetItem` over the set spells `xs`. -/
theorem removeSetSpell_foldl (set : ItemSetEntry) (xs : List Nat) :
    ∀ (eff : ItemSetEffect) (log : List (SpellInfo × Bool)), SpellsOK set eff.spells →
      SpellsOK set (xs.foldl (removeSetSpell set) (eff, log)).1.spells ∧
      (xs.foldl (removeSetSpell set) (eff, log)).1.item_count = eff.item_count ∧
      (xs.foldl (removeSetSpell set) (eff, log)).1.setid = eff.setid ∧
      (∀ (z : Nat) (t : SpellInfo),
        (xs.foldl (removeSetSpell set) (eff, log)).1.spells[z]? = some (some t) →
        eff.spells[z]? = some (some t)) ∧
      (∀ (z : Nat) (t : SpellInfo), eff.spells[z]? = some (some t) →
        (∀ x, x ∈ xs → set.spells.getD x 0 = t.Id → set.spells.getD x 0 ≠ 0 →
          (set.items_to_triggerspell.getD x 0 : Int) ≤ eff.item_count) →
        (xs.foldl (removeSetSpell set) (eff, log)).1.spells[z]? = some (some t)) ∧
      (∀ x, x ∈ xs → set.spells.getD x 0 ≠ 0 →
        ¬ (set.items_to_triggerspell.getD x 0 : Int) ≤ eff.item_count →
        set.spells.getD x 0 ∉ grantedIds (xs.foldl (removeSetSpell set) (eff, log)).1.spells) ∧
      ∃ extra, (xs.foldl (removeSetSpell set) (eff, log)).2 = log ++ extra ∧
        ∀ entry, entry ∈ extra → entry.2 = false ∧ entry.1.Id ∈ grantedIds eff.spells ∧
          entry.1.Id ∉ grantedIds (xs.foldl (removeSetSpell set) (eff, log)).1.spells := by
  induction xs with
  | nil =>
    intro eff log hok
    exact ⟨hok, rfl, rfl, fun _ _ h => h, fun _ _ h _ => h,
      fun x hx => absurd hx (List.not_mem_nil x), [], by simp, by simp⟩
  | cons x rest ih =>
    intro eff log hok
    obtain ⟨s1, s2, s3, s4, s5, s6, extra1, s7, s8⟩ := removeSetSpell_step set eff log x hok
    obtain ⟨r1, r2, r3, r4, r5, r6, extra2, r7, r8⟩ :=
      ih (removeSetSpell set (eff, log) x).1 (removeSetSpell set (eff, log) x).2 s1
    rw [List.foldl_cons]
    have hanti1 := grantedIds_mono _ _ s4
    have hanti2 := grantedIds_mono _ _ r4
    refine ⟨r1, r2.trans s2, r3.trans s3, fun z t h => s4 z t (r4 z t h), ?_, ?_,
      extra1 ++ extra2, ?_, ?_⟩
    · intro z t hz hkeep
      apply r5 z t (s5 z t hz (hkeep x (List.mem_cons_self _ _)))
      intro y hy h1 h2
      rw [s2]
      exact hkeep y (List.mem_cons_of_mem _ hy) h1 h2
    · intro y hy h0 hthr
      rcases List.mem_cons.mp hy with hyx | hyr
      · subst hyx
        exact fun hin => s6 h0 hthr (hanti2 _ hin)
      · exact r6 y hyr h0 (by rw [s2]; exact hthr)
    · show (rest.foldl (removeSetSpell set)
        ((removeSetSpell set (eff, log) x).1, (removeSetSpell set (eff, log) x).2)).2 = _
      rw [r7, s7, List.append_assoc]
    · intro entry hentry
      rcases List.mem_append.mp hentry with h | h
      · obtain ⟨a, b, c⟩ := s8 entry h
        exact ⟨a, b, fun hin => c (hanti2 _ hin)⟩
      · obtain ⟨a, b, c⟩ := r8 entry h
        exact ⟨a, hanti1 _ b, c⟩

/-- Claim C25. `RemoveItemsSetItem` for a known set. If the player has no
record of the set, the player is unchanged. If the player has a well-formed
record of it (in slot `setindex`), the call leaves the player with slot
`setindex` of `ItemSetEff` rewritten in place and `equipSpells` extended: the
record `eff1` it works on has the count decreased by one; no set spell with an
id and a trigger threshold above the new count is granted in `eff1`; a granted
spell all of whose listings in the set have a threshold within the new count
stays in its slot; nothing is newly granted; `ApplyEquipSpell` is called only
to revoke spells that were granted and no longer are; the slot list keeps its
length and its other slots; slot `setindex` is emptied when the new count is
zero and holds `eff1`, still well formed, otherwise. -/
theorem RemoveItemsSetItem_revokes (w : ItemSetWorld) (player : Player) (proto : ItemTemplate)
    (set : ItemSetEntry) (hset : w.LookupItemSet proto.ItemSet = some set) :
    (findSetEffect player.ItemSetEff proto.ItemSet = none →
      RemoveItemsSetItem w player proto = player) ∧
    ∀ (setindex : Nat) (eff : ItemSetEffect),
      findSetEffect player.ItemSetEff proto.ItemSet = some (setindex, eff) → EffOK set eff →
      ∃ (eff1 : ItemSetEffect) (extra : List (SpellInfo × Bool)),
        RemoveItemsSetItem w player proto =
          { player with
            ItemSetEff :=
              player.ItemSetEff.set setindex (if eff1.item_count = 0 then none else some eff1)
            equipSpells := player.equipSpells ++ extra } ∧
        eff1.setid = eff.setid ∧
        eff1.item_count = eff.item_count - 1 ∧
        SpellsOK set eff1.spells ∧
        (∀ x, x < MAX_ITEM_SET_SPELLS → set.spells.getD x 0 ≠ 0 →
          eff1.item_count < (set.items_to_triggerspell.getD x 0 : Int) →
          set.spells.getD x 0 ∉ grantedIds eff1.spells) ∧
        (∀ (z : Nat) (t : SpellInfo), eff.spells[z]? = some (some t) →
          (∀ x, x < MAX_ITEM_SET_SPELLS → set.spells.getD x 0 = t.Id → set.spells.getD x 0 ≠ 0 →
            (set.items_to_triggerspell.getD x 0 : Int) ≤ eff1.item_count) →
          eff1.spells[z]? = some (some t)) ∧
        (∀ (z : Nat) (t : SpellInfo), eff1.spells[z]? = some (some t) →
          eff.spells[z]? = some (some t)) ∧
        (∀ entry, entry ∈ extra → entry.2 = false ∧ entry.1.Id ∈ grantedIds eff.spells ∧
          entry.1.Id ∉ grantedIds eff1.spells) ∧
        (RemoveItemsSetItem w player proto).ItemSetEff.length = player.ItemSetEff.length ∧
        (∀ i : Nat, i ≠ setindex →
          (RemoveItemsSetItem w player proto).ItemSetEff[i]? = player.ItemSetEff[i]?) ∧
        (eff1.item_count = 0 →
          (RemoveItemsSetItem w player proto).ItemSetEff[setindex]? = some none) ∧
        (eff1.item_count ≠ 0 →
          (RemoveItemsSetItem w player proto).ItemSetEff[setindex]? = some (some eff1) ∧
          EffOK set eff1) := by
  constructor
  · intro hnone
    unfold RemoveItemsSetItem
    simp only [hset, hnone]
  · intro setindex eff hfind hok
    obtain ⟨hslot, _⟩ := findSetEffect_some player.ItemSetEff proto.ItemSet setindex eff hfind
    have hlt : setindex < player.ItemSetEff.length := by
      by_contra hge
      rw [List.getElem?_eq_none (by omega)] at hslot
      exact Option.noConfusion hslot
    obtain ⟨r1, r2, r3, r4, r5, r6, extra, r7, r8⟩ :=
      removeSetSpell_foldl set (List.range MAX_ITEM_SET_SPELLS)
        { eff with item_count := eff.item_count - 1 } player.equipSpells hok.1
    have hrun : RemoveItemsSetItem w player proto =
        { player with
          ItemSetEff := player.ItemSetEff.set setindex
            (if ((List.range MAX_ITEM_SET_SPELLS).foldl (removeSetSpell set)
                ({ eff with item_count := eff.item_count - 1 }, player.equipSpells)).1.item_count = 0
              then none
              else some ((List.range MAX_ITEM_SET_SPELLS).foldl (removeSetSpell set)
                ({ eff with item_count := eff.item_count - 1 }, player.equipSpells)).1)
          equipSpells := player.equipSpells ++ extra } := by
      unfold RemoveItemsSetItem
      simp only [hset, hfind]
      rw [← r7]
      by_cases hz : ((List.range MAX_ITEM_SET_SPELLS).foldl (removeSetSpell set)
          ({ eff with item_count := eff.item_count - 1 }, player.equipSpells)).1.item_count = 0
      · rw [if_pos hz, if_pos hz]
      · rw [if_neg hz, if_neg hz]
    generalize hR : (List.range MAX_ITEM_SET_SPELLS).foldl (removeSetSpell set)
      ({ eff with item_count := eff.item_count - 1 }, player.equipSpells) = R
      at r1 r2 r3 r4 r5 r6 r7 r8 hrun
    have hcount : R.1.item_count = eff.item_count - 1 := r2
    refine ⟨R.1, extra, hrun, r3, hcount, r1, ?_, ?_, r4, r8, ?_, ?_, ?_, ?_⟩
    · intro x hx h0 hthr
      apply r6 x (List.mem_range.mpr hx) h0
      show ¬ (set.items_to_triggerspell.getD x 0 : Int) ≤ eff.item_count - 1
      rw [← hcount]
      omega
    · intro z t hz hkeep
      apply r5 z t hz
      intro x hx h1 h2
      show (set.items_to_triggerspell.getD x 0 : Int) ≤ eff.item_count - 1
      rw [← hcount]
      exact hkeep x (List.mem_range.mp hx) h1 h2
    · rw [hrun]
      exact List.length_set _ _ _
    · intro i hi
      rw [hrun]
      exact List.getElem?_set_ne (Ne.symm hi)
    · intro hz
      rw [hrun]
      show (player.ItemSetEff.set setindex (if R.1.item_count = 0 then none else some R.1))[setindex]?
        = some none
      rw [if_pos hz, List.getElem?_set_self hlt]
    · intro hz
      rw [hrun]
      refine ⟨?_, r1, ?_⟩
      · show (player.ItemSetEff.set setindex
          (if R.1.item_count = 0 then none else some R.1))[setindex]? = some (some R.1)
        rw [if_neg hz, List.getElem?_set_self hlt]
      · have := hok.2
        omega

/-- Witness for claim C25: the player with two pieces of the set `9` and the
spell `501` granted unequips one piece; the record drops to one piece, the
spell is revoked and the slot keeps the record. -/
theorem RemoveItemsSetItem_revokes_witness :
    exampleSetWorld.LookupItemSet ({ exampleTemplate with ItemId := 300, ItemSet := 9 } : ItemTemplate).ItemSet
      = some exampleSet ∧
    RemoveItemsSetItem exampleSetWorld twoPiecePlayer { exampleTemplate with ItemId := 300, ItemSet := 9 } =
      { onePiecePlayer with equipSpells := [({ Id := 501 }, true), ({ Id := 501 }, false)] } ∧
    EffOK exampleSet
      ⟨9, 2, some { Id := 501 } :: List.replicate 7 none⟩ ∧
    ((findSetEffect twoPiecePlayer.ItemSetEff
        ({ exampleTemplate with ItemId := 300, ItemSet := 9 } : ItemTemplate).ItemSet = none →
      RemoveItemsSetItem exampleSetWorld twoPiecePlayer
        { exampleTemplate with ItemId := 300, ItemSet := 9 } = twoPiecePlayer) ∧
    ∀ (setindex : Nat) (eff : ItemSetEffect),
      findSetEffect twoPiecePlayer.ItemSetEff
        ({ exampleTemplate with ItemId := 300, ItemSet := 9 } : ItemTemplate).ItemSet
          = some (setindex, eff) → EffOK exampleSet eff →
      ∃ (eff1 : ItemSetEffect) (extra : List (SpellInfo × Bool)),
        RemoveItemsSetItem exampleSetWorld twoPiecePlayer
            { exampleTemplate with ItemId := 300, ItemSet := 9 } =
          { twoPiecePlayer with
            ItemSetEff :=
              twoPiecePlayer.ItemSetEff.set setindex
                (if eff1.item_count = 0 then none else some eff1)
            equipSpells := twoPiecePlayer.equipSpells ++ extra } ∧
        eff1.setid = eff.setid ∧
        eff1.item_count = eff.item_count - 1 ∧
        SpellsOK exampleSet eff1.spells ∧
        (∀ x, x < MAX_ITEM_SET_SPELLS → exampleSet.spells.getD x 0 ≠ 0 →
          eff1.item_count < (exampleSet.items_to_triggerspell.getD x 0 : Int) →
          exampleSet.spells.getD x 0 ∉ grantedIds eff1.spells) ∧
        (∀ (z : Nat) (t : SpellInfo), eff.spells[z]? = some (some t) →
          (∀ x, x < MAX_ITEM_SET_SPELLS → exampleSet.spells.getD x 0 = t.Id →
            exampleSet.spells.getD x 0 ≠ 0 →
            (exampleSet.items_to_triggerspell.getD x 0 : Int) ≤ eff1.item_count) →
          eff1.spells[z]? = some (some t)) ∧
        (∀ (z : Nat) (t : SpellInfo), eff1.spells[z]? = some (some t) →
          eff.spells[z]? = some (some t)) ∧
        (∀ entry, entry ∈ extra → entry.2 = false ∧ entry.1.Id ∈ grantedIds eff.spells ∧
          entry.1.Id ∉ grantedIds eff1.spells) ∧
        (RemoveItemsSetItem exampleSetWorld twoPiecePlayer
          { exampleTemplate with ItemId := 300, ItemSet := 9 }).ItemSetEff.length
            = twoPiecePlayer.ItemSetEff.length ∧
        (∀ i : Nat, i ≠ setindex →
          (RemoveItemsSetItem exampleSetWorld twoPiecePlayer
            { exampleTemplate with ItemId := 300, ItemSet := 9 }).ItemSetEff[i]?
              = twoPiecePlayer.ItemSetEff[i]?) ∧
        (eff1.item_count = 0 →
          (RemoveItemsSetItem exampleSetWorld twoPiecePlayer
            { exampleTemplate with ItemId := 300, ItemSet := 9 }).ItemSetEff[setindex]?
              = some none) ∧
        (eff1.item_count ≠ 0 →
          (RemoveItemsSetItem exampleSetWorld twoPiecePlayer
            { exampleTemplate with ItemId := 300, ItemSet := 9 }).ItemSetEff[setindex]?
              = some (some eff1) ∧
          EffOK exampleSet eff1)) :=
  ⟨by decide, by decide, ⟨⟨by decide, by decide, by decide⟩, by decide⟩,
    RemoveItemsSetItem_revokes exampleSetWorld twoPiecePlayer
      { exampleTemplate with ItemId := 300, ItemSet := 9 } exampleSet (by decide)⟩

/-! # Item states, toggles, counters and round trips -/

/-- Reading a block of data fields after a write: the written field has the
new value and every other field its old one. -/
theorem getD_dataFieldSet (fields : List Nat) (i j v : Nat) :
    (dataFieldSet 0 fields i v).getD j 0 = if j = i then v else fields.getD j 0 := by
  unfold dataFieldSet
  by_cases hi : i < fields.length
  · rw [if_pos hi]
    simp only [List.getD_eq_getElem?_getD, List.getElem?_set]
    by_cases hj : j = i
    · subst hj
      simp [hi]
    · have hj2 : ¬ i = j := fun h => hj h.symm
      simp [hj, hj2]
  · rw [if_neg hi]
    simp only [List.getD_eq_getElem?_getD]
    by_cases hj : j = i
    · subst hj
      have hl : (fields ++ List.replicate (j - fields.length) 0).length = j := by
        simp only [List.length_append, List.length_replicate]
        omega
      rw [if_pos rfl, List.getElem?_append_right (by omega), hl, Nat.sub_self]
      rfl
    · rw [if_neg hj]
      by_cases hlt : j < fields.length
      · rw [List.append_assoc, List.getElem?_append_left hlt]
      · rw [List.getElem?_eq_none (l := fields) (by omega)]
        by_cases hji : j < i
        · rw [List.getElem?_append_left (by simp; omega),
            List.getElem?_append_right (by omega)]
          simp
        · rw [List.getElem?_eq_none (by simp; omega)]

namespace Item

/-! ## The states `ITEM_NEW` and `ITEM_REMOVED` under `SetState` -/

/-- C31: new items stay in the state `ITEM_NEW` until saved. For an item in
state `ITEM_NEW`, `SetState` with a target state other than `ITEM_UNCHANGED`
and `ITEM_REMOVED` keeps the item alive and in state `ITEM_NEW`, with no
member changed but the queue-position marker, so that the next `SaveToDB`
appends the replace (insert) statement and no update statement; `SetState`
with `ITEM_UNCHANGED`, which is what a save calls, leaves it in state
`ITEM_UNCHANGED`, and `SetState` with `ITEM_REMOVED` deletes it: these are
the only calls after which the item is not a live item in state `ITEM_NEW`.
`SaveToDB` itself takes the item to `ITEM_UNCHANGED`. -/
theorem SetState_new_stays_new (self : Nat) (item : Item) (forplayer : Option Player)
    (trans : Option (List Statement)) (hnew : item.uState = ItemUpdateState.ITEM_NEW) :
    (∀ state, state ≠ ItemUpdateState.ITEM_UNCHANGED → state ≠ ItemUpdateState.ITEM_REMOVED →
      ∃ q, (SetState self item state forplayer).1 = some { item with uQueuePos := q } ∧
        (SaveToDB self { item with uQueuePos := q } trans).trans =
          trans.getD [] ++ [Statement.CHAR_REP_ITEM_INSTANCE (instanceData item)]) ∧
    (SetState self item ItemUpdateState.ITEM_UNCHANGED forplayer).1 =
      some { item with uQueuePos := -1, uState := ItemUpdateState.ITEM_UNCHANGED } ∧
    (SetState self item ItemUpdateState.ITEM_REMOVED forplayer).1 = none ∧
    (∀ state, (∀ item1, (SetState self item state forplayer).1 = some item1 →
        item1.uState ≠ ItemUpdateState.ITEM_NEW) →
      state = ItemUpdateState.ITEM_UNCHANGED ∨ state = ItemUpdateState.ITEM_REMOVED) ∧
    (SaveToDB self item trans).item =
      some { item with uQueuePos := -1, uState := ItemUpdateState.ITEM_UNCHANGED } := by
  have hstay : ∀ state, state ≠ ItemUpdateState.ITEM_UNCHANGED →
      state ≠ ItemUpdateState.ITEM_REMOVED →
      ∃ q, (SetState self item state forplayer).1 = some { item with uQueuePos := q } := by
    intro state hu hr
    unfold SetState
    rw [if_neg (fun h => hr h.2), if_pos hu, if_neg (fun h => h hnew)]
    cases forplayer with
    | none => exact ⟨item.uQueuePos, rfl⟩
    | some player =>
      obtain ⟨q, queue, hadd⟩ := AddToUpdateQueueOf_frame self item player
      exact ⟨q, by simp only [hadd]⟩
  refine ⟨?_, ?_, ?_, ?_, ?_⟩
  · intro state hu hr
    obtain ⟨q, hq⟩ := hstay state hu hr
    refine ⟨q, hq, ?_⟩
    simp [SaveToDB, hnew, instanceData, chargesText, enchantsText, GetSpellCharges,
      GetEnchantmentId, GetEnchantmentDuration, GetEnchantmentCharges]
  · unfold SetState
    rw [if_neg (fun h => absurd h.2 (by decide)), if_neg (fun h => h rfl)]
  · unfold SetState
    rw [if_pos ⟨hnew, rfl⟩]
    cases forplayer <;> rfl
  · intro state hleave
    by_contra hcon
    rw [not_or] at hcon
    obtain ⟨q, hq⟩ := hstay state hcon.1 hcon.2
    exact hleave _ hq hnew
  · simp [SaveToDB, hnew, SetState]

/-- Witness of C31: the example item, which is new, marked changed for its
owner. -/
theorem SetState_new_stays_new_witness :
    exampleItem.uState = ItemUpdateState.ITEM_NEW ∧
    (∃ q, (SetState 5 exampleItem ItemUpdateState.ITEM_CHANGED (some examplePlayer)).1 =
        some { exampleItem with uQueuePos := q } ∧
      (SaveToDB 5 { exampleItem with uQueuePos := q } none).trans =
        [Statement.CHAR_REP_ITEM_INSTANCE (instanceData exampleItem)]) ∧
    (SetState 5 exampleItem ItemUpdateState.ITEM_REMOVED (some examplePlayer)).1 = none :=
  ⟨rfl,
    (SetState_new_stays_new 5 exampleItem (some examplePlayer) none rfl).1
      ItemUpdateState.ITEM_CHANGED (by decide) (by decide),
    (SetState_new_stays_new 5 exampleItem (some examplePlayer) none rfl).2.2.1⟩

/-- C32, as the code has it: `SetState` protects the state `ITEM_NEW` only
(line 730). The example item in state `ITEM_REMOVED`, marked changed for its
owner, is alive and in state `ITEM_CHANGED`; marked unchanged it is in state
`ITEM_UNCHANGED`. -/
theorem SetState_removed_overwritten :
    removedItem.uState = ItemUpdateState.ITEM_REMOVED ∧
    (SetState 5 removedItem ItemUpdateState.ITEM_CHANGED (some examplePlayer)).1.map
        (fun i => i.uState) = some ItemUpdateState.ITEM_CHANGED ∧
    (SetState 5 removedItem ItemUpdateState.ITEM_UNCHANGED (some examplePlayer)).1.map
        (fun i => i.uState) = some ItemUpdateState.ITEM_UNCHANGED :=
  ⟨rfl, rfl, rfl⟩

/-- C32, amended: for an item whose persistence state is `ITEM_REMOVED`,
`SetState` with the target `ITEM_REMOVED` (and any player) keeps the item
alive and in state `ITEM_REMOVED`, while `SetState` with any other target
sets the state to that target; the item is never deleted by `SetState`. An
item that is in state `ITEM_REMOVED` when it is flushed is deleted by
`SaveToDB`, which appends the delete statement. -/
theorem SetState_removed_not_terminal (self : Nat) (item : Item) (forplayer : Option Player)
    (trans : Option (List Statement)) (hrem : item.uState = ItemUpdateState.ITEM_REMOVED) :
    (∀ state, ∃ item1, (SetState self item state forplayer).1 = some item1 ∧
      item1.uState = state) ∧
    (SaveToDB self item trans).item = none ∧
    (SaveToDB self item trans).trans =
      trans.getD [] ++ [Statement.CHAR_DEL_ITEM_INSTANCE item.GUID.counter] ++
        (if IsWrapped item then [Statement.CHAR_DEL_GIFT item.GUID.counter] else []) := by
  have hnn : item.uState ≠ ItemUpdateState.ITEM_NEW := by rw [hrem]; decide
  refine ⟨?_, ?_, ?_⟩
  · intro state
    by_cases hu : state = ItemUpdateState.ITEM_UNCHANGED
    · subst hu
      refine ⟨{ item with uQueuePos := -1, uState := ItemUpdateState.ITEM_UNCHANGED }, ?_, rfl⟩
      unfold SetState
      rw [if_neg (fun h => absurd h.2 (by decide)), if_neg (fun h => h rfl)]
    · unfold SetState
      rw [if_neg (fun h => hnn h.1), if_pos hu, if_pos hnn]
      cases forplayer with
      | none => exact ⟨_, rfl, rfl⟩
      | some player =>
        obtain ⟨q, queue, hadd⟩ :=
          AddToUpdateQueueOf_frame self { item with uState := state } player
        refine ⟨{ item with uState := state, uQueuePos := q }, ?_, rfl⟩
        simp only [hadd]
  · simp [SaveToDB, hrem]
  · simp [SaveToDB, hrem]

/-- Witness of C32, amended: the example item in state `ITEM_REMOVED`. -/
theorem SetState_removed_not_terminal_witness :
    removedItem.uState = ItemUpdateState.ITEM_REMOVED ∧
    (∃ item1, (SetState 5 removedItem ItemUpdateState.ITEM_REMOVED (some examplePlayer)).1 =
        some item1 ∧ item1.uState = ItemUpdateState.ITEM_REMOVED) ∧
    (SaveToDB 5 removedItem none).item = none :=
  ⟨rfl,
    (SetState_removed_not_terminal 5 removedItem (some examplePlayer) none rfl).1
      ItemUpdateState.ITEM_REMOVED,
    (SetState_removed_not_terminal 5 removedItem (some examplePlayer) none rfl).2.1⟩

/-! ## Clearing an enchantment slot -/

/-- The data fields after the loop of `ClearEnchantment`: the three fields of
the slot are zero and every other field is as before. -/
theorem clearedFields_getD (fields : List Nat) (slot j : Nat) :
    ((List.range MAX_SPELL_ITEM_ENCHANTMENT_EFFECTS).foldl
        (fun fields x => dataFieldSet 0 fields (slot * MAX_ENCHANTMENT_OFFSET + x) 0)
        fields).getD j 0 =
      if slot * MAX_ENCHANTMENT_OFFSET ≤ j ∧ j < slot * MAX_ENCHANTMENT_OFFSET + 3 then 0
      else fields.getD j 0 := by
  have hr : List.range MAX_SPELL_ITEM_ENCHANTMENT_EFFECTS = [0, 1, 2] := by decide
  rw [hr]
  simp only [List.foldl_cons, List.foldl_nil, getD_dataFieldSet]
  split_ifs <;> first | rfl | omega

/-- C39, as the code has it: `ClearEnchantment` returns at once for a slot
whose enchantment id is `0` (line 975). The permanent slot of the example item
is empty; after `SetEnchantmentDuration(PERM_ENCHANTMENT_SLOT, 30, owner)` it
holds the id `0` and the duration `30`, and after `ClearEnchantment` of that
slot it still holds the duration `30`. -/
theorem ClearEnchantment_keeps_stale_duration :
    GetEnchantmentId exampleItem PERM_ENCHANTMENT_SLOT = 0 ∧
    (SetEnchantmentDuration 5 exampleItem PERM_ENCHANTMENT_SLOT 30 (some examplePlayer)).1.map
        (fun i => (GetEnchantmentId i PERM_ENCHANTMENT_SLOT,
          GetEnchantmentDuration i PERM_ENCHANTMENT_SLOT,
          GetEnchantmentCharges i PERM_ENCHANTMENT_SLOT)) = some (0, 30, 0) ∧
    ((SetEnchantmentDuration 5 exampleItem PERM_ENCHANTMENT_SLOT 30
        (some examplePlayer)).1.bind (fun i =>
          (ClearEnchantment 5 i (some examplePlayer) PERM_ENCHANTMENT_SLOT).1)).map
        (fun i => (GetEnchantmentId i PERM_ENCHANTMENT_SLOT,
          GetEnchantmentDuration i PERM_ENCHANTMENT_SLOT,
          GetEnchantmentCharges i PERM_ENCHANTMENT_SLOT)) = some (0, 30, 0) :=
  ⟨rfl, rfl, rfl⟩

/-- C39, amended: for every item state and every enchantment slot whose
enchantment id is not `0`, `ClearEnchantment(slot)` keeps the item alive,
marks it changed and leaves the slot empty: its enchantment id, duration and
charges are all `0`, and no other slot's values have changed. For a slot whose
enchantment id is `0` the call changes nothing, so that a duration or charges
the slot holds stay. -/
theorem ClearEnchantment_clears_enchanted_slot (self : Nat) (item : Item)
    (owner : Option Player) (slot : Nat) :
    (GetEnchantmentId item slot ≠ 0 →
      ∃ item1 owner1, ClearEnchantment self item owner slot = (some item1, owner1) ∧
        GetEnchantmentId item1 slot = 0 ∧
        GetEnchantmentDuration item1 slot = 0 ∧
        GetEnchantmentCharges item1 slot = 0 ∧
        item1.uState = nextState item.uState ItemUpdateState.ITEM_CHANGED ∧
        ∀ other, other ≠ slot →
          GetEnchantmentId item1 other = GetEnchantmentId item other ∧
          GetEnchantmentDuration item1 other = GetEnchantmentDuration item other ∧
          GetEnchantmentCharges item1 other = GetEnchantmentCharges item other) ∧
    (GetEnchantmentId item slot = 0 →
      ClearEnchantment self item owner slot = (some item, owner)) := by
  constructor
  · intro hid
    have hget := clearedFields_getD item.ITEM_FIELD_ENCHANTMENT slot
    obtain ⟨q, owner1, hset, _, _⟩ := SetState_changed_frame self
      { item with
        ITEM_FIELD_ENCHANTMENT :=
          (List.range MAX_SPELL_ITEM_ENCHANTMENT_EFFECTS).foldl
            (fun fields x => dataFieldSet 0 fields (slot * MAX_ENCHANTMENT_OFFSET + x) 0)
            item.ITEM_FIELD_ENCHANTMENT } owner
    have hrun : ClearEnchantment self item owner slot =
        (some { item with
          ITEM_FIELD_ENCHANTMENT :=
            (List.range MAX_SPELL_ITEM_ENCHANTMENT_EFFECTS).foldl
              (fun fields x => dataFieldSet 0 fields (slot * MAX_ENCHANTMENT_OFFSET + x) 0)
              item.ITEM_FIELD_ENCHANTMENT
          uState := nextState item.uState ItemUpdateState.ITEM_CHANGED
          uQueuePos := q }, owner1) := by
      unfold ClearEnchantment
      rw [if_neg hid, hset]
    generalize (List.range MAX_SPELL_ITEM_ENCHANTMENT_EFFECTS).foldl
      (fun fields x => dataFieldSet 0 fields (slot * MAX_ENCHANTMENT_OFFSET + x) 0)
      item.ITEM_FIELD_ENCHANTMENT = cleared at hget hrun
    refine ⟨{ item with
      ITEM_FIELD_ENCHANTMENT := cleared
      uState := nextState item.uState ItemUpdateState.ITEM_CHANGED
      uQueuePos := q }, owner1, hrun, ?_, ?_, ?_, rfl, ?_⟩
    · simp only [GetEnchantmentId, hget, MAX_ENCHANTMENT_OFFSET, ENCHANTMENT_ID_OFFSET]
      rw [if_pos (by omega)]
    · simp only [GetEnchantmentDuration, hget, MAX_ENCHANTMENT_OFFSET,
        ENCHANTMENT_DURATION_OFFSET]
      rw [if_pos (by omega)]
    · simp only [GetEnchantmentCharges, hget, MAX_ENCHANTMENT_OFFSET,
        ENCHANTMENT_CHARGES_OFFSET]
      rw [if_pos (by omega)]
    · intro other hother
      simp only [GetEnchantmentId, GetEnchantmentDuration, GetEnchantmentCharges,
        hget, MAX_ENCHANTMENT_OFFSET, ENCHANTMENT_ID_OFFSET,
        ENCHANTMENT_DURATION_OFFSET, ENCHANTMENT_CHARGES_OFFSET]
      rw [if_neg (by omega), if_neg (by omega), if_neg (by omega)]
      exact ⟨rfl, rfl, rfl⟩
  · intro hid
    unfold ClearEnchantment
    rw [if_pos hid]

/-- Witness of C39, amended: the first socket of the example item, which holds
a gem enchantment, is empty after `ClearEnchantment`. -/
theorem ClearEnchantment_clears_enchanted_slot_witness :
    GetEnchantmentId exampleItem SOCK_ENCHANTMENT_SLOT ≠ 0 ∧
    ∃ item1 owner1,
      ClearEnchantment 5 exampleItem (some examplePlayer) SOCK_ENCHANTMENT_SLOT =
        (some item1, owner1) ∧
      GetEnchantmentId item1 SOCK_ENCHANTMENT_SLOT = 0 ∧
      GetEnchantmentDuration item1 SOCK_ENCHANTMENT_SLOT = 0 ∧
      GetEnchantmentCharges item1 SOCK_ENCHANTMENT_SLOT = 0 ∧
      item1.uState = nextState exampleItem.uState ItemUpdateState.ITEM_CHANGED ∧
      ∀ other, other ≠ SOCK_ENCHANTMENT_SLOT →
        GetEnchantmentId item1 other = GetEnchantmentId exampleItem other ∧
        GetEnchantmentDuration item1 other = GetEnchantmentDuration exampleItem other ∧
        GetEnchantmentCharges item1 other = GetEnchantmentCharges exampleItem other :=
  ⟨by decide,
    (ClearEnchantment_clears_enchanted_slot 5 exampleItem (some examplePlayer)
      SOCK_ENCHANTMENT_SLOT).1 (by decide)⟩

/-- The gem enchantment `55` of the first socket of the example item, which
carries the duration `30`, cleared: the socket slot is empty afterwards. -/
theorem ClearEnchantment_example :
    ((SetEnchantmentDuration 5 exampleItem SOCK_ENCHANTMENT_SLOT 30
        (some examplePlayer)).1.bind (fun i =>
          (ClearEnchantment 5 i (some examplePlayer) SOCK_ENCHANTMENT_SLOT).1)).map
        (fun i => (GetEnchantmentId i SOCK_ENCHANTMENT_SLOT,
          GetEnchantmentDuration i SOCK_ENCHANTMENT_SLOT,
          GetEnchantmentCharges i SOCK_ENCHANTMENT_SLOT)) = some (0, 0, 0) :=
  rfl

end Item

namespace ReputationMgr

/-! ## The rounding toggle on every call -/

/-- C33, as the code has it: the condition of line 395 holds for every delta
that is a number, so the rounding block runs, and flips the toggle, on every
call. An award of exactly `+10` at gain rate `1` to the example faction,
whose toggle is "down", succeeds, moves the total standing by `10` and leaves
the toggle "up". -/
theorem SetOneFactionReputation_integral_award_flips_toggle :
    exampleWorld.RATE_REPUTATION_GAIN = F32.finite 1 ∧
    (exampleLedger._factions.find 3).map (fun f => f.roundedUp) = some false ∧
    totalStanding exampleWorld exampleLedger exampleFaction = 3000 ∧
    (SetOneFactionReputation exampleWorld exampleLedger exampleFaction (F32.finite 10) true
      none).2 = true ∧
    totalStanding exampleWorld
      (SetOneFactionReputation exampleWorld exampleLedger exampleFaction (F32.finite 10) true
        none).1 exampleFaction = 3010 ∧
    ((SetOneFactionReputation exampleWorld exampleLedger exampleFaction (F32.finite 10) true
        none).1._factions.find 3).map (fun f => f.roundedUp) = some true :=
  ⟨rfl, by decide!⟩

/-- C33, amended: the per-faction rounding toggle flips on every
`SetOneFactionReputation` call on a tracked faction whose (rate-scaled) delta
is a number, whether or not the delta has a fractional part and whether or
not the hook allows the change; it is left as it is only when the scaled
delta is not a number. The call leaves every other faction, and so every
other toggle, as it is. -/
theorem SetOneFactionReputation_toggle_every_call (w : World) (m : ReputationMgr)
    (factionEntry : FactionEntry) (stand : F32) (incremental : Bool) (repMaxCap : Option Nat)
    (itr : FactionState)
    (hf : m._factions.find (toU32 factionEntry.reputationListID) = some itr) :
    ((SetOneFactionReputation w m factionEntry stand incremental repMaxCap).1._factions.find
        (toU32 factionEntry.reputationListID)).map (fun f => f.roundedUp) =
      some (if (scaledStand w factionEntry stand incremental).isNaN then itr.roundedUp
        else !itr.roundedUp) ∧
    ∀ k, k ≠ toU32 factionEntry.reputationListID →
      (SetOneFactionReputation w m factionEntry stand incremental repMaxCap).1._factions.find k =
        m._factions.find k := by
  refine ⟨?_, fun k hk =>
    SetOneFactionReputation_find_other w m factionEntry stand incremental repMaxCap k hk⟩
  cases hok : (w.OnPlayerReputationChange factionEntry.ID
      (applyRankCap repMaxCap (candidateStanding w itr (GetBaseReputation w factionEntry)
        (scaledStand w factionEntry stand incremental) incremental)).1 incremental).1 with
  | true =>
    rw [(SetOneFactionReputation_allowed w m factionEntry stand incremental repMaxCap itr hf
      hok).2, find_modify, if_pos rfl, hf]
    simp only [Option.map_some', awardedState_roundedUp, roundingMade_eq]
    cases (scaledStand w factionEntry stand incremental).isNaN <;> simp
  | false =>
    rw [SetOneFactionReputation_vetoed w m factionEntry stand incremental repMaxCap itr hf hok]
    simp only [find_modify, if_pos, hf, Option.map_some', toggledState_roundedUp, roundingMade_eq]
    cases (scaledStand w factionEntry stand incremental).isNaN <;> simp

/-- Witness of C33, amended: the award of exactly `+10` to the example
faction. -/
theorem SetOneFactionReputation_toggle_every_call_witness :
    exampleLedger._factions.find (toU32 exampleFaction.reputationListID) =
      some { ID := 21, ReputationListID := 3, Standing := 2500, Flags := 1, needSend := false,
             needSave := false, roundedUp := false } ∧
    ((SetOneFactionReputation exampleWorld exampleLedger exampleFaction (F32.finite 10) true
        none).1._factions.find (toU32 exampleFaction.reputationListID)).map
          (fun f => f.roundedUp) =
      some (if (scaledStand exampleWorld exampleFaction (F32.finite 10) true).isNaN then false
        else !false) :=
  ⟨by decide,
    (SetOneFactionReputation_toggle_every_call exampleWorld exampleLedger exampleFaction
      (F32.finite 10) true none
      { ID := 21, ReputationListID := 3, Standing := 2500, Flags := 1, needSend := false,
        needSave := false, roundedUp := false } (by decide)).1⟩

/-! ## Negative awards -/

/-- A property of the ledger that every `SetOneFactionReputation` call keeps
is kept by the loop over the slots of a spillover template. -/
theorem spilloverTemplateLoop_preserves (w : World) (P : ReputationMgr → Prop)
    (hP : ∀ m fe stand inc cap, P m → P (SetOneFactionReputation w m fe stand inc cap).1)
    (standing : F32) (incremental : Bool) (slots : List SpilloverSlot) :
    ∀ m m1 : ReputationMgr, P m →
      spilloverTemplateLoop w standing incremental slots m = some m1 → P m1 := by
  induction slots with
  | nil =>
    intro m m1 hinv h
    simp only [spilloverTemplateLoop, Option.some.injEq] at h
    rw [← h]
    exact hinv
  | cons slot rest ih =>
    intro m m1 hinv h
    unfold spilloverTemplateLoop at h
    split_ifs at h with hc
    · cases hl : w.LookupEntry slot.faction with
      | none => rw [hl] at h; exact Option.noConfusion h
      | some target =>
        rw [hl] at h
        simp only at h
        exact ih _ m1 (hP m target _ incremental none hinv) h
    · exact ih m m1 hinv h

theorem spilloverTeamLoop_preserves (w : World) (P : ReputationMgr → Prop)
    (hP : ∀ m fe stand inc cap, P m → P (SetOneFactionReputation w m fe stand inc cap).1)
    (factionEntry : FactionEntry) (out : F32) (incremental : Bool) (ids : List Nat) :
    ∀ s : ReputationMgr × Bool, P s.1 →
      P (spilloverTeamLoop w factionEntry out incremental ids s).1 := by
  induction ids with
  | nil => intro s hinv; exact hinv
  | cons id rest ih =>
    intro s hinv
    unfold spilloverTeamLoop
    cases hl : w.LookupEntry id with
    | none => exact ih s hinv
    | some calc1 =>
      simp only
      split_ifs
      · exact ih s hinv
      · exact ih _ (hP s.1 calc1 _ incremental none hinv)
      · exact ih s hinv

theorem spilloverTeam_preserves (w : World) (P : ReputationMgr → Prop)
    (hP : ∀ m fe stand inc cap, P m → P (SetOneFactionReputation w m fe stand inc cap).1)
    (m : ReputationMgr) (factionEntry : FactionEntry) (out : F32) (incremental : Bool)
    (flist : Option (List Nat)) (hinv : P m) :
    P (spilloverTeam w m factionEntry out incremental flist).1 := by
  unfold spilloverTeam
  cases flist with
  | none => exact hinv
  | some ids => exact spilloverTeamLoop_preserves w P hP factionEntry out incremental ids _ hinv

theorem spillover_preserves (w : World) (P : ReputationMgr → Prop)
    (hP : ∀ m fe stand inc cap, P m → P (SetOneFactionReputation w m fe stand inc cap).1)
    (m : ReputationMgr) (factionEntry : FactionEntry) (standing : F32) (incremental : Bool)
    (r : ReputationMgr × Bool) (hinv : P m)
    (h : spillover w m factionEntry standing incremental = some r) : P r.1 := by
  unfold spillover at h
  cases ht : w.GetRepSpilloverTemplate factionEntry.ID with
  | some repTemplate =>
    rw [ht] at h
    simp only at h
    cases hloop : spilloverTemplateLoop w standing incremental repTemplate.slots m with
    | none => rw [hloop] at h; simp at h
    | some m1 =>
      rw [hloop] at h
      simp only [Option.map_some', Option.some.injEq] at h
      rw [← h]
      exact spilloverTemplateLoop_preserves w P hP standing incremental _ m m1 hinv hloop
  | none =>
    rw [ht] at h
    simp only at h
    split_ifs at h with hc
    · cases hl : w.LookupEntry factionEntry.team with
      | none =>
        rw [hl] at h
        simp only [Option.some.injEq] at h
        rw [← h]
        exact hinv
      | some parent =>
        rw [hl] at h
        simp only at h
        split_ifs at h
        · simp only [Option.some.injEq] at h
          rw [← h]
          exact hP m parent _ incremental none hinv
        · simp only [Option.some.injEq] at h
          rw [← h]
          exact spilloverTeam_preserves w P hP m factionEntry _ incremental _ hinv
    · simp only [Option.some.injEq] at h
      rw [← h]
      exact spilloverTeam_preserves w P hP m factionEntry _ incremental _ hinv

/-- A property of the ledger that every `SetOneFactionReputation` call and
every `SendState` call keep is kept by `SetReputation`. -/
theorem SetReputation_preserves (w : World) (P : ReputationMgr → Prop)
    (hP : ∀ m fe stand inc cap, P m → P (SetOneFactionReputation w m fe stand inc cap).1)
    (hS : ∀ m faction, P m → P (SendState m faction))
    (m : ReputationMgr) (factionEntry : FactionEntry) (standing : F32)
    (incremental noSpillOver : Bool) (repMaxCap : Option Nat) (r : ReputationMgr × Bool)
    (hinv : P m)
    (h : SetReputation w m factionEntry standing incremental noSpillOver repMaxCap = some r) :
    P r.1 := by
  unfold SetReputation at h
  simp only at h
  cases hsp : (if noSpillOver = false then spillover w m factionEntry standing incremental
      else some (m, false)) with
  | none => rw [hsp] at h; exact Option.noConfusion h
  | some sp =>
    obtain ⟨m1, res⟩ := sp
    have hinv1 : P m1 := by
      split_ifs at hsp
      · exact spillover_preserves w P hP m factionEntry standing incremental (m1, res) hinv hsp
      · simp only [Option.some.injEq, Prod.mk.injEq] at hsp
        rw [← hsp.1]
        exact hinv
    rw [hsp] at h
    simp only at h
    cases hf : m1._factions.find (toU32 factionEntry.reputationListID) with
    | none =>
      rw [hf] at h
      simp only [Option.some.injEq] at h
      rw [← h]
      exact hinv1
    | some itr =>
      rw [hf] at h
      simp only at h
      have hinv2 : P
          (if capExceeded repMaxCap (GetRank w m1 (some factionEntry)) = false then
            SetOneFactionReputation w m1 factionEntry standing incremental repMaxCap
          else (m1, res)).1 := by
        split_ifs
        · exact hP m1 factionEntry standing incremental repMaxCap hinv1
        · exact hinv1
      cases hf2 : (if capExceeded repMaxCap (GetRank w m1 (some factionEntry)) = false then
            SetOneFactionReputation w m1 factionEntry standing incremental repMaxCap
          else (m1, res)).1._factions.find (toU32 factionEntry.reputationListID) with
      | none =>
        rw [hf2] at h
        simp only [Option.some.injEq] at h
        rw [← h]
        exact hinv2
      | some faction =>
        rw [hf2] at h
        simp only [Option.some.injEq] at h
        rw [← h]
        exact hS _ faction hinv2

/-! ## Flags that a toggle leaves alone -/

theorem SetAtWar_Flags_other (f : FactionState) (b : Bool) (c : Nat)
    (hc : FACTION_FLAG_AT_WAR &&& c = 0) : (SetAtWar f b).Flags &&& c = f.Flags &&& c := by
  unfold SetAtWar
  split_ifs
  · rfl
  · rfl
  · exact or_and_other _ _ _ hc
  · exact and_clearFlag_other _ _ _ hc

theorem SetInactive_Flags_other (f : FactionState) (b : Bool) (c : Nat)
    (hc : FACTION_FLAG_INACTIVE &&& c = 0) : (SetInactive f b).Flags &&& c = f.Flags &&& c := by
  unfold SetInactive
  split_ifs
  · rfl
  · rfl
  · exact or_and_other _ _ _ hc
  · exact and_clearFlag_other _ _ _ hc

theorem visibleIndicator_congr (f g : FactionState)
    (h : g.Flags &&& FACTION_FLAG_VISIBLE = f.Flags &&& FACTION_FLAG_VISIBLE) :
    visibleIndicator g = visibleIndicator f := by
  unfold visibleIndicator
  rw [h]

theorem visibleIndicator_SetAtWar (f : FactionState) (b : Bool) :
    visibleIndicator (SetAtWar f b) = visibleIndicator f :=
  visibleIndicator_congr _ _ (SetAtWar_Flags_other f b _ (by decide))

theorem visibleIndicator_SetInactive (f : FactionState) (b : Bool) :
    visibleIndicator (SetInactive f b) = visibleIndicator f :=
  visibleIndicator_congr _ _ (SetInactive_Flags_other f b _ (by decide))

theorem peaceForcedAtPeace_congr (f g : FactionState) (h : g.Flags = f.Flags)
    (hf : peaceForcedAtPeace f) : peaceForcedAtPeace g := by
  unfold peaceForcedAtPeace at hf ⊢
  rw [h]
  exact hf

/-- `SetAtWar` leaves a peace-forced faction that is not at war as it is. -/
theorem SetAtWar_peaceForced (f : FactionState) (b : Bool) (hf : peaceForcedAtPeace f) :
    SetAtWar f b = f := by
  unfold SetAtWar
  cases b with
  | true => rw [if_pos ⟨rfl, hf.1⟩]
  | false =>
    rw [if_neg (fun h => absurd h.1 (by decide)), if_pos (by simp [hf.2])]

theorem peaceForcedAtPeace_SetAtWar (f : FactionState) (b : Bool) (hf : peaceForcedAtPeace f) :
    peaceForcedAtPeace (SetAtWar f b) := by
  rw [SetAtWar_peaceForced f b hf]
  exact hf

theorem peaceForcedAtPeace_SetInactive (f : FactionState) (b : Bool)
    (hf : peaceForcedAtPeace f) : peaceForcedAtPeace (SetInactive f b) := by
  unfold peaceForcedAtPeace at hf ⊢
  rw [SetInactive_Flags_other f b _ (by decide), SetInactive_Flags_other f b _ (by decide)]
  exact hf

theorem peaceForcedAtPeace_visibleState (f : FactionState) (hf : peaceForcedAtPeace f) :
    peaceForcedAtPeace (visibleState f) := by
  unfold peaceForcedAtPeace at hf ⊢
  rw [visibleState_Flags f _ (by decide), visibleState_Flags f _ (by decide)]
  exact hf

theorem peaceForcedAtPeace_awardedState (fe : FactionEntry) (o n : Nat) (r : Bool) (s : Int)
    (f : FactionState) (hf : peaceForcedAtPeace f) :
    peaceForcedAtPeace (awardedState fe o n r s f) := by
  have h2 : peaceForcedAtPeace
      { toggledState r f with Standing := s, needSend := true, needSave := true } :=
    peaceForcedAtPeace_congr f _ (toggledState_Flags r f) hf
  have h3 := peaceForcedAtPeace_visibleState _ h2
  unfold awardedState
  simp only
  split_ifs
  · exact peaceForcedAtPeace_SetAtWar _ _ (peaceForcedAtPeace_SetAtWar _ _ h3)
  · exact peaceForcedAtPeace_SetAtWar _ _ h3
  · exact peaceForcedAtPeace_SetAtWar _ _ h3
  · exact h3

theorem visibleIndicator_awardedState (fe : FactionEntry) (o n : Nat) (r : Bool) (s : Int)
    (f : FactionState) :
    visibleIndicator (awardedState fe o n r s f) = visibleIndicator (visibleState f) := by
  have h2 : visibleIndicator
      (visibleState { toggledState r f with Standing := s, needSend := true, needSave := true }) =
      visibleIndicator (visibleState f) := by
    have hfl : ({ toggledState r f with Standing := s, needSend := true, needSave := true } :
        FactionState).Flags = f.Flags := toggledState_Flags r f
    unfold visibleIndicator visibleState
    simp only [hfl]
    split_ifs <;> first | rfl | simp_all
  unfold awardedState
  simp only
  split_ifs <;> simp only [visibleIndicator_SetAtWar, h2]

/-! ## The visible counter -/

theorem countVisible_cons (p : Nat × FactionState) (l : FactionStateList) :
    countVisible (p :: l) = visibleIndicator p.2 + countVisible l := by
  unfold countVisible visibleIndicator
  by_cases h : (p.2.Flags &&& FACTION_FLAG_VISIBLE) ≠ 0
  · rw [List.filter_cons_of_pos (by simpa using h), if_pos h]
    simp only [List.length_cons]
    push_cast
    ring
  · rw [List.filter_cons_of_neg (by simpa using h), if_neg h]
    ring

/-- Assigning through an iterator moves the number of visible elements by the
element assigned to. -/
theorem countVisible_modify (l : FactionStateList) (key : Nat)
    (g : FactionState → FactionState) :
    countVisible (l.modify key g) =
      countVisible l +
        (match l.find key with
          | some f => visibleIndicator (g f) - visibleIndicator f
          | none => 0) := by
  induction l with
  | nil => simp [FactionStateList.modify, FactionStateList.find]
  | cons p rest ih =>
    obtain ⟨a, v⟩ := p
    by_cases ha : a = key
    · simp only [FactionStateList.find, FactionStateList.modify, ha, if_true, countVisible_cons]
      ring
    · simp only [FactionStateList.find, FactionStateList.modify, ha, if_false, countVisible_cons,
        ih]
      ring

/-- Putting an element under a key the map does not have adds it to the
count. -/
theorem countVisible_insertState (l : FactionStateList) (key : Nat) (v : FactionState)
    (hf : l.find key = none) :
    countVisible (insertState l key v) = countVisible l + visibleIndicator v := by
  induction l with
  | nil =>
    unfold insertState
    rw [countVisible_cons]
    ring
  | cons p rest ih =>
    obtain ⟨a, x⟩ := p
    by_cases ha : a = key
    · simp [FactionStateList.find, ha] at hf
    · simp only [FactionStateList.find, ha, if_false] at hf
      have ha2 : ¬ key = a := fun h => ha h.symm
      unfold insertState
      by_cases h1 : key < a
      · rw [if_pos h1]
        simp only [countVisible_cons]
        ring
      · rw [if_neg h1, if_neg ha2]
        simp only [countVisible_cons, ih hf]
        ring

/-- The visible counter after `SetVisible(FactionState*)`. -/
theorem SetVisible_visible (w : World) (m : ReputationMgr) (key : Nat) :
    (SetVisible w m key)._visibleFactionCount =
      m._visibleFactionCount +
        (match m._factions.find key with
          | some f => visibleIndicator (visibleState f) - visibleIndicator f
          | none => 0) := by
  unfold SetVisible SendVisible
  cases m._factions.find key with
  | none => simp
  | some faction =>
    simp only
    unfold visibleState
    by_cases h1 : (faction.Flags &&& (FACTION_FLAG_INVISIBLE_FORCED ||| FACTION_FLAG_HIDDEN)) ≠ 0 ∧
        (faction.Flags &&& FACTION_FLAG_SPECIAL) = 0
    · rw [if_pos h1, if_pos h1]
      simp
    · rw [if_neg h1, if_neg h1]
      by_cases h2 : (faction.Flags &&& FACTION_FLAG_VISIBLE) ≠ 0
      · rw [if_pos h2, if_pos h2]
        simp
      · rw [if_neg h2, if_neg h2]
        have hv : visibleIndicator faction = 0 := by
          unfold visibleIndicator
          rw [if_neg h2]
        have hv1 : visibleIndicator
            { faction with
              Flags := faction.Flags ||| FACTION_FLAG_VISIBLE, needSend := true,
              needSave := true } = 1 := by
          unfold visibleIndicator
          rw [if_pos]
          show (faction.Flags ||| FACTION_FLAG_VISIBLE) &&& FACTION_FLAG_VISIBLE ≠ 0
          rw [or_and_self]
          decide
        rw [hv, hv1]
        split_ifs <;> simp

/-- `SetVisible(FactionState*)` keeps the visible counter equal to the number
of visible factions. -/
theorem SetVisible_countVisible (w : World) (m : ReputationMgr) (key : Nat)
    (hinv : m._visibleFactionCount = countVisible m._factions) :
    (SetVisible w m key)._visibleFactionCount = countVisible (SetVisible w m key)._factions := by
  rw [SetVisible_visible, SetVisible_factions, countVisible_modify, hinv]

/-- A step that assigns to one element without changing its visible flag, and
leaves the visible counter, keeps the counter equal to the number of visible
factions. -/
theorem countVisible_flags (m m1 : ReputationMgr) (key : Nat) (G : FactionState → FactionState)
    (hinv : m._visibleFactionCount = countVisible m._factions)
    (hG : ∀ f, visibleIndicator (G f) = visibleIndicator f)
    (hfac : m1._factions = m._factions.modify key G)
    (hc : m1._visibleFactionCount = m._visibleFactionCount) :
    m1._visibleFactionCount = countVisible m1._factions := by
  rw [hc, hfac, countVisible_modify, hinv]
  cases m._factions.find key with
  | none => simp
  | some f => simp [hG f]

theorem UpdateRankCounters_visible (m : ReputationMgr) (a b : Nat) :
    (UpdateRankCounters m a b)._visibleFactionCount = m._visibleFactionCount := rfl

/-- The visible counter after an allowed `SetOneFactionReputation`. -/
theorem SetOneFactionReputation_allowed_visible (w : World) (m : ReputationMgr)
    (factionEntry : FactionEntry) (stand : F32) (incremental : Bool) (repMaxCap : Option Nat)
    (itr : FactionState)
    (hf : m._factions.find (toU32 factionEntry.reputationListID) = some itr)
    (hok : (w.OnPlayerReputationChange factionEntry.ID
      (applyRankCap repMaxCap (candidateStanding w itr (GetBaseReputation w factionEntry)
        (scaledStand w factionEntry stand incremental) incremental)).1 incremental).1 = true) :
    (SetOneFactionReputation w m factionEntry stand incremental repMaxCap).1._visibleFactionCount =
      m._visibleFactionCount + (visibleIndicator (visibleState itr) - visibleIndicator itr) := by
  have hind : ∀ (r : Bool) (s : Int),
      visibleIndicator
          (visibleState { toggledState r itr with Standing := s, needSend := true, needSave := true }) -
        visibleIndicator
          ({ toggledState r itr with Standing := s, needSend := true, needSave := true } :
            FactionState) =
      visibleIndicator (visibleState itr) - visibleIndicator itr := by
    intro r s
    have hfl : ({ toggledState r itr with Standing := s, needSend := true, needSave := true } :
        FactionState).Flags = itr.Flags := toggledState_Flags r itr
    unfold visibleIndicator visibleState
    simp only [hfl]
    split_ifs <;> first | rfl | simp_all
  unfold SetOneFactionReputation
  simp only [hf, hok, if_true, rounding_block_eq, UpdateRankCounters_visible]
  split_ifs <;>
    simp only [SetVisible_visible, modify_modify, find_modify, if_true, hf, Option.map_some'] <;>
    exact congrArg (fun d => m._visibleFactionCount + d) (hind _ _)

/-- `SetOneFactionReputation` keeps the visible counter equal to the number of
visible factions. -/
theorem SetOneFactionReputation_countVisible (w : World) (m : ReputationMgr)
    (factionEntry : FactionEntry) (stand : F32) (incremental : Bool) (repMaxCap : Option Nat)
    (hinv : m._visibleFactionCount = countVisible m._factions) :
    (SetOneFactionReputation w m factionEntry stand incremental repMaxCap).1._visibleFactionCount =
      countVisible
        (SetOneFactionReputation w m factionEntry stand incremental repMaxCap).1._factions := by
  cases hf : m._factions.find (toU32 factionEntry.reputationListID) with
  | none =>
    rw [SetOneFactionReputation_untracked w m factionEntry stand incremental repMaxCap hf]
    exact hinv
  | some itr =>
    by_cases hallow : (w.OnPlayerReputationChange factionEntry.ID
      (applyRankCap repMaxCap (candidateStanding w itr (GetBaseReputation w factionEntry)
        (scaledStand w factionEntry stand incremental) incremental)).1 incremental).1 = true
    · rw [SetOneFactionReputation_allowed_visible w m factionEntry stand incremental repMaxCap
        itr hf hallow,
        (SetOneFactionReputation_allowed w m factionEntry stand incremental repMaxCap itr hf
          hallow).2, countVisible_modify, hf, hinv]
      simp only [visibleIndicator_awardedState]
    · simp only [Bool.not_eq_true] at hallow
      rw [SetOneFactionReputation_vetoed w m factionEntry stand incremental repMaxCap itr hf
        hallow]
      exact countVisible_flags m _ (toU32 factionEntry.reputationListID)
        (toggledState (roundingMade (scaledStand w factionEntry stand incremental))) hinv
        (fun f => visibleIndicator_congr _ _ (by rw [toggledState_Flags])) rfl rfl

/-- `SendState` changes no flag, and so keeps the number of visible
factions. -/
theorem SendState_countVisible (m : ReputationMgr) (faction : FactionState)
    (hinv : m._visibleFactionCount = countVisible m._factions) :
    (SendState m faction)._visibleFactionCount = countVisible (SendState m faction)._factions := by
  have hmap : ∀ l : FactionStateList,
      countVisible
          (l.map (fun p => if p.2.needSend then (p.1, { p.2 with needSend := false }) else p)) =
        countVisible l := by
    intro l
    induction l with
    | nil => rfl
    | cons p rest ih =>
      rw [List.map_cons, countVisible_cons, countVisible_cons, ih]
      congr 1
      by_cases hn : p.2.needSend = true
      · rw [if_pos hn]
        rfl
      · rw [if_neg hn]
  show m._visibleFactionCount = countVisible (SendState m faction)._factions
  unfold SendState
  simp only [hmap]
  exact hinv

theorem SetAtWarRepListID_countVisible (m : ReputationMgr) (repListID : Nat) (flag : Bool)
    (hinv : m._visibleFactionCount = countVisible m._factions) :
    (SetAtWarRepListID m repListID flag)._visibleFactionCount =
      countVisible (SetAtWarRepListID m repListID flag)._factions := by
  unfold SetAtWarRepListID
  cases m._factions.find repListID with
  | none => exact hinv
  | some faction =>
    simp only
    split_ifs
    · exact hinv
    · exact countVisible_flags m _ repListID (fun f => SetAtWar f flag) hinv
        (fun f => visibleIndicator_SetAtWar f flag) rfl rfl

theorem SetInactiveRepListID_countVisible (m : ReputationMgr) (repListID : Nat) (flag : Bool)
    (hinv : m._visibleFactionCount = countVisible m._factions) :
    (SetInactiveRepListID m repListID flag)._visibleFactionCount =
      countVisible (SetInactiveRepListID m repListID flag)._factions := by
  unfold SetInactiveRepListID
  cases m._factions.find repListID with
  | none => exact hinv
  | some faction =>
    exact countVisible_flags m _ repListID (fun f => SetInactive f flag) hinv
      (fun f => visibleIndicator_SetInactive f flag) rfl rfl

theorem SetVisibleFactionEntry_countVisible (w : World) (m : ReputationMgr)
    (factionEntry : FactionEntry) (hinv : m._visibleFactionCount = countVisible m._factions) :
    (SetVisibleFactionEntry w m factionEntry)._visibleFactionCount =
      countVisible (SetVisibleFactionEntry w m factionEntry)._factions := by
  unfold SetVisibleFactionEntry
  split_ifs
  · exact hinv
  · exact SetVisible_countVisible w m _ hinv

theorem SetVisibleFactionTemplate_countVisible (w : World) (m : ReputationMgr)
    (factionTemplateEntry : FactionTemplateEntry)
    (hinv : m._visibleFactionCount = countVisible m._factions) :
    (SetVisibleFactionTemplate w m factionTemplateEntry)._visibleFactionCount =
      countVisible (SetVisibleFactionTemplate w m factionTemplateEntry)._factions := by
  unfold SetVisibleFactionTemplate
  split_ifs
  · exact hinv
  · cases w.LookupEntry factionTemplateEntry.faction with
    | none => exact hinv
    | some factionEntry =>
      simp only
      split_ifs
      · exact hinv
      · exact SetVisibleFactionEntry_countVisible w m factionEntry hinv

/-! ## Invariants carried through `LoadFromDB` -/

theorem ite_preserves {α : Type} (P : α → Prop) (c : Prop) [Decidable c] (a b : α)
    (ha : P a) (hb : P b) : P (if c then a else b) := by
  split_ifs
  · exact ha
  · exact hb

/-- A property `P` of the ledger is kept by the row overlay of `LoadFromDB`
when it is kept by each statement of the loop body: the access to the map
element with the assignment of the standing, `UpdateRankCounters`,
`SetVisible`, and an assignment to one map element by a function of the class
`Q`, which holds `SetInactive`, `SetAtWar`, the conditional `SetAtWar` of line
611 and the reset of line 619. -/
theorem loadRow_preserves (w : World) (P : ReputationMgr → Prop)
    (Q : (FactionState → FactionState) → Prop) (row : ReputationRow)
    (h1 : ∀ m fe, w.LookupEntry row.faction = some fe → 0 ≤ fe.reputationListID → P m →
      P { m with
        _factions :=
          (accessState m._factions (toU32 fe.reputationListID)).modify
            (toU32 fe.reputationListID) (fun f => { f with Standing := row.standing }) })
    (h2 : ∀ m a b, P m → P (UpdateRankCounters m a b))
    (h3 : ∀ m key, P m → P (SetVisible w m key))
    (hmod : ∀ m key G, Q G → P m → P { m with _factions := m._factions.modify key G })
    (hQ4 : ∀ b, Q (fun f => SetInactive f b))
    (hQ5 : ∀ b, Q (fun f => SetAtWar f b))
    (hQ5v : Q (fun f => if (f.Flags &&& FACTION_FLAG_VISIBLE) ≠ 0 then SetAtWar f false else f))
    (hQ6 : ∀ db, Q (fun f =>
      { (if f.Flags = db then { f with needSend := false, needSave := false } else f) with
        roundedUp := false }))
    (m : ReputationMgr) (hP : P m) : P (loadRow w m row) := by
  unfold loadRow
  cases hl : w.LookupEntry row.faction with
  | none => exact hP
  | some fe =>
    simp only
    by_cases hpos : 0 ≤ fe.reputationListID
    · rw [if_pos hpos]
      apply hmod _ _ _ (hQ6 _)
      apply ite_preserves P <;> (try apply hmod _ _ _ (hQ5 _)) <;>
        apply ite_preserves P <;>
        (first | apply hmod _ _ _ (hQ5 _) | apply hmod _ _ _ hQ5v) <;>
        apply ite_preserves P <;> (try apply hmod _ _ _ (hQ4 _)) <;>
        apply ite_preserves P <;> (try apply h3) <;>
        apply h2 <;> exact h1 m fe hl hpos hP
    · rw [if_neg hpos]
      exact hP

/-- A property that every row overlay keeps is kept by the rows of
`LoadFromDB`. -/
theorem loadRows_preserves (w : World) (P : ReputationMgr → Prop)
    (rows : List ReputationRow)
    (hrow : ∀ row, row ∈ rows → ∀ m, P m → P (loadRow w m row)) :
    ∀ m, P m → P (rows.foldl (loadRow w) m) := by
  induction rows with
  | nil => intro m hP; exact hP
  | cons row rest ih =>
    intro m hP
    rw [List.foldl_cons]
    exact ih (fun r hr => hrow r (List.mem_cons_of_mem _ hr)) _
      (hrow row (List.mem_cons_self _ _) m hP)

/-! ## The visible counter in every reachable state -/

theorem accessState_find (l : FactionStateList) (key k : Nat) :
    (accessState l key).find k =
      if k = key then some ((l.find key).getD emptyState) else l.find k := by
  unfold accessState
  cases hf : l.find key with
  | none =>
    simp only [find_insertState, Option.getD_none]
  | some f =>
    simp only [Option.getD_some]
    split_ifs with hk
    · rw [hk, hf]
    · rfl

theorem countVisible_accessState (l : FactionStateList) (key : Nat) :
    countVisible (accessState l key) = countVisible l := by
  unfold accessState
  cases hf : l.find key with
  | none =>
    simp only
    rw [countVisible_insertState l key emptyState hf]
    simp [visibleIndicator, emptyState]
  | some f => rfl

/-- The row overlay of `LoadFromDB` keeps the visible counter equal to the
number of visible factions. -/
theorem loadRow_countVisible (w : World) (m : ReputationMgr) (row : ReputationRow)
    (hinv : m._visibleFactionCount = countVisible m._factions) :
    (loadRow w m row)._visibleFactionCount = countVisible (loadRow w m row)._factions := by
  refine loadRow_preserves w (fun m => m._visibleFactionCount = countVisible m._factions)
    (fun G => ∀ f, visibleIndicator (G f) = visibleIndicator f) row ?_ ?_ ?_ ?_ ?_ ?_ ?_ ?_ m hinv
  · intro m fe _ _ hP
    exact countVisible_flags
      { m with _factions := accessState m._factions (toU32 fe.reputationListID) } _
      (toU32 fe.reputationListID) (fun f => { f with Standing := row.standing })
      (by rw [countVisible_accessState]; exact hP) (fun f => rfl) rfl rfl
  · intro m a b hP
    exact hP
  · intro m key hP
    exact SetVisible_countVisible w m key hP
  · intro m key G hG hP
    exact countVisible_flags m _ key G hP hG rfl rfl
  · intro b f
    exact visibleIndicator_SetInactive f b
  · intro b f
    exact visibleIndicator_SetAtWar f b
  · intro f
    simp only
    split_ifs
    · exact visibleIndicator_SetAtWar f false
    · rfl
  · intro db f
    simp only
    split_ifs <;> rfl

theorem initializeRow_visible (w : World) (m : ReputationMgr) (i : Nat) (fe : FactionEntry)
    (hl : w.LookupEntry i = some fe) (hpos : 0 ≤ fe.reputationListID) :
    (initializeRow w m i)._visibleFactionCount =
      m._visibleFactionCount + visibleIndicator (newFactionState w fe) := by
  unfold initializeRow visibleIndicator
  rw [hl]
  simp only [ge_iff_le, hpos, if_true]
  split_ifs
  · rfl
  · exact (add_zero _).symm

/-- The loop of `Initialize` keeps the visible counter equal to the number of
visible factions, when distinct catalog factions with a reputation list have
distinct reputation-list ids. -/
theorem initialize_fold_visible (w : World)
    (hkey : ∀ a b fa fb, w.LookupEntry a = some fa → w.LookupEntry b = some fb →
      0 ≤ fa.reputationListID → 0 ≤ fb.reputationListID →
      toU32 fa.reputationListID = toU32 fb.reputationListID → a = b)
    (m0 : ReputationMgr) (h0 : m0._factions = []) (h4 : m0._visibleFactionCount = 0)
    (ids : List Nat) (hnd : ids.Nodup) :
    (ids.foldl (initializeRow w) m0)._visibleFactionCount =
      countVisible (ids.foldl (initializeRow w) m0)._factions := by
  induction ids using List.reverseRecOn with
  | nil => simp [h0, h4, countVisible]
  | append_singleton ids i ih =>
    have hnd2 : ids.Nodup ∧ i ∉ ids := by
      rw [List.nodup_append] at hnd
      refine ⟨hnd.1, ?_⟩
      intro hi
      exact hnd.2.2 hi (List.mem_singleton_self i)
    have hprev := ih hnd2.1
    have hA := (initialize_fold w m0 h0 ids).1
    rw [List.foldl_append, List.foldl_cons, List.foldl_nil]
    cases hl : w.LookupEntry i with
    | none =>
      have : initializeRow w (ids.foldl (initializeRow w) m0) i = ids.foldl (initializeRow w) m0 := by
        unfold initializeRow
        rw [hl]
      rw [this]
      exact hprev
    | some fe =>
      by_cases hpos : 0 ≤ fe.reputationListID
      · have hfac := (initializeRow_tracked w (ids.foldl (initializeRow w) m0) i fe hl hpos).1
        have hfresh : (ids.foldl (initializeRow w) m0)._factions.find
            (toU32 fe.reputationListID) = none := by
          cases hfind : (ids.foldl (initializeRow w) m0)._factions.find
              (toU32 fe.reputationListID) with
          | none => rfl
          | some st =>
            obtain ⟨j, fe2, hj, hl2, hpos2, hk, _⟩ := hA _ st hfind
            have := hkey j i fe2 fe hl2 hl hpos2 hpos hk
            rw [this] at hj
            exact absurd hj hnd2.2
        rw [initializeRow_visible w _ i fe hl hpos, hfac,
          countVisible_insertState _ _ _ hfresh, hprev]
      · have : initializeRow w (ids.foldl (initializeRow w) m0) i =
            ids.foldl (initializeRow w) m0 := by
          unfold initializeRow
          rw [hl]
          simp only [ge_iff_le, hpos, if_false]
        rw [this]
        exact hprev

theorem Initialize_countVisible (w : World)
    (hkey : ∀ a b fa fb, w.LookupEntry a = some fa → w.LookupEntry b = some fb →
      0 ≤ fa.reputationListID → 0 ≤ fb.reputationListID →
      toU32 fa.reputationListID = toU32 fb.reputationListID → a = b)
    (m : ReputationMgr) :
    (Initialize w m)._visibleFactionCount = countVisible (Initialize w m)._factions :=
  initialize_fold_visible w hkey _ rfl rfl _ (List.nodup_range' 1 _)

/-- C35: the visible-faction counter equals the number of tracked factions
whose visible flag is set, in every ledger state reached from `Initialize`
(distinct catalog factions with a reputation list having distinct
reputation-list ids) by the three `SetVisible`, by `SetAtWar` and
`SetInactive` by list id, by `SetOneFactionReputation`, `SetReputation` and
`LoadFromDB`; in such a state `SetVisible` on an already visible faction, or
on an always-invisible or hidden faction without the special flag, changes
nothing: neither a flag nor the counter. The counter's declared width is in a
header that is not among the sources; it is carried as an integer. -/
theorem visible_counter_counts_visible_factions (w : World)
    (hkey : ∀ a b fa fb, w.LookupEntry a = some fa → w.LookupEntry b = some fb →
      0 ≤ fa.reputationListID → 0 ≤ fb.reputationListID →
      toU32 fa.reputationListID = toU32 fb.reputationListID → a = b)
    (m : ReputationMgr) (hm : ReachableByCalls w m) :
    m._visibleFactionCount = countVisible m._factions ∧
    ∀ key faction, m._factions.find key = some faction →
      ((faction.Flags &&& FACTION_FLAG_VISIBLE) ≠ 0 ∨
        ((faction.Flags &&& (FACTION_FLAG_INVISIBLE_FORCED ||| FACTION_FLAG_HIDDEN)) ≠ 0 ∧
          (faction.Flags &&& FACTION_FLAG_SPECIAL) = 0)) →
      SetVisible w m key = m := by
  constructor
  · induction hm with
    | init m0 => exact Initialize_countVisible w hkey m0
    | load m0 rows =>
      exact loadRows_preserves w (fun m => m._visibleFactionCount = countVisible m._factions) rows
        (fun row _ m1 h => loadRow_countVisible w m1 row h) _ (Initialize_countVisible w hkey m0)
    | setVisible m0 key _ ih => exact SetVisible_countVisible w m0 key ih
    | setVisibleFactionEntry m0 fe _ ih => exact SetVisibleFactionEntry_countVisible w m0 fe ih
    | setVisibleFactionTemplate m0 fte _ ih =>
      exact SetVisibleFactionTemplate_countVisible w m0 fte ih
    | setAtWar m0 id flag _ ih => exact SetAtWarRepListID_countVisible m0 id flag ih
    | setInactive m0 id flag _ ih => exact SetInactiveRepListID_countVisible m0 id flag ih
    | setOne m0 fe stand inc cap _ ih =>
      exact SetOneFactionReputation_countVisible w m0 fe stand inc cap ih
    | setReputation m0 fe standing inc nsp cap r _ hr ih =>
      exact SetReputation_preserves w (fun m => m._visibleFactionCount = countVisible m._factions)
        (fun m1 fe1 s1 i1 c1 h => SetOneFactionReputation_countVisible w m1 fe1 s1 i1 c1 h)
        (fun m1 f1 h => SendState_countVisible m1 f1 h) m0 fe standing inc nsp cap r ih hr
  · intro key faction hf hflags
    unfold SetVisible
    rw [hf]
    simp only
    rcases hflags with hv | hh
    · by_cases h1 : (faction.Flags &&& (FACTION_FLAG_INVISIBLE_FORCED ||| FACTION_FLAG_HIDDEN)) ≠ 0 ∧
          (faction.Flags &&& FACTION_FLAG_SPECIAL) = 0
      · rw [if_pos h1]
      · rw [if_neg h1, if_pos hv]
    · rw [if_pos hh]

/-- Witness of C35: the example ledger loaded from the row that makes the
example faction visible, in the example world, whose one faction has the
reputation list `3`; one faction is visible, and the counter is `1`. -/
theorem visible_counter_counts_visible_factions_witness :
    ReachableByCalls exampleWorld (LoadFromDB exampleWorld exampleLedger [exampleRow]) ∧
    (LoadFromDB exampleWorld exampleLedger [exampleRow])._visibleFactionCount = 1 ∧
    (LoadFromDB exampleWorld exampleLedger [exampleRow])._visibleFactionCount =
      countVisible (LoadFromDB exampleWorld exampleLedger [exampleRow])._factions :=
  ⟨ReachableByCalls.load exampleLedger [exampleRow], by decide!,
    (visible_counter_counts_visible_factions exampleWorld exampleWorld_CatalogOK.key_inj _
      (ReachableByCalls.load exampleLedger [exampleRow])).1⟩

/-! ## Peace-forced factions -/

/-- Assigning to one map element by a function that keeps a peace-forced
faction at peace keeps the element under `k` peace-forced and at peace. -/
theorem peace_modify (m : ReputationMgr) (l : FactionStateList) (k key : Nat)
    (G : FactionState → FactionState)
    (hG : ∀ f, peaceForcedAtPeace f → peaceForcedAtPeace (G f))
    (hl : l = m._factions.modify key G)
    (hP : ∃ st, m._factions.find k = some st ∧ peaceForcedAtPeace st) :
    ∃ st, l.find k = some st ∧ peaceForcedAtPeace st := by
  obtain ⟨st, hf, hp⟩ := hP
  rw [hl, find_modify]
  by_cases hk : k = key
  · rw [if_pos hk, ← hk, hf]
    exact ⟨G st, rfl, hG st hp⟩
  · rw [if_neg hk]
    exact ⟨st, hf, hp⟩

theorem SetOneFactionReputation_peace (w : World) (k : Nat) (m : ReputationMgr)
    (factionEntry : FactionEntry) (stand : F32) (incremental : Bool) (repMaxCap : Option Nat)
    (hP : ∃ st, m._factions.find k = some st ∧ peaceForcedAtPeace st) :
    ∃ st, (SetOneFactionReputation w m factionEntry stand incremental repMaxCap).1._factions.find
      k = some st ∧ peaceForcedAtPeace st := by
  cases hf : m._factions.find (toU32 factionEntry.reputationListID) with
  | none =>
    rw [SetOneFactionReputation_untracked w m factionEntry stand incremental repMaxCap hf]
    exact hP
  | some itr =>
    by_cases hallow : (w.OnPlayerReputationChange factionEntry.ID
      (applyRankCap repMaxCap (candidateStanding w itr (GetBaseReputation w factionEntry)
        (scaledStand w factionEntry stand incremental) incremental)).1 incremental).1 = true
    · exact peace_modify m _ k _ _
        (fun f hp => peaceForcedAtPeace_awardedState _ _ _ _ _ f hp)
        (SetOneFactionReputation_allowed w m factionEntry stand incremental repMaxCap itr hf
          hallow).2 hP
    · simp only [Bool.not_eq_true] at hallow
      rw [SetOneFactionReputation_vetoed w m factionEntry stand incremental repMaxCap itr hf
        hallow]
      exact peace_modify m _ k _ _
        (fun f hp => peaceForcedAtPeace_congr f _ (toggledState_Flags _ f) hp) rfl hP

theorem SendState_peace (k : Nat) (m : ReputationMgr) (faction : FactionState)
    (hP : ∃ st, m._factions.find k = some st ∧ peaceForcedAtPeace st) :
    ∃ st, (SendState m faction)._factions.find k = some st ∧ peaceForcedAtPeace st := by
  obtain ⟨st, hf, hp⟩ := hP
  rw [SendState_find, hf]
  refine ⟨_, rfl, ?_⟩
  simp only
  split_ifs
  · exact hp
  · exact hp

theorem loadRow_peace (w : World) (k : Nat) (m : ReputationMgr) (row : ReputationRow)
    (hP : ∃ st, m._factions.find k = some st ∧ peaceForcedAtPeace st) :
    ∃ st, (loadRow w m row)._factions.find k = some st ∧ peaceForcedAtPeace st := by
  refine loadRow_preserves w
    (fun m => ∃ st, m._factions.find k = some st ∧ peaceForcedAtPeace st)
    (fun G => ∀ f, peaceForcedAtPeace f → peaceForcedAtPeace (G f)) row
    ?_ ?_ ?_ ?_ ?_ ?_ ?_ ?_ m hP
  · intro m fe _ _ hP1
    refine peace_modify { m with _factions := accessState m._factions (toU32 fe.reputationListID) }
      _ k (toU32 fe.reputationListID) (fun f => { f with Standing := row.standing })
      (fun f hp => hp) rfl ?_
    obtain ⟨st, hf, hp⟩ := hP1
    refine ⟨st, ?_, hp⟩
    show (accessState m._factions (toU32 fe.reputationListID)).find k = some st
    rw [accessState_find]
    split_ifs with hk
    · rw [← hk, hf]
      rfl
    · exact hf
  · intro m a b hP1
    exact hP1
  · intro m key hP1
    exact peace_modify m _ k key visibleState peaceForcedAtPeace_visibleState
      (SetVisible_factions w m key) hP1
  · intro m key G hG hP1
    exact peace_modify m _ k key G hG rfl hP1
  · intro b f hp
    exact peaceForcedAtPeace_SetInactive f b hp
  · intro b f hp
    exact peaceForcedAtPeace_SetAtWar f b hp
  · intro f hp
    simp only
    split_ifs
    · exact peaceForcedAtPeace_SetAtWar f false hp
    · exact hp
  · intro db f hp
    simp only
    split_ifs
    · exact hp
    · exact hp

/-- C37: a peace-forced faction is never placed at war. For every tracked
faction state with the peace-forced flag set and the at-war flag clear,
`SetAtWar` on the state leaves it as it is, and after `SetAtWar` by list id,
after `SetOneFactionReputation`, after `SetReputation` and after the row
overlay of `LoadFromDB`, with any arguments and whatever rank the faction
reaches, its map element is still peace-forced with the at-war flag clear.
Likewise `SetAtWar` by list id changes nothing for an always-invisible or
hidden faction. -/
theorem peace_forced_never_at_war (w : World) (m : ReputationMgr) (k : Nat) (st : FactionState)
    (hf : m._factions.find k = some st)
    (hpeace : (st.Flags &&& FACTION_FLAG_PEACE_FORCED) ≠ 0)
    (hwar : (st.Flags &&& FACTION_FLAG_AT_WAR) = 0) :
    (∀ atWar, SetAtWar st atWar = st) ∧
    (∀ repListID flag, ∃ st1,
      (SetAtWarRepListID m repListID flag)._factions.find k = some st1 ∧
      peaceForcedAtPeace st1) ∧
    (∀ factionEntry stand incremental repMaxCap, ∃ st1,
      (SetOneFactionReputation w m factionEntry stand incremental repMaxCap).1._factions.find k =
        some st1 ∧
      peaceForcedAtPeace st1) ∧
    (∀ factionEntry standing incremental noSpillOver repMaxCap r,
      SetReputation w m factionEntry standing incremental noSpillOver repMaxCap = some r →
      ∃ st1, r.1._factions.find k = some st1 ∧ peaceForcedAtPeace st1) ∧
    (∀ rows : List ReputationRow, ∃ st1,
      (rows.foldl (loadRow w) m)._factions.find k = some st1 ∧ peaceForcedAtPeace st1) ∧
    (∀ repListID flag faction, m._factions.find repListID = some faction →
      (faction.Flags &&& (FACTION_FLAG_INVISIBLE_FORCED ||| FACTION_FLAG_HIDDEN)) ≠ 0 →
      SetAtWarRepListID m repListID flag = m) := by
  have hP : ∃ st1, m._factions.find k = some st1 ∧ peaceForcedAtPeace st1 :=
    ⟨st, hf, hpeace, hwar⟩
  refine ⟨fun b => SetAtWar_peaceForced st b ⟨hpeace, hwar⟩, ?_, ?_, ?_, ?_, ?_⟩
  · intro repListID flag
    unfold SetAtWarRepListID
    cases m._factions.find repListID with
    | none => exact hP
    | some faction =>
      simp only
      split_ifs
      · exact hP
      · exact peace_modify m _ k repListID _
          (fun f hp => peaceForcedAtPeace_SetAtWar f flag hp) rfl hP
  · intro factionEntry stand incremental repMaxCap
    exact SetOneFactionReputation_peace w k m factionEntry stand incremental repMaxCap hP
  · intro factionEntry standing incremental noSpillOver repMaxCap r hr
    exact SetReputation_preserves w
      (fun m => ∃ st1, m._factions.find k = some st1 ∧ peaceForcedAtPeace st1)
      (fun m1 fe1 s1 i1 c1 h => SetOneFactionReputation_peace w k m1 fe1 s1 i1 c1 h)
      (fun m1 f1 h => SendState_peace k m1 f1 h) m factionEntry standing incremental
      noSpillOver repMaxCap r hP hr
  · intro rows
    exact loadRows_preserves w
      (fun m => ∃ st1, m._factions.find k = some st1 ∧ peaceForcedAtPeace st1) rows
      (fun row _ m1 h => loadRow_peace w k m1 row h) m hP
  · intro repListID flag faction hfind hhidden
    unfold SetAtWarRepListID
    rw [hfind]
    simp only
    rw [if_pos hhidden]

/-- Witness of C37: the example faction, peace-forced and not at war, set to
the standing `-42000`, that is to rank `Hated`, is not at war afterwards. -/
theorem peace_forced_never_at_war_witness :
    GetRank exampleWorld
      (SetOneFactionReputation exampleWorld peaceLedger exampleFaction (F32.finite (-42000)) false
        none).1 (some exampleFaction) = REP_HATED ∧
    ∃ st1,
      (SetOneFactionReputation exampleWorld peaceLedger exampleFaction (F32.finite (-42000)) false
        none).1._factions.find 3 = some st1 ∧
      peaceForcedAtPeace st1 :=
  ⟨by decide!,
    (peace_forced_never_at_war exampleWorld peaceLedger 3
      { ID := 21, ReputationListID := 3, Standing := 2500, Flags := 0x11, needSend := false,
        needSave := false, roundedUp := false }
      (by decide) (by decide) (by decide)).2.2.1 exampleFaction (F32.finite (-42000)) false none⟩

/-! ## Total standing after a load -/

/-- C36, as the code has it: `LoadFromDB` stores the standing of a row as it
is (line 586), without the clamp of `SetOneFactionReputation`. Loading the
row that gives the example faction, whose base standing is `500`, the
standing `50000` leaves it tracked at total standing `50500`, above `42999`. -/
theorem LoadFromDB_standing_unclamped :
    GetBaseReputation exampleWorld exampleFaction = 500 ∧
    ((LoadFromDB exampleWorld exampleLedger [unboundedRow])._factions.find 3).map
      (fun f => f.Standing) = some 50000 ∧
    totalStanding exampleWorld (LoadFromDB exampleWorld exampleLedger [unboundedRow])
      exampleFaction = 50500 ∧
    ¬ totalStanding exampleWorld (LoadFromDB exampleWorld exampleLedger [unboundedRow])
      exampleFaction ≤ Reputation_Cap := by
  decide!

/-- The row overlay of `LoadFromDB` keeps every tracked faction's base
standing plus stored `Standing` within the bounds, when the row does for its
own faction. -/
theorem loadRow_bounds (w : World)
    (hkey : ∀ a b fa fb, w.LookupEntry a = some fa → w.LookupEntry b = some fb →
      0 ≤ fa.reputationListID → 0 ≤ fb.reputationListID →
      toU32 fa.reputationListID = toU32 fb.reputationListID → a = b)
    (row : ReputationRow)
    (hrow : ∀ fe, w.LookupEntry row.faction = some fe → 0 ≤ fe.reputationListID →
      Reputation_Bottom ≤ GetBaseReputation w fe + row.standing ∧
      GetBaseReputation w fe + row.standing ≤ Reputation_Cap)
    (m : ReputationMgr)
    (hP : ∀ id fe st, w.LookupEntry id = some fe → 0 ≤ fe.reputationListID →
      m._factions.find (toU32 fe.reputationListID) = some st →
      Reputation_Bottom ≤ GetBaseReputation w fe + st.Standing ∧
      GetBaseReputation w fe + st.Standing ≤ Reputation_Cap) :
    ∀ id fe st, w.LookupEntry id = some fe → 0 ≤ fe.reputationListID →
      (loadRow w m row)._factions.find (toU32 fe.reputationListID) = some st →
      Reputation_Bottom ≤ GetBaseReputation w fe + st.Standing ∧
      GetBaseReputation w fe + st.Standing ≤ Reputation_Cap := by
  have hmod : ∀ (m : ReputationMgr) (key : Nat) (G : FactionState → FactionState),
      (∀ f, (G f).Standing = f.Standing) →
      (∀ id fe st, w.LookupEntry id = some fe → 0 ≤ fe.reputationListID →
        m._factions.find (toU32 fe.reputationListID) = some st →
        Reputation_Bottom ≤ GetBaseReputation w fe + st.Standing ∧
        GetBaseReputation w fe + st.Standing ≤ Reputation_Cap) →
      ∀ id fe st, w.LookupEntry id = some fe → 0 ≤ fe.reputationListID →
        (m._factions.modify key G).find (toU32 fe.reputationListID) = some st →
        Reputation_Bottom ≤ GetBaseReputation w fe + st.Standing ∧
        GetBaseReputation w fe + st.Standing ≤ Reputation_Cap := by
    intro m key G hG hP1 id fe st hl hpos hfind
    rw [find_modify] at hfind
    by_cases hk : toU32 fe.reputationListID = key
    · rw [if_pos hk] at hfind
      cases hf0 : m._factions.find key with
      | none => rw [hf0] at hfind; exact Option.noConfusion hfind
      | some f0 =>
        rw [hf0, Option.map_some', Option.some.injEq] at hfind
        rw [← hfind, hG f0]
        exact hP1 id fe f0 hl hpos (by rw [hk]; exact hf0)
    · rw [if_neg hk] at hfind
      exact hP1 id fe st hl hpos hfind
  refine loadRow_preserves w
    (fun m => ∀ id fe st, w.LookupEntry id = some fe → 0 ≤ fe.reputationListID →
      m._factions.find (toU32 fe.reputationListID) = some st →
      Reputation_Bottom ≤ GetBaseReputation w fe + st.Standing ∧
      GetBaseReputation w fe + st.Standing ≤ Reputation_Cap)
    (fun G => ∀ f, (G f).Standing = f.Standing) row ?_ ?_ ?_ ?_ ?_ ?_ ?_ ?_ m hP
  · intro m fe0 hl0 hpos0 hP1 id fe st hl hpos hfind
    have hfind2 : ((accessState m._factions (toU32 fe0.reputationListID)).modify
        (toU32 fe0.reputationListID) (fun f => { f with Standing := row.standing })).find
        (toU32 fe.reputationListID) = some st := hfind
    rw [find_modify, accessState_find] at hfind2
    by_cases hk : toU32 fe.reputationListID = toU32 fe0.reputationListID
    · rw [if_pos hk, if_pos rfl, Option.map_some', Option.some.injEq] at hfind2
      have hid := hkey id row.faction fe fe0 hl hl0 hpos hpos0 hk
      rw [hid, hl0, Option.some.injEq] at hl
      rw [← hfind2, ← hl]
      exact hrow fe0 hl0 hpos0
    · rw [if_neg hk, accessState_find, if_neg hk] at hfind2
      exact hP1 id fe st hl hpos hfind2
  · intro m a b hP1
    exact hP1
  · intro m key hP1
    rw [SetVisible_factions]
    exact hmod m key visibleState visibleState_Standing hP1
  · intro m key G hG hP1
    exact hmod m key G hG hP1
  · intro b f
    exact SetInactive_Standing f b
  · intro b f
    exact SetAtWar_Standing f b
  · intro f
    simp only
    split_ifs
    · exact SetAtWar_Standing f false
    · rfl
  · intro db f
    simp only
    split_ifs <;> rfl

/-- C36, amended: `LoadFromDB` keeps the total-standing bound when the
persisted rows keep it. If every catalog faction with a reputation list has
its base standing in `[-42000, 42999]`, distinct catalog factions with a
reputation list have distinct reputation-list ids, and for every persisted
row the base standing of its faction plus the standing of the row lies in
`[-42000, 42999]`, then after `LoadFromDB` every tracked catalog faction's
total standing (base standing plus stored `Standing`, the `int32` sum the
ledger computes) lies in `[-42000, 42999]`. The standing of a row is stored
as it is, without clamping. -/
theorem LoadFromDB_total_in_bounds (w : World) (m : ReputationMgr) (rows : List ReputationRow)
    (hkey : ∀ a b fa fb, w.LookupEntry a = some fa → w.LookupEntry b = some fb →
      0 ≤ fa.reputationListID → 0 ≤ fb.reputationListID →
      toU32 fa.reputationListID = toU32 fb.reputationListID → a = b)
    (hbase : ∀ id fe, w.LookupEntry id = some fe → 0 ≤ fe.reputationListID →
      Reputation_Bottom ≤ GetBaseReputation w fe ∧ GetBaseReputation w fe ≤ Reputation_Cap)
    (hrows : ∀ row, row ∈ rows → ∀ fe, w.LookupEntry row.faction = some fe →
      0 ≤ fe.reputationListID →
      Reputation_Bottom ≤ GetBaseReputation w fe + row.standing ∧
      GetBaseReputation w fe + row.standing ≤ Reputation_Cap) :
    ∀ id fe st, w.LookupEntry id = some fe → 0 ≤ fe.reputationListID →
      (LoadFromDB w m rows)._factions.find (toU32 fe.reputationListID) = some st →
      Reputation_Bottom ≤ GetBaseReputation w fe + st.Standing ∧
      GetBaseReputation w fe + st.Standing ≤ Reputation_Cap ∧
      totalStanding w (LoadFromDB w m rows) fe = GetBaseReputation w fe + st.Standing := by
  have hinit : ∀ id fe st, w.LookupEntry id = some fe → 0 ≤ fe.reputationListID →
      (Initialize w m)._factions.find (toU32 fe.reputationListID) = some st →
      Reputation_Bottom ≤ GetBaseReputation w fe + st.Standing ∧
      GetBaseReputation w fe + st.Standing ≤ Reputation_Cap := by
    intro id fe st hl hpos hfind
    obtain ⟨i, fe2, _, _, _, _, hst⟩ := (initialize_fold w
      { m with
        _factions := []
        _visibleFactionCount := 0
        _honoredFactionCount := 0
        _reveredFactionCount := 0
        _exaltedFactionCount := 0
        _sendFactionIncreased := false } rfl (List.range' 1 (w.GetNumRows - 1))).1 _ st hfind
    have hs0 : st.Standing = 0 := by rw [hst]; rfl
    rw [hs0, add_zero]
    exact hbase id fe hl hpos
  have hall := loadRows_preserves w
    (fun m => ∀ id fe st, w.LookupEntry id = some fe → 0 ≤ fe.reputationListID →
      m._factions.find (toU32 fe.reputationListID) = some st →
      Reputation_Bottom ≤ GetBaseReputation w fe + st.Standing ∧
      GetBaseReputation w fe + st.Standing ≤ Reputation_Cap) rows
    (fun row hr m1 h => loadRow_bounds w hkey row (hrows row hr) m1 h) (Initialize w m) hinit
  intro id fe st hl hpos hfind
  obtain ⟨h1, h2⟩ := hall id fe st hl hpos hfind
  refine ⟨h1, h2, ?_⟩
  unfold totalStanding
  rw [hfind]
  simp only
  unfold Reputation_Bottom at h1
  unfold Reputation_Cap at h2
  rw [add_comm, wrap32_of_range _ (by omega) (by omega)]

/-- Witness of C36, amended: the example row, which gives the example faction
the standing `9000`, that is the total standing `9500`. -/
theorem LoadFromDB_total_in_bounds_witness :
    (LoadFromDB exampleWorld exampleLedger [exampleRow])._factions.find
      (toU32 exampleFaction.reputationListID) =
      some { ID := 21, ReputationListID := 3, Standing := 9000, Flags := 1, needSend := false,
             needSave := false, roundedUp := false } ∧
    Reputation_Bottom ≤ GetBaseReputation exampleWorld exampleFaction + 9000 ∧
    GetBaseReputation exampleWorld exampleFaction + 9000 ≤ Reputation_Cap ∧
    totalStanding exampleWorld (LoadFromDB exampleWorld exampleLedger [exampleRow])
      exampleFaction = GetBaseReputation exampleWorld exampleFaction + 9000 :=
  ⟨by decide!,
    LoadFromDB_total_in_bounds exampleWorld exampleLedger [exampleRow]
      exampleWorld_CatalogOK.key_inj
      (by
        intro id fe hl _
        simp only [exampleWorld] at hl
        split_ifs at hl
        rw [Option.some.injEq] at hl
        rw [← hl]
        decide)
      (by
        intro row hr fe hl _
        rw [List.mem_singleton] at hr
        rw [hr] at hl ⊢
        have hfe : fe = exampleFaction := by
          simp only [exampleWorld, exampleRow] at hl
          exact (Option.some.inj hl).symm
        rw [hfe]
        decide)
      21 exampleFaction
      { ID := 21, ReputationListID := 3, Standing := 9000, Flags := 1, needSend := false,
        needSave := false, roundedUp := false }
      rfl (by decide) (by decide!)⟩

/-! ## A rank cap on a gain -/

theorem wrap32_bounds (x : Int) : -2147483648 ≤ wrap32 x ∧ wrap32 x ≤ 2147483647 := by
  unfold wrap32
  omega

/-- A standing within the scale whose rank is at most `c` is at most the
standing `ReputationRankToStanding c`, the top of the band of `c`. -/
theorem standing_le_capped (t : Int) (c : Nat) (hc : c ≤ REP_EXALTED)
    (ht : t ≤ Reputation_Cap) (hr : ReputationToRank t ≤ c) :
    t ≤ ReputationRankToStanding c := by
  obtain ⟨v0, v1, v2, v3, v4, v5, v6, v7⟩ := ReputationRankToStanding_values
  unfold REP_EXALTED at hc
  unfold Reputation_Cap at ht
  rcases ReputationToRank_cases t with h | h | h | h | h | h | h | h <;>
    interval_cases c <;> simp only [v0, v1, v2, v3, v4, v5, v6, v7] <;> omega

theorem totalStanding_congr (w : World) (m1 m2 : ReputationMgr) (factionEntry : FactionEntry)
    (h : (m1._factions.find (toU32 factionEntry.reputationListID)).map (fun f => f.Standing) =
      (m2._factions.find (toU32 factionEntry.reputationListID)).map (fun f => f.Standing)) :
    totalStanding w m1 factionEntry = totalStanding w m2 factionEntry := by
  unfold totalStanding
  cases h1 : m1._factions.find (toU32 factionEntry.reputationListID) with
  | none =>
    cases h2 : m2._factions.find (toU32 factionEntry.reputationListID) with
    | none => rfl
    | some b => rw [h1, h2] at h; simp at h
  | some a =>
    cases h2 : m2._factions.find (toU32 factionEntry.reputationListID) with
    | none => rw [h1, h2] at h; simp at h
    | some b =>
      rw [h1, h2] at h
      simp only [Option.map_some', Option.some.injEq] at h
      simp only [h]

/-- An incremental `SetOneFactionReputation` with the cap `c` on a tracked
faction whose rank is at most `c` and whose total standing is within the
scale, with a non-negative rounded delta whose sum with the total standing is
an `int32`, and a hook that leaves the standing as it is: the total standing
does not go down, whether the hook allows the change or not. -/
theorem SetOneFactionReputation_capped_gain (w : World) (m : ReputationMgr)
    (factionEntry : FactionEntry) (stand : F32) (c : Nat) (itr : FactionState)
    (hc : c ≤ REP_EXALTED)
    (hhook : ∀ id standing inc, (w.OnPlayerReputationChange id standing inc).2 = standing)
    (hf : m._factions.find (toU32 factionEntry.reputationListID) = some itr)
    (hcur : ReputationToRank (totalStanding w m factionEntry) ≤ c)
    (htot : totalStanding w m factionEntry ≤ Reputation_Cap)
    (hdelta : 0 ≤ roundedStanding w itr.roundedUp (scaledStand w factionEntry stand true))
    (hfit : roundedStanding w itr.roundedUp (scaledStand w factionEntry stand true) +
      totalStanding w m factionEntry ≤ 2147483647) :
    totalStanding w m factionEntry ≤
      totalStanding w (SetOneFactionReputation w m factionEntry stand true (some c)).1
        factionEntry := by
  have ht : totalStanding w m factionEntry =
      wrap32 (itr.Standing + GetBaseReputation w factionEntry) := by
    unfold totalStanding; rw [hf]
  have hT := wrap32_bounds (itr.Standing + GetBaseReputation w factionEntry)
  rw [← ht] at hT
  by_cases hallow : (w.OnPlayerReputationChange factionEntry.ID
      (applyRankCap (some c) (candidateStanding w itr (GetBaseReputation w factionEntry)
        (scaledStand w factionEntry stand true) true)).1 true).1 = true
  · have hcapb := applyRankCap_bounds (some c)
      (candidateStanding w itr (GetBaseReputation w factionEntry)
        (scaledStand w factionEntry stand true) true)
      (fun c1 h1 => by rw [← Option.some.inj h1]; exact hc)
      (candidateStanding_bounds _ _ _ _ _)
    have hb1 := hcapb.1
    have hb2 := hcapb.2
    unfold Reputation_Bottom at hb1
    unfold Reputation_Cap at hb2
    rw [totalStanding_after_success w m factionEntry stand true (some c) itr hf hallow _
      (hhook _ _ _) (by omega) (by omega)]
    have hcand : totalStanding w m factionEntry ≤
        candidateStanding w itr (GetBaseReputation w factionEntry)
          (scaledStand w factionEntry stand true) true := by
      unfold candidateStanding
      simp only [if_true, ← ht]
      rw [wrap32_of_range _ (by omega) (by omega)]
      unfold clampStanding
      unfold Reputation_Cap at htot ⊢
      unfold Reputation_Bottom
      split_ifs <;> omega
    unfold applyRankCap
    simp only
    split_ifs
    · exact standing_le_capped _ c hc htot hcur
    · exact hcand
  · simp only [Bool.not_eq_true] at hallow
    rw [SetOneFactionReputation_vetoed w m factionEntry stand true (some c) itr hf hallow]
    apply le_of_eq
    apply totalStanding_congr
    simp only [find_modify, if_true, hf, Option.map_some', (toggledState_ID _ _).2]

/-- `SetReputation` with the cap `c` for an incremental award with a
non-negative rounded delta, when spillover is off or no spillover recipient
is the target's own map element: the total standing of the target does not
go down. -/
theorem SetReputation_capped_gain (w : World) (m : ReputationMgr)
    (factionEntry : FactionEntry) (stand : F32) (noSpillOver : Bool) (c : Nat)
    (r : ReputationMgr × Bool)
    (hc : c ≤ REP_EXALTED)
    (hhook : ∀ id standing inc, (w.OnPlayerReputationChange id standing inc).2 = standing)
    (hpos : 0 ≤ factionEntry.reputationListID)
    (hgain : ∀ itr, m._factions.find (toU32 factionEntry.reputationListID) = some itr →
      totalStanding w m factionEntry ≤ Reputation_Cap ∧
      0 ≤ roundedStanding w itr.roundedUp (scaledStand w factionEntry stand true) ∧
      roundedStanding w itr.roundedUp (scaledStand w factionEntry stand true) +
        totalStanding w m factionEntry ≤ 2147483647)
    (hspill : noSpillOver = true ∨
      ((∀ t, w.GetRepSpilloverTemplate factionEntry.ID = some t →
        ∀ slot, slot ∈ t.slots → ∀ e, w.LookupEntry slot.faction = some e →
          toU32 e.reputationListID ≠ toU32 factionEntry.reputationListID) ∧
      (∀ p, w.LookupEntry factionEntry.team = some p →
        toU32 p.reputationListID ≠ toU32 factionEntry.reputationListID) ∧
      (∀ id e, w.LookupEntry id = some e → e.ID ≠ factionEntry.ID →
        toU32 e.reputationListID ≠ toU32 factionEntry.reputationListID)))
    (hr : SetReputation w m factionEntry stand true noSpillOver (some c) = some r) :
    totalStanding w m factionEntry ≤ totalStanding w r.1 factionEntry := by
  unfold SetReputation at hr
  simp only at hr
  cases hs : (if noSpillOver = false then spillover w m factionEntry stand true
      else some (m, false)) with
  | none => rw [hs] at hr; exact Option.noConfusion hr
  | some sp =>
    obtain ⟨m1, res⟩ := sp
    have hfind : m1._factions.find (toU32 factionEntry.reputationListID) =
        m._factions.find (toU32 factionEntry.reputationListID) := by
      split_ifs at hs with hn
      · rcases hspill with h | ⟨hslots, hparent, hteam⟩
        · rw [h] at hn
          exact absurd hn (by decide)
        · exact spillover_find w m factionEntry stand true hslots hparent hteam (m1, res) hs
      · simp only [Option.some.injEq, Prod.mk.injEq] at hs
        rw [← hs.1]
    have htot1 : totalStanding w m1 factionEntry = totalStanding w m factionEntry :=
      totalStanding_congr w m1 m factionEntry (by rw [hfind])
    rw [hs] at hr
    simp only at hr
    cases hf : m1._factions.find (toU32 factionEntry.reputationListID) with
    | none =>
      rw [hf] at hr
      simp only [Option.some.injEq] at hr
      rw [← hr, htot1]
    | some itr =>
      rw [hf] at hr
      simp only at hr
      have hX : totalStanding w m factionEntry ≤
          totalStanding w
            (if capExceeded (some c) (GetRank w m1 (some factionEntry)) = false then
              SetOneFactionReputation w m1 factionEntry stand true (some c)
            else (m1, res)).1 factionEntry := by
        split_ifs with hex
        · obtain ⟨g1, g2, g3⟩ := hgain itr (by rw [← hfind]; exact hf)
          rw [← htot1] at g1 g3 ⊢
          have hrank : ReputationToRank (totalStanding w m1 factionEntry) ≤ c := by
            have hle : GetRank w m1 (some factionEntry) ≤ c := by
              simp only [capExceeded, decide_eq_false_iff_not, not_lt] at hex
              exact hex
            have hG : GetRank w m1 (some factionEntry) =
                ReputationToRank (totalStanding w m1 factionEntry) := by
              unfold GetRank GetReputation GetState totalStanding
              simp only [hpos, if_true, hf]
              rw [add_comm]
            rw [← hG]
            exact hle
          exact SetOneFactionReputation_capped_gain w m1 factionEntry stand c itr hc hhook hf
            hrank g1 g2 g3
        · exact le_of_eq htot1.symm
      cases hf2 : (if capExceeded (some c) (GetRank w m1 (some factionEntry)) = false then
            SetOneFactionReputation w m1 factionEntry stand true (some c)
          else (m1, res)).1._factions.find (toU32 factionEntry.reputationListID) with
      | none =>
        rw [hf2] at hr
        simp only [Option.some.injEq] at hr
        rw [← hr]
        exact hX
      | some faction =>
        rw [hf2] at hr
        simp only [Option.some.injEq] at hr
        rw [← hr]
        refine le_trans hX (le_of_eq ?_)
        exact (totalStanding_congr w _ _ factionEntry (SendState_find_Standing _ faction _)).symm

/-- C38, as the code has it: the spillover block of `SetReputation` runs
before the cap test and may update the target itself. In a world whose
spillover template for the example faction names that faction as its own
recipient, at rate `-1`, an incremental award of `100`, whose rounded delta is
`100`, with the cap `Unfriendly` moves the faction's total standing from
`3000` down to `2900`: the spillover takes `100` and the faction's own update
is skipped, its rank exceeding the cap. -/
theorem SetReputation_capped_gain_lowered_by_own_spillover :
    totalStanding negSpillWorld exampleLedger exampleFaction = 3000 ∧
    roundedStanding negSpillWorld false
      (scaledStand negSpillWorld exampleFaction (F32.finite 100) true) = 100 ∧
    (SetReputation negSpillWorld exampleLedger exampleFaction (F32.finite 100) true false
      (some REP_UNFRIENDLY)).map (fun r => totalStanding negSpillWorld r.1 exampleFaction) =
      some 2900 := by
  decide!

/-- C38, amended: a rank cap never lowers standing on a gain. For a tracked
faction whose total standing is at most `42999`, a cap `c` (a rank
`Hated .. Exalted`), an incremental award whose rounded delta is non-negative
and whose sum with the total standing is an `int32`, and a hook that leaves
the standing as it is: if the faction's current rank is at most `c`, a
successful `SetOneFactionReputation` with the cap `c` yields a total standing
that is at least the previous one; hence `SetReputation` with the cap `c`,
which skips the target's own update when its rank already exceeds the cap,
does not decrease the target's total standing, provided spillover is off or
no spillover recipient is the target's own map element (no slot of its
spillover template and no parent team resolves to a faction with the target's
reputation-list id, and no other catalog faction has that id). -/
theorem rank_cap_never_lowers_gain (w : World) (m : ReputationMgr)
    (factionEntry : FactionEntry) (stand : F32) (c : Nat) (itr : FactionState)
    (hc : c ≤ REP_EXALTED)
    (hhook : ∀ id standing inc, (w.OnPlayerReputationChange id standing inc).2 = standing)
    (hpos : 0 ≤ factionEntry.reputationListID)
    (hf : m._factions.find (toU32 factionEntry.reputationListID) = some itr)
    (htot : totalStanding w m factionEntry ≤ Reputation_Cap)
    (hdelta : 0 ≤ roundedStanding w itr.roundedUp (scaledStand w factionEntry stand true))
    (hfit : roundedStanding w itr.roundedUp (scaledStand w factionEntry stand true) +
      totalStanding w m factionEntry ≤ 2147483647) :
    (ReputationToRank (totalStanding w m factionEntry) ≤ c →
      (SetOneFactionReputation w m factionEntry stand true (some c)).2 = true →
      totalStanding w m factionEntry ≤
        totalStanding w (SetOneFactionReputation w m factionEntry stand true (some c)).1
          factionEntry) ∧
    (∀ noSpillOver r,
      (noSpillOver = true ∨
        ((∀ t, w.GetRepSpilloverTemplate factionEntry.ID = some t →
          ∀ slot, slot ∈ t.slots → ∀ e, w.LookupEntry slot.faction = some e →
            toU32 e.reputationListID ≠ toU32 factionEntry.reputationListID) ∧
        (∀ p, w.LookupEntry factionEntry.team = some p →
          toU32 p.reputationListID ≠ toU32 factionEntry.reputationListID) ∧
        (∀ id e, w.LookupEntry id = some e → e.ID ≠ factionEntry.ID →
          toU32 e.reputationListID ≠ toU32 factionEntry.reputationListID))) →
      SetReputation w m factionEntry stand true noSpillOver (some c) = some r →
      totalStanding w m factionEntry ≤ totalStanding w r.1 factionEntry) := by
  constructor
  · intro hcur _
    exact SetOneFactionReputation_capped_gain w m factionEntry stand c itr hc hhook hf hcur htot
      hdelta hfit
  · intro noSpillOver r hspill hr
    refine SetReputation_capped_gain w m factionEntry stand noSpillOver c r hc hhook hpos ?_
      hspill hr
    intro itr1 hf1
    rw [hf, Option.some.injEq] at hf1
    rw [← hf1]
    exact ⟨htot, hdelta, hfit⟩

/-- Witness of C38, amended: an award of `100` with the cap `Friendly` to the
example faction, whose total standing `3000` has the rank `Friendly`, without
spillover: the total standing goes to `3100`. -/
theorem rank_cap_never_lowers_gain_witness :
    totalStanding exampleWorld exampleLedger exampleFaction = 3000 ∧
    (SetReputation exampleWorld exampleLedger exampleFaction (F32.finite 100) true true
      (some REP_FRIENDLY)).map (fun r => totalStanding exampleWorld r.1 exampleFaction) =
      some 3100 ∧
    ((ReputationToRank (totalStanding exampleWorld exampleLedger exampleFaction) ≤ REP_FRIENDLY →
      (SetOneFactionReputation exampleWorld exampleLedger exampleFaction (F32.finite 100) true
        (some REP_FRIENDLY)).2 = true →
      totalStanding exampleWorld exampleLedger exampleFaction ≤
        totalStanding exampleWorld
          (SetOneFactionReputation exampleWorld exampleLedger exampleFaction (F32.finite 100) true
            (some REP_FRIENDLY)).1 exampleFaction) ∧
    (∀ noSpillOver r,
      (noSpillOver = true ∨
        ((∀ t, exampleWorld.GetRepSpilloverTemplate exampleFaction.ID = some t →
          ∀ slot, slot ∈ t.slots → ∀ e, exampleWorld.LookupEntry slot.faction = some e →
            toU32 e.reputationListID ≠ toU32 exampleFaction.reputationListID) ∧
        (∀ p, exampleWorld.LookupEntry exampleFaction.team = some p →
          toU32 p.reputationListID ≠ toU32 exampleFaction.reputationListID) ∧
        (∀ id e, exampleWorld.LookupEntry id = some e → e.ID ≠ exampleFaction.ID →
          toU32 e.reputationListID ≠ toU32 exampleFaction.reputationListID))) →
      SetReputation exampleWorld exampleLedger exampleFaction (F32.finite 100) true noSpillOver
        (some REP_FRIENDLY) = some r →
      totalStanding exampleWorld exampleLedger exampleFaction ≤
        totalStanding exampleWorld r.1 exampleFaction)) :=
  ⟨by decide!, by decide!,
    rank_cap_never_lowers_gain exampleWorld exampleLedger exampleFaction (F32.finite 100)
      REP_FRIENDLY
      { ID := 21, ReputationListID := 3, Standing := 2500, Flags := 1, needSend := false,
        needSave := false, roundedUp := false }
      (by decide) (fun _ _ _ => rfl) (by decide) (by decide) (by decide!) (by decide!)
      (by decide!)⟩

end ReputationMgr

/-! ## Equip followed by unequip -/

theorem mem_dueSpells (set : ItemSetEntry) (count : Int) (id : Nat) :
    id ∈ dueSpells set count ↔
      ∃ x, x < MAX_ITEM_SET_SPELLS ∧ set.spells.getD x 0 = id ∧ set.spells.getD x 0 ≠ 0 ∧
        (set.items_to_triggerspell.getD x 0 : Int) ≤ count := by
  unfold dueSpells
  simp only [List.mem_map, List.mem_filter, List.mem_range, decide_eq_true_eq]
  constructor
  · rintro ⟨x, ⟨hx, h0, hthr⟩, hid⟩
    exact ⟨x, hx, hid, h0, hthr⟩
  · rintro ⟨x, hx, hid, h0, hthr⟩
    exact ⟨x, ⟨hx, h0, hthr⟩, hid⟩

theorem dueSpells_nodup (set : ItemSetEntry) (count : Int)
    (hdistinct : ∀ x y, x < MAX_ITEM_SET_SPELLS → y < MAX_ITEM_SET_SPELLS →
      set.spells.getD x 0 ≠ 0 → set.spells.getD x 0 = set.spells.getD y 0 → x = y) :
    (dueSpells set count).Nodup := by
  unfold dueSpells
  apply List.Nodup.map_on
  · intro x hx y hy hxy
    simp only [List.mem_filter, List.mem_range, decide_eq_true_eq] at hx hy
    exact hdistinct x y hx.1 hy.1 hx.2.1 hxy
  · exact List.Nodup.filter _ (List.nodup_range _)

/-- A record whose granted spells are the spells due at its count, each once,
is well formed. -/
theorem SpellsOK_of_due (set : ItemSetEntry) (spells : List (Option SpellInfo)) (count : Int)
    (hdistinct : ∀ x y, x < MAX_ITEM_SET_SPELLS → y < MAX_ITEM_SET_SPELLS →
      set.spells.getD x 0 ≠ 0 → set.spells.getD x 0 = set.spells.getD y 0 → x = y)
    (hlen : spells.length = MAX_ITEM_SET_SPELLS)
    (hperm : (grantedIds spells).Perm (dueSpells set count)) : SpellsOK set spells := by
  refine ⟨hlen, hperm.nodup_iff.mpr (dueSpells_nodup set count hdistinct), ?_⟩
  intro id hid
  obtain ⟨x, hx, hxid, _, _⟩ := (mem_dueSpells set count id).mp (hperm.mem_iff.mp hid)
  unfold setSpells
  exact List.mem_map.mpr ⟨x, List.mem_range.mpr hx, hxid⟩

/-- One turn of the spell loop of `AddItemsSetItem`: a spell granted afterwards
was granted in the same slot before, or is the set spell `x`, which has an id
and a threshold within the count and was not granted before. -/
theorem addSetSpell_origin (w : ItemSetWorld)
    (hspell : ∀ id s, w.GetSpellInfo id = some s → s.Id = id)
    (p0 : Player) (e : Nat) (item : Item) (set : ItemSetEntry) (eff : ItemSetEffect)
    (log : List (SpellInfo × Bool)) (x : Nat) (z : Nat) (t : SpellInfo)
    (hz : (addSetSpell w p0 e item set (eff, log) x).1.spells[z]? = some (some t)) :
    eff.spells[z]? = some (some t) ∨
    (set.spells.getD x 0 = t.Id ∧ set.spells.getD x 0 ≠ 0 ∧
      (set.items_to_triggerspell.getD x 0 : Int) ≤ eff.item_count ∧
      t.Id ∉ grantedIds eff.spells) := by
  unfold addSetSpell at hz
  dsimp only at hz
  by_cases h0 : set.spells.getD x 0 = 0
  · rw [if_pos h0] at hz
    exact Or.inl hz
  · rw [if_neg h0] at hz
    by_cases hthr : (set.items_to_triggerspell.getD x 0 : Int) > eff.item_count
    · rw [if_pos hthr] at hz
      exact Or.inl hz
    · rw [if_neg hthr] at hz
      cases hfind : findSetSpell eff.spells (set.spells.getD x 0) with
      | some found =>
        rw [hfind, if_pos (show (some found).isSome = true from rfl)] at hz
        exact Or.inl hz
      | none =>
        rw [hfind, if_neg (by simp)] at hz
        have hnot := findSetSpell_none eff.spells _ hfind
        cases hfree : firstFreeSpell eff.spells with
        | none =>
          rw [hfree] at hz
          exact Or.inl hz
        | some y =>
          rw [hfree] at hz
          cases hinfo : w.GetSpellInfo (set.spells.getD x 0) with
          | none =>
            rw [hinfo] at hz
            exact Or.inl hz
          | some spellInfo =>
            rw [hinfo] at hz
            simp only at hz
            have hsid := hspell _ _ hinfo
            by_cases hzy : y = z
            · subst hzy
              have hyn := firstFreeSpell_some eff.spells y hfree
              have hylt : y < eff.spells.length := by
                rcases Nat.lt_or_ge y eff.spells.length with h | h
                · exact h
                · rw [List.getElem?_eq_none h] at hyn
                  exact Option.noConfusion hyn
              rw [List.getElem?_set_self hylt] at hz
              simp only [Option.some.injEq] at hz
              subst hz
              exact Or.inr ⟨hsid.symm, h0, not_lt.mp hthr, by rw [hsid]; exact hnot⟩
            · rw [List.getElem?_set_ne hzy] at hz
              exact Or.inl hz

/-- The spell loop of `AddItemsSetItem` over the set spells `xs`: a spell
granted afterwards was granted in the same slot before, or is a set spell of
`xs` with an id and a threshold within the count that was not granted
before. -/
theorem addSetSpell_foldl_origin (w : ItemSetWorld)
    (hspell : ∀ id s, w.GetSpellInfo id = some s → s.Id = id)
    (p0 : Player) (e : Nat) (item : Item) (set : ItemSetEntry) (xs : List Nat)
    (hxs : ∀ x, x ∈ xs → x < MAX_ITEM_SET_SPELLS) :
    ∀ (eff : ItemSetEffect) (log : List (SpellInfo × Bool)), SpellsOK set eff.spells →
      ∀ (z : Nat) (t : SpellInfo),
        (xs.foldl (addSetSpell w p0 e item set) (eff, log)).1.spells[z]? = some (some t) →
        eff.spells[z]? = some (some t) ∨
        ∃ x, x ∈ xs ∧ set.spells.getD x 0 = t.Id ∧ set.spells.getD x 0 ≠ 0 ∧
          (set.items_to_triggerspell.getD x 0 : Int) ≤ eff.item_count ∧
          t.Id ∉ grantedIds eff.spells := by
  induction xs with
  | nil =>
    intro eff log _ z t hz
    exact Or.inl hz
  | cons x rest ih =>
    intro eff log hok z t hz
    obtain ⟨s1, s2, _, s4, _, _⟩ :=
      addSetSpell_step w hspell p0 e item set eff log x (hxs x (List.mem_cons_self _ _)) hok
    rw [List.foldl_cons] at hz
    rcases ih (fun y hy => hxs y (List.mem_cons_of_mem _ hy))
        (addSetSpell w p0 e item set (eff, log) x).1
        (addSetSpell w p0 e item set (eff, log) x).2 s1 z t hz with h | ⟨y, hy, h1, h2, h3, h4⟩
    · rcases addSetSpell_origin w hspell p0 e item set eff log x z t h with h | ⟨a, b, c, d⟩
      · exact Or.inl h
      · exact Or.inr ⟨x, List.mem_cons_self _ _, a, b, c, d⟩
    · refine Or.inr ⟨y, List.mem_cons_of_mem _ hy, h1, h2, ?_, ?_⟩
      · rw [← s2]
        exact h3
      · exact fun hin => h4 (grantedIds_mono _ _ s4 _ hin)

theorem ItemSetEffect_eq (a b : ItemSetEffect) (h1 : a.setid = b.setid)
    (h2 : a.item_count = b.item_count) (h3 : a.spells = b.spells) : a = b := by
  cases a
  cases b
  simp only [ItemSetEffect.mk.injEq]
  exact ⟨h1, h2, h3⟩

/-- The two spell loops in a row on a record that holds the spells due at its
count, each once: granting at the count plus one and then revoking at the
count gives the record back, slot by slot. -/
theorem addSetSpell_removeSetSpell_round_trip (w : ItemSetWorld)
    (hspell : ∀ id s, w.GetSpellInfo id = some s → s.Id = id)
    (p0 : Player) (e : Nat) (item : Item) (set : ItemSetEntry)
    (hdistinct : ∀ x y, x < MAX_ITEM_SET_SPELLS → y < MAX_ITEM_SET_SPELLS →
      set.spells.getD x 0 ≠ 0 → set.spells.getD x 0 = set.spells.getD y 0 → x = y)
    (eff0 : ItemSetEffect) (log : List (SpellInfo × Bool))
    (hlen : eff0.spells.length = MAX_ITEM_SET_SPELLS)
    (hperm : (grantedIds eff0.spells).Perm (dueSpells set eff0.item_count)) :
    ((List.range MAX_ITEM_SET_SPELLS).foldl (removeSetSpell set)
      ({ ((List.range MAX_ITEM_SET_SPELLS).foldl (addSetSpell w p0 e item set)
            ({ eff0 with item_count := eff0.item_count + 1 }, log)).1 with
          item_count :=
            ((List.range MAX_ITEM_SET_SPELLS).foldl (addSetSpell w p0 e item set)
              ({ eff0 with item_count := eff0.item_count + 1 }, log)).1.item_count - 1 },
        ((List.range MAX_ITEM_SET_SPELLS).foldl (addSetSpell w p0 e item set)
          ({ eff0 with item_count := eff0.item_count + 1 }, log)).2)).1 = eff0 := by
  have hok0 : SpellsOK set
      ({ eff0 with item_count := eff0.item_count + 1 } : ItemSetEffect).spells :=
    SpellsOK_of_due set eff0.spells eff0.item_count hdistinct hlen hperm
  obtain ⟨r1, r2, r3, r4, _, _⟩ :=
    addSetSpell_foldl w hspell p0 e item set (List.range MAX_ITEM_SET_SPELLS)
      (fun x hx => List.mem_range.mp hx)
      { eff0 with item_count := eff0.item_count + 1 } log hok0
  have horigin :=
    addSetSpell_foldl_origin w hspell p0 e item set (List.range MAX_ITEM_SET_SPELLS)
      (fun x hx => List.mem_range.mp hx)
      { eff0 with item_count := eff0.item_count + 1 } log hok0
  generalize (List.range MAX_ITEM_SET_SPELLS).foldl (addSetSpell w p0 e item set)
      ({ eff0 with item_count := eff0.item_count + 1 }, log) = R at r1 r2 r3 r4 horigin ⊢
  obtain ⟨q1, q2, q3, q4, q5, q6, _⟩ :=
    removeSetSpell_foldl set (List.range MAX_ITEM_SET_SPELLS)
      { R.1 with item_count := R.1.item_count - 1 } R.2 r1
  generalize (List.range MAX_ITEM_SET_SPELLS).foldl (removeSetSpell set)
      ({ R.1 with item_count := R.1.item_count - 1 }, R.2) = Q at q1 q2 q3 q4 q5 q6 ⊢
  have hcountR : R.1.item_count = eff0.item_count + 1 := r2
  have hcountQ : Q.1.item_count = R.1.item_count - 1 := q2
  have hexact := fun id => (hperm.mem_iff (a := id)).trans (mem_dueSpells set eff0.item_count id)
  apply ItemSetEffect_eq
  · exact q3.trans r3
  · rw [hcountQ, hcountR]
    omega
  · apply List.ext_getElem?
    intro z
    rcases Nat.lt_or_ge z MAX_ITEM_SET_SPELLS with hzlt | hzge
    · have hz0 : z < eff0.spells.length := by rw [hlen]; exact hzlt
      have hzQ : z < Q.1.spells.length := by rw [q1.slots]; exact hzlt
      cases ha : eff0.spells[z] with
      | some t =>
        have h0 : eff0.spells[z]? = some (some t) := by
          rw [List.getElem?_eq_getElem hz0, ha]
        rw [h0]
        apply q5 z t (r4 z t h0)
        intro x hx hxid hx0
        obtain ⟨y, hy, hyid, _, hythr⟩ :=
          (hexact t.Id).mp ((mem_grantedIds _ _).mpr ⟨t, List.getElem?_mem h0, rfl⟩)
        have hxy : x = y :=
          hdistinct x y (List.mem_range.mp hx) hy hx0 (hxid.trans hyid.symm)
        rw [hxy]
        show (set.items_to_triggerspell.getD y 0 : Int) ≤ R.1.item_count - 1
        rw [hcountR]
        omega
      | none =>
        have h0 : eff0.spells[z]? = some none := by
          rw [List.getElem?_eq_getElem hz0, ha]
        rw [h0]
        cases hb : Q.1.spells[z] with
        | none => rw [List.getElem?_eq_getElem hzQ, hb]
        | some t =>
          exfalso
          have hQ : Q.1.spells[z]? = some (some t) := by
            rw [List.getElem?_eq_getElem hzQ, hb]
          have hR : R.1.spells[z]? = some (some t) := q4 z t hQ
          rcases horigin z t hR with h | ⟨x, hx, hxid, hx0, hthr, hnot⟩
          · have h2 : eff0.spells[z]? = some (some t) := h
            rw [h0] at h2
            simp at h2
          · have hnot0 : t.Id ∉ grantedIds eff0.spells := hnot
            have hthr1 : (set.items_to_triggerspell.getD x 0 : Int) ≤ eff0.item_count + 1 := hthr
            have hhigh : ¬ (set.items_to_triggerspell.getD x 0 : Int) ≤ eff0.item_count := by
              intro hle
              exact hnot0 ((hexact t.Id).mpr ⟨x, List.mem_range.mp hx, hxid, hx0, hle⟩)
            have hgone := q6 x hx hx0 (by
              show ¬ (set.items_to_triggerspell.getD x 0 : Int) ≤ R.1.item_count - 1
              rw [hcountR]
              omega)
            apply hgone
            rw [hxid]
            exact (mem_grantedIds _ _).mpr ⟨t, List.getElem?_mem hQ, rfl⟩
    · rw [List.getElem?_eq_none (by rw [q1.slots]; exact hzge),
        List.getElem?_eq_none (by rw [hlen]; exact hzge)]

theorem set_getElem?_self {α : Type} (l : List α) :
    ∀ (i : Nat) (a : α), l[i]? = some a → l.set i a = l := by
  induction l with
  | nil => intro i a h; simp at h
  | cons b rest ih =>
    intro i a h
    cases i with
    | zero =>
      simp only [List.getElem?_cons_zero, Option.some.injEq] at h
      rw [List.set_cons_zero, h]
    | succ n =>
      simp only [List.getElem?_cons_succ] at h
      rw [List.set_cons_succ, ih n a h]

theorem set_length_append_singleton {α : Type} (l : List α) (a b : α) :
    (l ++ [a]).set l.length b = l ++ [b] := by
  induction l with
  | nil => rfl
  | cons c rest ih =>
    simp only [List.cons_append, List.length_cons, List.set_cons_succ, ih]

/-- An empty slot at the end of the vector holds no record. -/
theorem findSetEffect_append_none (l : List (Option ItemSetEffect)) (setid : Nat) :
    findSetEffect (l ++ [none]) setid = findSetEffect l setid := by
  induction l with
  | nil => rfl
  | cons a rest ih =>
    cases a with
    | none =>
      show (findSetEffect (rest ++ [none]) setid).map _ = _
      rw [ih]
      rfl
    | some t =>
      show (if t.setid = setid then some (0, t)
        else (findSetEffect (rest ++ [none]) setid).map _) = _
      rw [ih]
      rfl

theorem getElem?_append_none_some {α : Type} (l : List (Option α)) (i : Nat) (a : α) :
    (l ++ [none])[i]? = some (some a) ↔ l[i]? = some (some a) := by
  rcases Nat.lt_or_ge i l.length with h | h
  · rw [List.getElem?_append_left h]
  · rw [List.getElem?_append_right h, List.getElem?_eq_none h]
    constructor
    · intro h2
      cases hk : i - l.length with
      | zero => rw [hk] at h2; simp at h2
      | succ n => rw [hk] at h2; simp at h2
    · intro h2
      exact Option.noConfusion h2

/-- The result of `AddItemsSetItem` for an item of a known set whose skill
requirement the player meets. -/
theorem AddItemsSetItem_eq (w : ItemSetWorld) (player : Player) (item : Item)
    (proto : ItemTemplate) (set : ItemSetEntry)
    (hproto : Item.GetTemplate w.toItemWorld item = some proto)
    (hset : w.LookupItemSet proto.ItemSet = some set)
    (hskill : set.required_skill_id = 0 ∨
      set.required_skill_value ≤ w.GetSkillValue player set.required_skill_id) :
    AddItemsSetItem w player item =
      some { player with
        ItemSetEff :=
          (locateSetEffect player.ItemSetEff proto.ItemSet).2.2.set
            (locateSetEffect player.ItemSetEff proto.ItemSet).1
            (some ((List.range MAX_ITEM_SET_SPELLS).foldl
              (addSetSpell w
                { player with ItemSetEff := (locateSetEffect player.ItemSetEff proto.ItemSet).2.2 }
                (locateSetEffect player.ItemSetEff proto.ItemSet).1 item set)
              ({ (locateSetEffect player.ItemSetEff proto.ItemSet).2.1 with
                  item_count :=
                    (locateSetEffect player.ItemSetEff proto.ItemSet).2.1.item_count + 1 },
                player.equipSpells)).1)
        equipSpells :=
          ((List.range MAX_ITEM_SET_SPELLS).foldl
              (addSetSpell w
                { player with ItemSetEff := (locateSetEffect player.ItemSetEff proto.ItemSet).2.2 }
                (locateSetEffect player.ItemSetEff proto.ItemSet).1 item set)
              ({ (locateSetEffect player.ItemSetEff proto.ItemSet).2.1 with
                  item_count :=
                    (locateSetEffect player.ItemSetEff proto.ItemSet).2.1.item_count + 1 },
                player.equipSpells)).2 } := by
  have hnoskill : ¬ (set.required_skill_id ≠ 0 ∧
      w.GetSkillValue player set.required_skill_id < set.required_skill_value) := by
    rintro ⟨h1, h2⟩
    rcases hskill with h | h
    · exact h1 h
    · omega
  unfold AddItemsSetItem
  simp only [hproto, hset, hnoskill, if_false]

/-- The vector of records after `RemoveItemsSetItem` for a known set of which
the player has the record `eff` in slot `setindex`. -/
theorem RemoveItemsSetItem_ItemSetEff (w : ItemSetWorld) (player : Player)
    (proto : ItemTemplate) (set : ItemSetEntry)
    (hset : w.LookupItemSet proto.ItemSet = some set) (setindex : Nat) (eff : ItemSetEffect)
    (hfind : findSetEffect player.ItemSetEff proto.ItemSet = some (setindex, eff)) :
    (RemoveItemsSetItem w player proto).ItemSetEff =
      player.ItemSetEff.set setindex
        (if ((List.range MAX_ITEM_SET_SPELLS).foldl (removeSetSpell set)
            ({ eff with item_count := eff.item_count - 1 }, player.equipSpells)).1.item_count = 0
          then none
          else some ((List.range MAX_ITEM_SET_SPELLS).foldl (removeSetSpell set)
            ({ eff with item_count := eff.item_count - 1 }, player.equipSpells)).1) := by
  unfold RemoveItemsSetItem
  simp only [hset, hfind]
  split_ifs <;> rfl

/-- The two calls in a row on a vector `L` whose first record of the set is
`E0`, in slot `E`: after the spell loop of `AddItemsSetItem` the record counts
one item more; `RemoveItemsSetItem` then empties the slot when `E0` counted no
item, and puts `E0` back when `E0` counted items and held the spells due at its
count, each once. -/
theorem round_trip_located (w : ItemSetWorld)
    (hspell : ∀ id s, w.GetSpellInfo id = some s → s.Id = id)
    (player p0 : Player) (item : Item) (proto : ItemTemplate) (set : ItemSetEntry)
    (hset : w.LookupItemSet proto.ItemSet = some set)
    (hdistinct : ∀ x y, x < MAX_ITEM_SET_SPELLS → y < MAX_ITEM_SET_SPELLS →
      set.spells.getD x 0 ≠ 0 → set.spells.getD x 0 = set.spells.getD y 0 → x = y)
    (E : Nat) (E0 : ItemSetEffect) (L : List (Option ItemSetEffect))
    (hE : findSetEffect L proto.ItemSet = some (E, E0)) (hok : SpellsOK set E0.spells) :
    findSetEffect
      (L.set E (some ((List.range MAX_ITEM_SET_SPELLS).foldl (addSetSpell w p0 E item set)
        ({ E0 with item_count := E0.item_count + 1 }, player.equipSpells)).1))
      proto.ItemSet =
      some (E, ((List.range MAX_ITEM_SET_SPELLS).foldl (addSetSpell w p0 E item set)
        ({ E0 with item_count := E0.item_count + 1 }, player.equipSpells)).1) ∧
    ((List.range MAX_ITEM_SET_SPELLS).foldl (addSetSpell w p0 E item set)
      ({ E0 with item_count := E0.item_count + 1 }, player.equipSpells)).1.item_count =
      E0.item_count + 1 ∧
    (E0.item_count = 0 →
      (RemoveItemsSetItem w
        { player with
          ItemSetEff :=
            L.set E (some ((List.range MAX_ITEM_SET_SPELLS).foldl (addSetSpell w p0 E item set)
              ({ E0 with item_count := E0.item_count + 1 }, player.equipSpells)).1)
          equipSpells :=
            ((List.range MAX_ITEM_SET_SPELLS).foldl (addSetSpell w p0 E item set)
              ({ E0 with item_count := E0.item_count + 1 }, player.equipSpells)).2 }
        proto).ItemSetEff = L.set E none) ∧
    (E0.item_count ≠ 0 → (grantedIds E0.spells).Perm (dueSpells set E0.item_count) →
      (RemoveItemsSetItem w
        { player with
          ItemSetEff :=
            L.set E (some ((List.range MAX_ITEM_SET_SPELLS).foldl (addSetSpell w p0 E item set)
              ({ E0 with item_count := E0.item_count + 1 }, player.equipSpells)).1)
          equipSpells :=
            ((List.range MAX_ITEM_SET_SPELLS).foldl (addSetSpell w p0 E item set)
              ({ E0 with item_count := E0.item_count + 1 }, player.equipSpells)).2 }
        proto).ItemSetEff = L) := by
  have hE0 := findSetEffect_some _ _ _ _ hE
  obtain ⟨r1, r2, r3, _⟩ :=
    addSetSpell_foldl w hspell p0 E item set (List.range MAX_ITEM_SET_SPELLS)
      (fun x hx => List.mem_range.mp hx)
      { E0 with item_count := E0.item_count + 1 } player.equipSpells hok
  have hround := addSetSpell_removeSetSpell_round_trip w hspell p0 E item set hdistinct E0
    player.equipSpells hok.slots
  generalize (List.range MAX_ITEM_SET_SPELLS).foldl (addSetSpell w p0 E item set)
      ({ E0 with item_count := E0.item_count + 1 }, player.equipSpells) = R
    at r1 r2 r3 hround ⊢
  have hcountR : R.1.item_count = E0.item_count + 1 := r2
  have hfind1 : findSetEffect (L.set E (some R.1)) proto.ItemSet = some (E, R.1) :=
    findSetEffect_set _ _ _ (r3.trans hE0.2) _ _ hE
  have hrem := RemoveItemsSetItem_ItemSetEff w
    { player with ItemSetEff := L.set E (some R.1), equipSpells := R.2 } proto set hset E R.1
    hfind1
  obtain ⟨_, q2, _⟩ :=
    removeSetSpell_foldl set (List.range MAX_ITEM_SET_SPELLS)
      { R.1 with item_count := R.1.item_count - 1 } R.2 r1
  have hcountQ : ((List.range MAX_ITEM_SET_SPELLS).foldl (removeSetSpell set)
      ({ R.1 with item_count := R.1.item_count - 1 }, R.2)).1.item_count =
      R.1.item_count - 1 := q2
  refine ⟨hfind1, hcountR, ?_, ?_⟩
  · intro h0
    rw [hrem]
    show (L.set E (some R.1)).set E
      (if ((List.range MAX_ITEM_SET_SPELLS).foldl (removeSetSpell set)
          ({ R.1 with item_count := R.1.item_count - 1 }, R.2)).1.item_count = 0 then none
        else _) = _
    rw [if_pos (by rw [hcountQ, hcountR, h0]; rfl), List.set_set]
  · intro h0 hperm
    have hback := hround hperm
    rw [hrem]
    show (L.set E (some R.1)).set E
      (if ((List.range MAX_ITEM_SET_SPELLS).foldl (removeSetSpell set)
          ({ R.1 with item_count := R.1.item_count - 1 }, R.2)).1.item_count = 0 then none
        else some ((List.range MAX_ITEM_SET_SPELLS).foldl (removeSetSpell set)
          ({ R.1 with item_count := R.1.item_count - 1 }, R.2)).1) = _
    rw [if_neg (by rw [hcountQ, hcountR]; omega), List.set_set, hback]
    exact set_getElem?_self L E (some E0) hE0.1

/-- C40: equip followed by unequip is a round trip for set bonuses. For an
item of a known set whose skill requirement the player meets, where the
catalog of spells resolves an id to the spell of that id, the spells of the
set with an id have different ids, every tracking record of the player counts
at least one item, and the record the player has of the set, if any, has its
`MAX_ITEM_SET_SPELLS` slots and holds exactly the set spells whose threshold
is at most its count, each once: `AddItemsSetItem` returns a player whose
first record of the set counts one item more (`1` for a new record), and
`RemoveItemsSetItem` on that player gives back the first record of the set as
it was, in the same slot of the vector, with the same count and the same
granted spells in the same slots (no record when there was none). Every slot
of the vector holds the record it held before; the vector is the one before,
or the one before with an empty slot at its end when a record was created for
the set behind a vector without an empty slot. Every record that exists after
either call counts at least one item. -/
theorem AddItemsSetItem_RemoveItemsSetItem_round_trip (w : ItemSetWorld) (player : Player)
    (item : Item) (proto : ItemTemplate) (set : ItemSetEntry)
    (hproto : Item.GetTemplate w.toItemWorld item = some proto)
    (hset : w.LookupItemSet proto.ItemSet = some set)
    (hskill : set.required_skill_id = 0 ∨
      set.required_skill_value ≤ w.GetSkillValue player set.required_skill_id)
    (hspell : ∀ id s, w.GetSpellInfo id = some s → s.Id = id)
    (hdistinct : ∀ x y, x < MAX_ITEM_SET_SPELLS → y < MAX_ITEM_SET_SPELLS →
      set.spells.getD x 0 ≠ 0 → set.spells.getD x 0 = set.spells.getD y 0 → x = y)
    (hcount : ∀ (i : Nat) (eff : ItemSetEffect), player.ItemSetEff[i]? = some (some eff) →
      1 ≤ eff.item_count)
    (hexact : ∀ e eff, findSetEffect player.ItemSetEff proto.ItemSet = some (e, eff) →
      eff.spells.length = MAX_ITEM_SET_SPELLS ∧
      (grantedIds eff.spells).Perm (dueSpells set eff.item_count)) :
    ∃ player1 e eff1,
      AddItemsSetItem w player item = some player1 ∧
      findSetEffect player1.ItemSetEff proto.ItemSet = some (e, eff1) ∧
      (∀ e0 eff0, findSetEffect player.ItemSetEff proto.ItemSet = some (e0, eff0) →
        e = e0 ∧ eff1.item_count = eff0.item_count + 1) ∧
      (findSetEffect player.ItemSetEff proto.ItemSet = none → eff1.item_count = 1) ∧
      findSetEffect (RemoveItemsSetItem w player1 proto).ItemSetEff proto.ItemSet =
        findSetEffect player.ItemSetEff proto.ItemSet ∧
      (∀ (i : Nat) (eff : ItemSetEffect),
        (RemoveItemsSetItem w player1 proto).ItemSetEff[i]? = some (some eff) ↔
          player.ItemSetEff[i]? = some (some eff)) ∧
      ((RemoveItemsSetItem w player1 proto).ItemSetEff = player.ItemSetEff ∨
        (findSetEffect player.ItemSetEff proto.ItemSet = none ∧
          firstEmptySlot player.ItemSetEff = none ∧
          (RemoveItemsSetItem w player1 proto).ItemSetEff = player.ItemSetEff ++ [none])) ∧
      (∀ (i : Nat) (eff : ItemSetEffect), player1.ItemSetEff[i]? = some (some eff) →
        1 ≤ eff.item_count) ∧
      (∀ (i : Nat) (eff : ItemSetEffect),
        (RemoveItemsSetItem w player1 proto).ItemSetEff[i]? = some (some eff) →
          1 ≤ eff.item_count) := by
  have hadd := AddItemsSetItem_eq w player item proto set hproto hset hskill
  obtain ⟨hloc, hother, hprev, hnew⟩ := locateSetEffect_spec player.ItemSetEff proto.ItemSet
  have hspells : SpellsOK set (locateSetEffect player.ItemSetEff proto.ItemSet).2.1.spells ∧
      0 ≤ (locateSetEffect player.ItemSetEff proto.ItemSet).2.1.item_count := by
    cases hfind : findSetEffect player.ItemSetEff proto.ItemSet with
    | some found =>
      obtain ⟨e0, eff0⟩ := found
      rw [(hprev e0 eff0 hfind).2]
      obtain ⟨h1, h2⟩ := hexact e0 eff0 hfind
      have h3 := hcount e0 eff0 (findSetEffect_some _ _ _ _ hfind).1
      exact ⟨SpellsOK_of_due set eff0.spells eff0.item_count hdistinct h1 h2, by omega⟩
    | none =>
      rw [hnew hfind]
      refine ⟨⟨by simp, ?_, ?_⟩, le_refl _⟩
      · simp only [grantedIds_replicate_none]
        exact List.nodup_nil
      · intro id hid
        simp only [grantedIds_replicate_none] at hid
        exact absurd hid (List.not_mem_nil id)
  obtain ⟨k1, k2, k3, k4⟩ := round_trip_located w hspell player
    { player with ItemSetEff := (locateSetEffect player.ItemSetEff proto.ItemSet).2.2 }
    item proto set hset hdistinct (locateSetEffect player.ItemSetEff proto.ItemSet).1
    (locateSetEffect player.ItemSetEff proto.ItemSet).2.1
    (locateSetEffect player.ItemSetEff proto.ItemSet).2.2 hloc hspells.1
  generalize hR : (List.range MAX_ITEM_SET_SPELLS).foldl
      (addSetSpell w
        { player with ItemSetEff := (locateSetEffect player.ItemSetEff proto.ItemSet).2.2 }
        (locateSetEffect player.ItemSetEff proto.ItemSet).1 item set)
      ({ (locateSetEffect player.ItemSetEff proto.ItemSet).2.1 with
          item_count := (locateSetEffect player.ItemSetEff proto.ItemSet).2.1.item_count + 1 },
        player.equipSpells) = R at hadd k1 k2 k3 k4
  generalize hp1 : ({ player with
      ItemSetEff :=
        (locateSetEffect player.ItemSetEff proto.ItemSet).2.2.set
          (locateSetEffect player.ItemSetEff proto.ItemSet).1 (some R.1)
      equipSpells := R.2 } : Player) = player1 at hadd k3 k4
  have hp1eff : player1.ItemSetEff =
      (locateSetEffect player.ItemSetEff proto.ItemSet).2.2.set
        (locateSetEffect player.ItemSetEff proto.ItemSet).1 (some R.1) := by
    rw [← hp1]
  have hfinal : (RemoveItemsSetItem w player1 proto).ItemSetEff = player.ItemSetEff ∨
      (findSetEffect player.ItemSetEff proto.ItemSet = none ∧
        firstEmptySlot player.ItemSetEff = none ∧
        (RemoveItemsSetItem w player1 proto).ItemSetEff = player.ItemSetEff ++ [none]) := by
    cases hfind : findSetEffect player.ItemSetEff proto.ItemSet with
    | some found =>
      obtain ⟨e0, eff0⟩ := found
      left
      have hL : (locateSetEffect player.ItemSetEff proto.ItemSet).2.2 = player.ItemSetEff := by
        unfold locateSetEffect
        rw [hfind]
      have heq := (hprev e0 eff0 hfind).2
      have h3 := hcount e0 eff0 (findSetEffect_some _ _ _ _ hfind).1
      rw [k4 (by rw [heq]; omega) (by rw [heq]; exact (hexact e0 eff0 hfind).2), hL]
    | none =>
      have h0 : (locateSetEffect player.ItemSetEff proto.ItemSet).2.1.item_count = 0 := by
        rw [hnew hfind]
      rw [k3 h0]
      cases hfree : firstEmptySlot player.ItemSetEff with
      | some x =>
        left
        have hL : locateSetEffect player.ItemSetEff proto.ItemSet =
            (x, ⟨proto.ItemSet, 0, List.replicate MAX_ITEM_SET_SPELLS none⟩,
              player.ItemSetEff.set x
                (some ⟨proto.ItemSet, 0, List.replicate MAX_ITEM_SET_SPELLS none⟩)) := by
          unfold locateSetEffect
          rw [hfind]
          simp only [hfree]
        rw [hL]
        show (player.ItemSetEff.set x _).set x none = _
        rw [List.set_set]
        exact set_getElem?_self _ x none (firstEmptySlot_some _ x hfree)
      | none =>
        right
        refine ⟨rfl, rfl, ?_⟩
        have hL : locateSetEffect player.ItemSetEff proto.ItemSet =
            (player.ItemSetEff.length,
              ⟨proto.ItemSet, 0, List.replicate MAX_ITEM_SET_SPELLS none⟩,
              player.ItemSetEff ++
                [some ⟨proto.ItemSet, 0, List.replicate MAX_ITEM_SET_SPELLS none⟩]) := by
          unfold locateSetEffect
          rw [hfind]
          simp only [hfree]
        rw [hL]
        exact set_length_append_singleton _ _ _
  have hsame : ∀ (i : Nat) (eff : ItemSetEffect),
      (RemoveItemsSetItem w player1 proto).ItemSetEff[i]? = some (some eff) ↔
        player.ItemSetEff[i]? = some (some eff) := by
    intro i eff
    rcases hfinal with h | ⟨_, _, h⟩
    · rw [h]
    · rw [h]
      exact getElem?_append_none_some _ i eff
  refine ⟨player1, (locateSetEffect player.ItemSetEff proto.ItemSet).1, R.1, hadd, ?_, ?_, ?_,
    ?_, hsame, hfinal, ?_, ?_⟩
  · rw [hp1eff]
    exact k1
  · intro e0 eff0 hfind
    obtain ⟨h1, h2⟩ := hprev e0 eff0 hfind
    exact ⟨h1, by rw [k2, h2]⟩
  · intro hfind
    rw [k2, hnew hfind]
    rfl
  · rcases hfinal with h | ⟨hnone, _, h⟩
    · rw [h]
    · rw [h, findSetEffect_append_none]
  · intro i eff hi
    rw [hp1eff] at hi
    by_cases hie : i = (locateSetEffect player.ItemSetEff proto.ItemSet).1
    · subst hie
      have hlt : (locateSetEffect player.ItemSetEff proto.ItemSet).1 <
          (locateSetEffect player.ItemSetEff proto.ItemSet).2.2.length := by
        rcases Nat.lt_or_ge (locateSetEffect player.ItemSetEff proto.ItemSet).1
            (locateSetEffect player.ItemSetEff proto.ItemSet).2.2.length with h | h
        · exact h
        · rw [List.getElem?_eq_none (by rw [List.length_set]; exact h)] at hi
          exact Option.noConfusion hi
      rw [List.getElem?_set_self hlt] at hi
      simp only [Option.some.injEq] at hi
      rw [← hi, k2]
      have := hspells.2
      omega
    · rw [List.getElem?_set_ne (fun h => hie h.symm), hother i hie] at hi
      exact hcount i eff hi
  · intro i eff hi
    exact hcount i eff ((hsame i eff).mp hi)

/-- Witness of C40: the player with one piece of the example set equips a
second piece and takes it off again; the record of the set is back at one
piece with no spell granted. -/
theorem AddItemsSetItem_RemoveItemsSetItem_round_trip_witness :
    AddItemsSetItem exampleSetWorld onePiecePlayer setPiece = some twoPiecePlayer ∧
    (RemoveItemsSetItem exampleSetWorld twoPiecePlayer
      { exampleTemplate with ItemId := 300, ItemSet := 9 }).ItemSetEff =
      onePiecePlayer.ItemSetEff ∧
    ∃ player1 e eff1,
      AddItemsSetItem exampleSetWorld onePiecePlayer setPiece = some player1 ∧
      findSetEffect player1.ItemSetEff 9 = some (e, eff1) ∧
      (∀ e0 eff0, findSetEffect onePiecePlayer.ItemSetEff 9 = some (e0, eff0) →
        e = e0 ∧ eff1.item_count = eff0.item_count + 1) ∧
      (findSetEffect onePiecePlayer.ItemSetEff 9 = none → eff1.item_count = 1) ∧
      findSetEffect
        (RemoveItemsSetItem exampleSetWorld player1
          { exampleTemplate with ItemId := 300, ItemSet := 9 }).ItemSetEff 9 =
        findSetEffect onePiecePlayer.ItemSetEff 9 ∧
      (∀ (i : Nat) (eff : ItemSetEffect),
        (RemoveItemsSetItem exampleSetWorld player1
          { exampleTemplate with ItemId := 300, ItemSet := 9 }).ItemSetEff[i]? =
            some (some eff) ↔
          onePiecePlayer.ItemSetEff[i]? = some (some eff)) ∧
      ((RemoveItemsSetItem exampleSetWorld player1
          { exampleTemplate with ItemId := 300, ItemSet := 9 }).ItemSetEff =
          onePiecePlayer.ItemSetEff ∨
        (findSetEffect onePiecePlayer.ItemSetEff 9 = none ∧
          firstEmptySlot onePiecePlayer.ItemSetEff = none ∧
          (RemoveItemsSetItem exampleSetWorld player1
            { exampleTemplate with ItemId := 300, ItemSet := 9 }).ItemSetEff =
            onePiecePlayer.ItemSetEff ++ [none])) ∧
      (∀ (i : Nat) (eff : ItemSetEffect), player1.ItemSetEff[i]? = some (some eff) →
        1 ≤ eff.item_count) ∧
      (∀ (i : Nat) (eff : ItemSetEffect),
        (RemoveItemsSetItem exampleSetWorld player1
          { exampleTemplate with ItemId := 300, ItemSet := 9 }).ItemSetEff[i]? =
            some (some eff) →
          1 ≤ eff.item_count) :=
  ⟨by decide, by decide,
    AddItemsSetItem_RemoveItemsSetItem_round_trip exampleSetWorld onePiecePlayer setPiece
      { exampleTemplate with ItemId := 300, ItemSet := 9 } exampleSet (by decide) (by decide)
      (Or.inl (by decide))
      (by
        intro id s h
        have h2 : some ({ Id := id } : SpellInfo) = some s := h
        rw [← Option.some.inj h2])
      (by
        have h : ∀ x, x < MAX_ITEM_SET_SPELLS → ∀ y, y < MAX_ITEM_SET_SPELLS →
            exampleSet.spells.getD x 0 ≠ 0 →
            exampleSet.spells.getD x 0 = exampleSet.spells.getD y 0 → x = y := by
          decide
        exact fun x y hx hy => h x hx y hy)
      (by
        intro i eff h
        cases i with
        | zero =>
          have h2 : some (some (⟨9, 1, List.replicate MAX_ITEM_SET_SPELLS none⟩ :
              ItemSetEffect)) = some (some eff) := h
          simp only [Option.some.injEq] at h2
          subst h2
          decide
        | succ n =>
          have h2 : (none : Option (Option ItemSetEffect)) = some (some eff) := h
          exact Option.noConfusion h2)
      (by
        intro e eff h
        have h2 : some (0, (⟨9, 1, List.replicate MAX_ITEM_SET_SPELLS none⟩ : ItemSetEffect)) =
            some (e, eff) := h
        simp only [Option.some.injEq, Prod.mk.injEq] at h2
        rw [← h2.2]
        exact ⟨by decide, by decide⟩)⟩

end Playerbot
